import Mathlib

/-!
# LRNG: entropy accounting and DRNG bookkeeping

A shallow embedding of `drivers/char/lrng/lrng_sw_noise.c`, `lrng_drng.c` and the
parts of `lrng_internal.h` they use.

Conventions of the embedding

* `u32` values are natural numbers; every C operation that can leave the range is
  followed by an explicit reduction modulo `2 ^ 32`.
* `atomic_t` counters that the code reads back as `u32` hold the `u32` bit pattern.
* byte buffers are lists of naturals.
* the pluggable primitives (`struct lrng_crypto_cb`) are a record of functions over
  opaque state; their `int` status is an integer.
* locks are not modelled: every function is run atomically.
-/

namespace LRNG

/-! ## Machine arithmetic -/

/-- Number of values of a `u32`. -/
def U32_MOD : Nat := 2 ^ 32

/-- Largest `int`. -/
def INT_MAX : Nat := 2 ^ 31 - 1

/-- Truncation of a natural number to `u32`. -/
def u32 (x : Nat) : Nat := x % U32_MOD

/-- Wrapping `u32` addition. -/
def u32_add (a b : Nat) : Nat := (a + b) % U32_MOD

/-- Wrapping `u32` subtraction. -/
def u32_sub (a b : Nat) : Nat := (a % U32_MOD + U32_MOD - b % U32_MOD) % U32_MOD

/-- Left shift of a `u32` by a constant. -/
def u32_shl (a n : Nat) : Nat := (a * 2 ^ n) % U32_MOD

/-- Writing `src` to the start of the buffer `buf` (the buffer keeps its size). -/
def buf_write (buf src : List Nat) : List Nat :=
  src.take buf.length ++ buf.drop src.length

/-! ## Constants of `lrng_internal.h` -/

def LRNG_DRNG_SECURITY_STRENGTH_BYTES : Nat := 32
def LRNG_DRNG_SECURITY_STRENGTH_BITS : Nat := LRNG_DRNG_SECURITY_STRENGTH_BYTES * 8
def LRNG_DRNG_MAX_REQSIZE : Nat := 2 ^ 12
def LRNG_DRNG_RESEED_THRESH : Nat := 2 ^ 20
def LRNG_IRQ_ENTROPY_BITS : Nat := LRNG_DRNG_SECURITY_STRENGTH_BITS
def LRNG_FULL_SEED_ENTROPY_BITS : Nat := LRNG_DRNG_SECURITY_STRENGTH_BITS
def LRNG_MIN_SEED_ENTROPY_BITS : Nat := 128
def LRNG_INIT_ENTROPY_BITS : Nat := 32
def LRNG_IRQ_OVERSAMPLING_FACTOR : Nat := 10

/-! ## Data model -/

/-- Incremental hash state (`struct shash_desc` followed by its context). -/
structure shash_desc where
  tfm : Nat
  ctx : List Nat
deriving DecidableEq, Repr

/-- The pluggable primitives, `struct lrng_crypto_cb`.  The generator state behind a
`void *drng` handle is an opaque list; `lrng_hash_digestsize` takes the hash handle. -/
structure lrng_crypto_cb where
  lrng_drng_seed_helper : List Nat → List Nat → Int × List Nat
  lrng_drng_generate_helper : List Nat → Nat → Int × List Nat × List Nat
  lrng_hash_digestsize : Nat → Nat
  lrng_hash_init : shash_desc → Nat → Int × shash_desc
  lrng_hash_update : shash_desc → List Nat → Int × shash_desc
  lrng_hash_final : shash_desc → Int × shash_desc × List Nat

/-- Secondary DRNG state handle, `struct lrng_drng` (locks left out). -/
structure lrng_drng where
  drng : Nat
  hash : Nat
  crypto_cb : lrng_crypto_cb
  requests : Int
  last_seeded : Nat
  fully_seeded : Bool
  force_reseed : Bool

/-- Status information about the IRQ noise source, `struct lrng_irq_info`. -/
structure lrng_irq_info where
  num_events_thresh : Nat
  reseed_in_progress : Nat
  irq_highres_timer : Bool
  irq_entropy_bits : Nat
deriving DecidableEq, Repr

/-- The entropy pool of the slow noise source, `struct lrng_pool` (lock left out). -/
structure lrng_pool where
  aux_pool : List Nat
  aux_entropy_bits : Nat
  all_online_numa_node_seeded : Bool
  digestsize : Nat
  irq_info : lrng_irq_info
deriving DecidableEq, Repr

/-- The per-CPU variables of `lrng_sw_noise.c` of one CPU, together with the NUMA node
`cpu_to_node` gives for it. -/
structure lrng_pcpu where
  lrng_pcpu_array : List Nat
  lrng_pcpu_array_ptr : Nat
  lrng_pcpu_array_irqs : Nat
  lrng_pcpu_pool : shash_desc
  lrng_pcpu_lock_init : Bool
  node : Nat
deriving DecidableEq, Repr

/-- The object representation of the pool hashed by `lrng_pcpu_pool_hash`
(`(u8 *)pool, sizeof(*pool)`), up to layout: the aux pool bytes followed by the
counters. -/
def lrng_pool_image (pool : lrng_pool) : List Nat :=
  pool.aux_pool ++ [pool.aux_entropy_bits, pool.digestsize,
    pool.irq_info.num_events_thresh, pool.irq_info.reseed_in_progress,
    pool.irq_info.irq_entropy_bits]

/-! ## Entropy conversions -/

/-- Modelled from the spec: `lrng_entropy_to_data` is declared in `lrng_internal.h` and
defined outside the files at hand.  It converts entropy bits into the number of events
with that entropy, an integer, saturating conversion whose constant is the number of
events per security strength worth of entropy (`irq_info.irq_entropy_bits`). -/
def lrng_entropy_to_data (irq_entropy_bits entropy_bits : Nat) : Nat :=
  min (entropy_bits * irq_entropy_bits / LRNG_DRNG_SECURITY_STRENGTH_BITS) (U32_MOD - 1)

/-- Modelled from the spec: `lrng_data_to_entropy` is declared in `lrng_internal.h` and
defined outside the files at hand.  It is the reverse conversion of
`lrng_entropy_to_data`, from a number of events to entropy bits. -/
def lrng_data_to_entropy (irq_entropy_bits irqnum : Nat) : Nat :=
  min (irqnum * LRNG_DRNG_SECURITY_STRENGTH_BITS / irq_entropy_bits) (U32_MOD - 1)

/-! ## `lrng_sw_noise.c`: reading the pools -/

/-- The function `lrng_pcpu_pool_online`. -/
def lrng_pcpu_pool_online (c : lrng_pcpu) : Bool := c.lrng_pcpu_lock_init

/-- The DRNG whose hash is used for a CPU: `lrng_drng[node]` when the table and the
entry exist, the caller's `drng` otherwise. -/
def pcpu_drng_of (instances : Option (List (Option lrng_drng))) (drng : lrng_drng)
    (node : Nat) : lrng_drng :=
  match instances with
  | none => drng
  | some tbl =>
    match tbl.getD node none with
    | none => drng
    | some d => d

/-- The function `lrng_pcpu_pool_hash_one`: returns `found_irqs`, the CPU state and the
contents of `digest` afterwards. -/
def lrng_pcpu_pool_hash_one (instances : Option (List (Option lrng_drng)))
    (irq_entropy_bits : Nat) (drng : lrng_drng) (c : lrng_pcpu) (digest : List Nat) :
    Nat × lrng_pcpu × List Nat :=
  let pcpu_drng := pcpu_drng_of instances drng c.node
  let pcpu_crypto_cb := pcpu_drng.crypto_cb
  let pcpu_hash := pcpu_drng.hash
  let digestsize := u32 (pcpu_crypto_cb.lrng_hash_digestsize pcpu_hash)
  let digestsize_irqs := lrng_entropy_to_data irq_entropy_bits (u32_shl digestsize 3)
  -- atomic_xchg_relaxed(&lrng_pcpu_array_irqs, 0)
  let found_irqs := u32 c.lrng_pcpu_array_irqs
  let c := { c with lrng_pcpu_array_irqs := 0 }
  let found_irqs := min found_irqs digestsize_irqs
  -- final ?: init ?: update
  let fin := pcpu_crypto_cb.lrng_hash_final c.lrng_pcpu_pool
  let digest := buf_write digest fin.2.2
  if fin.1 ≠ 0 then
    (0, { c with lrng_pcpu_pool := fin.2.1 }, digest)
  else
    let ini := pcpu_crypto_cb.lrng_hash_init fin.2.1 pcpu_hash
    if ini.1 ≠ 0 then
      (0, { c with lrng_pcpu_pool := ini.2 }, digest)
    else
      let upd := pcpu_crypto_cb.lrng_hash_update ini.2 (digest.take digestsize)
      if upd.1 ≠ 0 then
        (0, { c with lrng_pcpu_pool := upd.2 }, digest)
      else
        (found_irqs, { c with lrng_pcpu_pool := upd.2 }, digest)

/-- Local variables carried through the per-CPU loop of `lrng_pcpu_pool_hash`. -/
structure pcpu_loop_state where
  shash : shash_desc
  digest : List Nat
  collected_irqs : Nat
deriving DecidableEq, Repr

/-- The loop `for_each_online_cpu` of `lrng_pcpu_pool_hash` over the CPUs still to
visit.  The flag is `false` when a hash update failed (`goto err`). -/
def lrng_pcpu_pool_hash_loop (instances : Option (List (Option lrng_drng)))
    (irq_entropy_bits : Nat) (drng : lrng_drng) (requested_irqs : Nat) :
    List lrng_pcpu → pcpu_loop_state → Bool × pcpu_loop_state × List lrng_pcpu
  | [], st => (true, st, [])
  | c :: cs, st =>
    if !lrng_pcpu_pool_online c then
      let r := lrng_pcpu_pool_hash_loop instances irq_entropy_bits drng requested_irqs cs st
      (r.1, r.2.1, c :: r.2.2)
    else
      let one := lrng_pcpu_pool_hash_one instances irq_entropy_bits drng c st.digest
      let found_irqs := one.1
      let c1 := one.2.1
      let digest := one.2.2
      let upd := drng.crypto_cb.lrng_hash_update st.shash digest
      if upd.1 ≠ 0 then
        (false, { shash := upd.2, digest := digest, collected_irqs := st.collected_irqs },
          c1 :: cs)
      else
        let collected_irqs := u32_add st.collected_irqs found_irqs
        if collected_irqs > requested_irqs then
          let pcpu_unused_irqs := u32_sub collected_irqs requested_irqs
          let c2 := { c1 with
            lrng_pcpu_array_irqs := u32_add c1.lrng_pcpu_array_irqs pcpu_unused_irqs }
          let r := lrng_pcpu_pool_hash_loop instances irq_entropy_bits drng requested_irqs cs
            { shash := upd.2, digest := digest, collected_irqs := requested_irqs }
          (r.1, r.2.1, c2 :: r.2.2)
        else
          let r := lrng_pcpu_pool_hash_loop instances irq_entropy_bits drng requested_irqs cs
            { shash := upd.2, digest := digest, collected_irqs := collected_irqs }
          (r.1, r.2.1, c1 :: r.2.2)

/-- What `lrng_pcpu_pool_hash` leaves behind: its return value, the pool, the CPUs and
the caller's buffer. -/
structure pool_hash_result where
  collected_ent_bits : Nat
  pool : lrng_pool
  cpus : List lrng_pcpu
  outbuf : List Nat

/-- The state of the aux pool counter and of the collected entropy after the block
"Deduct entropy counter from aux pool" of `lrng_pcpu_pool_hash`: the pair of the new
`aux_entropy_bits` and `collected_ent_bits`. -/
def lrng_pcpu_pool_hash_aux (digestsize_bits aux_entropy_bits requested_bits : Nat) :
    Nat × Nat :=
  -- found_ent_bits = atomic_xchg_relaxed(&pool->aux_entropy_bits, 0)
  let found_ent_bits := u32 aux_entropy_bits
  let aux := 0
  let found_ent_bits := min digestsize_bits found_ent_bits
  let collected_ent_bits := u32_add 0 found_ent_bits
  if collected_ent_bits > requested_bits then
    let unused_bits := u32_sub collected_ent_bits requested_bits
    let found_ent_bits := u32_sub found_ent_bits unused_bits
    -- atomic_add(found_ent_bits, &pool->aux_entropy_bits)
    (u32_add aux found_ent_bits, requested_bits)
  else
    (aux, collected_ent_bits)

/-- The function `lrng_pcpu_pool_hash`.  `outbuf` is the caller's buffer and `digest`
the initial contents of the local digest buffer.  The final `memcpy` reads `len` bytes
from the address of `pool->aux_pool`, the first member of the pool: the bytes of
`aux_pool` and, when `len` exceeds its size, the bytes of the members that follow it,
`lrng_pool_image`.  The caller's buffer keeps its size. -/
def lrng_pcpu_pool_hash (instances : Option (List (Option lrng_drng))) (drng : lrng_drng)
    (pool : lrng_pool) (cpus : List lrng_pcpu) (outbuf : List Nat) (digest : List Nat)
    (requested_bits : Nat) (fully_seeded : Bool) : pool_hash_result :=
  let crypto_cb := drng.crypto_cb
  let hash := drng.hash
  let irq_entropy_bits := pool.irq_info.irq_entropy_bits
  let digestsize_bits := u32_shl (u32 (crypto_cb.lrng_hash_digestsize hash)) 3
  -- Harvest entropy from aux pool
  let ini := crypto_cb.lrng_hash_init { tfm := 0, ctx := [] } hash
  let upd := if ini.1 ≠ 0 then ini else crypto_cb.lrng_hash_update ini.2 (lrng_pool_image pool)
  if upd.1 ≠ 0 then
    { collected_ent_bits := 0, pool := pool, cpus := cpus, outbuf := outbuf }
  else
    let aux := lrng_pcpu_pool_hash_aux digestsize_bits pool.aux_entropy_bits requested_bits
    let pool := { pool with aux_entropy_bits := aux.1 }
    let collected_ent_bits := aux.2
    let requested_irqs :=
      lrng_entropy_to_data irq_entropy_bits (u32_sub requested_bits collected_ent_bits)
    let lp := lrng_pcpu_pool_hash_loop instances irq_entropy_bits drng requested_irqs cpus
      { shash := upd.2, digest := digest, collected_irqs := 0 }
    if !lp.1 then
      { collected_ent_bits := 0, pool := pool, cpus := lp.2.2, outbuf := outbuf }
    else
      let fin := crypto_cb.lrng_hash_final lp.2.1.shash
      let pool := { pool with aux_pool := buf_write pool.aux_pool fin.2.2 }
      if fin.1 ≠ 0 then
        { collected_ent_bits := 0, pool := pool, cpus := lp.2.2, outbuf := outbuf }
      else
        let collected_ent_bits :=
          u32_add collected_ent_bits (lrng_data_to_entropy irq_entropy_bits lp.2.1.collected_irqs)
        let len := if fully_seeded then collected_ent_bits / 8 else requested_bits / 8
        -- memcpy(outbuf, pool->aux_pool, len): aux_pool is the first member of the pool
        { collected_ent_bits := collected_ent_bits, pool := pool, cpus := lp.2.2,
          outbuf := buf_write outbuf ((lrng_pool_image pool).take len) }

/-! ## `lrng_drng.c`: the DRNG instances -/

/-- Two's complement reduction to an `int`. -/
def int_wrap (x : Int) : Int := (x + 2 ^ 31) % 2 ^ 32 - 2 ^ 31

/-- The macro `time_after(a, b)` on `unsigned long`: `(long)(b - a) < 0`. -/
def time_after (a b : Nat) : Bool :=
  decide (2 ^ 63 ≤ (b % 2 ^ 64 + 2 ^ 64 - a % 2 ^ 64) % 2 ^ 64)

/-- An `unsigned long` plus a signed offset. -/
def ulong_add (a : Nat) (d : Int) : Nat := (((a : Int) + d) % 2 ^ 64).toNat

/-- The errno `EFAULT`. -/
def EFAULT : Int := 14

/-- Address of `lrng_drng_init` in the store of DRNG instances. -/
def LRNG_DRNG_INIT : Nat := 0

/-- Address of `lrng_drng_atomic` in the store of DRNG instances. -/
def LRNG_DRNG_ATOMIC : Nat := 1

/-- Handle of the generator state `chacha20`. -/
def CHACHA20 : Nat := 0

/-- Calls that leave `lrng_drng.c`, in the order they are made. -/
inductive lrng_event where
  | seed_helper (inst gen : Nat) (inbuf : List Nat) (ret : Int)
  | generate_helper (inst gen todo : Nat) (ret : Int)
  | fill_seed_buffer (total_entropy_bits : Nat)
  | pool_trylock (ret : Int)
  | pool_unlock
  | init_ops (seed_bits : Nat)
  | cc20_init_state
  | state_init_seed_work
  | pool_all_numa_nodes_seeded
  | set_entropy_thresh (bits : Nat)
  | reset_state
deriving DecidableEq, Repr

/-- Primitives that do nothing, the contents of an address that holds no instance. -/
def null_cb : lrng_crypto_cb where
  lrng_drng_seed_helper := fun st _ => (0, st)
  lrng_drng_generate_helper := fun st _ => (0, [], st)
  lrng_hash_digestsize := fun _ => 0
  lrng_hash_init := fun d _ => (0, d)
  lrng_hash_update := fun d _ => (0, d)
  lrng_hash_final := fun d => (0, d, [])

instance : Inhabited lrng_drng :=
  ⟨{ drng := 0, hash := 0, crypto_cb := null_cb, requests := 0, last_seeded := 0,
     fully_seeded := false, force_reseed := false }⟩

/-- The global state `lrng_drng.c` works on.

* `drngs` is the memory holding the `struct lrng_drng` objects, a pointer to an
  instance is its index: `drngs[0]` is `lrng_drng_init`, `drngs[1]` is
  `lrng_drng_atomic`, further entries are the per-node instances.
* `gens` holds the generator states behind the `void *drng` handles, `gens[0]` is
  `chacha20`.
* `lrng_drng_instances` is what `lrng_drng_instances()` returns: `none` for `NULL`,
  otherwise the table of per-node pointers (`none` for a `NULL` entry).
* `online_nodes` is the enumeration of `for_each_online_node`, `numa_node` the value
  of `numa_node_id()`, `jiffies` and `HZ` the clock.
* `digestsize` is the value of `lrng_get_digestsize()`, in bits.
* `reseed_in_progress` is the gate behind `lrng_pool_trylock` / `lrng_pool_unlock`.
* `seed_source n` is what the call number `n` of `lrng_fill_seed_buffer` returns and
  stores in the seed buffer, `fills` the number of calls so far.
* `cc20_init` is the effect of `lrng_cc20_init_state` on the generator state.
* `trace` records the calls that leave the file, each with the nesting depth of
  `lrng_drng_get` at which it is made. -/
structure lrng_state where
  drngs : List lrng_drng
  gens : List (List Nat)
  lrng_drng_instances : Option (List (Option Nat))
  online_nodes : List Nat
  numa_node : Nat
  lrng_avail : Int
  lrng_drng_reseed_max_time : Int
  jiffies : Nat
  HZ : Int
  digestsize : Nat
  reseed_in_progress : Int
  seed_source : Nat → Nat × List Nat
  fills : Nat
  cc20_init : List Nat → List Nat
  trace : List (Nat × lrng_event)

/-- Reading the instance at address `p`. -/
def deref (s : lrng_state) (p : Nat) : lrng_drng := s.drngs.getD p default

/-- Writing the instance at address `p`. -/
def store (s : lrng_state) (p : Nat) (d : lrng_drng) : lrng_state :=
  { s with drngs := s.drngs.set p d }

/-- Reading the generator state behind a handle. -/
def gen_of (s : lrng_state) (h : Nat) : List Nat := s.gens.getD h []

/-- Writing the generator state behind a handle. -/
def set_gen (s : lrng_state) (h : Nat) (g : List Nat) : lrng_state :=
  { s with gens := s.gens.set h g }

/-- Recording a call that leaves the file. -/
def log (s : lrng_state) (depth : Nat) (e : lrng_event) : lrng_state :=
  { s with trace := s.trace ++ [(depth, e)] }

/-- Modelled from the spec: `lrng_get_digestsize` is defined outside the files at
hand; it returns the current active digest size of the pool, in bits. -/
def lrng_get_digestsize (s : lrng_state) : Nat := s.digestsize

/-- The function `lrng_security_strength`. -/
def lrng_security_strength (s : lrng_state) : Nat :=
  min (u32 LRNG_FULL_SEED_ENTROPY_BITS) (u32 (lrng_get_digestsize s))

/-- Modelled from the spec: `lrng_pool_trylock` is defined outside the files at hand;
it is the gate that keeps the reseed single-flight: it returns non-zero when a reseed
is in progress and takes the gate otherwise. -/
def lrng_pool_trylock (depth : Nat) (s : lrng_state) : Int × lrng_state :=
  let old := s.reseed_in_progress
  let s := if old = 0 then { s with reseed_in_progress := 1 } else s
  (old, log s depth (lrng_event.pool_trylock old))

/-- Modelled from the spec: `lrng_pool_unlock` is defined outside the files at hand;
it releases the reseed gate. -/
def lrng_pool_unlock (depth : Nat) (s : lrng_state) : lrng_state :=
  log { s with reseed_in_progress := 0 } depth lrng_event.pool_unlock

/-- Modelled from the spec: `lrng_fill_seed_buffer` (the seed assembler) is defined
outside the files at hand; the environment gives the total entropy in bits it
returns and the seed buffer it fills. -/
def lrng_fill_seed_buffer (depth : Nat) (s : lrng_state) : Nat × List Nat × lrng_state :=
  let r := s.seed_source s.fills
  (r.1, r.2, log { s with fills := s.fills + 1 } depth (lrng_event.fill_seed_buffer r.1))

/-- The function `lrng_get_available`. -/
def lrng_get_available (s : lrng_state) : Bool := s.lrng_avail ≠ 0

/-- The function `lrng_set_available`. -/
def lrng_set_available (s : lrng_state) : lrng_state := { s with lrng_avail := 1 }

/-- The function `lrng_drng_reset` on the instance at address `p`. -/
def lrng_drng_reset (p : Nat) (s : lrng_state) : lrng_state :=
  store s p { deref s p with
    requests := LRNG_DRNG_RESEED_THRESH
    last_seeded := s.jiffies
    fully_seeded := false
    force_reseed := true }

/-- The function `lrng_drngs_init_cc20`. -/
def lrng_drngs_init_cc20 (depth : Nat) (s : lrng_state) : lrng_state :=
  if lrng_get_available s then s
  else
    let s := lrng_drng_reset LRNG_DRNG_INIT s
    let s := log (set_gen s CHACHA20 (s.cc20_init (gen_of s CHACHA20))) depth
      lrng_event.cc20_init_state
    let s := log s depth lrng_event.state_init_seed_work
    let s := lrng_drng_reset LRNG_DRNG_ATOMIC s
    lrng_set_available s

/-- The function `lrng_drng_inject`: inject a data buffer into the DRNG at `p`. -/
def lrng_drng_inject (depth : Nat) (p : Nat) (inbuf : List Nat) (s : lrng_state) :
    lrng_state :=
  let d := deref s p
  let r := d.crypto_cb.lrng_drng_seed_helper (gen_of s d.drng) inbuf
  let s := log (set_gen s d.drng r.2) depth (lrng_event.seed_helper p d.drng inbuf r.1)
  if r.1 < 0 then
    store s p { d with requests := 1 }
  else
    let s := store s p { d with
      last_seeded := s.jiffies
      requests := LRNG_DRNG_RESEED_THRESH
      force_reseed := false }
    if d.drng = (deref s LRNG_DRNG_ATOMIC).drng then
      store s LRNG_DRNG_ATOMIC { deref s LRNG_DRNG_ATOMIC with
        last_seeded := s.jiffies
        requests := LRNG_DRNG_RESEED_THRESH
        force_reseed := false }
    else s

/-- The function `_lrng_drng_seed`: seed the DRNG at `p` with data from the noise
sources; returns the entropy of the seed in bytes. -/
def _lrng_drng_seed (depth : Nat) (p : Nat) (s : lrng_state) : Int × lrng_state :=
  let f := lrng_fill_seed_buffer depth s
  let total_entropy_bits := u32 f.1
  let seedbuf := f.2.1
  let s := lrng_pool_unlock depth f.2.2
  let s := log s depth (lrng_event.init_ops total_entropy_bits)
  let ret : Int := int_wrap ((total_entropy_bits / 8 : Nat) : Int)
  let s := lrng_drng_inject depth p seedbuf s
  if ret ≥ int_wrap ((lrng_security_strength s / 8 : Nat) : Int) then
    (ret, store s p { deref s p with fully_seeded := true })
  else
    (ret, s)

/-- Writing `src` into `buf` at offset `off`. -/
def buf_write_at (buf : List Nat) (off : Nat) (src : List Nat) : List Nat :=
  buf.take off ++ buf_write (buf.drop off) src

/-- The reseed block at the head of an iteration of the loop of `lrng_drng_get`
("All but the atomic DRNG are seeded during generation"), with the reseed operation
`seed` (`lrng_drng_seed` on that instance) as a parameter.  `none` when the reseed does
not return. -/
def lrng_drng_get_reseed (seed : lrng_state → Option lrng_state) (depth : Nat) (p : Nat)
    (s : lrng_state) : Option lrng_state :=
  -- atomic_dec_and_test(&drng->requests)
  let d := deref s p
  let requests := int_wrap (d.requests - 1)
  let s := store s p { d with requests := requests }
  let trigger := decide (requests = 0) || d.force_reseed ||
    time_after s.jiffies
      (ulong_add d.last_seeded (int_wrap (s.lrng_drng_reseed_max_time * s.HZ)))
  if trigger then
    if p ≠ LRNG_DRNG_ATOMIC then
      let t := lrng_pool_trylock depth s
      if t.1 ≠ 0 then some (store t.2 p { deref t.2 p with requests := 1 })
      else seed t.2
    else some s
  else some s

/-- The call of the generate primitive in an iteration of the loop of `lrng_drng_get`:
its return value, the caller's buffer and the state afterwards. -/
def lrng_drng_get_generate (depth : Nat) (p : Nat) (todo processed : Nat)
    (outbuf : List Nat) (s : lrng_state) : Int × List Nat × lrng_state :=
  let d := deref s p
  let g := d.crypto_cb.lrng_drng_generate_helper (gen_of s d.drng) todo
  (g.1, buf_write_at outbuf processed g.2.1,
    log (set_gen s d.drng g.2.2) depth (lrng_event.generate_helper p d.drng todo g.1))

/-- The loop of `lrng_drng_get` on the instance at `p`, with the reseed operation
`seed` (`lrng_drng_seed` on that instance) as a parameter.  `none` when the fuel does
not suffice or a reseed does not return. -/
def lrng_drng_get_loop (seed : lrng_state → Option lrng_state) (depth : Nat) (p : Nat) :
    Nat → lrng_state → List Nat → Nat → Nat → Option (Int × List Nat × lrng_state)
  | 0, _, _, _, _ => none
  | fuel + 1, s, outbuf, outbuflen, processed =>
    if outbuflen = 0 then some (int_wrap (processed : Int), outbuf, s)
    else
      let todo := min outbuflen LRNG_DRNG_MAX_REQSIZE
      match lrng_drng_get_reseed seed depth p s with
      | none => none
      | some s =>
        let g := lrng_drng_get_generate depth p todo processed outbuf s
        if g.1 ≤ 0 then some (-EFAULT, g.2.1, g.2.2)
        else
          lrng_drng_get_loop seed depth p fuel g.2.2 g.2.1
            (((outbuflen : Int) - g.1) % 2 ^ 32).toNat
            (((processed : Int) + g.1) % 2 ^ 32).toNat

/-- The function `lrng_drng_get` on the instance at `p`, with the reseed operation as
a parameter.  `outbuf` is `none` for a `NULL` buffer; the result is the return value,
the buffer and the state. -/
def lrng_drng_get_with (seed : lrng_state → Option lrng_state) (depth : Nat) (p : Nat)
    (fuel : Nat) (s : lrng_state) (outbuf : Option (List Nat)) (outbuflen : Nat) :
    Option (Int × Option (List Nat) × lrng_state) :=
  match outbuf with
  | none => some (0, none, s)
  | some buf =>
    if outbuflen = 0 then some (0, some buf, s)
    else
      let outbuflen := min outbuflen INT_MAX
      let s := lrng_drngs_init_cc20 depth s
      match lrng_drng_get_loop seed depth p fuel s buf outbuflen 0 with
      | none => none
      | some r => some (r.1, some r.2.1, r.2.2)

/-- Whether the atomic DRNG is due for a reseed, the condition of `lrng_drng_seed`. -/
def lrng_drng_atomic_due (s : lrng_state) : Bool :=
  let a := deref s LRNG_DRNG_ATOMIC
  a.force_reseed || decide (a.requests ≤ 0) ||
    time_after s.jiffies
      (ulong_add a.last_seeded (int_wrap (s.lrng_drng_reseed_max_time * s.HZ)))

/-- The function `lrng_drng_seed` on the instance at `p`.  It calls `lrng_drng_get`,
which calls it back: `none` when the fuel does not suffice for the nesting. -/
def lrng_drng_seed : Nat → Nat → Nat → lrng_state → Option lrng_state
  | 0, _, _, _ => none
  | fuel + 1, depth, p, s =>
    let s := (_lrng_drng_seed depth p s).2
    if (deref s p).drng ≠ (deref s LRNG_DRNG_ATOMIC).drng && lrng_drng_atomic_due s then
      match lrng_drng_get_with (lrng_drng_seed fuel (depth + 1) p) (depth + 1) p fuel s
          (some (List.replicate LRNG_DRNG_SECURITY_STRENGTH_BYTES 0))
          LRNG_DRNG_SECURITY_STRENGTH_BYTES with
      | none => none
      | some r =>
        if r.1 < 0 then some r.2.2
        else
          some (lrng_drng_inject depth LRNG_DRNG_ATOMIC
            ((r.2.1.getD []).take r.1.toNat) r.2.2)
    else some s

/-- The function `lrng_drng_get` on the instance at `p`. -/
def lrng_drng_get (fuel : Nat) (depth : Nat) (p : Nat) (s : lrng_state)
    (outbuf : Option (List Nat)) (outbuflen : Nat) :
    Option (Int × Option (List Nat) × lrng_state) :=
  lrng_drng_get_with (lrng_drng_seed fuel depth p) depth p fuel s outbuf outbuflen

/-- The function `lrng_drng_get_atomic`. -/
def lrng_drng_get_atomic (fuel : Nat) (s : lrng_state) (outbuf : Option (List Nat))
    (outbuflen : Nat) : Option (Int × Option (List Nat) × lrng_state) :=
  lrng_drng_get fuel 0 LRNG_DRNG_ATOMIC s outbuf outbuflen

/-- The entry `lrng_drng[node]` of a table of per-node pointers. -/
def node_entry (tbl : List (Option Nat)) (node : Nat) : Option Nat := tbl.getD node none

/-- The function `lrng_drng_get_sleep`. -/
def lrng_drng_get_sleep (fuel : Nat) (s : lrng_state) (outbuf : Option (List Nat))
    (outbuflen : Nat) : Option (Int × Option (List Nat) × lrng_state) :=
  let drng :=
    match s.lrng_drng_instances with
    | none => LRNG_DRNG_INIT
    | some tbl =>
      match node_entry tbl s.numa_node with
      | none => LRNG_DRNG_INIT
      | some q => if (deref s q).fully_seeded then q else LRNG_DRNG_INIT
  lrng_drng_get fuel 0 drng s outbuf outbuflen

/-- The function `_lrng_drng_seed_work`. -/
def _lrng_drng_seed_work (fuel : Nat) (p : Nat) (node : Nat) (s : lrng_state) :
    Option lrng_state :=
  match lrng_drng_seed fuel 0 p s with
  | none => none
  | some s =>
    if (deref s p).fully_seeded then
      let d := deref s p
      let s := store s p { d with
        last_seeded := ulong_add d.last_seeded
          (((((node * 100 : Nat) : Int) * s.HZ) % 2 ^ 32 : Int)) }
      some { s with lrng_drng_reseed_max_time := int_wrap (s.lrng_drng_reseed_max_time + 100) }
    else some s

/-- The search of `lrng_drng_seed_work` through the online nodes: the address and the
node of the first instance that is not fully seeded. -/
def lrng_drng_seed_work_find (s : lrng_state) (tbl : List (Option Nat)) :
    List Nat → Option (Nat × Nat)
  | [] => none
  | node :: rest =>
    match node_entry tbl node with
    | none => lrng_drng_seed_work_find s tbl rest
    | some q =>
      if !(deref s q).fully_seeded then some (q, node)
      else lrng_drng_seed_work_find s tbl rest

/-- The function `lrng_drng_seed_work`. -/
def lrng_drng_seed_work (fuel : Nat) (s : lrng_state) : Option lrng_state :=
  let r : Option lrng_state :=
    match s.lrng_drng_instances with
    | some tbl =>
      match lrng_drng_seed_work_find s tbl s.online_nodes with
      | some (q, node) => _lrng_drng_seed_work fuel q node s
      | none => some (log s 0 lrng_event.pool_all_numa_nodes_seeded)
    | none =>
      if !(deref s LRNG_DRNG_INIT).fully_seeded then
        _lrng_drng_seed_work fuel LRNG_DRNG_INIT 0 s
      else some s
  match r with
  | none => none
  | some s => some (lrng_pool_unlock 0 s)

/-- The loop of `lrng_drng_force_reseed` over the online nodes. -/
def lrng_drng_force_reseed_nodes (tbl : List (Option Nat)) : List Nat → lrng_state → lrng_state
  | [], s => s
  | node :: rest, s =>
    match node_entry tbl node with
    | none => lrng_drng_force_reseed_nodes tbl rest s
    | some q =>
      lrng_drng_force_reseed_nodes tbl rest (store s q { deref s q with force_reseed := true })

/-- The function `lrng_drng_force_reseed`. -/
def lrng_drng_force_reseed (s : lrng_state) : lrng_state :=
  match s.lrng_drng_instances with
  | none =>
    store s LRNG_DRNG_INIT { deref s LRNG_DRNG_INIT with force_reseed := true }
  | some tbl =>
    let s := lrng_drng_force_reseed_nodes tbl s.online_nodes s
    store s LRNG_DRNG_ATOMIC { deref s LRNG_DRNG_ATOMIC with force_reseed := true }

/-- The loop of `_lrng_reset` over the online nodes. -/
def _lrng_reset_nodes (tbl : List (Option Nat)) : List Nat → lrng_state → lrng_state
  | [], s => s
  | node :: rest, s =>
    match node_entry tbl node with
    | none => _lrng_reset_nodes tbl rest s
    | some q => _lrng_reset_nodes tbl rest (lrng_drng_reset q s)

/-- The function `_lrng_reset`. -/
def _lrng_reset (s : lrng_state) : lrng_state :=
  let s :=
    match s.lrng_drng_instances with
    | none => lrng_drng_reset LRNG_DRNG_INIT s
    | some tbl => _lrng_reset_nodes tbl s.online_nodes s
  let s := log s 0 (lrng_event.set_entropy_thresh LRNG_INIT_ENTROPY_BITS)
  log s 0 lrng_event.reset_state

/-! ## `lrng_sw_noise.c`: recording events -/

/-- Modelled from the spec: the geometry of the per-CPU array comes from
`lrng_sw_noise.h`, which is not among the files at hand.  The array is a fixed-capacity
ring of fixed-width slots packed into 32 bit words: `LRNG_DATA_SLOTSIZE_BITS` is the
width of a slot and `LRNG_DATA_NUM_VALUES` the capacity in slots. -/
structure lrng_data_cfg where
  LRNG_DATA_SLOTSIZE_BITS : Nat
  LRNG_DATA_NUM_VALUES : Nat
deriving DecidableEq, Repr

/-- Width of an array member, fixed to the width of a `u32` by the `BUILD_BUG_ON` of
`_lrng_pcpu_array_add_u32`. -/
def LRNG_DATA_ARRAY_MEMBER_BITS : Nat := 32

/-- Modelled from the spec: slots packed into one array member. -/
def LRNG_DATA_SLOTS_PER_UINT (cfg : lrng_data_cfg) : Nat :=
  LRNG_DATA_ARRAY_MEMBER_BITS / cfg.LRNG_DATA_SLOTSIZE_BITS

/-- Modelled from the spec: mask of the value held by one slot. -/
def LRNG_DATA_SLOTSIZE_MASK (cfg : lrng_data_cfg) : Nat :=
  2 ^ cfg.LRNG_DATA_SLOTSIZE_BITS - 1

/-- Modelled from the spec: mask that wraps the cursor modulo the capacity. -/
def LRNG_DATA_WORD_MASK (cfg : lrng_data_cfg) : Nat := cfg.LRNG_DATA_NUM_VALUES - 1

/-- Modelled from the spec: number of 32 bit members of the array. -/
def LRNG_DATA_ARRAY_SIZE (cfg : lrng_data_cfg) : Nat :=
  cfg.LRNG_DATA_NUM_VALUES / LRNG_DATA_SLOTS_PER_UINT cfg

/-- Modelled from the spec: array member that holds the slot `idx`. -/
def lrng_data_idx2array (cfg : lrng_data_cfg) (idx : Nat) : Nat :=
  idx / LRNG_DATA_SLOTS_PER_UINT cfg

/-- Modelled from the spec: position of the slot `idx` inside its array member. -/
def lrng_data_idx2slot (cfg : lrng_data_cfg) (idx : Nat) : Nat :=
  idx &&& (LRNG_DATA_SLOTS_PER_UINT cfg - 1)

/-- Modelled from the spec: a value shifted to the position of a slot. -/
def lrng_data_slot_val (cfg : lrng_data_cfg) (val slot : Nat) : Nat :=
  u32 (val <<< (cfg.LRNG_DATA_SLOTSIZE_BITS * slot))

/-- The result of the health test of a time stamp, `enum lrng_health_res`. -/
inductive lrng_health_res where
  | lrng_health_pass
  | lrng_health_fail_use
  | lrng_health_fail_drop
deriving DecidableEq, Repr

/-- The value of an enumerator of `enum lrng_health_res`. -/
def lrng_health_res.val : lrng_health_res → Nat
  | lrng_health_pass => 0
  | lrng_health_fail_use => 1
  | lrng_health_fail_drop => 2

/-- What the event path reads from outside the per-CPU variables: the array geometry,
the DRNG instances whose hash compresses the array (`lrng_drng_instances()` and
`lrng_drng_init_instance()`), `lrng_state_fully_seeded()` and the raw entropy test
hooks (constant `false` unless the test interfaces are configured). -/
structure lrng_noise_env where
  cfg : lrng_data_cfg
  instances : Option (List (Option lrng_drng))
  init : lrng_drng
  fully_seeded : Bool
  lrng_raw_hires_entropy_store : Nat → Bool
  lrng_raw_array_entropy_store : Nat → Bool

/-- The per-CPU variables of the running CPU together with the number of times
`lrng_pool_add_irq` has been signalled. -/
structure lrng_noise_state where
  cpu : lrng_pcpu
  pool_add_irq : Nat
deriving DecidableEq, Repr

/-- The statement `this_cpu_or(lrng_pcpu_array[i], v)`. -/
def array_or (a : List Nat) (i v : Nat) : List Nat := a.set i (a.getD i 0 ||| v)

/-- The function `lrng_pcpu_array_compress`. -/
def lrng_pcpu_array_compress (env : lrng_noise_env) (c : lrng_pcpu) : lrng_pcpu :=
  let drng := pcpu_drng_of env.instances env.init c.node
  let init := !c.lrng_pcpu_lock_init
  let c := if init then { c with lrng_pcpu_lock_init := true } else c
  let crypto_cb := drng.crypto_cb
  let hash := drng.hash
  if init then
    let r := crypto_cb.lrng_hash_init c.lrng_pcpu_pool hash
    if r.1 ≠ 0 then { c with lrng_pcpu_pool := r.2, lrng_pcpu_lock_init := false }
    else { c with lrng_pcpu_pool := r.2 }
  else
    let r := crypto_cb.lrng_hash_update c.lrng_pcpu_pool c.lrng_pcpu_array
    { c with lrng_pcpu_pool := r.2 }

/-- The function `lrng_pcpu_array_to_hash`. -/
def lrng_pcpu_array_to_hash (env : lrng_noise_env) (ptr : Nat) (st : lrng_noise_state) :
    lrng_noise_state :=
  let skip :=
    if !env.fully_seeded then
      decide (ptr &&& 31 ≠ 0) && decide (ptr < LRNG_DATA_WORD_MASK env.cfg)
    else decide (ptr < LRNG_DATA_WORD_MASK env.cfg)
  if skip then st
  else
    let st :=
      if env.lrng_raw_array_entropy_store (st.cpu.lrng_pcpu_array.getD 0 0) then
        { st with cpu := { st.cpu with lrng_pcpu_array_irqs := 0 } }
      else
        { cpu := lrng_pcpu_array_compress env st.cpu, pool_add_irq := st.pool_add_irq + 1 }
    { st with cpu := { st.cpu with
        lrng_pcpu_array := List.replicate st.cpu.lrng_pcpu_array.length 0 } }

/-- The function `_lrng_pcpu_array_add_u32`. -/
def _lrng_pcpu_array_add_u32 (env : lrng_noise_env) (data : Nat) (st : lrng_noise_state) :
    lrng_noise_state :=
  let spu := LRNG_DATA_SLOTS_PER_UINT env.cfg
  let wmask := LRNG_DATA_WORD_MASK env.cfg
  -- this_cpu_add_return(lrng_pcpu_array_ptr, LRNG_DATA_SLOTS_PER_UINT)
  let ptr := u32_add st.cpu.lrng_pcpu_array_ptr spu
  let st := { st with cpu := { st.cpu with lrng_pcpu_array_ptr := ptr } }
  let pre_ptr := u32_sub ptr spu &&& wmask
  let ptr := ptr &&& wmask
  let mask := u32_sub (u32 (1 <<< ((pre_ptr &&& (spu - 1)) * env.cfg.LRNG_DATA_SLOTSIZE_BITS))) 1
  let st := { st with cpu := { st.cpu with
    lrng_pcpu_array := array_or st.cpu.lrng_pcpu_array (lrng_data_idx2array env.cfg pre_ptr)
      (data &&& (mask ^^^ (U32_MOD - 1))) } }
  let st := if pre_ptr > ptr then lrng_pcpu_array_to_hash env wmask st else st
  let st := { st with cpu := { st.cpu with
    lrng_pcpu_array := st.cpu.lrng_pcpu_array.set (lrng_data_idx2array env.cfg ptr)
      (data &&& mask) } }
  if pre_ptr ≤ ptr then lrng_pcpu_array_to_hash env ptr st else st

/-- The function `lrng_pcpu_array_add_slot`. -/
def lrng_pcpu_array_add_slot (env : lrng_noise_env) (data : Nat) (st : lrng_noise_state) :
    lrng_noise_state :=
  -- this_cpu_inc_return(lrng_pcpu_array_ptr)
  let raw := u32_add st.cpu.lrng_pcpu_array_ptr 1
  let st := { st with cpu := { st.cpu with lrng_pcpu_array_ptr := raw } }
  let ptr := raw &&& LRNG_DATA_WORD_MASK env.cfg
  let st := { st with cpu := { st.cpu with
    lrng_pcpu_array := array_or st.cpu.lrng_pcpu_array (lrng_data_idx2array env.cfg ptr)
      (lrng_data_slot_val env.cfg data (lrng_data_idx2slot env.cfg ptr)) } }
  lrng_pcpu_array_to_hash env ptr st

/-- The statement `atomic_inc_return(this_cpu_ptr(&lrng_pcpu_array_irqs))`. -/
def lrng_pcpu_array_irqs_inc (st : lrng_noise_state) : lrng_noise_state :=
  { st with cpu := { st.cpu with
      lrng_pcpu_array_irqs := u32_add st.cpu.lrng_pcpu_array_irqs 1 } }

/-- The function `lrng_time_process` for the time stamp `now_time` (the value of
`random_get_entropy()`), with the health test `lrng_health_test` as a parameter. -/
def lrng_time_process (env : lrng_noise_env) (lrng_health_test : Nat → lrng_health_res)
    (now_time : Nat) (st : lrng_noise_state) : lrng_noise_state :=
  let now_time := u32 now_time
  let now_time_masked := now_time &&& LRNG_DATA_SLOTSIZE_MASK env.cfg
  if !env.fully_seeded then
    if env.lrng_raw_hires_entropy_store now_time then st
    else
      let health_test := lrng_health_test now_time
      if health_test.val > lrng_health_res.lrng_health_fail_use.val then st
      else
        let st :=
          if health_test = lrng_health_res.lrng_health_pass then lrng_pcpu_array_irqs_inc st
          else st
        _lrng_pcpu_array_add_u32 env now_time st
  else
    if env.lrng_raw_hires_entropy_store now_time_masked then st
    else
      let health_test := lrng_health_test now_time_masked
      if health_test.val > lrng_health_res.lrng_health_fail_use.val then st
      else
        let st :=
          if health_test = lrng_health_res.lrng_health_pass then lrng_pcpu_array_irqs_inc st
          else st
        lrng_pcpu_array_add_slot env now_time_masked st

/-- The time stamp as `lrng_time_process` hands it to the health test and to the array:
the full 32 bits during boot time, the low slot bits at runtime. -/
def time_stamp (env : lrng_noise_env) (now_time : Nat) : Nat :=
  if !env.fully_seeded then u32 now_time
  else u32 now_time &&& LRNG_DATA_SLOTSIZE_MASK env.cfg

/-- A sequence of calls of `lrng_time_process` on one CPU, each event being the time
stamp and the health test in force when it arrives. -/
def lrng_time_process_seq (env : lrng_noise_env) :
    List ((Nat → lrng_health_res) × Nat) → lrng_noise_state → lrng_noise_state
  | [], st => st
  | e :: es, st => lrng_time_process_seq env es (lrng_time_process env e.1 e.2 st)

/-- Number of events of a sequence whose time stamp, as `lrng_time_process` hands it to
the health test, is classified `lrng_health_pass`. -/
def pass_count (env : lrng_noise_env) : List ((Nat → lrng_health_res) × Nat) → Nat
  | [] => 0
  | e :: es =>
    (if e.1 (time_stamp env e.2) = lrng_health_res.lrng_health_pass then 1 else 0) +
      pass_count env es

/-! ## Notions used in the statements -/

/-- No hash operation of the primitives fails. -/
def hash_ok (cb : lrng_crypto_cb) : Prop :=
  (∀ d h, (cb.lrng_hash_init d h).1 = 0) ∧
  (∀ d x, (cb.lrng_hash_update d x).1 = 0) ∧
  (∀ d, (cb.lrng_hash_final d).1 = 0)

/-- The state `_lrng_drng_seed` reaches before it looks at the entropy of the seed:
seed buffer filled, gate released, `lrng_init_ops` called, seed injected. -/
def seed_injected (depth p : Nat) (s : lrng_state) : lrng_state :=
  lrng_drng_inject depth p (lrng_fill_seed_buffer depth s).2.1
    (log (lrng_pool_unlock depth (lrng_fill_seed_buffer depth s).2.2) depth
      (lrng_event.init_ops (u32 (lrng_fill_seed_buffer depth s).1)))

/-- Every seed the seed assembler will deliver carries, in whole bytes, less than the
security strength. -/
def weak_seeds (s : lrng_state) : Prop :=
  ∀ n, u32 (s.seed_source n).1 / 8 < lrng_security_strength s / 8

/-- From `s` to `t` the seed assembler and the digest size are the same and no instance
has gone from not fully seeded to fully seeded. -/
def fs_le (s t : lrng_state) : Prop :=
  t.seed_source = s.seed_source ∧ t.digestsize = s.digestsize ∧
    ∀ q, (deref t q).fully_seeded = true → (deref s q).fully_seeded = true

/-- The raw entropy test hooks are not configured: they return `false`. -/
def hooks_off (env : lrng_noise_env) : Prop :=
  (∀ v, env.lrng_raw_hires_entropy_store v = false) ∧
  (∀ v, env.lrng_raw_array_entropy_store v = false)

/-- The append of a time stamp to the per-CPU array as `lrng_time_process` does it:
`_lrng_pcpu_array_add_u32` during boot time, `lrng_pcpu_array_add_slot` at runtime. -/
def record_sample (env : lrng_noise_env) (t : Nat) (st : lrng_noise_state) :
    lrng_noise_state :=
  if !env.fully_seeded then _lrng_pcpu_array_add_u32 env t st
  else lrng_pcpu_array_add_slot env t st

/-- The number of slots the cursor advances by for one time stamp. -/
def slots_taken (env : lrng_noise_env) : Nat :=
  if !env.fully_seeded then LRNG_DATA_SLOTS_PER_UINT env.cfg else 1

/-- The cap on the events of a CPU: the digest size of the hash of its DRNG, in bits,
converted to events. -/
def pcpu_cap (instances : Option (List (Option lrng_drng))) (irq_entropy_bits : Nat)
    (drng : lrng_drng) (c : lrng_pcpu) : Nat :=
  lrng_entropy_to_data irq_entropy_bits
    (u32_shl (u32 ((pcpu_drng_of instances drng c.node).crypto_cb.lrng_hash_digestsize
      (pcpu_drng_of instances drng c.node).hash)) 3)

/-- The events the online per-CPU pools hold, each counter capped. -/
def avail_irqs (instances : Option (List (Option lrng_drng))) (irq_entropy_bits : Nat)
    (drng : lrng_drng) : List lrng_pcpu → Nat
  | [] => 0
  | c :: cs =>
    (if lrng_pcpu_pool_online c then
        min (u32 c.lrng_pcpu_array_irqs) (pcpu_cap instances irq_entropy_bits drng c)
      else 0) + avail_irqs instances irq_entropy_bits drng cs

/-- The entropy available to `lrng_pcpu_pool_hash`, in bits. -/
def avail_entropy (instances : Option (List (Option lrng_drng))) (drng : lrng_drng)
    (pool : lrng_pool) (cpus : List lrng_pcpu) : Nat :=
  min (u32_shl (u32 (drng.crypto_cb.lrng_hash_digestsize drng.hash)) 3)
      (u32 pool.aux_entropy_bits) +
    lrng_data_to_entropy pool.irq_info.irq_entropy_bits
      (avail_irqs instances pool.irq_info.irq_entropy_bits drng cpus)

/-- The sizes asked of the generate primitive by the calls made on the instance at `p`
at nesting depth `depth` of `lrng_drng_get`, in order. -/
def own_generate (depth p : Nat) : List (Nat × lrng_event) → List Nat
  | [] => []
  | (d, lrng_event.generate_helper inst _ todo _) :: es =>
    if d = depth ∧ inst = p then todo :: own_generate depth p es
    else own_generate depth p es
  | _ :: es => own_generate depth p es

/-- The sizes asked of the generate primitive by all calls, at any depth. -/
def all_generate : List (Nat × lrng_event) → List Nat
  | [] => []
  | (_, lrng_event.generate_helper _ _ todo _) :: es => todo :: all_generate es
  | _ :: es => all_generate es

/-- A request of `n` bytes cut into chunks of `LRNG_DRNG_MAX_REQSIZE` bytes. -/
def chunks (n : Nat) : List Nat :=
  List.replicate (n / LRNG_DRNG_MAX_REQSIZE) LRNG_DRNG_MAX_REQSIZE ++
    (if n % LRNG_DRNG_MAX_REQSIZE = 0 then [] else [n % LRNG_DRNG_MAX_REQSIZE])

/-- The instance at `p` can serve `lrng_drng_get`: it exists, its generate primitive
returns the number of bytes it is asked for, its seed primitive does not fail and the
reseed interval in jiffies is a non-negative `int`. -/
def get_ready (p : Nat) (t : lrng_state) : Prop :=
  p < t.drngs.length ∧
  (∀ g n, ((deref t p).crypto_cb.lrng_drng_generate_helper g n).1 = (n : Int)) ∧
  (∀ g b, 0 ≤ ((deref t p).crypto_cb.lrng_drng_seed_helper g b).1) ∧
  0 ≤ t.lrng_drng_reseed_max_time * t.HZ ∧ t.lrng_drng_reseed_max_time * t.HZ < 2 ^ 31

/-- From `s` to `t` the trace has grown by events none of which is a call of the
generate primitive on the instance at `p` at depth `depth`. -/
def quiet (depth p : Nat) (s t : lrng_state) : Prop :=
  ∃ ev, t.trace = s.trace ++ ev ∧ own_generate depth p ev = []

/-- A step of the model that keeps what `lrng_drng_get` relies on: the store keeps its
size, the instance at `p` its primitives, the clock and the reseed interval are the
same, the LRNG stays available and the step is quiet. -/
def step_ok (depth p : Nat) (s t : lrng_state) : Prop :=
  t.drngs.length = s.drngs.length ∧ (deref t p).crypto_cb = (deref s p).crypto_cb ∧
  t.HZ = s.HZ ∧ t.lrng_drng_reseed_max_time = s.lrng_drng_reseed_max_time ∧
  t.jiffies = s.jiffies ∧ (s.lrng_avail ≠ 0 → t.lrng_avail ≠ 0) ∧ quiet depth p s t

/-- The events left in the per-CPU counters of the online CPUs. -/
def online_irqs : List lrng_pcpu → Nat
  | [] => 0
  | c :: cs =>
    (if lrng_pcpu_pool_online c then c.lrng_pcpu_array_irqs else 0) + online_irqs cs

/-- The bookkeeping of an instance as `lrng_drng_reset` leaves it at time `j`. -/
def was_reset (j : Nat) (d : lrng_drng) : Prop :=
  d.fully_seeded = false ∧ d.requests = (LRNG_DRNG_RESEED_THRESH : Int) ∧
  d.force_reseed = true ∧ d.last_seeded = j

/-- The condition under which an iteration of the loop of `lrng_drng_get` wants a reseed
of the instance at `p`: the decrement of `requests` reaches zero, or `force_reseed` is
set, or the time is after `last_seeded + lrng_drng_reseed_max_time * HZ`. -/
def reseed_due (p : Nat) (s : lrng_state) : Bool :=
  decide (int_wrap ((deref s p).requests - 1) = 0) || (deref s p).force_reseed ||
    time_after s.jiffies
      (ulong_add (deref s p).last_seeded (int_wrap (s.lrng_drng_reseed_max_time * s.HZ)))

/-- The instance at `p` with `requests` decremented, the effect of
`atomic_dec_and_test(&drng->requests)`. -/
def requests_dec (p : Nat) (s : lrng_state) : lrng_state :=
  store s p { deref s p with requests := int_wrap ((deref s p).requests - 1) }

/-- The state after the side-effect reseed of the atomic instance by `lrng_drng_seed`:
32 bytes are generated from the instance, one level deeper, and injected into the
atomic instance. -/
def atomic_reseeded (depth p : Nat) (s1 : lrng_state) : lrng_state :=
  lrng_drng_inject depth LRNG_DRNG_ATOMIC
    ((lrng_drng_get_generate (depth + 1) p LRNG_DRNG_SECURITY_STRENGTH_BYTES 0
      (List.replicate LRNG_DRNG_SECURITY_STRENGTH_BYTES 0) (requests_dec p s1)).2.1.take
        LRNG_DRNG_SECURITY_STRENGTH_BYTES)
    (lrng_drng_get_generate (depth + 1) p LRNG_DRNG_SECURITY_STRENGTH_BYTES 0
      (List.replicate LRNG_DRNG_SECURITY_STRENGTH_BYTES 0) (requests_dec p s1)).2.2

/-- The calls of the side-effect reseed of the atomic instance by `lrng_drng_seed`: the
generate primitive of the instance for 32 bytes, one level deeper, and the seed
primitive of the atomic instance on the bytes that came back. -/
def atomic_seed_events (depth p : Nat) (s1 : lrng_state) : List (Nat × lrng_event) :=
  let g := lrng_drng_get_generate (depth + 1) p LRNG_DRNG_SECURITY_STRENGTH_BYTES 0
    (List.replicate LRNG_DRNG_SECURITY_STRENGTH_BYTES 0) (requests_dec p s1)
  let a := deref g.2.2 LRNG_DRNG_ATOMIC
  [(depth + 1, lrng_event.generate_helper p (deref s1 p).drng
      LRNG_DRNG_SECURITY_STRENGTH_BYTES g.1),
    (depth, lrng_event.seed_helper LRNG_DRNG_ATOMIC a.drng
      (g.2.1.take LRNG_DRNG_SECURITY_STRENGTH_BYTES)
      (a.crypto_cb.lrng_drng_seed_helper (gen_of g.2.2 a.drng)
        (g.2.1.take LRNG_DRNG_SECURITY_STRENGTH_BYTES)).1)]

/-- The values returned by the generate primitive to the calls made on the instance at
`p` at nesting depth `depth` of `lrng_drng_get`, in order. -/
def own_rets (depth p : Nat) : List (Nat × lrng_event) → List Int
  | [] => []
  | (d, lrng_event.generate_helper inst _ _ ret) :: es =>
    if d = depth ∧ inst = p then ret :: own_rets depth p es
    else own_rets depth p es
  | _ :: es => own_rets depth p es

/-- The values returned by the generate primitive to all calls, at any depth. -/
def generate_rets : List (Nat × lrng_event) → List Int
  | [] => []
  | (_, lrng_event.generate_helper _ _ _ ret) :: es => ret :: generate_rets es
  | _ :: es => generate_rets es

/-- The instance at `p` can serve `lrng_drng_get` with a generate primitive that may
fail: it exists, its generate primitive returns the number of bytes it is asked for or
a value that is not positive, its seed primitive does not fail and the reseed interval
in jiffies is a non-negative `int`. -/
def get_ready_ef (p : Nat) (t : lrng_state) : Prop :=
  p < t.drngs.length ∧
  (∀ g n, ((deref t p).crypto_cb.lrng_drng_generate_helper g n).1 = (n : Int) ∨
    ((deref t p).crypto_cb.lrng_drng_generate_helper g n).1 ≤ 0) ∧
  (∀ g b, 0 ≤ ((deref t p).crypto_cb.lrng_drng_seed_helper g b).1) ∧
  0 ≤ t.lrng_drng_reseed_max_time * t.HZ ∧ t.lrng_drng_reseed_max_time * t.HZ < 2 ^ 31

/-- The seed data handed to the seed primitive on the generator with handle `h`, in
order. -/
def seeds_of (h : Nat) : List (Nat × lrng_event) → List (List Nat)
  | [] => []
  | (_, lrng_event.seed_helper _ gen inbuf _) :: es =>
    if gen = h then inbuf :: seeds_of h es else seeds_of h es
  | _ :: es => seeds_of h es

/-- The calls of `_lrng_drng_seed` on the instance at `p`: the seed assembler, the
release of the gate, `lrng_init_ops` and the seed primitive on the assembled seed. -/
def seed_events (depth p : Nat) (s : lrng_state) : List (Nat × lrng_event) :=
  [(depth, lrng_event.fill_seed_buffer (s.seed_source s.fills).1),
    (depth, lrng_event.pool_unlock),
    (depth, lrng_event.init_ops (u32 (s.seed_source s.fills).1)),
    (depth, lrng_event.seed_helper p (deref s p).drng (s.seed_source s.fills).2
      ((deref s p).crypto_cb.lrng_drng_seed_helper (gen_of s (deref s p).drng)
        (s.seed_source s.fills).2).1)]

/-- The calls of the seed primitive in a trace: nesting depth, instance and status. -/
def seed_calls : List (Nat × lrng_event) → List (Nat × Nat × Int)
  | [] => []
  | (d, lrng_event.seed_helper inst _ _ ret) :: es => (d, inst, ret) :: seed_calls es
  | _ :: es => seed_calls es

/-- The number of times the reseed gate was taken: calls of `lrng_pool_trylock` that
returned 0. -/
def gate_taken : List (Nat × lrng_event) → Nat
  | [] => 0
  | (_, lrng_event.pool_trylock ret) :: es => (if ret = 0 then 1 else 0) + gate_taken es
  | _ :: es => gate_taken es

/-- The number of calls of `lrng_pool_unlock`. -/
def gate_released : List (Nat × lrng_event) → Nat
  | [] => 0
  | (_, lrng_event.pool_unlock) :: es => 1 + gate_released es
  | _ :: es => gate_released es

/-- Whether a call is a call of the generate primitive. -/
def is_generate : lrng_event → Bool
  | lrng_event.generate_helper _ _ _ _ => true
  | _ => false

/-- All calls in `ev` are made at nesting depth `d` or deeper. -/
def below (d : Nat) (ev : List (Nat × lrng_event)) : Prop := ∀ e ∈ ev, d ≤ e.1

/-- No call in `ev` is a call of the generate primitive at nesting depth `d`. -/
def nogen (d : Nat) (ev : List (Nat × lrng_event)) : Prop :=
  ∀ e ∈ ev, e.1 = d → is_generate e.2 = false

/-- From `s` to `t` every instance keeps its primitives and the trace grows by calls at
depth `d` or deeper. -/
def gframe (d : Nat) (s t : lrng_state) : Prop :=
  (∀ q, (deref t q).crypto_cb = (deref s q).crypto_cb) ∧
  ∃ ev, t.trace = s.trace ++ ev ∧ below d ev

/-- A `gframe` step without a call of the generate primitive at depth `d` itself. -/
def frame (d : Nat) (s t : lrng_state) : Prop :=
  (∀ q, (deref t q).crypto_cb = (deref s q).crypto_cb) ∧
  ∃ ev, t.trace = s.trace ++ ev ∧ below d ev ∧ nogen d ev

/-- The reads of the online per-CPU pools in the order of the CPU enumeration: for every
online CPU what `lrng_pcpu_pool_hash_one` returns on it, the digest buffer being handed
from one read to the next. -/
def pcpu_reads (instances : Option (List (Option lrng_drng))) (irq_entropy_bits : Nat)
    (drng : lrng_drng) : List lrng_pcpu → List Nat → List (Nat × lrng_pcpu × List Nat)
  | [], _ => []
  | c :: cs, digest =>
    if !lrng_pcpu_pool_online c then pcpu_reads instances irq_entropy_bits drng cs digest
    else
      lrng_pcpu_pool_hash_one instances irq_entropy_bits drng c digest ::
        pcpu_reads instances irq_entropy_bits drng cs
          (lrng_pcpu_pool_hash_one instances irq_entropy_bits drng c digest).2.2

/-- The state of the combining hash after one update per digest of `digests`, in
order. -/
def fold_digests (crypto_cb : lrng_crypto_cb) (shash : shash_desc)
    (digests : List (List Nat)) : shash_desc :=
  digests.foldl (fun sh d => (crypto_cb.lrng_hash_update sh d).2) shash

/-- The situation in which a reseed of the instance at `p` calls `lrng_drng_get` on it
again and finds the seed failed: `p` is a sleep-capable instance with a generator of its
own whose seed primitive fails whatever it is given, and the atomic instance is due for
a reseed. -/
def seed_fails (p : Nat) (s : lrng_state) : Prop :=
  p ≠ LRNG_DRNG_ATOMIC ∧ p < s.drngs.length ∧
  (∀ g b, ((deref s p).crypto_cb.lrng_drng_seed_helper g b).1 < 0) ∧
  (deref s p).drng ≠ (deref s LRNG_DRNG_ATOMIC).drng ∧
  lrng_drng_atomic_due s = true ∧ s.lrng_avail ≠ 0

/-- The instance at `p` is sleep-capable and has run its request counter down: `requests`
is 1, so that the next request brings it to 0, it is not flagged, not stale, and the
reseed gate is free. -/
def counter_exhausted (p : Nat) (s : lrng_state) : Prop :=
  p ≠ LRNG_DRNG_ATOMIC ∧ (deref s p).requests = 1 ∧ (deref s p).force_reseed = false ∧
  time_after s.jiffies
    (ulong_add (deref s p).last_seeded
      (int_wrap (s.lrng_drng_reseed_max_time * s.HZ))) = false ∧
  s.reseed_in_progress = 0

/-- The instance `lrng_drng_seed_work` has to reseed is the one at `q`, of node `node`:
without per-node instances the initial instance when it is not fully seeded; with them
the instance of the first online node, in the order of `for_each_online_node`, that has
an instance which is not fully seeded. -/
def seed_work_pick (s : lrng_state) (q node : Nat) : Prop :=
  (s.lrng_drng_instances = none ∧ q = LRNG_DRNG_INIT ∧ node = 0 ∧
    (deref s LRNG_DRNG_INIT).fully_seeded = false) ∨
  ∃ tbl pre post, s.lrng_drng_instances = some tbl ∧ s.online_nodes = pre ++ node :: post ∧
    node_entry tbl node = some q ∧ (deref s q).fully_seeded = false ∧
    ∀ m ∈ pre, ∀ x, node_entry tbl m = some x → (deref s x).fully_seeded = true

/-- There is nothing for `lrng_drng_seed_work` to reseed: the initial instance is
fully seeded when there are no per-node instances; with them the instance of every
online node that has one is fully seeded. -/
def seed_work_idle (s : lrng_state) : Prop :=
  (s.lrng_drng_instances = none ∧ (deref s LRNG_DRNG_INIT).fully_seeded = true) ∨
  ∃ tbl, s.lrng_drng_instances = some tbl ∧
    ∀ m ∈ s.online_nodes, ∀ x, node_entry tbl m = some x → (deref s x).fully_seeded = true

/-- The instances the seed primitive is called on in a trace, in order. -/
def seeded_instances (ev : List (Nat × lrng_event)) : List Nat :=
  (seed_calls ev).map (fun c => c.2.1)

/-- The geometry of the per-CPU array is well formed: the slot width divides the 32 bits
of an array member into a power of two of slots, and the capacity in slots is a power of
two that holds more than one member (the `BUILD_BUG_ON`s of `lrng_sw_noise.c` and the
use of `LRNG_DATA_WORD_MASK` as a mask). -/
def geometry_ok (cfg : lrng_data_cfg) : Prop :=
  ∃ e k, cfg.LRNG_DATA_SLOTSIZE_BITS * 2 ^ e = 32 ∧ cfg.LRNG_DATA_NUM_VALUES = 2 ^ k ∧ e < k

/-- The value held by the slot `idx` of the array `a`: slot `idx` lies in the member
`idx / LRNG_DATA_SLOTS_PER_UINT` at the bits from
`LRNG_DATA_SLOTSIZE_BITS * (idx % LRNG_DATA_SLOTS_PER_UINT)` on. -/
def slot_read (cfg : lrng_data_cfg) (a : List Nat) (idx : Nat) : Nat :=
  (a.getD (idx / LRNG_DATA_SLOTS_PER_UINT cfg) 0 /
    2 ^ (cfg.LRNG_DATA_SLOTSIZE_BITS * (idx % LRNG_DATA_SLOTS_PER_UINT cfg))) %
    2 ^ cfg.LRNG_DATA_SLOTSIZE_BITS

/-- The slot the cursor designates after it has advanced by one: the cursor is a `u32`
that wraps modulo the capacity of the array. -/
def next_slot (cfg : lrng_data_cfg) (s : lrng_noise_state) : Nat :=
  ((s.cpu.lrng_pcpu_array_ptr + 1) % 2 ^ 32) % cfg.LRNG_DATA_NUM_VALUES

/-- The state `r` is the state `s` with the time stamp `t` appended at runtime: the
cursor has advanced by one slot, the slot it designates holds `t` merged with what the
slot held, every other slot is as it was, and the array with the time stamp in it has
been handed to `lrng_pcpu_array_to_hash`, which leaves it as it is unless the cursor has
reached the last slot. -/
def slot_appended (env : lrng_noise_env) (t : Nat) (s r : lrng_noise_state) : Prop :=
  ∃ a : List Nat, a.length = s.cpu.lrng_pcpu_array.length ∧
    slot_read env.cfg a (next_slot env.cfg s) =
      slot_read env.cfg s.cpu.lrng_pcpu_array (next_slot env.cfg s) ||| t ∧
    (∀ idx, idx ≠ next_slot env.cfg s →
      slot_read env.cfg a idx = slot_read env.cfg s.cpu.lrng_pcpu_array idx) ∧
    r = lrng_pcpu_array_to_hash env (next_slot env.cfg s)
      { cpu := { s.cpu with
          lrng_pcpu_array := a
          lrng_pcpu_array_ptr := (s.cpu.lrng_pcpu_array_ptr + 1) % 2 ^ 32 },
        pool_add_irq := s.pool_add_irq } ∧
    (env.fully_seeded = true → next_slot env.cfg s < env.cfg.LRNG_DATA_NUM_VALUES - 1 →
      r.cpu.lrng_pcpu_array = a ∧ r.cpu.lrng_pcpu_pool = s.cpu.lrng_pcpu_pool ∧
      r.pool_add_irq = s.pool_add_irq)

/-- The slot the cursor designates before it advances. -/
def cursor_slot (cfg : lrng_data_cfg) (s : lrng_noise_state) : Nat :=
  (s.cpu.lrng_pcpu_array_ptr % 2 ^ 32) % cfg.LRNG_DATA_NUM_VALUES

/-- The slot the cursor designates after it has advanced by the slots of one array
member. -/
def next_word (cfg : lrng_data_cfg) (s : lrng_noise_state) : Nat :=
  ((s.cpu.lrng_pcpu_array_ptr + LRNG_DATA_SLOTS_PER_UINT cfg) % 2 ^ 32) %
    cfg.LRNG_DATA_NUM_VALUES

/-- The bit at which a 32 bit time stamp is split when the cursor stands inside an array
member: the position of the slot `cursor_slot` in its member. -/
def split_bit (cfg : lrng_data_cfg) (s : lrng_noise_state) : Nat :=
  cfg.LRNG_DATA_SLOTSIZE_BITS * (cursor_slot cfg s % LRNG_DATA_SLOTS_PER_UINT cfg)

/-- The state `r` is the state `s` with the 32 bit time stamp `t` appended at boot time.
The cursor advances by the slots of one member. The bits of `t` from `split_bit` on are
merged into the member of the slot the cursor stood at, which gives the array `a`; the
bits of `t` below `split_bit` are then written to the member of the slot the cursor
stands at now. With the cursor at the start of a member the first part is all of `t`.
The array is handed to `lrng_pcpu_array_to_hash` after both writes, or between them when
the cursor wraps around the end of the array. -/
def word_appended (env : lrng_noise_env) (t : Nat) (s r : lrng_noise_state) : Prop :=
  ∃ a : List Nat, a.length = s.cpu.lrng_pcpu_array.length ∧
    a.getD (cursor_slot env.cfg s / LRNG_DATA_SLOTS_PER_UINT env.cfg) 0 =
      s.cpu.lrng_pcpu_array.getD (cursor_slot env.cfg s / LRNG_DATA_SLOTS_PER_UINT env.cfg) 0 |||
        t / 2 ^ split_bit env.cfg s * 2 ^ split_bit env.cfg s ∧
    (∀ j, j ≠ cursor_slot env.cfg s / LRNG_DATA_SLOTS_PER_UINT env.cfg →
      a.getD j 0 = s.cpu.lrng_pcpu_array.getD j 0) ∧
    if cursor_slot env.cfg s ≤ next_word env.cfg s then
      ∃ b : List Nat, b.length = a.length ∧
        b.getD (next_word env.cfg s / LRNG_DATA_SLOTS_PER_UINT env.cfg) 0 =
          t % 2 ^ split_bit env.cfg s ∧
        (∀ j, j ≠ next_word env.cfg s / LRNG_DATA_SLOTS_PER_UINT env.cfg →
          b.getD j 0 = a.getD j 0) ∧
        r = lrng_pcpu_array_to_hash env (next_word env.cfg s)
          { cpu := { s.cpu with
              lrng_pcpu_array := b
              lrng_pcpu_array_ptr :=
                (s.cpu.lrng_pcpu_array_ptr + LRNG_DATA_SLOTS_PER_UINT env.cfg) % 2 ^ 32 },
            pool_add_irq := s.pool_add_irq } ∧
        (env.fully_seeded = false → next_word env.cfg s % 32 ≠ 0 →
          next_word env.cfg s < env.cfg.LRNG_DATA_NUM_VALUES - 1 →
          r.cpu.lrng_pcpu_array = b ∧ r.cpu.lrng_pcpu_pool = s.cpu.lrng_pcpu_pool ∧
          r.pool_add_irq = s.pool_add_irq)
    else
      ∃ d : lrng_noise_state,
        d = lrng_pcpu_array_to_hash env (env.cfg.LRNG_DATA_NUM_VALUES - 1)
          { cpu := { s.cpu with
              lrng_pcpu_array := a
              lrng_pcpu_array_ptr :=
                (s.cpu.lrng_pcpu_array_ptr + LRNG_DATA_SLOTS_PER_UINT env.cfg) % 2 ^ 32 },
            pool_add_irq := s.pool_add_irq } ∧
        r.cpu.lrng_pcpu_array.length = d.cpu.lrng_pcpu_array.length ∧
        r.cpu.lrng_pcpu_array.getD (next_word env.cfg s / LRNG_DATA_SLOTS_PER_UINT env.cfg) 0 =
          t % 2 ^ split_bit env.cfg s ∧
        (∀ j, j ≠ next_word env.cfg s / LRNG_DATA_SLOTS_PER_UINT env.cfg →
          r.cpu.lrng_pcpu_array.getD j 0 = d.cpu.lrng_pcpu_array.getD j 0) ∧
        { r with cpu := { r.cpu with lrng_pcpu_array := d.cpu.lrng_pcpu_array } } = d

/-! ## Concrete primitives and states used to evaluate the model -/

/-- A toy set of primitives that never fail: the hash state collects its input, the
digest has 32 bytes, the generator delivers what it is asked for. -/
def demo_cb : lrng_crypto_cb where
  lrng_drng_seed_helper := fun st inbuf => (0, st ++ inbuf)
  lrng_drng_generate_helper := fun st n => ((n : Int), List.replicate n 0, st)
  lrng_hash_digestsize := fun _ => 32
  lrng_hash_init := fun _ h => (0, { tfm := h, ctx := [] })
  lrng_hash_update := fun d data => (0, { d with ctx := d.ctx ++ data })
  lrng_hash_final := fun d => (0, d, List.replicate 32 (d.ctx.sum % 256))

/-- A DRNG instance over the toy primitives, as `lrng_drng_reset` leaves it. -/
def demo_drng : lrng_drng where
  drng := 0
  hash := 0
  crypto_cb := demo_cb
  requests := LRNG_DRNG_RESEED_THRESH
  last_seeded := 0
  fully_seeded := false
  force_reseed := true

/-- A pool with a 32 byte digest and the given aux entropy counter. -/
def demo_pool (aux_entropy_bits : Nat) : lrng_pool where
  aux_pool := List.replicate 32 0
  aux_entropy_bits := aux_entropy_bits
  all_online_numa_node_seeded := false
  digestsize := 32
  irq_info := { num_events_thresh := 32, reseed_in_progress := 0,
                irq_highres_timer := true, irq_entropy_bits := LRNG_IRQ_ENTROPY_BITS }

/-- An online CPU on node 0 with an empty array and the given event counter. -/
def demo_cpu (irqs : Nat) : lrng_pcpu where
  lrng_pcpu_array := List.replicate 8 0
  lrng_pcpu_array_ptr := 0
  lrng_pcpu_array_irqs := irqs
  lrng_pcpu_pool := { tfm := 0, ctx := [] }
  lrng_pcpu_lock_init := true
  node := 0

/-- A DRNG instance over the toy primitives that is seeded and not due for a reseed. -/
def demo_drng_idle : lrng_drng := { demo_drng with force_reseed := false }

/-- Toy primitives whose seed operation fails. -/
def demo_fail_cb : lrng_crypto_cb :=
  { demo_cb with lrng_drng_seed_helper := fun st _ => (-1, st) }

/-- A system without per-node instances (`lrng_drng_instances()` is `NULL`): the
initial and the atomic instance share the generator `chacha20`, none is flagged for a
reseed, the LRNG is available and every seed carries `bits` bits of entropy. -/
def demo_state (bits : Nat) : lrng_state where
  drngs := [demo_drng_idle, demo_drng_idle]
  gens := [[]]
  lrng_drng_instances := none
  online_nodes := [0]
  numa_node := 0
  lrng_avail := 1
  lrng_drng_reseed_max_time := 600
  jiffies := 1000
  HZ := 250
  digestsize := 256
  reseed_in_progress := 0
  seed_source := fun _ => (bits, List.replicate 100 7)
  fills := 0
  cc20_init := fun g => g
  trace := []

/-- A system with two online nodes: node 0 uses the initial instance, node 1 has an
own instance (address 2) with a generator of its own (handle 1); that instance and the
atomic one are flagged for a reseed. -/
def demo_numa_state : lrng_state :=
  { demo_state 256 with
    drngs := [demo_drng_idle, demo_drng, { demo_drng with drng := 1 }]
    gens := [[], []]
    lrng_drng_instances := some [some 0, some 2]
    online_nodes := [0, 1] }

/-- The system `demo_state` with a seed primitive that fails on the initial instance. -/
def demo_fail_state : lrng_state :=
  { demo_state 256 with
    drngs := [{ demo_drng with crypto_cb := demo_fail_cb }, demo_drng_idle] }

/-- An event path with 8 bit slots, a capacity of 32 slots and the hooks off. -/
def demo_env (fully_seeded : Bool) : lrng_noise_env where
  cfg := { LRNG_DATA_SLOTSIZE_BITS := 8, LRNG_DATA_NUM_VALUES := 32 }
  instances := none
  init := demo_drng
  fully_seeded := fully_seeded
  lrng_raw_hires_entropy_store := fun _ => false
  lrng_raw_array_entropy_store := fun _ => false

/-- The running CPU before any event. -/
def demo_noise_state : lrng_noise_state where
  cpu := demo_cpu 0
  pool_add_irq := 0

/-- A system with two online nodes in which no instance is flagged for a reseed. -/
def demo_numa_idle_state : lrng_state :=
  { demo_numa_state with
    drngs := [demo_drng_idle, demo_drng_idle, { demo_drng_idle with drng := 1 }] }

/-- Four events: two pass the health test, one fails but is used, one is dropped. -/
def demo_events : List ((Nat → lrng_health_res) × Nat) :=
  [(fun _ => lrng_health_res.lrng_health_pass, 5),
   (fun _ => lrng_health_res.lrng_health_fail_use, 6),
   (fun _ => lrng_health_res.lrng_health_pass, 7),
   (fun _ => lrng_health_res.lrng_health_fail_drop, 8)]

/-- Toy primitives with a digest of 20 bytes, the size of SHA-1. -/
def demo_sha1_cb : lrng_crypto_cb :=
  { demo_cb with
    lrng_hash_digestsize := fun _ => 20
    lrng_hash_final := fun d => (0, d, List.replicate 20 (d.ctx.sum % 256)) }

/-- A pool with a 20 byte digest and the given aux entropy counter. -/
def demo_sha1_pool (aux_entropy_bits : Nat) : lrng_pool :=
  { demo_pool aux_entropy_bits with aux_pool := List.replicate 20 0, digestsize := 20 }

/-- The system `demo_numa_state` while somebody else holds the reseed gate. -/
def demo_busy_state : lrng_state := { demo_numa_state with reseed_in_progress := 1 }

/-- Toy primitives with a generator that fails at every other call, starting with a
failure when its state is `[0]`; the seed primitive leaves the generator state as it
is. -/
def demo_flaky_cb : lrng_crypto_cb :=
  { demo_cb with
    lrng_drng_seed_helper := fun st _ => (0, st)
    lrng_drng_generate_helper := fun st n =>
      if st.headD 0 = 0 then (0, [], [1]) else ((n : Int), List.replicate n 0, [0]) }

/-- The system `demo_numa_state` with the flaky generator behind the instance of
node 1. -/
def demo_flaky_state : lrng_state :=
  { demo_numa_state with
    drngs := [demo_drng_idle, demo_drng, { demo_drng with drng := 1, crypto_cb := demo_flaky_cb }]
    gens := [[], [0]] }

/-- The system `demo_flaky_state` with the generator one call further: it delivers at
the next call and fails at the one after. -/
def demo_flaky_late_state : lrng_state := { demo_flaky_state with gens := [[], [1]] }

/-- The system `demo_state` with both instances flagged for a reseed; they share the
generator `chacha20`. -/
def demo_shared_due_state : lrng_state :=
  { demo_state 256 with drngs := [demo_drng, demo_drng] }

/-- Toy primitives whose seed operation fails once, while the generator state is
empty. -/
def demo_fail_once_cb : lrng_crypto_cb :=
  { demo_cb with
    lrng_drng_seed_helper := fun st inbuf => if st = [] then (-1, [0]) else (0, st ++ inbuf) }

/-- The system `demo_numa_state` with the seed primitive that fails once behind the
instance of node 1. -/
def demo_fail_once_state : lrng_state :=
  { demo_numa_state with
    drngs := [demo_drng_idle, demo_drng,
      { demo_drng with drng := 1, crypto_cb := demo_fail_once_cb }] }

/-- The system `demo_state` when `lrng_drng_seed_work` has been scheduled: the initial
instance is not fully seeded and the scheduler has taken the reseed gate. -/
def demo_work_state : lrng_state :=
  { demo_state 256 with drngs := [demo_drng, demo_drng_idle], reseed_in_progress := 1 }

/-- An offline CPU: its pool has never been set up. -/
def demo_offline_cpu (irqs : Nat) : lrng_pcpu :=
  { demo_cpu irqs with lrng_pcpu_lock_init := false }

/-- A CPU that has not compressed its array yet: eight time stamps are in the array and
counted, the pool lock and hash are not set up. -/
def demo_first_drain_state : lrng_noise_state where
  cpu := { demo_offline_cpu 8 with lrng_pcpu_array := [5, 6, 7, 8, 9, 10, 11, 12] }
  pool_add_irq := 0

/-- The first `n` of a series of events that pass the health test, with the time stamps
5, 6, 7 and so on. -/
def demo_pass_events (n : Nat) : List ((Nat → lrng_health_res) × Nat) :=
  (List.range n).map (fun i => (fun _ => lrng_health_res.lrng_health_pass, 5 + i))

/-- The instance of node 1 with its request counter run down to 1: it has a generator of
its own, is not flagged and not stale. -/
def demo_exhausted_drng (cb : lrng_crypto_cb) : lrng_drng :=
  { demo_drng with drng := 1, crypto_cb := cb, requests := 1, force_reseed := false }

/-- The system `demo_numa_state` with the exhausted instance on node 1 over the given
primitives; the atomic instance is flagged for a reseed and the gate is free. -/
def demo_exhausted_state (cb : lrng_crypto_cb) : lrng_state :=
  { demo_numa_state with drngs := [demo_drng_idle, demo_drng, demo_exhausted_drng cb] }

/-- The system `demo_numa_state` when `lrng_drng_seed_work` has been scheduled: the
initial instance, which serves node 0, is fully seeded, the instance of node 1 is not,
the atomic instance is flagged for a reseed and the scheduler has taken the gate. -/
def demo_sched_state : lrng_state :=
  { demo_numa_state with
    drngs := [{ demo_drng_idle with fully_seeded := true }, demo_drng,
      { demo_drng with drng := 1 }]
    reseed_in_progress := 1 }

/-- The system `demo_sched_state` with the instance of node 1 fully seeded as well. -/
def demo_sched_idle_state : lrng_state :=
  { demo_sched_state with
    drngs := [{ demo_drng_idle with fully_seeded := true }, demo_drng,
      { demo_drng with drng := 1, fully_seeded := true }] }

/-- A CPU whose array holds the value 5 in its first slot, with the cursor on that slot
and three events counted. -/
def demo_filled_state : lrng_noise_state where
  cpu := { demo_cpu 3 with lrng_pcpu_array := [5, 0, 0, 0, 0, 0, 0, 0] }
  pool_add_irq := 0

/-! ## Theorems -/

theorem hash_ok_demo_cb : hash_ok demo_cb :=
  ⟨fun _ _ => rfl, fun _ _ => rfl, fun _ => rfl⟩

/-- The per-CPU loop does not take the error exit when hash updates succeed. -/
theorem lrng_pcpu_pool_hash_loop_ok (instances : Option (List (Option lrng_drng)))
    (k : Nat) (drng : lrng_drng) (requested_irqs : Nat)
    (hupd : ∀ d x, (drng.crypto_cb.lrng_hash_update d x).1 = 0)
    (cpus : List lrng_pcpu) (st : pcpu_loop_state) :
    (lrng_pcpu_pool_hash_loop instances k drng requested_irqs cpus st).1 = true := by
  induction cpus generalizing st with
  | nil => rfl
  | cons c cs ih =>
    unfold lrng_pcpu_pool_hash_loop
    dsimp only
    split_ifs with h1 h2 h3
    · exact ih _
    · exact absurd (hupd _ _) h2
    · exact ih _
    · exact ih _

/-! ### Reading and writing the store -/

theorem deref_store (s : lrng_state) (p q : Nat) (d : lrng_drng) :
    deref (store s p d) q = if p = q ∧ p < s.drngs.length then d else deref s q := by
  by_cases h : p = q
  · subst h
    by_cases hl : p < s.drngs.length
    · simp [deref, store, List.getD_eq_getElem?_getD, List.getElem?_set, hl]
    · have hn : s.drngs[p]? = none := List.getElem?_eq_none (Nat.le_of_not_lt hl)
      simp [deref, store, List.getD_eq_getElem?_getD, List.getElem?_set, hl, hn]
  · simp [deref, store, List.getD_eq_getElem?_getD, List.getElem?_set, h]

theorem deref_store_eq (s : lrng_state) (p : Nat) (d : lrng_drng) (h : p < s.drngs.length) :
    deref (store s p d) p = d := by
  simp [deref_store, h]

theorem deref_store_ne (s : lrng_state) (p q : Nat) (d : lrng_drng) (h : p ≠ q) :
    deref (store s p d) q = deref s q := by
  simp [deref_store, h]

@[simp] theorem store_length (s : lrng_state) (p : Nat) (d : lrng_drng) :
    (store s p d).drngs.length = s.drngs.length := by
  simp [store]

@[simp] theorem deref_log (s : lrng_state) (depth : Nat) (e : lrng_event) (q : Nat) :
    deref (log s depth e) q = deref s q := rfl

@[simp] theorem deref_set_gen (s : lrng_state) (h : Nat) (g : List Nat) (q : Nat) :
    deref (set_gen s h g) q = deref s q := rfl

@[simp] theorem log_drngs (s : lrng_state) (depth : Nat) (e : lrng_event) :
    (log s depth e).drngs = s.drngs := rfl

@[simp] theorem set_gen_drngs (s : lrng_state) (h : Nat) (g : List Nat) :
    (set_gen s h g).drngs = s.drngs := rfl

@[simp] theorem log_jiffies (s : lrng_state) (depth : Nat) (e : lrng_event) :
    (log s depth e).jiffies = s.jiffies := rfl

@[simp] theorem set_gen_jiffies (s : lrng_state) (h : Nat) (g : List Nat) :
    (set_gen s h g).jiffies = s.jiffies := rfl

@[simp] theorem store_jiffies (s : lrng_state) (p : Nat) (d : lrng_drng) :
    (store s p d).jiffies = s.jiffies := rfl

/-! ### `lrng_drng_force_reseed` -/

theorem force_reseed_nodes_length (tbl : List (Option Nat)) (nodes : List Nat)
    (s : lrng_state) :
    (lrng_drng_force_reseed_nodes tbl nodes s).drngs.length = s.drngs.length := by
  induction nodes generalizing s with
  | nil => rfl
  | cons n ns ih =>
    unfold lrng_drng_force_reseed_nodes
    split
    · exact ih s
    · rw [ih]; simp

theorem force_reseed_nodes_keeps (tbl : List (Option Nat)) (nodes : List Nat)
    (s : lrng_state) (q : Nat) (h : (deref s q).force_reseed = true) :
    (deref (lrng_drng_force_reseed_nodes tbl nodes s) q).force_reseed = true := by
  induction nodes generalizing s with
  | nil => exact h
  | cons n ns ih =>
    unfold lrng_drng_force_reseed_nodes
    split
    · exact ih s h
    · apply ih
      rw [deref_store]
      split
      · rfl
      · exact h

theorem force_reseed_nodes_sets (tbl : List (Option Nat)) (nodes : List Nat)
    (s : lrng_state) (node q : Nat) (hn : node ∈ nodes) (he : node_entry tbl node = some q)
    (hq : q < s.drngs.length) :
    (deref (lrng_drng_force_reseed_nodes tbl nodes s) q).force_reseed = true := by
  induction nodes generalizing s with
  | nil => cases hn
  | cons n ns ih =>
    unfold lrng_drng_force_reseed_nodes
    rcases List.mem_cons.mp hn with h | h
    · subst h
      rw [he]
      apply force_reseed_nodes_keeps
      rw [deref_store_eq _ _ _ hq]
    · split
      · exact ih s h hq
      · exact ih _ h (by simpa using hq)

/-! ### The flag `fully_seeded` -/

theorem fs_le_refl (s : lrng_state) : fs_le s s := ⟨rfl, rfl, fun _ h => h⟩

theorem fs_le_trans {s t u : lrng_state} (h1 : fs_le s t) (h2 : fs_le t u) : fs_le s u :=
  ⟨h2.1.trans h1.1, h2.2.1.trans h1.2.1, fun q h => h1.2.2 q (h2.2.2 q h)⟩

theorem weak_seeds_of_fs_le {s t : lrng_state} (h : fs_le s t) (hw : weak_seeds s) :
    weak_seeds t := by
  intro n
  have := hw n
  unfold lrng_security_strength lrng_get_digestsize at *
  rw [h.1, h.2.1]
  exact this

theorem fs_le_store (s : lrng_state) (p : Nat) (d : lrng_drng)
    (h : d.fully_seeded = true → (deref s p).fully_seeded = true) : fs_le s (store s p d) := by
  refine ⟨rfl, rfl, fun q hq => ?_⟩
  rw [deref_store] at hq
  split at hq
  · rename_i hpq
    rw [← hpq.1]
    exact h hq
  · exact hq

theorem fs_le_log (s : lrng_state) (depth : Nat) (e : lrng_event) : fs_le s (log s depth e) :=
  ⟨rfl, rfl, fun _ h => h⟩

theorem fs_le_set_gen (s : lrng_state) (h : Nat) (g : List Nat) : fs_le s (set_gen s h g) :=
  ⟨rfl, rfl, fun _ h => h⟩

theorem store_fully_seeded (s : lrng_state) (p q : Nat) (d : lrng_drng)
    (h : d.fully_seeded = (deref s p).fully_seeded) :
    (deref (store s p d) q).fully_seeded = (deref s q).fully_seeded := by
  rw [deref_store]
  split
  · rename_i hpq
    rw [h, hpq.1]
  · rfl

theorem inject_fully_seeded (depth p : Nat) (inbuf : List Nat) (s : lrng_state) (q : Nat) :
    (deref (lrng_drng_inject depth p inbuf s) q).fully_seeded = (deref s q).fully_seeded := by
  unfold lrng_drng_inject
  dsimp only
  split_ifs
  · refine (store_fully_seeded _ _ _ _ ?_).trans ?_ <;> rfl
  · refine (store_fully_seeded _ _ _ _ ?_).trans ((store_fully_seeded _ _ _ _ ?_).trans ?_) <;> rfl
  · refine (store_fully_seeded _ _ _ _ ?_).trans ?_ <;> rfl

theorem inject_frame (depth p : Nat) (inbuf : List Nat) (s : lrng_state) :
    (lrng_drng_inject depth p inbuf s).seed_source = s.seed_source ∧
    (lrng_drng_inject depth p inbuf s).digestsize = s.digestsize := by
  unfold lrng_drng_inject
  dsimp only
  split_ifs <;> exact ⟨rfl, rfl⟩

theorem fs_le_inject (depth p : Nat) (inbuf : List Nat) (s : lrng_state) :
    fs_le s (lrng_drng_inject depth p inbuf s) :=
  ⟨(inject_frame depth p inbuf s).1, (inject_frame depth p inbuf s).2,
    fun q h => by rw [inject_fully_seeded] at h; exact h⟩

theorem int_wrap_natCast (n : Nat) (h : n < 2 ^ 31) : int_wrap (n : Int) = (n : Int) := by
  unfold int_wrap
  norm_num at h ⊢
  omega

theorem u32_lt (x : Nat) : u32 x < 2 ^ 32 := by
  unfold u32 U32_MOD
  exact Nat.mod_lt _ (by norm_num)

theorem lrng_security_strength_le (s : lrng_state) : lrng_security_strength s ≤ 256 := by
  unfold lrng_security_strength
  exact le_trans (Nat.min_le_left _ _) (by decide)

/-- The comparison of `_lrng_drng_seed` is the comparison of the byte counts. -/
theorem seed_compare (s : lrng_state) (bits : Nat) :
    (int_wrap (((u32 bits) / 8 : Nat) : Int) ≥
        int_wrap ((lrng_security_strength s / 8 : Nat) : Int)) ↔
      lrng_security_strength s / 8 ≤ u32 bits / 8 := by
  have h1 : u32 bits / 8 < 2 ^ 31 := by
    have := u32_lt bits
    norm_num at this ⊢
    omega
  have h2 : lrng_security_strength s / 8 < 2 ^ 31 := by
    have := lrng_security_strength_le s
    norm_num
    omega
  rw [int_wrap_natCast _ h1, int_wrap_natCast _ h2]
  omega

theorem seed_injected_fully_seeded (depth p : Nat) (s : lrng_state) (q : Nat) :
    (deref (seed_injected depth p s) q).fully_seeded = (deref s q).fully_seeded := by
  unfold seed_injected
  rw [inject_fully_seeded]
  rfl

theorem seed_injected_frame (depth p : Nat) (s : lrng_state) :
    (seed_injected depth p s).seed_source = s.seed_source ∧
    (seed_injected depth p s).digestsize = s.digestsize := by
  unfold seed_injected
  exact ⟨(inject_frame _ _ _ _).1.trans rfl, (inject_frame _ _ _ _).2.trans rfl⟩

theorem inject_length (depth p : Nat) (inbuf : List Nat) (s : lrng_state) :
    (lrng_drng_inject depth p inbuf s).drngs.length = s.drngs.length := by
  unfold lrng_drng_inject
  dsimp only
  split_ifs <;> simp

theorem seed_injected_length (depth p : Nat) (s : lrng_state) :
    (seed_injected depth p s).drngs.length = s.drngs.length := by
  unfold seed_injected
  rw [inject_length]
  rfl

theorem lrng_security_strength_congr (s t : lrng_state) (h : t.digestsize = s.digestsize) :
    lrng_security_strength t = lrng_security_strength s := by
  unfold lrng_security_strength lrng_get_digestsize
  rw [h]

theorem seed_state (depth p : Nat) (s : lrng_state) :
    (_lrng_drng_seed depth p s).2 =
      if lrng_security_strength s / 8 ≤ u32 (s.seed_source s.fills).1 / 8 then
        store (seed_injected depth p s) p
          { deref (seed_injected depth p s) p with fully_seeded := true }
      else seed_injected depth p s := by
  have hc := seed_compare s (s.seed_source s.fills).1
  have hs : lrng_security_strength (seed_injected depth p s) = lrng_security_strength s :=
    lrng_security_strength_congr _ _ (seed_injected_frame depth p s).2
  have key : _lrng_drng_seed depth p s =
      if int_wrap ((u32 (s.seed_source s.fills).1 / 8 : Nat) : Int) ≥
          int_wrap ((lrng_security_strength (seed_injected depth p s) / 8 : Nat) : Int) then
        (int_wrap ((u32 (s.seed_source s.fills).1 / 8 : Nat) : Int),
          store (seed_injected depth p s) p
            { deref (seed_injected depth p s) p with fully_seeded := true })
      else (int_wrap ((u32 (s.seed_source s.fills).1 / 8 : Nat) : Int), seed_injected depth p s) := rfl
  rw [key, hs]
  by_cases h : lrng_security_strength s / 8 ≤ u32 (s.seed_source s.fills).1 / 8
  · rw [if_pos h, if_pos (hc.mpr h)]
  · rw [if_neg h, if_neg (fun hh => h (hc.mp hh))]

theorem fs_le_seed (depth p : Nat) (s : lrng_state) (hw : weak_seeds s) :
    fs_le s (_lrng_drng_seed depth p s).2 := by
  have h := seed_state depth p s
  rw [if_neg (Nat.not_le.mpr (hw s.fills))] at h
  rw [h]
  refine ⟨(seed_injected_frame depth p s).1, (seed_injected_frame depth p s).2, ?_⟩
  intro q hq
  rw [seed_injected_fully_seeded] at hq
  exact hq

theorem fs_le_trylock (depth : Nat) (s : lrng_state) : fs_le s (lrng_pool_trylock depth s).2 := by
  unfold lrng_pool_trylock
  dsimp only
  split_ifs
  · exact ⟨rfl, rfl, fun _ h => h⟩
  · exact ⟨rfl, rfl, fun _ h => h⟩

theorem fs_le_get_reseed (seed : lrng_state → Option lrng_state) (depth p : Nat)
    (hseed : ∀ s t, weak_seeds s → seed s = some t → fs_le s t)
    (s t : lrng_state) (hw : weak_seeds s)
    (h : lrng_drng_get_reseed seed depth p s = some t) : fs_le s t := by
  have h1 : fs_le s (store s p { deref s p with
      requests := int_wrap ((deref s p).requests - 1) }) := fs_le_store _ _ _ (fun x => x)
  unfold lrng_drng_get_reseed at h
  dsimp only at h
  split_ifs at h with htrig hp hlock
  · cases h
    exact fs_le_trans (fs_le_trans h1 (fs_le_trylock _ _)) (fs_le_store _ _ _ (fun x => x))
  · have h2 := fs_le_trans h1 (fs_le_trylock depth _)
    exact fs_le_trans h2 (hseed _ _ (weak_seeds_of_fs_le h2 hw) h)
  · cases h; exact h1
  · cases h; exact h1

theorem fs_le_get_generate (depth p todo processed : Nat) (outbuf : List Nat)
    (s : lrng_state) : fs_le s (lrng_drng_get_generate depth p todo processed outbuf s).2.2 :=
  ⟨rfl, rfl, fun _ h => h⟩

theorem get_loop_zero (seed : lrng_state → Option lrng_state) (depth p : Nat)
    (s : lrng_state) (outbuf : List Nat) (n pr : Nat) :
    lrng_drng_get_loop seed depth p 0 s outbuf n pr = none := rfl

theorem get_loop_succ (seed : lrng_state → Option lrng_state) (depth p fuel : Nat)
    (s : lrng_state) (outbuf : List Nat) (n pr : Nat) :
    lrng_drng_get_loop seed depth p (fuel + 1) s outbuf n pr =
      if n = 0 then some (int_wrap (pr : Int), outbuf, s)
      else
        match lrng_drng_get_reseed seed depth p s with
        | none => none
        | some t =>
          if (lrng_drng_get_generate depth p (min n LRNG_DRNG_MAX_REQSIZE) pr outbuf t).1 ≤ 0 then
            some (-EFAULT,
              (lrng_drng_get_generate depth p (min n LRNG_DRNG_MAX_REQSIZE) pr outbuf t).2.1,
              (lrng_drng_get_generate depth p (min n LRNG_DRNG_MAX_REQSIZE) pr outbuf t).2.2)
          else
            lrng_drng_get_loop seed depth p fuel
              (lrng_drng_get_generate depth p (min n LRNG_DRNG_MAX_REQSIZE) pr outbuf t).2.2
              (lrng_drng_get_generate depth p (min n LRNG_DRNG_MAX_REQSIZE) pr outbuf t).2.1
              (((n : Int) -
                (lrng_drng_get_generate depth p (min n LRNG_DRNG_MAX_REQSIZE) pr outbuf t).1)
                  % 2 ^ 32).toNat
              (((pr : Int) +
                (lrng_drng_get_generate depth p (min n LRNG_DRNG_MAX_REQSIZE) pr outbuf t).1)
                  % 2 ^ 32).toNat := rfl

theorem get_loop_fs_le (seed : lrng_state → Option lrng_state) (depth p : Nat)
    (hseed : ∀ s t, weak_seeds s → seed s = some t → fs_le s t) :
    ∀ (fuel : Nat) (s : lrng_state) (outbuf : List Nat) (n pr : Nat)
      (r : Int × List Nat × lrng_state), weak_seeds s →
      lrng_drng_get_loop seed depth p fuel s outbuf n pr = some r → fs_le s r.2.2 := by
  intro fuel
  induction fuel with
  | zero => intro s outbuf n pr r _ h; rw [get_loop_zero] at h; cases h
  | succ fuel ih =>
    intro s outbuf n pr r hw h
    rw [get_loop_succ] at h
    by_cases h0 : n = 0
    · rw [if_pos h0] at h
      rw [← Option.some.inj h]
      exact fs_le_refl s
    · rw [if_neg h0] at h
      cases hr : lrng_drng_get_reseed seed depth p s with
      | none => rw [hr] at h; cases h
      | some t =>
        rw [hr] at h
        have ht := fs_le_get_reseed seed depth p hseed s t hw hr
        dsimp only at h
        have hg := fs_le_get_generate depth p (min n LRNG_DRNG_MAX_REQSIZE) pr outbuf t
        by_cases hle : (lrng_drng_get_generate depth p (min n LRNG_DRNG_MAX_REQSIZE) pr outbuf t).1 ≤ 0
        · rw [if_pos hle] at h
          rw [← Option.some.inj h]
          exact fs_le_trans ht hg
        · rw [if_neg hle] at h
          exact fs_le_trans (fs_le_trans ht hg)
            (ih _ _ _ _ r (weak_seeds_of_fs_le (fs_le_trans ht hg) hw) h)

theorem fs_le_reset (p : Nat) (s : lrng_state) : fs_le s (lrng_drng_reset p s) := by
  unfold lrng_drng_reset
  exact fs_le_store _ _ _ (fun h => by cases h)

theorem fs_le_init_cc20 (depth : Nat) (s : lrng_state) : fs_le s (lrng_drngs_init_cc20 depth s) := by
  unfold lrng_drngs_init_cc20
  dsimp only
  split_ifs
  · exact fs_le_refl s
  · have h1 := fs_le_reset LRNG_DRNG_INIT s
    have h2 : fs_le (lrng_drng_reset LRNG_DRNG_INIT s)
        (log (log (set_gen (lrng_drng_reset LRNG_DRNG_INIT s) CHACHA20
          ((lrng_drng_reset LRNG_DRNG_INIT s).cc20_init
            (gen_of (lrng_drng_reset LRNG_DRNG_INIT s) CHACHA20)))
          depth lrng_event.cc20_init_state) depth lrng_event.state_init_seed_work) :=
      ⟨rfl, rfl, fun _ h => h⟩
    have h3 := fs_le_reset LRNG_DRNG_ATOMIC
      (log (log (set_gen (lrng_drng_reset LRNG_DRNG_INIT s) CHACHA20
          ((lrng_drng_reset LRNG_DRNG_INIT s).cc20_init
            (gen_of (lrng_drng_reset LRNG_DRNG_INIT s) CHACHA20)))
          depth lrng_event.cc20_init_state) depth lrng_event.state_init_seed_work)
    have h4 := fs_le_trans (fs_le_trans h1 h2) h3
    exact ⟨h4.1, h4.2.1, fun q h => h4.2.2 q h⟩

theorem get_with_fs_le (seed : lrng_state → Option lrng_state) (depth p : Nat)
    (hseed : ∀ s t, weak_seeds s → seed s = some t → fs_le s t)
    (fuel : Nat) (s : lrng_state) (outbuf : Option (List Nat)) (n : Nat)
    (r : Int × Option (List Nat) × lrng_state) (hw : weak_seeds s)
    (h : lrng_drng_get_with seed depth p fuel s outbuf n = some r) : fs_le s r.2.2 := by
  unfold lrng_drng_get_with at h
  cases outbuf with
  | none =>
    dsimp only at h
    rw [← Option.some.inj h]
    exact fs_le_refl s
  | some buf =>
    dsimp only at h
    by_cases h0 : n = 0
    · rw [if_pos h0] at h
      rw [← Option.some.inj h]
      exact fs_le_refl s
    · rw [if_neg h0] at h
      have hi := fs_le_init_cc20 depth s
      cases hl : lrng_drng_get_loop seed depth p fuel (lrng_drngs_init_cc20 depth s) buf
          (min n INT_MAX) 0 with
      | none => rw [hl] at h; exact absurd h (by simp)
      | some x =>
        rw [hl] at h
        dsimp only at h
        rw [← Option.some.inj h]
        exact fs_le_trans hi
          (get_loop_fs_le seed depth p hseed fuel _ _ _ _ x (weak_seeds_of_fs_le hi hw) hl)

theorem seed_zero (depth p : Nat) (s : lrng_state) : lrng_drng_seed 0 depth p s = none := rfl

theorem seed_succ (fuel depth p : Nat) (s : lrng_state) :
    lrng_drng_seed (fuel + 1) depth p s =
      if (deref (_lrng_drng_seed depth p s).2 p).drng ≠
            (deref (_lrng_drng_seed depth p s).2 LRNG_DRNG_ATOMIC).drng &&
          lrng_drng_atomic_due (_lrng_drng_seed depth p s).2 then
        match lrng_drng_get_with (lrng_drng_seed fuel (depth + 1) p) (depth + 1) p fuel
            (_lrng_drng_seed depth p s).2
            (some (List.replicate LRNG_DRNG_SECURITY_STRENGTH_BYTES 0))
            LRNG_DRNG_SECURITY_STRENGTH_BYTES with
        | none => none
        | some r =>
          if r.1 < 0 then some r.2.2
          else
            some (lrng_drng_inject depth LRNG_DRNG_ATOMIC
              ((r.2.1.getD []).take r.1.toNat) r.2.2)
      else some (_lrng_drng_seed depth p s).2 := rfl

theorem seed_fs_le (fuel : Nat) : ∀ (depth p : Nat) (s t : lrng_state), weak_seeds s →
    lrng_drng_seed fuel depth p s = some t → fs_le s t := by
  induction fuel with
  | zero => intro depth p s t _ h; rw [seed_zero] at h; exact absurd h (by simp)
  | succ fuel ih =>
    intro depth p s t hw h
    rw [seed_succ] at h
    have h1 := fs_le_seed depth p s hw
    split_ifs at h with hc
    · cases hg : lrng_drng_get_with (lrng_drng_seed fuel (depth + 1) p) (depth + 1) p fuel
          (_lrng_drng_seed depth p s).2
          (some (List.replicate LRNG_DRNG_SECURITY_STRENGTH_BYTES 0))
          LRNG_DRNG_SECURITY_STRENGTH_BYTES with
      | none => rw [hg] at h; exact absurd h (by simp)
      | some r =>
        rw [hg] at h
        dsimp only at h
        have h2 := get_with_fs_le _ (depth + 1) p (fun a b => ih (depth + 1) p a b) fuel _ _ _ r
          (weak_seeds_of_fs_le h1 hw) hg
        by_cases hneg : r.1 < 0
        · rw [if_pos hneg] at h
          rw [← Option.some.inj h]
          exact fs_le_trans h1 h2
        · rw [if_neg hneg] at h
          rw [← Option.some.inj h]
          exact fs_le_trans (fs_le_trans h1 h2) (fs_le_inject _ _ _ _)
    · rw [← Option.some.inj h]
      exact h1

theorem get_fs_le (fuel depth p : Nat) (s : lrng_state) (outbuf : Option (List Nat)) (n : Nat)
    (r : Int × Option (List Nat) × lrng_state) (hw : weak_seeds s)
    (h : lrng_drng_get fuel depth p s outbuf n = some r) : fs_le s r.2.2 :=
  get_with_fs_le _ depth p (fun a b => seed_fs_le fuel depth p a b) fuel s outbuf n r hw h

theorem compress_irqs (env : lrng_noise_env) (c : lrng_pcpu) :
    (lrng_pcpu_array_compress env c).lrng_pcpu_array_irqs = c.lrng_pcpu_array_irqs ∧
    (lrng_pcpu_array_compress env c).lrng_pcpu_array_ptr = c.lrng_pcpu_array_ptr := by
  unfold lrng_pcpu_array_compress
  dsimp only
  split_ifs <;> exact ⟨rfl, rfl⟩

theorem to_hash_irqs (env : lrng_noise_env) (h : hooks_off env) (ptr : Nat)
    (st : lrng_noise_state) :
    (lrng_pcpu_array_to_hash env ptr st).cpu.lrng_pcpu_array_irqs =
        st.cpu.lrng_pcpu_array_irqs ∧
    (lrng_pcpu_array_to_hash env ptr st).cpu.lrng_pcpu_array_ptr =
        st.cpu.lrng_pcpu_array_ptr := by
  unfold lrng_pcpu_array_to_hash
  simp only [h.2, Bool.false_eq_true, if_false]
  split_ifs <;> first | exact ⟨rfl, rfl⟩ | exact compress_irqs env st.cpu

theorem add_u32_irqs (env : lrng_noise_env) (h : hooks_off env) (data : Nat)
    (st : lrng_noise_state) :
    (_lrng_pcpu_array_add_u32 env data st).cpu.lrng_pcpu_array_irqs =
        st.cpu.lrng_pcpu_array_irqs ∧
    (_lrng_pcpu_array_add_u32 env data st).cpu.lrng_pcpu_array_ptr =
        u32_add st.cpu.lrng_pcpu_array_ptr (LRNG_DATA_SLOTS_PER_UINT env.cfg) := by
  unfold _lrng_pcpu_array_add_u32
  dsimp only
  split_ifs <;> simp only [to_hash_irqs env h] <;> exact ⟨trivial, trivial⟩

theorem add_slot_irqs (env : lrng_noise_env) (h : hooks_off env) (data : Nat)
    (st : lrng_noise_state) :
    (lrng_pcpu_array_add_slot env data st).cpu.lrng_pcpu_array_irqs =
        st.cpu.lrng_pcpu_array_irqs ∧
    (lrng_pcpu_array_add_slot env data st).cpu.lrng_pcpu_array_ptr =
        u32_add st.cpu.lrng_pcpu_array_ptr 1 := by
  unfold lrng_pcpu_array_add_slot
  dsimp only
  simp only [to_hash_irqs env h]
  exact ⟨trivial, trivial⟩

theorem record_sample_irqs (env : lrng_noise_env) (h : hooks_off env) (t : Nat)
    (st : lrng_noise_state) :
    (record_sample env t st).cpu.lrng_pcpu_array_irqs = st.cpu.lrng_pcpu_array_irqs ∧
    (record_sample env t st).cpu.lrng_pcpu_array_ptr =
        u32_add st.cpu.lrng_pcpu_array_ptr (slots_taken env) := by
  unfold record_sample slots_taken
  split_ifs
  · exact add_u32_irqs env h t st
  · exact add_slot_irqs env h t st

/-- The three outcomes of `lrng_time_process` when the hooks are off. -/
theorem time_process_cases (env : lrng_noise_env) (hoff : hooks_off env)
    (health : Nat → lrng_health_res) (now_time : Nat) (st : lrng_noise_state) :
    lrng_time_process env health now_time st =
      match health (time_stamp env now_time) with
      | lrng_health_res.lrng_health_pass =>
        record_sample env (time_stamp env now_time) (lrng_pcpu_array_irqs_inc st)
      | lrng_health_res.lrng_health_fail_use => record_sample env (time_stamp env now_time) st
      | lrng_health_res.lrng_health_fail_drop => st := by
  unfold lrng_time_process time_stamp record_sample
  simp only [hoff.1, Bool.false_eq_true, if_false]
  cases hfs : env.fully_seeded
  · simp only [Bool.not_false, if_true]
    cases hh : health (u32 now_time) <;> simp [lrng_health_res.val]
  · simp only [Bool.not_true, Bool.false_eq_true, if_false]
    cases hh : health (u32 now_time &&& LRNG_DATA_SLOTSIZE_MASK env.cfg) <;>
      simp [lrng_health_res.val]

theorem time_process_irqs (env : lrng_noise_env) (hoff : hooks_off env)
    (health : Nat → lrng_health_res) (now_time : Nat) (st : lrng_noise_state) :
    (lrng_time_process env health now_time st).cpu.lrng_pcpu_array_irqs =
      if health (time_stamp env now_time) = lrng_health_res.lrng_health_pass then
        u32_add st.cpu.lrng_pcpu_array_irqs 1
      else st.cpu.lrng_pcpu_array_irqs := by
  rw [time_process_cases env hoff]
  cases hh : health (time_stamp env now_time)
  · simp only [if_true]
    exact (record_sample_irqs env hoff _ _).1.trans rfl
  · simp only [reduceCtorEq, if_false]
    exact (record_sample_irqs env hoff _ _).1
  · simp only [reduceCtorEq, if_false]

theorem pass_count_cons (env : lrng_noise_env) (e : (Nat → lrng_health_res) × Nat)
    (es : List ((Nat → lrng_health_res) × Nat)) :
    pass_count env (e :: es) =
      (if e.1 (time_stamp env e.2) = lrng_health_res.lrng_health_pass then 1 else 0) +
        pass_count env es := rfl

theorem time_process_seq_irqs (env : lrng_noise_env) (hoff : hooks_off env)
    (events : List ((Nat → lrng_health_res) × Nat)) :
    ∀ st : lrng_noise_state, st.cpu.lrng_pcpu_array_irqs < 2 ^ 32 →
      (lrng_time_process_seq env events st).cpu.lrng_pcpu_array_irqs =
        (st.cpu.lrng_pcpu_array_irqs + pass_count env events) % 2 ^ 32 := by
  induction events with
  | nil =>
    intro st h
    show st.cpu.lrng_pcpu_array_irqs = (st.cpu.lrng_pcpu_array_irqs + 0) % 2 ^ 32
    rw [Nat.add_zero, Nat.mod_eq_of_lt h]
  | cons e es ih =>
    intro st h
    show (lrng_time_process_seq env es (lrng_time_process env e.1 e.2 st)).cpu.lrng_pcpu_array_irqs
      = _
    have h1 := time_process_irqs env hoff e.1 e.2 st
    rw [pass_count_cons]
    by_cases hp : e.1 (time_stamp env e.2) = lrng_health_res.lrng_health_pass
    · rw [if_pos hp] at h1 ⊢
      have hlt : (lrng_time_process env e.1 e.2 st).cpu.lrng_pcpu_array_irqs < 2 ^ 32 := by
        rw [h1]; unfold u32_add U32_MOD; exact Nat.mod_lt _ (by norm_num)
      rw [ih _ hlt, h1]
      unfold u32_add U32_MOD
      omega
    · rw [if_neg hp] at h1 ⊢
      rw [ih _ (by rw [h1]; exact h), h1]
      omega

theorem hash_one_irqs (instances : Option (List (Option lrng_drng))) (k : Nat)
    (drng : lrng_drng) (c : lrng_pcpu) (digest : List Nat) :
    (lrng_pcpu_pool_hash_one instances k drng c digest).2.1.lrng_pcpu_array_irqs = 0 := by
  unfold lrng_pcpu_pool_hash_one
  dsimp only
  split_ifs <;> rfl

theorem hash_one_found (instances : Option (List (Option lrng_drng))) (k : Nat)
    (drng : lrng_drng) (c : lrng_pcpu) (digest : List Nat)
    (hok : hash_ok (pcpu_drng_of instances drng c.node).crypto_cb) :
    (lrng_pcpu_pool_hash_one instances k drng c digest).1 =
      min (u32 c.lrng_pcpu_array_irqs) (pcpu_cap instances k drng c) := by
  obtain ⟨hini, hupd, hfin⟩ := hok
  unfold lrng_pcpu_pool_hash_one pcpu_cap
  simp only [hini, hupd, hfin, ne_eq, not_true_eq_false, if_false]

theorem hash_loop_collected (instances : Option (List (Option lrng_drng))) (k : Nat)
    (drng : lrng_drng) (T : Nat)
    (hupd : ∀ d x, (drng.crypto_cb.lrng_hash_update d x).1 = 0) (cpus : List lrng_pcpu) :
    (∀ c ∈ cpus, hash_ok (pcpu_drng_of instances drng c.node).crypto_cb) →
    ∀ st : pcpu_loop_state, st.collected_irqs ≤ T →
      st.collected_irqs + avail_irqs instances k drng cpus < 2 ^ 32 →
      (lrng_pcpu_pool_hash_loop instances k drng T cpus st).2.1.collected_irqs =
        min T (st.collected_irqs + avail_irqs instances k drng cpus) := by
  induction cpus with
  | nil =>
    intro _ st hle _
    show st.collected_irqs = min T (st.collected_irqs + 0)
    rw [Nat.add_zero, Nat.min_eq_right hle]
  | cons c cs ih =>
    intro hok st hle hlt
    have hokc := hok c (List.mem_cons_self _ _)
    have ih' := ih (fun c' hc' => hok c' (List.mem_cons_of_mem _ hc'))
    have hav : avail_irqs instances k drng (c :: cs) =
      (if lrng_pcpu_pool_online c then
        min (u32 c.lrng_pcpu_array_irqs) (pcpu_cap instances k drng c) else 0) +
        avail_irqs instances k drng cs := rfl
    rw [hav] at hlt ⊢
    unfold lrng_pcpu_pool_hash_loop
    dsimp only
    by_cases hon : lrng_pcpu_pool_online c = true
    · simp only [hon, Bool.not_true, Bool.false_eq_true, if_false, if_true, hupd, ne_eq,
        not_true_eq_false] at hlt ⊢
      rw [hash_one_found instances k drng c st.digest hokc]
      generalize min (u32 c.lrng_pcpu_array_irqs) (pcpu_cap instances k drng c) = f at hlt ⊢
      have hadd : u32_add st.collected_irqs f = st.collected_irqs + f := by
        unfold u32_add U32_MOD
        apply Nat.mod_eq_of_lt
        norm_num at hlt ⊢
        omega
      rw [hadd]
      split_ifs with hgt
      · show (lrng_pcpu_pool_hash_loop instances k drng T cs _).2.1.collected_irqs = _
        rw [ih' _ (le_refl T) (by dsimp only; norm_num at hlt ⊢; omega)]
        dsimp only
        omega
      · show (lrng_pcpu_pool_hash_loop instances k drng T cs _).2.1.collected_irqs = _
        rw [ih' _ (by dsimp only; omega) (by dsimp only; norm_num at hlt ⊢; omega)]
        dsimp only
        rw [Nat.add_assoc]
    · simp only [hon, Bool.not_false, if_true, Bool.false_eq_true, if_false, Nat.zero_add]
        at hlt ⊢
      exact ih' st hle hlt

theorem u32_shl_lt (a n : Nat) : u32_shl a n < 2 ^ 32 := by
  unfold u32_shl U32_MOD
  exact Nat.mod_lt _ (by norm_num)

theorem hash_aux_collected (d e r : Nat) (hd : d < 2 ^ 32) :
    (lrng_pcpu_pool_hash_aux d e r).2 = min (min d (u32 e)) r := by
  unfold lrng_pcpu_pool_hash_aux
  dsimp only
  have h1 : u32_add 0 (min d (u32 e)) = min d (u32 e) := by
    unfold u32_add U32_MOD
    rw [Nat.zero_add]
    apply Nat.mod_eq_of_lt
    have := Nat.min_le_left d (u32 e)
    norm_num at hd ⊢
    omega
  rw [h1]
  split_ifs with h
  · show r = _
    omega
  · show min d (u32 e) = _
    omega

/-- The return value of `lrng_pcpu_pool_hash` when no hash operation fails. -/
theorem pool_hash_ret (instances : Option (List (Option lrng_drng))) (drng : lrng_drng)
    (pool : lrng_pool) (cpus : List lrng_pcpu) (outbuf digest : List Nat)
    (requested_bits : Nat) (fully_seeded : Bool) (hok : hash_ok drng.crypto_cb) :
    (lrng_pcpu_pool_hash instances drng pool cpus outbuf digest requested_bits
        fully_seeded).collected_ent_bits =
      u32_add
        (lrng_pcpu_pool_hash_aux (u32_shl (u32 (drng.crypto_cb.lrng_hash_digestsize drng.hash)) 3)
          pool.aux_entropy_bits requested_bits).2
        (lrng_data_to_entropy pool.irq_info.irq_entropy_bits
          (lrng_pcpu_pool_hash_loop instances pool.irq_info.irq_entropy_bits drng
            (lrng_entropy_to_data pool.irq_info.irq_entropy_bits
              (u32_sub requested_bits
                (lrng_pcpu_pool_hash_aux
                  (u32_shl (u32 (drng.crypto_cb.lrng_hash_digestsize drng.hash)) 3)
                  pool.aux_entropy_bits requested_bits).2))
            cpus
            { shash := (drng.crypto_cb.lrng_hash_update
                (drng.crypto_cb.lrng_hash_init { tfm := 0, ctx := [] } drng.hash).2
                (lrng_pool_image pool)).2,
              digest := digest, collected_irqs := 0 }).2.1.collected_irqs) := by
  obtain ⟨hini, hupd, hfin⟩ := hok
  unfold lrng_pcpu_pool_hash
  simp only [hini, hupd, hfin, ne_eq, not_true_eq_false, if_false,
    lrng_pcpu_pool_hash_loop_ok _ _ _ _ hupd, Bool.not_true, Bool.false_eq_true]

theorem e2d_mul (m x : Nat) :
    lrng_entropy_to_data (256 * m) x = min (x * m) (2 ^ 32 - 1) := by
  unfold lrng_entropy_to_data LRNG_DRNG_SECURITY_STRENGTH_BITS
    LRNG_DRNG_SECURITY_STRENGTH_BYTES U32_MOD
  have : x * (256 * m) / (32 * 8) = x * m := by
    rw [show x * (256 * m) = 256 * (x * m) by ring]
    exact Nat.mul_div_cancel_left _ (by norm_num)
  rw [this]

theorem d2e_mul (m y : Nat) (hy : y < 2 ^ 32) :
    lrng_data_to_entropy (256 * m) y = y / m := by
  unfold lrng_data_to_entropy LRNG_DRNG_SECURITY_STRENGTH_BITS
    LRNG_DRNG_SECURITY_STRENGTH_BYTES U32_MOD
  have : y * (32 * 8) / (256 * m) = y / m := by
    rw [show y * (32 * 8) = 256 * y by ring]
    exact Nat.mul_div_mul_left _ _ (by norm_num)
  rw [this]
  apply Nat.min_eq_left
  have := Nat.div_le_self y m
  norm_num at hy ⊢
  omega

theorem own_generate_append (depth p : Nat) (a b : List (Nat × lrng_event)) :
    own_generate depth p (a ++ b) = own_generate depth p a ++ own_generate depth p b := by
  induction a with
  | nil => rfl
  | cons e es ih =>
    obtain ⟨d, ev⟩ := e
    cases ev
    case generate_helper inst gen todo ret =>
      simp only [List.cons_append, own_generate]
      split_ifs <;> simp [ih]
    all_goals exact ih

theorem chunks_zero : chunks 0 = [] := by decide

theorem chunks_pos (n : Nat) (h : 0 < n) :
    chunks n = min n LRNG_DRNG_MAX_REQSIZE :: chunks (n - min n LRNG_DRNG_MAX_REQSIZE) := by
  unfold chunks LRNG_DRNG_MAX_REQSIZE
  norm_num
  by_cases hn : n < 4096
  · have h1 : n / 4096 = 0 := Nat.div_eq_of_lt hn
    have h2 : n % 4096 = n := Nat.mod_eq_of_lt hn
    have h3 : min n 4096 = n := Nat.min_eq_left (Nat.le_of_lt hn)
    rw [h1, h2, h3]
    simp [Nat.pos_iff_ne_zero.mp h]
  · have hge : 4096 ≤ n := Nat.le_of_not_lt hn
    have h3 : min n 4096 = 4096 := Nat.min_eq_right hge
    have h1 : n / 4096 = (n - 4096) / 4096 + 1 := by omega
    have h2 : n % 4096 = (n - 4096) % 4096 := by omega
    rw [h3, h1, h2, List.replicate_succ]
    rfl

theorem chunks_length (n : Nat) : (chunks n).length = (n + 4095) / 4096 := by
  unfold chunks LRNG_DRNG_MAX_REQSIZE
  norm_num
  split_ifs <;> simp <;> omega

theorem chunks_le (n : Nat) : ∀ x ∈ chunks n, 0 < x ∧ x ≤ LRNG_DRNG_MAX_REQSIZE := by
  intro x hx
  unfold chunks LRNG_DRNG_MAX_REQSIZE at *
  norm_num at hx ⊢
  rcases hx with ⟨_, rfl⟩ | hx
  · omega
  · omega

theorem quiet_refl (depth p : Nat) (s : lrng_state) : quiet depth p s s :=
  ⟨[], (List.append_nil _).symm, rfl⟩

theorem quiet_trans {depth p : Nat} {s t u : lrng_state} (h1 : quiet depth p s t)
    (h2 : quiet depth p t u) : quiet depth p s u := by
  obtain ⟨e1, ht, ho1⟩ := h1
  obtain ⟨e2, hu, ho2⟩ := h2
  refine ⟨e1 ++ e2, ?_, ?_⟩
  · rw [hu, ht, List.append_assoc]
  · rw [own_generate_append, ho1, ho2]; rfl

theorem quiet_log (depth p : Nat) (s : lrng_state) (d : Nat) (e : lrng_event)
    (h : own_generate depth p [(d, e)] = []) : quiet depth p s (log s d e) :=
  ⟨[(d, e)], rfl, h⟩

theorem quiet_of_trace {depth p : Nat} {s t : lrng_state} (h : t.trace = s.trace) :
    quiet depth p s t :=
  ⟨[], by rw [h, List.append_nil], rfl⟩

theorem step_ok_refl (depth p : Nat) (s : lrng_state) : step_ok depth p s s :=
  ⟨rfl, rfl, rfl, rfl, rfl, fun h => h, quiet_refl depth p s⟩

theorem step_ok_trans {depth p : Nat} {s t u : lrng_state} (h1 : step_ok depth p s t)
    (h2 : step_ok depth p t u) : step_ok depth p s u :=
  ⟨h2.1.trans h1.1, h2.2.1.trans h1.2.1, h2.2.2.1.trans h1.2.2.1,
    h2.2.2.2.1.trans h1.2.2.2.1, h2.2.2.2.2.1.trans h1.2.2.2.2.1,
    fun h => h2.2.2.2.2.2.1 (h1.2.2.2.2.2.1 h), quiet_trans h1.2.2.2.2.2.2 h2.2.2.2.2.2.2⟩

theorem get_ready_of_step {depth p : Nat} {s t : lrng_state} (h : step_ok depth p s t)
    (hr : get_ready p s) : get_ready p t := by
  obtain ⟨hl, hcb, hhz, hmax, _, _, _⟩ := h
  obtain ⟨h1, h2, h3, h4, h5⟩ := hr
  refine ⟨by rw [hl]; exact h1, ?_, ?_, ?_, ?_⟩
  · rw [hcb]; exact h2
  · rw [hcb]; exact h3
  · rw [hhz, hmax]; exact h4
  · rw [hhz, hmax]; exact h5

theorem store_crypto_cb (s : lrng_state) (q x : Nat) (d : lrng_drng)
    (h : d.crypto_cb = (deref s q).crypto_cb) :
    (deref (store s q d) x).crypto_cb = (deref s x).crypto_cb := by
  rw [deref_store]
  split
  · rename_i hqx
    rw [h, hqx.1]
  · rfl

theorem step_ok_store (depth p : Nat) (s : lrng_state) (q : Nat) (d : lrng_drng)
    (h : d.crypto_cb = (deref s q).crypto_cb) : step_ok depth p s (store s q d) :=
  ⟨store_length s q d, store_crypto_cb s q p d h, rfl, rfl, rfl, fun h => h,
    quiet_of_trace rfl⟩

theorem step_ok_log (depth p : Nat) (s : lrng_state) (d : Nat) (e : lrng_event)
    (h : own_generate depth p [(d, e)] = []) : step_ok depth p s (log s d e) :=
  ⟨rfl, rfl, rfl, rfl, rfl, fun h => h, quiet_log depth p s d e h⟩

theorem step_ok_set_gen (depth p : Nat) (s : lrng_state) (g : Nat) (v : List Nat) :
    step_ok depth p s (set_gen s g v) :=
  ⟨rfl, rfl, rfl, rfl, rfl, fun h => h, quiet_of_trace rfl⟩

theorem step_ok_trylock (depth p d : Nat) (s : lrng_state) :
    step_ok depth p s (lrng_pool_trylock d s).2 := by
  unfold lrng_pool_trylock
  dsimp only
  split_ifs
  · exact ⟨rfl, rfl, rfl, rfl, rfl, fun h => h, quiet_log depth p _ d _ rfl⟩
  · exact ⟨rfl, rfl, rfl, rfl, rfl, fun h => h, quiet_log depth p _ d _ rfl⟩

theorem step_ok_inject (depth p d q : Nat) (inbuf : List Nat) (s : lrng_state) :
    step_ok depth p s (lrng_drng_inject d q inbuf s) := by
  have h0 : step_ok depth p s
      (log (set_gen s (deref s q).drng
        ((deref s q).crypto_cb.lrng_drng_seed_helper (gen_of s (deref s q).drng) inbuf).2) d
        (lrng_event.seed_helper q (deref s q).drng inbuf
          ((deref s q).crypto_cb.lrng_drng_seed_helper (gen_of s (deref s q).drng) inbuf).1)) :=
    step_ok_trans (step_ok_set_gen depth p s _ _) (step_ok_log depth p _ d _ rfl)
  unfold lrng_drng_inject
  dsimp only
  split_ifs
  · refine step_ok_trans h0 (step_ok_store depth p _ q _ ?_)
    rfl
  · refine step_ok_trans (step_ok_trans h0 (step_ok_store depth p _ q _ ?_))
      (step_ok_store depth p _ LRNG_DRNG_ATOMIC _ ?_) <;> rfl
  · refine step_ok_trans h0 (step_ok_store depth p _ q _ ?_)
    rfl

theorem step_ok_seed_injected (depth p d q : Nat) (s : lrng_state) :
    step_ok depth p s (seed_injected d q s) := by
  unfold seed_injected
  refine step_ok_trans ?_ (step_ok_inject depth p d q _ _)
  refine step_ok_trans ?_ (step_ok_log depth p _ d _ rfl)
  unfold lrng_pool_unlock lrng_fill_seed_buffer
  exact ⟨rfl, rfl, rfl, rfl, rfl, fun h => h,
    ⟨[(d, lrng_event.fill_seed_buffer (s.seed_source s.fills).1), (d, lrng_event.pool_unlock)],
      by simp [log], rfl⟩⟩

theorem step_ok_seed (depth p d q : Nat) (s : lrng_state) :
    step_ok depth p s (_lrng_drng_seed d q s).2 := by
  rw [seed_state]
  split_ifs
  · refine step_ok_trans (step_ok_seed_injected depth p d q s) (step_ok_store depth p _ q _ ?_)
    rfl
  · exact step_ok_seed_injected depth p d q s

/-- The bookkeeping of `lrng_drng_inject` on the instance it seeds. -/
theorem inject_fields (depth p : Nat) (inbuf : List Nat) (s : lrng_state)
    (hp : p < s.drngs.length) :
    (((deref s p).crypto_cb.lrng_drng_seed_helper (gen_of s (deref s p).drng) inbuf).1 < 0 →
      (deref (lrng_drng_inject depth p inbuf s) p).requests = 1 ∧
      (deref (lrng_drng_inject depth p inbuf s) p).last_seeded = (deref s p).last_seeded ∧
      (deref (lrng_drng_inject depth p inbuf s) p).force_reseed = (deref s p).force_reseed) ∧
    (¬ ((deref s p).crypto_cb.lrng_drng_seed_helper (gen_of s (deref s p).drng) inbuf).1 < 0 →
      (deref (lrng_drng_inject depth p inbuf s) p).requests = LRNG_DRNG_RESEED_THRESH ∧
      (deref (lrng_drng_inject depth p inbuf s) p).last_seeded = s.jiffies ∧
      (deref (lrng_drng_inject depth p inbuf s) p).force_reseed = false) := by
  constructor
  · intro hneg
    unfold lrng_drng_inject
    simp only [hneg, if_true]
    rw [deref_store_eq _ _ _ (by simpa using hp)]
    exact ⟨rfl, rfl, rfl⟩
  · intro hok
    unfold lrng_drng_inject
    simp only [hok, if_false]
    split
    · rw [deref_store]
      split
      · exact ⟨rfl, rfl, rfl⟩
      · rw [deref_store_eq _ _ _ (by simpa using hp)]
        exact ⟨rfl, rfl, rfl⟩
    · rw [deref_store_eq _ _ _ (by simpa using hp)]
      exact ⟨rfl, rfl, rfl⟩

/-- After `_lrng_drng_seed` with a seed primitive that did not fail the instance is
freshly seeded. -/
theorem seed_fresh (d p : Nat) (s : lrng_state) (hp : p < s.drngs.length)
    (hok : ∀ g b, 0 ≤ ((deref s p).crypto_cb.lrng_drng_seed_helper g b).1) :
    (deref (_lrng_drng_seed d p s).2 p).requests = LRNG_DRNG_RESEED_THRESH ∧
    (deref (_lrng_drng_seed d p s).2 p).last_seeded = s.jiffies ∧
    (deref (_lrng_drng_seed d p s).2 p).force_reseed = false := by
  have hi : (deref (seed_injected d p s) p).requests = LRNG_DRNG_RESEED_THRESH ∧
      (deref (seed_injected d p s) p).last_seeded = s.jiffies ∧
      (deref (seed_injected d p s) p).force_reseed = false := by
    have h1 := (inject_fields d p (lrng_fill_seed_buffer d s).2.1
      (log (lrng_pool_unlock d (lrng_fill_seed_buffer d s).2.2) d
        (lrng_event.init_ops (u32 (lrng_fill_seed_buffer d s).1))) hp).2
    have h2 : ¬ ((deref s p).crypto_cb.lrng_drng_seed_helper (gen_of s (deref s p).drng)
        (lrng_fill_seed_buffer d s).2.1).1 < 0 := not_lt.mpr (hok _ _)
    exact h1 h2
  rw [seed_state]
  split_ifs
  · rw [deref_store_eq _ _ _ (by rw [seed_injected_length]; exact hp)]
    exact hi
  · exact hi

theorem init_cc20_avail (depth : Nat) (s : lrng_state) (h : s.lrng_avail ≠ 0) :
    lrng_drngs_init_cc20 depth s = s := by
  unfold lrng_drngs_init_cc20 lrng_get_available
  simp [h]

theorem init_cc20_sets_avail (depth : Nat) (s : lrng_state) :
    (lrng_drngs_init_cc20 depth s).lrng_avail ≠ 0 := by
  unfold lrng_drngs_init_cc20 lrng_get_available
  dsimp only
  split_ifs with h
  · simpa using h
  · show (1 : Int) ≠ 0
    decide

theorem step_ok_reset (depth p q : Nat) (s : lrng_state) :
    step_ok depth p s (lrng_drng_reset q s) := by
  unfold lrng_drng_reset
  refine step_ok_store depth p s q _ ?_
  rfl

theorem step_ok_init_cc20 (depth p d : Nat) (s : lrng_state) :
    step_ok depth p s (lrng_drngs_init_cc20 d s) := by
  by_cases h : s.lrng_avail ≠ 0
  · rw [init_cc20_avail d s h]
    exact step_ok_refl depth p s
  · have key : lrng_drngs_init_cc20 d s =
        lrng_set_available (lrng_drng_reset LRNG_DRNG_ATOMIC
          (log (log (set_gen (lrng_drng_reset LRNG_DRNG_INIT s) CHACHA20
            ((lrng_drng_reset LRNG_DRNG_INIT s).cc20_init
              (gen_of (lrng_drng_reset LRNG_DRNG_INIT s) CHACHA20)))
            d lrng_event.cc20_init_state) d lrng_event.state_init_seed_work)) := by
      unfold lrng_drngs_init_cc20 lrng_get_available
      simp only [ne_eq, not_not] at h
      simp [h]
    rw [key]
    have h1 := step_ok_reset depth p LRNG_DRNG_INIT s
    have h2 := step_ok_set_gen depth p (lrng_drng_reset LRNG_DRNG_INIT s) CHACHA20
      ((lrng_drng_reset LRNG_DRNG_INIT s).cc20_init
        (gen_of (lrng_drng_reset LRNG_DRNG_INIT s) CHACHA20))
    have h3 := step_ok_log depth p _ d lrng_event.cc20_init_state rfl |> step_ok_trans h2
    have h4 := step_ok_log depth p _ d lrng_event.state_init_seed_work rfl |> step_ok_trans h3
    have h5 := step_ok_trans (step_ok_trans h1 h4) (step_ok_reset depth p LRNG_DRNG_ATOMIC _)
    exact ⟨h5.1, h5.2.1, h5.2.2.1, h5.2.2.2.1, h5.2.2.2.2.1, fun _ => by
      show (1 : Int) ≠ 0
      decide, h5.2.2.2.2.2.2⟩

theorem time_after_fresh (j : Nat) (d : Int) (h0 : 0 ≤ d) (h1 : d < 2 ^ 31) :
    time_after j (ulong_add j (int_wrap d)) = false := by
  unfold time_after ulong_add int_wrap
  rw [decide_eq_false_iff_not]
  norm_num at h1 ⊢
  omega

theorem store_HZ (s : lrng_state) (p : Nat) (d : lrng_drng) : (store s p d).HZ = s.HZ := rfl

theorem store_max_time (s : lrng_state) (p : Nat) (d : lrng_drng) :
    (store s p d).lrng_drng_reseed_max_time = s.lrng_drng_reseed_max_time := rfl

theorem get_reseed_no_trigger (seed : lrng_state → Option lrng_state) (depth p : Nat)
    (t : lrng_state) (h1 : int_wrap ((deref t p).requests - 1) ≠ 0)
    (h2 : (deref t p).force_reseed = false)
    (h3 : time_after t.jiffies (ulong_add (deref t p).last_seeded
      (int_wrap (t.lrng_drng_reseed_max_time * t.HZ))) = false) :
    lrng_drng_get_reseed seed depth p t =
      some (store t p { deref t p with requests := int_wrap ((deref t p).requests - 1) }) := by
  unfold lrng_drng_get_reseed
  dsimp only
  rw [store_jiffies, store_HZ, store_max_time, h3, h2]
  simp [h1]

theorem get_reseed_returns (seed : lrng_state → Option lrng_state) (depth p : Nat)
    (hseed : ∀ u, get_ready p u → u.lrng_avail ≠ 0 →
      ∃ u', seed u = some u' ∧ step_ok depth p u u')
    (t : lrng_state) (hr : get_ready p t) (hav : t.lrng_avail ≠ 0) :
    ∃ t', lrng_drng_get_reseed seed depth p t = some t' ∧ step_ok depth p t t' := by
  have h1 : step_ok depth p t (store t p { deref t p with
      requests := int_wrap ((deref t p).requests - 1) }) := by
    refine step_ok_store depth p t p _ ?_
    rfl
  unfold lrng_drng_get_reseed
  dsimp only
  split_ifs with htrig hp hlock
  · refine ⟨_, rfl, step_ok_trans (step_ok_trans h1 (step_ok_trylock depth p depth _)) ?_⟩
    refine step_ok_store depth p _ p _ ?_
    rfl
  · have h2 := step_ok_trans h1 (step_ok_trylock depth p depth _)
    obtain ⟨u', hu, hs⟩ := hseed _ (get_ready_of_step h2 hr) (h2.2.2.2.2.2.1 hav)
    exact ⟨u', hu, step_ok_trans h2 hs⟩
  · exact ⟨_, rfl, h1⟩
  · exact ⟨_, rfl, h1⟩

theorem get_generate_ready (depth p todo pr : Nat) (outbuf : List Nat) (t : lrng_state)
    (hr : get_ready p t) :
    (lrng_drng_get_generate depth p todo pr outbuf t).1 = (todo : Int) ∧
    get_ready p (lrng_drng_get_generate depth p todo pr outbuf t).2.2 ∧
    (lrng_drng_get_generate depth p todo pr outbuf t).2.2.lrng_avail = t.lrng_avail ∧
    (lrng_drng_get_generate depth p todo pr outbuf t).2.2.trace =
      t.trace ++ [(depth, lrng_event.generate_helper p (deref t p).drng todo (todo : Int))] := by
  have hg := hr.2.1 (gen_of t (deref t p).drng) todo
  unfold lrng_drng_get_generate
  dsimp only
  refine ⟨hg, hr, rfl, ?_⟩
  rw [hg]
  rfl

theorem own_generate_single (depth p g todo : Nat) (ret : Int) :
    own_generate depth p [(depth, lrng_event.generate_helper p g todo ret)] = [todo] := by
  simp [own_generate]

theorem own_generate_deeper (depth p g todo : Nat) (ret : Int) :
    own_generate depth p [(depth + 1, lrng_event.generate_helper p g todo ret)] = [] := by
  simp [own_generate]

theorem get_loop_chunks (seed : lrng_state → Option lrng_state) (depth p : Nat)
    (hseed : ∀ u, get_ready p u → u.lrng_avail ≠ 0 →
      ∃ u', seed u = some u' ∧ step_ok depth p u u') :
    ∀ (fuel : Nat) (t : lrng_state) (outbuf : List Nat) (n pr : Nat),
      get_ready p t → t.lrng_avail ≠ 0 → pr + n < 2 ^ 31 → (n + 4095) / 4096 + 1 ≤ fuel →
      ∃ r, lrng_drng_get_loop seed depth p fuel t outbuf n pr = some r ∧
        r.1 = ((pr + n : Nat) : Int) ∧ get_ready p r.2.2 ∧ r.2.2.lrng_avail ≠ 0 ∧
        ∃ ev, r.2.2.trace = t.trace ++ ev ∧ own_generate depth p ev = chunks n := by
  intro fuel
  induction fuel with
  | zero => intro t outbuf n pr _ _ _ hf; omega
  | succ fuel ih =>
    intro t outbuf n pr hr hav hlt hf
    rw [get_loop_succ]
    by_cases h0 : n = 0
    · rw [if_pos h0]
      refine ⟨_, rfl, ?_, hr, hav, [], (List.append_nil _).symm, ?_⟩
      · show int_wrap (pr : Int) = _
        rw [h0, Nat.add_zero]
        exact int_wrap_natCast pr (by omega)
      · rw [h0]; rfl
    · rw [if_neg h0]
      obtain ⟨t', hb, hs⟩ := get_reseed_returns seed depth p hseed t hr hav
      rw [hb]
      dsimp only
      have hr' := get_ready_of_step hs hr
      have hav' := hs.2.2.2.2.2.1 hav
      obtain ⟨hg1, hg2, hg3, hg4⟩ :=
        get_generate_ready depth p (min n LRNG_DRNG_MAX_REQSIZE) pr outbuf t' hr'
      have hmin : min n LRNG_DRNG_MAX_REQSIZE = min n 4096 := rfl
      have htodo : 0 < min n 4096 := by omega
      rw [hg1, if_neg (by rw [hmin]; omega)]
      have e1 : (((n : Int) - ((min n LRNG_DRNG_MAX_REQSIZE : Nat) : Int)) % 2 ^ 32).toNat =
          n - min n 4096 := by
        rw [hmin]
        norm_num at hlt ⊢
        omega
      have e2 : (((pr : Int) + ((min n LRNG_DRNG_MAX_REQSIZE : Nat) : Int)) % 2 ^ 32).toNat =
          pr + min n 4096 := by
        rw [hmin]
        norm_num at hlt ⊢
        omega
      rw [e1, e2]
      obtain ⟨r, hl, hret, hrr, hra, ev, hev, hown⟩ := ih
        (lrng_drng_get_generate depth p (min n LRNG_DRNG_MAX_REQSIZE) pr outbuf t').2.2
        (lrng_drng_get_generate depth p (min n LRNG_DRNG_MAX_REQSIZE) pr outbuf t').2.1
        (n - min n 4096) (pr + min n 4096) hg2 (by rw [hg3]; exact hav')
        (by norm_num at hlt ⊢; omega) (by omega)
      refine ⟨r, hl, ?_, hrr, hra, ?_⟩
      · rw [hret]
        congr 1
        omega
      · obtain ⟨ev0, hev0, hown0⟩ := hs.2.2.2.2.2.2
        refine ⟨ev0 ++ [(depth, lrng_event.generate_helper p (deref t' p).drng
          (min n LRNG_DRNG_MAX_REQSIZE) ((min n LRNG_DRNG_MAX_REQSIZE : Nat) : Int))] ++ ev, ?_, ?_⟩
        · rw [hev, hg4, hev0, List.append_assoc, List.append_assoc, List.append_assoc]
        · rw [own_generate_append, own_generate_append, hown0, own_generate_single, hown,
            chunks_pos n (Nat.pos_of_ne_zero h0)]
          rfl

/-- A request of at most one chunk on a freshly seeded instance: no reseed is
triggered and the primitive is called once, one level deeper. -/
theorem get_with_fresh (seed : lrng_state → Option lrng_state) (depth p f : Nat)
    (u : lrng_state) (buf : List Nat) (n : Nat) (hf : 2 ≤ f) (hn0 : 0 < n)
    (hn : n ≤ 4096) (hr : get_ready p u) (hav : u.lrng_avail ≠ 0)
    (h1 : (deref u p).requests = LRNG_DRNG_RESEED_THRESH)
    (h2 : (deref u p).last_seeded = u.jiffies)
    (h3 : (deref u p).force_reseed = false) :
    ∃ r, lrng_drng_get_with seed (depth + 1) p f u (some buf) n = some r ∧
      r.1 = (n : Int) ∧ step_ok depth p u r.2.2 := by
  obtain ⟨f', rfl⟩ : ∃ f', f = f' + 1 + 1 := ⟨f - 2, by omega⟩
  have hmin : min n INT_MAX = n := by
    unfold INT_MAX
    norm_num
    omega
  have hnt := get_reseed_no_trigger seed (depth + 1) p u
    (by rw [h1]; decide) h3
    (by rw [h2]; exact time_after_fresh _ _ hr.2.2.2.1 hr.2.2.2.2)
  have hs1 : step_ok depth p u (store u p { deref u p with
      requests := int_wrap ((deref u p).requests - 1) }) := by
    refine step_ok_store depth p u p _ ?_
    rfl
  obtain ⟨hg1, _, _, hg4⟩ := get_generate_ready (depth + 1) p (min n LRNG_DRNG_MAX_REQSIZE) 0 buf
    (store u p { deref u p with requests := int_wrap ((deref u p).requests - 1) })
    (get_ready_of_step hs1 hr)
  have hm : min n LRNG_DRNG_MAX_REQSIZE = n := by
    show min n 4096 = n
    omega
  have e1 : (((n : Int) - ((min n LRNG_DRNG_MAX_REQSIZE : Nat) : Int)) % 2 ^ 32).toNat = 0 := by
    rw [hm]
    simp
  have e2 : ((((0 : Nat) : Int) + ((min n LRNG_DRNG_MAX_REQSIZE : Nat) : Int)) % 2 ^ 32).toNat
      = n := by
    rw [hm]
    norm_num
    omega
  unfold lrng_drng_get_with
  dsimp only
  rw [if_neg (by omega), hmin, init_cc20_avail _ _ hav, get_loop_succ, if_neg (by omega), hnt]
  dsimp only
  rw [hg1, if_neg (by rw [hm]; omega), e1, e2, get_loop_succ, if_pos rfl]
  refine ⟨_, rfl, int_wrap_natCast n (by norm_num; omega), ?_⟩
  refine step_ok_trans hs1 ?_
  refine ⟨rfl, rfl, rfl, rfl, rfl, fun h => h, ?_⟩
  exact ⟨_, hg4, own_generate_deeper depth p _ _ _⟩

theorem seed_returns (F depth p : Nat) (hF : 3 ≤ F) (t : lrng_state) (hr : get_ready p t)
    (hav : t.lrng_avail ≠ 0) :
    ∃ t', lrng_drng_seed F depth p t = some t' ∧ step_ok depth p t t' := by
  obtain ⟨f, rfl⟩ : ∃ f, F = f + 1 := ⟨F - 1, by omega⟩
  have hs1 := step_ok_seed depth p depth p t
  have hfresh := seed_fresh depth p t hr.1 hr.2.2.1
  rw [seed_succ]
  split_ifs with hc
  · obtain ⟨r, hg, hret, hs2⟩ := get_with_fresh (lrng_drng_seed f (depth + 1) p) depth p f
      (_lrng_drng_seed depth p t).2 (List.replicate LRNG_DRNG_SECURITY_STRENGTH_BYTES 0)
      LRNG_DRNG_SECURITY_STRENGTH_BYTES (by omega) (by decide) (by decide)
      (get_ready_of_step hs1 hr) (hs1.2.2.2.2.2.1 hav) hfresh.1
      (by rw [hfresh.2.1, hs1.2.2.2.2.1]) hfresh.2.2
    rw [hg]
    dsimp only
    rw [if_neg (by rw [hret]; decide)]
    exact ⟨_, rfl, step_ok_trans (step_ok_trans hs1 hs2) (step_ok_inject depth p _ _ _ _)⟩
  · exact ⟨_, rfl, hs1⟩

theorem force_reseed_nodes_fully_seeded (tbl : List (Option Nat)) (nodes : List Nat)
    (s : lrng_state) (q : Nat) :
    (deref (lrng_drng_force_reseed_nodes tbl nodes s) q).fully_seeded =
      (deref s q).fully_seeded := by
  induction nodes generalizing s with
  | nil => rfl
  | cons n ns ih =>
    unfold lrng_drng_force_reseed_nodes
    split
    · exact ih s
    · rw [ih]
      refine store_fully_seeded _ _ _ _ ?_
      rfl

theorem force_reseed_fully_seeded (s : lrng_state) (q : Nat) :
    (deref (lrng_drng_force_reseed s) q).fully_seeded = (deref s q).fully_seeded := by
  unfold lrng_drng_force_reseed
  split
  · refine store_fully_seeded _ _ _ _ ?_
    rfl
  · dsimp only
    refine (store_fully_seeded _ _ _ _ ?_).trans (force_reseed_nodes_fully_seeded _ _ _ _)
    rfl

theorem fs_le_reset_nodes (tbl : List (Option Nat)) (nodes : List Nat) (s : lrng_state) :
    fs_le s (_lrng_reset_nodes tbl nodes s) := by
  induction nodes generalizing s with
  | nil => exact fs_le_refl s
  | cons n ns ih =>
    unfold _lrng_reset_nodes
    split
    · exact ih s
    · exact fs_le_trans (fs_le_reset _ s) (ih _)

theorem fs_le_lrng_reset (s : lrng_state) : fs_le s (_lrng_reset s) := by
  unfold _lrng_reset
  dsimp only
  refine fs_le_trans ?_ (fs_le_trans (fs_le_log _ _ _) (fs_le_log _ _ _))
  split
  · exact fs_le_reset _ s
  · exact fs_le_reset_nodes _ _ s

theorem fs_le_seed_work_one (fuel p node : Nat) (s t : lrng_state) (hw : weak_seeds s)
    (h : _lrng_drng_seed_work fuel p node s = some t) : fs_le s t := by
  unfold _lrng_drng_seed_work at h
  cases hs : lrng_drng_seed fuel 0 p s with
  | none => rw [hs] at h; exact absurd h (by simp)
  | some u =>
    rw [hs] at h
    dsimp only at h
    have h1 := seed_fs_le fuel 0 p s u hw hs
    split_ifs at h
    · rw [← Option.some.inj h]
      refine fs_le_trans h1 ?_
      have h2 : fs_le u (store u p { deref u p with
          last_seeded := ulong_add (deref u p).last_seeded
            (((((node * 100 : Nat) : Int) * u.HZ) % 2 ^ 32 : Int)) }) :=
        fs_le_store _ _ _ (fun x => x)
      exact ⟨h2.1, h2.2.1, fun q hq => h2.2.2 q hq⟩
    · rw [← Option.some.inj h]
      exact h1

theorem fs_le_unlock (depth : Nat) (s : lrng_state) : fs_le s (lrng_pool_unlock depth s) :=
  ⟨rfl, rfl, fun _ h => h⟩

theorem fs_le_seed_work (fuel : Nat) (s t : lrng_state) (hw : weak_seeds s)
    (h : lrng_drng_seed_work fuel s = some t) : fs_le s t := by
  unfold lrng_drng_seed_work at h
  dsimp only at h
  split at h
  · exact absurd h (by simp)
  · rename_i u hu
    rw [← Option.some.inj h]
    refine fs_le_trans ?_ (fs_le_unlock 0 u)
    split at hu
    · split at hu
      · exact fs_le_seed_work_one fuel _ _ s u hw hu
      · rw [← Option.some.inj hu]
        exact fs_le_log _ _ _
    · split_ifs at hu
      · exact fs_le_seed_work_one fuel _ _ s u hw hu
      · rw [← Option.some.inj hu]
        exact fs_le_refl s

/-! ### The counters the per-CPU loop leaves behind -/

theorem hash_one_online (instances : Option (List (Option lrng_drng))) (k : Nat)
    (drng : lrng_drng) (c : lrng_pcpu) (digest : List Nat) :
    lrng_pcpu_pool_online (lrng_pcpu_pool_hash_one instances k drng c digest).2.1 =
      lrng_pcpu_pool_online c := by
  unfold lrng_pcpu_pool_hash_one lrng_pcpu_pool_online
  dsimp only
  split_ifs <;> rfl

theorem hash_loop_left (instances : Option (List (Option lrng_drng))) (k : Nat)
    (drng : lrng_drng) (T : Nat)
    (hupd : ∀ d x, (drng.crypto_cb.lrng_hash_update d x).1 = 0) (cpus : List lrng_pcpu) :
    (∀ c ∈ cpus, hash_ok (pcpu_drng_of instances drng c.node).crypto_cb) →
    ∀ st : pcpu_loop_state, st.collected_irqs ≤ T →
      st.collected_irqs + avail_irqs instances k drng cpus < 2 ^ 32 →
      online_irqs (lrng_pcpu_pool_hash_loop instances k drng T cpus st).2.2 =
          st.collected_irqs + avail_irqs instances k drng cpus -
            min T (st.collected_irqs + avail_irqs instances k drng cpus) ∧
        List.Forall₂ (fun c c' =>
          lrng_pcpu_pool_online c' = lrng_pcpu_pool_online c ∧
          (lrng_pcpu_pool_online c = true → c'.lrng_pcpu_array_irqs ≤
            min (u32 c.lrng_pcpu_array_irqs) (pcpu_cap instances k drng c)))
          cpus (lrng_pcpu_pool_hash_loop instances k drng T cpus st).2.2 := by
  induction cpus with
  | nil =>
    intro _ st hle _
    refine ⟨?_, List.Forall₂.nil⟩
    show 0 = st.collected_irqs + 0 - min T (st.collected_irqs + 0)
    rw [Nat.add_zero, Nat.min_eq_right hle, Nat.sub_self]
  | cons c cs ih =>
    intro hok st hle hlt
    have hokc := hok c (List.mem_cons_self _ _)
    have ih' := ih (fun c' hc' => hok c' (List.mem_cons_of_mem _ hc'))
    have hav : avail_irqs instances k drng (c :: cs) =
      (if lrng_pcpu_pool_online c then
        min (u32 c.lrng_pcpu_array_irqs) (pcpu_cap instances k drng c) else 0) +
        avail_irqs instances k drng cs := rfl
    rw [hav] at hlt ⊢
    unfold lrng_pcpu_pool_hash_loop
    dsimp only
    by_cases hon : lrng_pcpu_pool_online c = true
    · simp only [hon, Bool.not_true, Bool.false_eq_true, if_false, if_true, hupd, ne_eq,
        not_true_eq_false] at hlt ⊢
      have hon1 := hash_one_online instances k drng c st.digest
      have hz := hash_one_irqs instances k drng c st.digest
      rw [hash_one_found instances k drng c st.digest hokc]
      generalize hf : min (u32 c.lrng_pcpu_array_irqs) (pcpu_cap instances k drng c) = f
        at hlt ⊢
      have hadd : u32_add st.collected_irqs f = st.collected_irqs + f := by
        unfold u32_add U32_MOD
        apply Nat.mod_eq_of_lt
        norm_num at hlt ⊢
        omega
      rw [hadd]
      split_ifs with hgt
      · obtain ⟨h1, h2⟩ := ih' ⟨(drng.crypto_cb.lrng_hash_update st.shash
            (lrng_pcpu_pool_hash_one instances k drng c st.digest).2.2).2,
            (lrng_pcpu_pool_hash_one instances k drng c st.digest).2.2, T⟩ (le_refl T) (by dsimp only; norm_num at hlt ⊢; omega)
        have hsub : u32_sub (st.collected_irqs + f) T = st.collected_irqs + f - T := by
          unfold u32_sub U32_MOD
          have e : ((st.collected_irqs + f) % 2 ^ 32 + 2 ^ 32 - T % 2 ^ 32) % 2 ^ 32 =
              st.collected_irqs + f - T := by
            have hT : T < 2 ^ 32 := by norm_num at hlt ⊢; omega
            have hS : st.collected_irqs + f < 2 ^ 32 := by norm_num at hlt ⊢; omega
            rw [Nat.mod_eq_of_lt hT, Nat.mod_eq_of_lt hS]
            have : st.collected_irqs + f + 2 ^ 32 - T = (st.collected_irqs + f - T) + 2 ^ 32 := by
              omega
            rw [this, Nat.add_mod_right]
            apply Nat.mod_eq_of_lt
            norm_num at hlt ⊢
            omega
          exact e
        have hc2 : u32_add (lrng_pcpu_pool_hash_one instances k drng c st.digest).2.1.lrng_pcpu_array_irqs
            (u32_sub (st.collected_irqs + f) T) = st.collected_irqs + f - T := by
          rw [hz, hsub]
          unfold u32_add U32_MOD
          rw [Nat.zero_add]
          apply Nat.mod_eq_of_lt
          norm_num at hlt ⊢
          omega
        refine ⟨?_, List.Forall₂.cons ⟨?_, ?_⟩ h2⟩
        · show (if lrng_pcpu_pool_online _ then _ else 0) + online_irqs _ = _
          rw [h1]
          dsimp only
          have : lrng_pcpu_pool_online { (lrng_pcpu_pool_hash_one instances k drng c st.digest).2.1 with
              lrng_pcpu_array_irqs := u32_add
                (lrng_pcpu_pool_hash_one instances k drng c st.digest).2.1.lrng_pcpu_array_irqs
                (u32_sub (st.collected_irqs + f) T) } = true := by
            rw [← hon, ← hon1]; rfl
          rw [this, if_pos rfl, hc2]
          omega
        · rw [← hon1]; rfl
        · intro _
          show u32_add _ _ ≤ min (u32 c.lrng_pcpu_array_irqs) (pcpu_cap instances k drng c)
          rw [hf, hc2]
          omega
      · obtain ⟨h1, h2⟩ := ih' ⟨(drng.crypto_cb.lrng_hash_update st.shash
            (lrng_pcpu_pool_hash_one instances k drng c st.digest).2.2).2,
            (lrng_pcpu_pool_hash_one instances k drng c st.digest).2.2, st.collected_irqs + f⟩ (by dsimp only; omega)
            (by dsimp only; norm_num at hlt ⊢; omega)
        refine ⟨?_, List.Forall₂.cons ⟨hon1, ?_⟩ h2⟩
        · show (if lrng_pcpu_pool_online _ then _ else 0) + online_irqs _ = _
          rw [h1, hon1, hon, if_pos rfl, hz]
          dsimp only
          rw [Nat.zero_add, Nat.add_assoc]
        · intro _
          rw [hz]
          exact Nat.zero_le _
    · simp only [hon, Bool.not_false, if_true, Bool.false_eq_true, if_false, Nat.zero_add]
        at hlt ⊢
      obtain ⟨h1, h2⟩ := ih' st hle hlt
      refine ⟨?_, List.Forall₂.cons ⟨rfl, fun h => absurd h hon⟩ h2⟩
      show (if lrng_pcpu_pool_online c then _ else 0) + online_irqs _ = _
      rw [if_neg hon, Nat.zero_add]
      exact h1

/-! ### `lrng_drng_reset` and `_lrng_reset` -/

theorem reset_was_reset (p : Nat) (s : lrng_state) (hp : p < s.drngs.length) :
    was_reset s.jiffies (deref (lrng_drng_reset p s) p) := by
  unfold lrng_drng_reset
  rw [deref_store_eq _ _ _ hp]
  exact ⟨rfl, rfl, rfl, rfl⟩

theorem reset_other (p q : Nat) (s : lrng_state) (h : p ≠ q) :
    deref (lrng_drng_reset p s) q = deref s q :=
  deref_store_ne _ _ _ _ h

theorem reset_length (p : Nat) (s : lrng_state) :
    (lrng_drng_reset p s).drngs.length = s.drngs.length :=
  store_length _ _ _

theorem reset_keeps (p q : Nat) (s : lrng_state) (h : was_reset s.jiffies (deref s q)) :
    was_reset s.jiffies (deref (lrng_drng_reset p s) q) := by
  unfold lrng_drng_reset
  rw [deref_store]
  split
  · exact ⟨rfl, rfl, rfl, rfl⟩
  · exact h

theorem reset_nodes_length (tbl : List (Option Nat)) (nodes : List Nat) (s : lrng_state) :
    (_lrng_reset_nodes tbl nodes s).drngs.length = s.drngs.length := by
  induction nodes generalizing s with
  | nil => rfl
  | cons n ns ih =>
    unfold _lrng_reset_nodes
    split
    · exact ih s
    · rw [ih, reset_length]

theorem reset_nodes_keeps (tbl : List (Option Nat)) (nodes : List Nat) (s : lrng_state)
    (q : Nat) (h : was_reset s.jiffies (deref s q)) :
    was_reset s.jiffies (deref (_lrng_reset_nodes tbl nodes s) q) := by
  induction nodes generalizing s with
  | nil => exact h
  | cons n ns ih =>
    unfold _lrng_reset_nodes
    split
    · exact ih s h
    · exact ih _ (reset_keeps _ q s h)

theorem reset_nodes_sets (tbl : List (Option Nat)) (nodes : List Nat) (s : lrng_state)
    (node q : Nat) (hn : node ∈ nodes) (he : node_entry tbl node = some q)
    (hq : q < s.drngs.length) :
    was_reset s.jiffies (deref (_lrng_reset_nodes tbl nodes s) q) := by
  induction nodes generalizing s with
  | nil => cases hn
  | cons n ns ih =>
    unfold _lrng_reset_nodes
    rcases List.mem_cons.mp hn with h | h
    · subst h
      rw [he]
      exact reset_nodes_keeps tbl ns _ q (reset_was_reset q s hq)
    · split
      · exact ih s h hq
      · exact ih _ h (by rw [reset_length]; exact hq)

theorem reset_nodes_other (tbl : List (Option Nat)) (nodes : List Nat) (s : lrng_state)
    (q : Nat) (h : ∀ node ∈ nodes, node_entry tbl node ≠ some q) :
    deref (_lrng_reset_nodes tbl nodes s) q = deref s q := by
  induction nodes generalizing s with
  | nil => rfl
  | cons n ns ih =>
    have hn := h n (List.mem_cons_self _ _)
    have ih' := fun s => ih s (fun node hm => h node (List.mem_cons_of_mem _ hm))
    unfold _lrng_reset_nodes
    split
    · exact ih' s
    · rename_i p hp
      rw [ih', reset_other]
      intro e
      exact hn (by rw [hp, e])

/-! ### The reseed block of `lrng_drng_get` -/

theorem get_reseed_not_due (seed : lrng_state → Option lrng_state) (depth p : Nat)
    (s : lrng_state) (h : reseed_due p s = false) :
    lrng_drng_get_reseed seed depth p s = some (requests_dec p s) := by
  have key : lrng_drng_get_reseed seed depth p s =
      if reseed_due p s = true then
        (if p ≠ LRNG_DRNG_ATOMIC then
          (if (lrng_pool_trylock depth (requests_dec p s)).1 ≠ 0 then
            some (store (lrng_pool_trylock depth (requests_dec p s)).2 p
              { deref (lrng_pool_trylock depth (requests_dec p s)).2 p with requests := 1 })
          else seed (lrng_pool_trylock depth (requests_dec p s)).2)
        else some (requests_dec p s))
      else some (requests_dec p s) := rfl
  rw [key, if_neg (by rw [h]; decide)]

theorem get_reseed_atomic (seed : lrng_state → Option lrng_state) (depth : Nat)
    (s : lrng_state) :
    lrng_drng_get_reseed seed depth LRNG_DRNG_ATOMIC s =
      some (requests_dec LRNG_DRNG_ATOMIC s) := by
  have key : lrng_drng_get_reseed seed depth LRNG_DRNG_ATOMIC s =
      if reseed_due LRNG_DRNG_ATOMIC s = true then
        (if LRNG_DRNG_ATOMIC ≠ LRNG_DRNG_ATOMIC then
          (if (lrng_pool_trylock depth (requests_dec LRNG_DRNG_ATOMIC s)).1 ≠ 0 then
            some (store (lrng_pool_trylock depth (requests_dec LRNG_DRNG_ATOMIC s)).2
              LRNG_DRNG_ATOMIC
              { deref (lrng_pool_trylock depth (requests_dec LRNG_DRNG_ATOMIC s)).2
                  LRNG_DRNG_ATOMIC with requests := 1 })
          else seed (lrng_pool_trylock depth (requests_dec LRNG_DRNG_ATOMIC s)).2)
        else some (requests_dec LRNG_DRNG_ATOMIC s))
      else some (requests_dec LRNG_DRNG_ATOMIC s) := rfl
  rw [key]
  by_cases h : reseed_due LRNG_DRNG_ATOMIC s = true
  · rw [if_pos h, if_neg (fun h => h rfl)]
  · rw [if_neg h]

theorem get_reseed_due_busy (seed : lrng_state → Option lrng_state) (depth p : Nat)
    (s : lrng_state) (hp : p ≠ LRNG_DRNG_ATOMIC) (hg : s.reseed_in_progress ≠ 0)
    (h : reseed_due p s = true) :
    lrng_drng_get_reseed seed depth p s =
      some (store (log (requests_dec p s) depth (lrng_event.pool_trylock s.reseed_in_progress))
        p { deref (requests_dec p s) p with requests := 1 }) := by
  have key : lrng_drng_get_reseed seed depth p s =
      if reseed_due p s = true then
        (if p ≠ LRNG_DRNG_ATOMIC then
          (if (lrng_pool_trylock depth (requests_dec p s)).1 ≠ 0 then
            some (store (lrng_pool_trylock depth (requests_dec p s)).2 p
              { deref (lrng_pool_trylock depth (requests_dec p s)).2 p with requests := 1 })
          else seed (lrng_pool_trylock depth (requests_dec p s)).2)
        else some (requests_dec p s))
      else some (requests_dec p s) := rfl
  have h1 : (lrng_pool_trylock depth (requests_dec p s)).1 = s.reseed_in_progress := rfl
  have h2 : (lrng_pool_trylock depth (requests_dec p s)).2 =
      log (requests_dec p s) depth (lrng_event.pool_trylock s.reseed_in_progress) := by
    unfold lrng_pool_trylock
    dsimp only
    rw [if_neg (show ¬ (requests_dec p s).reseed_in_progress = 0 from hg)]
    rfl
  rw [key, if_pos h, if_pos hp, if_pos (by rw [h1]; exact hg), h2]
  rfl

theorem get_reseed_due_free (seed : lrng_state → Option lrng_state) (depth p : Nat)
    (s : lrng_state) (hp : p ≠ LRNG_DRNG_ATOMIC) (hg : s.reseed_in_progress = 0)
    (h : reseed_due p s = true) :
    lrng_drng_get_reseed seed depth p s =
      seed (log { requests_dec p s with reseed_in_progress := 1 } depth
        (lrng_event.pool_trylock 0)) := by
  have key : lrng_drng_get_reseed seed depth p s =
      if reseed_due p s = true then
        (if p ≠ LRNG_DRNG_ATOMIC then
          (if (lrng_pool_trylock depth (requests_dec p s)).1 ≠ 0 then
            some (store (lrng_pool_trylock depth (requests_dec p s)).2 p
              { deref (lrng_pool_trylock depth (requests_dec p s)).2 p with requests := 1 })
          else seed (lrng_pool_trylock depth (requests_dec p s)).2)
        else some (requests_dec p s))
      else some (requests_dec p s) := rfl
  have h1 : (lrng_pool_trylock depth (requests_dec p s)).1 = 0 := hg
  have h2 : (lrng_pool_trylock depth (requests_dec p s)).2 =
      log { requests_dec p s with reseed_in_progress := 1 } depth
        (lrng_event.pool_trylock 0) := by
    unfold lrng_pool_trylock
    dsimp only
    rw [if_pos (show (requests_dec p s).reseed_in_progress = 0 from hg)]
    have : (requests_dec p s).reseed_in_progress = 0 := hg
    rw [this]
  rw [key, if_pos h, if_pos hp, if_neg (by rw [h1]; exact fun h => h rfl), h2]

theorem generate_trace (depth p todo pr : Nat) (outbuf : List Nat) (t : lrng_state) :
    (lrng_drng_get_generate depth p todo pr outbuf t).2.2.trace =
      t.trace ++ [(depth, lrng_event.generate_helper p (deref t p).drng todo
        (lrng_drng_get_generate depth p todo pr outbuf t).1)] := rfl

/-- The loop of `lrng_drng_get` under an invariant that the reseed block and the
generate call keep, with a generate primitive that returns what it is asked for. -/
theorem get_loop_inv (seed : lrng_state → Option lrng_state) (depth p : Nat)
    (R : lrng_state → Prop)
    (hblock : ∀ u, R u → ∃ u', lrng_drng_get_reseed seed depth p u = some u' ∧ R u' ∧
      quiet depth p u u')
    (hgen : ∀ u todo pr buf, R u →
      (lrng_drng_get_generate depth p todo pr buf u).1 = (todo : Int) ∧
      R (lrng_drng_get_generate depth p todo pr buf u).2.2) :
    ∀ (fuel : Nat) (t : lrng_state) (outbuf : List Nat) (n pr : Nat),
      R t → pr + n < 2 ^ 31 → (n + 4095) / 4096 + 1 ≤ fuel →
      ∃ r, lrng_drng_get_loop seed depth p fuel t outbuf n pr = some r ∧
        r.1 = ((pr + n : Nat) : Int) ∧ R r.2.2 ∧
        ∃ ev, r.2.2.trace = t.trace ++ ev ∧ own_generate depth p ev = chunks n := by
  intro fuel
  induction fuel with
  | zero => intro t outbuf n pr _ _ hf; omega
  | succ fuel ih =>
    intro t outbuf n pr hr hlt hf
    rw [get_loop_succ]
    by_cases h0 : n = 0
    · rw [if_pos h0]
      refine ⟨_, rfl, ?_, hr, [], (List.append_nil _).symm, ?_⟩
      · show int_wrap (pr : Int) = _
        rw [h0, Nat.add_zero]
        exact int_wrap_natCast pr (by omega)
      · rw [h0]; rfl
    · rw [if_neg h0]
      obtain ⟨t', hb, hr', ev0, hev0, hown0⟩ := hblock t hr
      rw [hb]
      dsimp only
      obtain ⟨hg1, hg2⟩ := hgen t' (min n LRNG_DRNG_MAX_REQSIZE) pr outbuf hr'
      have hg4 := generate_trace depth p (min n LRNG_DRNG_MAX_REQSIZE) pr outbuf t'
      have hmin : min n LRNG_DRNG_MAX_REQSIZE = min n 4096 := rfl
      have htodo : 0 < min n 4096 := by omega
      rw [hg1] at hg4 ⊢
      rw [if_neg (by rw [hmin]; omega)]
      have e1 : (((n : Int) - ((min n LRNG_DRNG_MAX_REQSIZE : Nat) : Int)) % 2 ^ 32).toNat =
          n - min n 4096 := by
        rw [hmin]
        norm_num at hlt ⊢
        omega
      have e2 : (((pr : Int) + ((min n LRNG_DRNG_MAX_REQSIZE : Nat) : Int)) % 2 ^ 32).toNat =
          pr + min n 4096 := by
        rw [hmin]
        norm_num at hlt ⊢
        omega
      rw [e1, e2]
      obtain ⟨r, hl, hret, hrr, ev, hev, hown⟩ := ih
        (lrng_drng_get_generate depth p (min n LRNG_DRNG_MAX_REQSIZE) pr outbuf t').2.2
        (lrng_drng_get_generate depth p (min n LRNG_DRNG_MAX_REQSIZE) pr outbuf t').2.1
        (n - min n 4096) (pr + min n 4096) hg2
        (by norm_num at hlt ⊢; omega) (by omega)
      refine ⟨r, hl, ?_, hrr, ?_⟩
      · rw [hret]
        congr 1
        omega
      · refine ⟨ev0 ++ [(depth, lrng_event.generate_helper p (deref t' p).drng
          (min n LRNG_DRNG_MAX_REQSIZE) ((min n LRNG_DRNG_MAX_REQSIZE : Nat) : Int))] ++ ev, ?_, ?_⟩
        · rw [hev, hg4, hev0, List.append_assoc, List.append_assoc, List.append_assoc]
        · rw [own_generate_append, own_generate_append, hown0, own_generate_single, hown,
            chunks_pos n (Nat.pos_of_ne_zero h0)]
          rfl

theorem init_cc20_gate (depth : Nat) (s : lrng_state) :
    (lrng_drngs_init_cc20 depth s).reseed_in_progress = s.reseed_in_progress := by
  unfold lrng_drngs_init_cc20
  split_ifs <;> rfl

theorem init_cc20_fills (depth : Nat) (s : lrng_state) :
    (lrng_drngs_init_cc20 depth s).fills = s.fills := by
  unfold lrng_drngs_init_cc20
  split_ifs <;> rfl

theorem requests_dec_crypto_cb (p q : Nat) (s : lrng_state) :
    (deref (requests_dec p s) q).crypto_cb = (deref s q).crypto_cb :=
  store_crypto_cb s p q _ rfl

/-- With the reseed gate taken by somebody else the loop of `lrng_drng_get` never
reseeds: every chunk is generated, whatever the reseed operation would do. -/
theorem get_loop_busy (seed : lrng_state → Option lrng_state) (depth p : Nat)
    (hp : p ≠ LRNG_DRNG_ATOMIC) (F : Nat) (G : Int) (hG : G ≠ 0)
    (fuel : Nat) (t : lrng_state) (outbuf : List Nat) (n pr : Nat)
    (hgen : ∀ g n, ((deref t p).crypto_cb.lrng_drng_generate_helper g n).1 = (n : Int))
    (hgate : t.reseed_in_progress = G) (hfill : t.fills = F)
    (hlt : pr + n < 2 ^ 31) (hf : (n + 4095) / 4096 + 1 ≤ fuel) :
    ∃ r, lrng_drng_get_loop seed depth p fuel t outbuf n pr = some r ∧
      r.1 = ((pr + n : Nat) : Int) ∧ r.2.2.reseed_in_progress = G ∧ r.2.2.fills = F ∧
      ∃ ev, r.2.2.trace = t.trace ++ ev ∧ own_generate depth p ev = chunks n := by
  obtain ⟨r, h1, h2, ⟨_, h3, h4⟩, h5⟩ := get_loop_inv seed depth p
    (fun u => (∀ g n, ((deref u p).crypto_cb.lrng_drng_generate_helper g n).1 = (n : Int)) ∧
      u.reseed_in_progress = G ∧ u.fills = F)
    (by
      intro u ⟨hu1, hu2, hu3⟩
      by_cases hd : reseed_due p u = true
      · rw [get_reseed_due_busy seed depth p u hp (by rw [hu2]; exact hG) hd]
        refine ⟨_, rfl, ⟨?_, hu2, hu3⟩, ⟨[(depth, lrng_event.pool_trylock u.reseed_in_progress)],
          rfl, rfl⟩⟩
        have e : (deref (store (log (requests_dec p u) depth
            (lrng_event.pool_trylock u.reseed_in_progress)) p
            { deref (requests_dec p u) p with requests := 1 }) p).crypto_cb =
            (deref u p).crypto_cb := by
          refine (store_crypto_cb _ p p _ ?_).trans ?_
          · rfl
          · exact requests_dec_crypto_cb p p u
        rw [e]
        exact hu1
      · rw [get_reseed_not_due seed depth p u (by simpa using hd)]
        refine ⟨_, rfl, ⟨?_, hu2, hu3⟩, quiet_of_trace rfl⟩
        rw [requests_dec_crypto_cb]
        exact hu1)
    (by
      intro u todo pr buf ⟨hu1, hu2, hu3⟩
      exact ⟨hu1 _ _, hu1, hu2, hu3⟩)
    fuel t outbuf n pr ⟨hgen, hgate, hfill⟩ hlt hf
  exact ⟨r, h1, h2, h3, h4, h5⟩

/-- The loop of `lrng_drng_get` on the atomic instance never reseeds. -/
theorem get_loop_atomic (seed : lrng_state → Option lrng_state) (depth : Nat) (F : Nat)
    (fuel : Nat) (t : lrng_state) (outbuf : List Nat) (n pr : Nat)
    (hgen : ∀ g n, ((deref t LRNG_DRNG_ATOMIC).crypto_cb.lrng_drng_generate_helper g n).1 =
      (n : Int))
    (hfill : t.fills = F) (hlt : pr + n < 2 ^ 31) (hf : (n + 4095) / 4096 + 1 ≤ fuel) :
    ∃ r, lrng_drng_get_loop seed depth LRNG_DRNG_ATOMIC fuel t outbuf n pr = some r ∧
      r.1 = ((pr + n : Nat) : Int) ∧ r.2.2.fills = F ∧
      ∃ ev, r.2.2.trace = t.trace ++ ev ∧ own_generate depth LRNG_DRNG_ATOMIC ev = chunks n := by
  obtain ⟨r, h1, h2, ⟨_, h3⟩, h5⟩ := get_loop_inv seed depth LRNG_DRNG_ATOMIC
    (fun u => (∀ g n, ((deref u LRNG_DRNG_ATOMIC).crypto_cb.lrng_drng_generate_helper g n).1 =
      (n : Int)) ∧ u.fills = F)
    (by
      intro u ⟨hu1, hu3⟩
      rw [get_reseed_atomic]
      refine ⟨_, rfl, ⟨?_, hu3⟩, quiet_of_trace rfl⟩
      rw [requests_dec_crypto_cb]
      exact hu1)
    (by
      intro u todo pr buf ⟨hu1, hu3⟩
      exact ⟨hu1 _ _, hu1, hu3⟩)
    fuel t outbuf n pr ⟨hgen, hfill⟩ hlt hf
  exact ⟨r, h1, h2, h3, h5⟩

/-! ### The calls a reseed makes -/

theorem all_generate_append (a b : List (Nat × lrng_event)) :
    all_generate (a ++ b) = all_generate a ++ all_generate b := by
  induction a with
  | nil => rfl
  | cons e es ih =>
    obtain ⟨d, ev⟩ := e
    cases ev
    case generate_helper inst gen todo ret =>
      show todo :: all_generate (es ++ b) = todo :: (all_generate es ++ all_generate b)
      rw [ih]
    all_goals exact ih

theorem inject_trace (depth p : Nat) (inbuf : List Nat) (s : lrng_state) :
    (lrng_drng_inject depth p inbuf s).trace =
      s.trace ++ [(depth, lrng_event.seed_helper p (deref s p).drng inbuf
        ((deref s p).crypto_cb.lrng_drng_seed_helper (gen_of s (deref s p).drng) inbuf).1)] := by
  unfold lrng_drng_inject
  dsimp only
  split_ifs <;> rfl

theorem seed_injected_trace (depth p : Nat) (s : lrng_state) :
    (seed_injected depth p s).trace =
      s.trace ++ [(depth, lrng_event.fill_seed_buffer (s.seed_source s.fills).1),
        (depth, lrng_event.pool_unlock),
        (depth, lrng_event.init_ops (u32 (s.seed_source s.fills).1)),
        (depth, lrng_event.seed_helper p (deref s p).drng (s.seed_source s.fills).2
          ((deref s p).crypto_cb.lrng_drng_seed_helper (gen_of s (deref s p).drng)
            (s.seed_source s.fills).2).1)] := by
  unfold seed_injected
  rw [inject_trace]
  simp [log, lrng_pool_unlock, lrng_fill_seed_buffer, deref, gen_of]

/-- The calls `_lrng_drng_seed` makes: the seed assembler, the release of the gate,
`lrng_init_ops` and the seed primitive of the instance on the assembled seed. -/
theorem seed_trace (depth p : Nat) (s : lrng_state) :
    (_lrng_drng_seed depth p s).2.trace =
      s.trace ++ [(depth, lrng_event.fill_seed_buffer (s.seed_source s.fills).1),
        (depth, lrng_event.pool_unlock),
        (depth, lrng_event.init_ops (u32 (s.seed_source s.fills).1)),
        (depth, lrng_event.seed_helper p (deref s p).drng (s.seed_source s.fills).2
          ((deref s p).crypto_cb.lrng_drng_seed_helper (gen_of s (deref s p).drng)
            (s.seed_source s.fills).2).1)] := by
  rw [seed_state]
  split_ifs
  · exact seed_injected_trace depth p s
  · exact seed_injected_trace depth p s

/-- A request of at most one chunk on a freshly seeded instance, as an equation: the
block does not reseed and the primitive is called once. -/
theorem get_with_fresh_eq (seed : lrng_state → Option lrng_state) (depth p f : Nat)
    (u : lrng_state) (buf : List Nat) (n : Nat) (hf : 2 ≤ f) (hn0 : 0 < n)
    (hn : n ≤ 4096) (hr : get_ready p u) (hav : u.lrng_avail ≠ 0)
    (h1 : (deref u p).requests = LRNG_DRNG_RESEED_THRESH)
    (h2 : (deref u p).last_seeded = u.jiffies)
    (h3 : (deref u p).force_reseed = false) :
    lrng_drng_get_with seed depth p f u (some buf) n =
      some ((n : Int),
        some (lrng_drng_get_generate depth p n 0 buf (requests_dec p u)).2.1,
        (lrng_drng_get_generate depth p n 0 buf (requests_dec p u)).2.2) := by
  obtain ⟨f', rfl⟩ : ∃ f', f = f' + 1 + 1 := ⟨f - 2, by omega⟩
  have hmin : min n INT_MAX = n := by
    unfold INT_MAX
    norm_num
    omega
  have hnt := get_reseed_no_trigger seed depth p u
    (by rw [h1]; decide) h3
    (by rw [h2]; exact time_after_fresh _ _ hr.2.2.2.1 hr.2.2.2.2)
  have hs1 : step_ok depth p u (store u p { deref u p with
      requests := int_wrap ((deref u p).requests - 1) }) := by
    refine step_ok_store depth p u p _ ?_
    rfl
  obtain ⟨hg1, _, _, hg4⟩ := get_generate_ready depth p (min n LRNG_DRNG_MAX_REQSIZE) 0 buf
    (store u p { deref u p with requests := int_wrap ((deref u p).requests - 1) })
    (get_ready_of_step hs1 hr)
  have hm : min n LRNG_DRNG_MAX_REQSIZE = n := by
    show min n 4096 = n
    omega
  have e1 : (((n : Int) - ((min n LRNG_DRNG_MAX_REQSIZE : Nat) : Int)) % 2 ^ 32).toNat = 0 := by
    rw [hm]
    simp
  have e2 : ((((0 : Nat) : Int) + ((min n LRNG_DRNG_MAX_REQSIZE : Nat) : Int)) % 2 ^ 32).toNat
      = n := by
    rw [hm]
    norm_num
    omega
  unfold lrng_drng_get_with
  dsimp only
  rw [if_neg (by omega), hmin, init_cc20_avail _ _ hav, get_loop_succ, if_neg (by omega), hnt]
  dsimp only
  rw [hg1, if_neg (by rw [hm]; omega), e1, e2, get_loop_succ, if_pos rfl, hm]
  have e3 : int_wrap ((n : Nat) : Int) = (n : Int) := int_wrap_natCast n (by norm_num; omega)
  rw [e3]
  rfl

/-- The function `lrng_drng_seed` on an instance whose primitives do not fail, as an
equation. -/
theorem seed_eq (F depth p : Nat) (hF : 3 ≤ F) (t : lrng_state) (hr : get_ready p t)
    (hav : t.lrng_avail ≠ 0) :
    lrng_drng_seed F depth p t =
      if (deref (_lrng_drng_seed depth p t).2 p).drng ≠
            (deref (_lrng_drng_seed depth p t).2 LRNG_DRNG_ATOMIC).drng &&
          lrng_drng_atomic_due (_lrng_drng_seed depth p t).2 then
        some (atomic_reseeded depth p (_lrng_drng_seed depth p t).2)
      else some (_lrng_drng_seed depth p t).2 := by
  obtain ⟨f, rfl⟩ : ∃ f, F = f + 1 := ⟨F - 1, by omega⟩
  have hs1 := step_ok_seed depth p depth p t
  have hfresh := seed_fresh depth p t hr.1 hr.2.2.1
  rw [seed_succ]
  by_cases hc : ((deref (_lrng_drng_seed depth p t).2 p).drng ≠
            (deref (_lrng_drng_seed depth p t).2 LRNG_DRNG_ATOMIC).drng &&
          lrng_drng_atomic_due (_lrng_drng_seed depth p t).2) = true
  · rw [if_pos hc, if_pos hc]
    rw [get_with_fresh_eq (lrng_drng_seed f (depth + 1) p) (depth + 1) p f
      (_lrng_drng_seed depth p t).2 (List.replicate LRNG_DRNG_SECURITY_STRENGTH_BYTES 0)
      LRNG_DRNG_SECURITY_STRENGTH_BYTES (by omega) (by decide) (by decide)
      (get_ready_of_step hs1 hr) (hs1.2.2.2.2.2.1 hav) hfresh.1
      (by rw [hfresh.2.1, hs1.2.2.2.2.1]) hfresh.2.2]
    show (if ((LRNG_DRNG_SECURITY_STRENGTH_BYTES : Nat) : Int) < 0 then _ else _) = _
    rw [if_neg (by decide)]
    unfold atomic_reseeded
    rw [Int.toNat_ofNat, Option.getD_some]
  · rw [if_neg hc, if_neg hc]

theorem requests_dec_drng (p q : Nat) (s : lrng_state) :
    (deref (requests_dec p s) q).drng = (deref s q).drng := by
  unfold requests_dec
  rw [deref_store]
  split
  · rename_i h
    rw [h.1]
  · rfl

theorem atomic_reseeded_trace (depth p : Nat) (s1 : lrng_state) :
    (atomic_reseeded depth p s1).trace = s1.trace ++ atomic_seed_events depth p s1 := by
  unfold atomic_reseeded atomic_seed_events
  rw [inject_trace, generate_trace, requests_dec_drng]
  have : (requests_dec p s1).trace = s1.trace := rfl
  rw [this, List.append_assoc]
  rfl

theorem atomic_seed_events_quiet (depth p : Nat) (s1 : lrng_state) :
    own_generate depth p (atomic_seed_events depth p s1) = [] := by
  simp [atomic_seed_events, own_generate]

/-- The trace of a reseed on an instance whose primitives do not fail starts with the
calls of `_lrng_drng_seed`. -/
theorem seed_returns_trace (F depth p : Nat) (hF : 3 ≤ F) (t : lrng_state)
    (hr : get_ready p t) (hav : t.lrng_avail ≠ 0) :
    ∃ t' post, lrng_drng_seed F depth p t = some t' ∧ step_ok depth p t t' ∧
      t'.trace = (_lrng_drng_seed depth p t).2.trace ++ post ∧
      own_generate depth p post = [] := by
  obtain ⟨t', ht, hs⟩ := seed_returns F depth p hF t hr hav
  rw [seed_eq F depth p hF t hr hav] at ht
  by_cases hc : ((deref (_lrng_drng_seed depth p t).2 p).drng ≠
            (deref (_lrng_drng_seed depth p t).2 LRNG_DRNG_ATOMIC).drng &&
          lrng_drng_atomic_due (_lrng_drng_seed depth p t).2) = true
  · rw [if_pos hc] at ht
    refine ⟨t', atomic_seed_events depth p (_lrng_drng_seed depth p t).2,
      by rw [seed_eq F depth p hF t hr hav, if_pos hc]; exact ht, hs, ?_,
      atomic_seed_events_quiet depth p _⟩
    rw [← Option.some.inj ht]
    exact atomic_reseeded_trace depth p _
  · rw [if_neg hc] at ht
    refine ⟨t', [], by rw [seed_eq F depth p hF t hr hav, if_neg hc]; exact ht, hs, ?_, rfl⟩
    rw [← Option.some.inj ht, List.append_nil]

/-! ### A flagged instance reseeds before it generates -/

theorem reset_force (q p : Nat) (s : lrng_state) (h : (deref s p).force_reseed = true) :
    (deref (lrng_drng_reset q s) p).force_reseed = true := by
  unfold lrng_drng_reset
  rw [deref_store]
  split
  · rfl
  · exact h

theorem init_cc20_eq (d : Nat) (s : lrng_state) (h : ¬ s.lrng_avail ≠ 0) :
    lrng_drngs_init_cc20 d s =
      lrng_set_available (lrng_drng_reset LRNG_DRNG_ATOMIC
        (log (log (set_gen (lrng_drng_reset LRNG_DRNG_INIT s) CHACHA20
          ((lrng_drng_reset LRNG_DRNG_INIT s).cc20_init
            (gen_of (lrng_drng_reset LRNG_DRNG_INIT s) CHACHA20)))
          d lrng_event.cc20_init_state) d lrng_event.state_init_seed_work)) := by
  unfold lrng_drngs_init_cc20 lrng_get_available
  simp only [ne_eq, not_not] at h
  simp [h]

theorem init_cc20_force (d p : Nat) (s : lrng_state) (h : (deref s p).force_reseed = true) :
    (deref (lrng_drngs_init_cc20 d s) p).force_reseed = true := by
  by_cases ha : s.lrng_avail ≠ 0
  · rw [init_cc20_avail d s ha]
    exact h
  · rw [init_cc20_eq d s ha]
    show (deref (lrng_drng_reset LRNG_DRNG_ATOMIC _) p).force_reseed = true
    apply reset_force
    show (deref (lrng_drng_reset LRNG_DRNG_INIT s) p).force_reseed = true
    exact reset_force _ _ _ h

theorem init_cc20_trace (d : Nat) (s : lrng_state) :
    ∃ ie, (lrng_drngs_init_cc20 d s).trace = s.trace ++ ie ∧ all_generate ie = [] := by
  by_cases ha : s.lrng_avail ≠ 0
  · rw [init_cc20_avail d s ha]
    exact ⟨[], (List.append_nil _).symm, rfl⟩
  · rw [init_cc20_eq d s ha]
    refine ⟨[(d, lrng_event.cc20_init_state), (d, lrng_event.state_init_seed_work)], ?_, rfl⟩
    show (s.trace ++ [(d, lrng_event.cc20_init_state)]) ++
      [(d, lrng_event.state_init_seed_work)] = _
    rw [List.append_assoc]
    rfl

theorem reseed_due_of_force (p : Nat) (s : lrng_state)
    (h : (deref s p).force_reseed = true) : reseed_due p s = true := by
  unfold reseed_due
  rw [h]
  simp

/-- A call of `lrng_drng_get` on a sleep-capable instance that is flagged for a reseed,
with the reseed gate free: the seed assembler is called before any call of the
generate primitive, and the call returns `n`. -/
theorem get_forced_first (fuel depth p : Nat) (s : lrng_state) (buf : List Nat) (n : Nat)
    (hp : p ≠ LRNG_DRNG_ATOMIC) (hr : get_ready p s) (hg : s.reseed_in_progress = 0)
    (hforce : (deref s p).force_reseed = true) (hn0 : 0 < n) (hn : n ≤ INT_MAX)
    (hf : n / 4096 + 3 ≤ fuel) :
    ∃ r pre bits post, lrng_drng_get fuel depth p s (some buf) n = some r ∧ r.1 = (n : Int) ∧
      r.2.2.trace = s.trace ++ pre ++ (depth, lrng_event.fill_seed_buffer bits) :: post ∧
      all_generate pre = [] := by
  obtain ⟨f, rfl⟩ : ∃ f, fuel = f + 1 := ⟨fuel - 1, by omega⟩
  have hmin : min n INT_MAX = n := Nat.min_eq_left hn
  have hlt : n < 2 ^ 31 := by unfold INT_MAX at hn; norm_num at hn ⊢; omega
  unfold lrng_drng_get lrng_drng_get_with
  dsimp only
  rw [if_neg (by omega), hmin]
  have hs0 := step_ok_init_cc20 depth p depth s
  have hr0 := get_ready_of_step hs0 hr
  have hav0 := init_cc20_sets_avail depth s
  have hg0 : (lrng_drngs_init_cc20 depth s).reseed_in_progress = 0 := by
    rw [init_cc20_gate]; exact hg
  have hd0 := reseed_due_of_force p _ (init_cc20_force depth p s hforce)
  obtain ⟨ie, hie, hie0⟩ := init_cc20_trace depth s
  generalize lrng_drngs_init_cc20 depth s = s0 at hs0 hr0 hav0 hg0 hd0 hie ⊢
  have hsX : step_ok depth p s0 (log { requests_dec p s0 with reseed_in_progress := 1 } depth
      (lrng_event.pool_trylock 0)) :=
    ⟨store_length _ _ _, requests_dec_crypto_cb p p s0, rfl, rfl, rfl, fun h => h,
      ⟨[(depth, lrng_event.pool_trylock 0)], rfl, rfl⟩⟩
  have hX : (log { requests_dec p s0 with reseed_in_progress := 1 } depth
      (lrng_event.pool_trylock 0)).trace = s0.trace ++ [(depth, lrng_event.pool_trylock 0)] :=
    rfl
  have hblock := get_reseed_due_free (lrng_drng_seed (f + 1) depth p) depth p s0 hp hg0 hd0
  generalize log { requests_dec p s0 with reseed_in_progress := 1 } depth
      (lrng_event.pool_trylock 0) = X at hsX hX hblock
  have hrX := get_ready_of_step hsX hr0
  have havX := hsX.2.2.2.2.2.1 hav0
  obtain ⟨t, post1, hseed, hst, htr, _⟩ := seed_returns_trace (f + 1) depth p (by omega) X hrX havX
  rw [seed_trace] at htr
  have hrt := get_ready_of_step hst hrX
  have havt := hst.2.2.2.2.2.1 havX
  obtain ⟨hg1, hg2, hg3, hg4⟩ :=
    get_generate_ready depth p (min n LRNG_DRNG_MAX_REQSIZE) 0 buf t hrt
  have hm : min n LRNG_DRNG_MAX_REQSIZE = min n 4096 := rfl
  have e1 : (((n : Int) - ((min n LRNG_DRNG_MAX_REQSIZE : Nat) : Int)) % 2 ^ 32).toNat =
      n - min n 4096 := by
    rw [hm]
    norm_num at hlt ⊢
    omega
  have e2 : ((((0 : Nat) : Int) + ((min n LRNG_DRNG_MAX_REQSIZE : Nat) : Int)) % 2 ^ 32).toNat =
      0 + min n 4096 := by
    rw [hm]
    norm_num at hlt ⊢
    omega
  obtain ⟨r, hl, hret, _, _, ev, hev, _⟩ := get_loop_chunks (lrng_drng_seed (f + 1) depth p)
    depth p (fun u hu ha => seed_returns (f + 1) depth p (by omega) u hu ha) f
    (lrng_drng_get_generate depth p (min n LRNG_DRNG_MAX_REQSIZE) 0 buf t).2.2
    (lrng_drng_get_generate depth p (min n LRNG_DRNG_MAX_REQSIZE) 0 buf t).2.1
    (n - min n 4096) (0 + min n 4096) hg2 (by rw [hg3]; exact havt)
    (by norm_num at hlt ⊢; omega) (by omega)
  have hloop : lrng_drng_get_loop (lrng_drng_seed (f + 1) depth p) depth p (f + 1) s0 buf n 0 =
      some r := by
    rw [get_loop_succ, if_neg (by omega), hblock, hseed]
    dsimp only
    rw [hg1, if_neg (by rw [hm]; omega), e1, e2]
    exact hl
  rw [hloop]
  refine ⟨(r.1, some r.2.1, r.2.2), ie ++ [(depth, lrng_event.pool_trylock 0)],
    (X.seed_source X.fills).1,
    [(depth, lrng_event.pool_unlock),
      (depth, lrng_event.init_ops (u32 (X.seed_source X.fills).1)),
      (depth, lrng_event.seed_helper p (deref X p).drng (X.seed_source X.fills).2
        ((deref X p).crypto_cb.lrng_drng_seed_helper (gen_of X (deref X p).drng)
          (X.seed_source X.fills).2).1)] ++ post1 ++
      [(depth, lrng_event.generate_helper p (deref t p).drng (min n LRNG_DRNG_MAX_REQSIZE)
        ((min n LRNG_DRNG_MAX_REQSIZE : Nat) : Int))] ++ ev, rfl, ?_, ?_, ?_⟩
  · show r.1 = _
    have e3 : 0 + min n 4096 + (n - min n 4096) = n := by omega
    rw [hret, e3]
  · show r.2.2.trace = _
    rw [hev, hg4, htr, hX, hie]
    simp only [List.append_assoc, List.cons_append, List.nil_append]
  · rw [all_generate_append, hie0]
    rfl

theorem force_reseed_nodes_step (depth p : Nat) (tbl : List (Option Nat)) (nodes : List Nat)
    (s : lrng_state) : step_ok depth p s (lrng_drng_force_reseed_nodes tbl nodes s) := by
  induction nodes generalizing s with
  | nil => exact step_ok_refl depth p s
  | cons n ns ih =>
    unfold lrng_drng_force_reseed_nodes
    split
    · exact ih s
    · refine step_ok_trans (step_ok_store depth p s _ _ ?_) (ih _)
      rfl

theorem force_reseed_nodes_gate (tbl : List (Option Nat)) (nodes : List Nat)
    (s : lrng_state) :
    (lrng_drng_force_reseed_nodes tbl nodes s).reseed_in_progress = s.reseed_in_progress := by
  induction nodes generalizing s with
  | nil => rfl
  | cons n ns ih =>
    unfold lrng_drng_force_reseed_nodes
    split
    · exact ih s
    · rw [ih]
      rfl

theorem force_reseed_step (depth p : Nat) (s : lrng_state) :
    step_ok depth p s (lrng_drng_force_reseed s) := by
  unfold lrng_drng_force_reseed
  split
  · refine step_ok_store depth p s _ _ ?_
    rfl
  · refine step_ok_trans (force_reseed_nodes_step depth p _ _ s)
      (step_ok_store depth p _ _ _ ?_)
    rfl

theorem force_reseed_gate (s : lrng_state) :
    (lrng_drng_force_reseed s).reseed_in_progress = s.reseed_in_progress := by
  unfold lrng_drng_force_reseed
  split
  · rfl
  · show (lrng_drng_force_reseed_nodes _ _ s).reseed_in_progress = _
    exact force_reseed_nodes_gate _ _ s

theorem force_reseed_nodes_instances (tbl : List (Option Nat)) (nodes : List Nat)
    (s : lrng_state) :
    (lrng_drng_force_reseed_nodes tbl nodes s).lrng_drng_instances = s.lrng_drng_instances := by
  induction nodes generalizing s with
  | nil => rfl
  | cons n ns ih =>
    unfold lrng_drng_force_reseed_nodes
    split
    · exact ih s
    · exact ih _

theorem force_reseed_instances (s : lrng_state) :
    (lrng_drng_force_reseed s).lrng_drng_instances = s.lrng_drng_instances := by
  unfold lrng_drng_force_reseed
  split
  · rfl
  · exact force_reseed_nodes_instances _ _ s

/-! ### `lrng_drng_get` with a generate primitive that may fail -/

theorem own_rets_append (depth p : Nat) (a b : List (Nat × lrng_event)) :
    own_rets depth p (a ++ b) = own_rets depth p a ++ own_rets depth p b := by
  induction a with
  | nil => rfl
  | cons e es ih =>
    obtain ⟨d, ev⟩ := e
    cases ev
    case generate_helper inst gen todo ret =>
      simp only [List.cons_append, own_rets]
      split_ifs <;> simp [ih]
    all_goals exact ih

theorem own_rets_of_quiet (depth p : Nat) (ev : List (Nat × lrng_event))
    (h : own_generate depth p ev = []) : own_rets depth p ev = [] := by
  induction ev with
  | nil => rfl
  | cons e es ih =>
    obtain ⟨d, ev⟩ := e
    cases ev
    case generate_helper inst gen todo ret =>
      by_cases hc : d = depth ∧ inst = p
      · have h' : todo :: own_generate depth p es = [] := by
          simpa only [own_generate, if_pos hc] using h
        exact absurd h' (List.cons_ne_nil _ _)
      · have h' : own_generate depth p es = [] := by
          simpa only [own_generate, if_neg hc] using h
        simp only [own_rets, if_neg hc]
        exact ih h'
    all_goals exact ih h

theorem own_rets_single (depth p g todo : Nat) (ret : Int) :
    own_rets depth p [(depth, lrng_event.generate_helper p g todo ret)] = [ret] := by
  simp [own_rets]

theorem get_ready_ef_of_step {depth p : Nat} {s t : lrng_state} (h : step_ok depth p s t)
    (hr : get_ready_ef p s) : get_ready_ef p t := by
  obtain ⟨hl, hcb, hhz, hmax, _, _, _⟩ := h
  obtain ⟨h1, h2, h3, h4, h5⟩ := hr
  refine ⟨by rw [hl]; exact h1, ?_, ?_, ?_, ?_⟩
  · rw [hcb]; exact h2
  · rw [hcb]; exact h3
  · rw [hhz, hmax]; exact h4
  · rw [hhz, hmax]; exact h5

theorem get_reseed_returns_ef (seed : lrng_state → Option lrng_state) (depth p : Nat)
    (hseed : ∀ u, get_ready_ef p u → u.lrng_avail ≠ 0 →
      ∃ u', seed u = some u' ∧ step_ok depth p u u')
    (t : lrng_state) (hr : get_ready_ef p t) (hav : t.lrng_avail ≠ 0) :
    ∃ t', lrng_drng_get_reseed seed depth p t = some t' ∧ step_ok depth p t t' := by
  have h1 : step_ok depth p t (store t p { deref t p with
      requests := int_wrap ((deref t p).requests - 1) }) := by
    refine step_ok_store depth p t p _ ?_
    rfl
  unfold lrng_drng_get_reseed
  dsimp only
  split_ifs with htrig hp hlock
  · refine ⟨_, rfl, step_ok_trans (step_ok_trans h1 (step_ok_trylock depth p depth _)) ?_⟩
    refine step_ok_store depth p _ p _ ?_
    rfl
  · have h2 := step_ok_trans h1 (step_ok_trylock depth p depth _)
    obtain ⟨u', hu, hs⟩ := hseed _ (get_ready_ef_of_step h2 hr) (h2.2.2.2.2.2.1 hav)
    exact ⟨u', hu, step_ok_trans h2 hs⟩
  · exact ⟨_, rfl, h1⟩
  · exact ⟨_, rfl, h1⟩

theorem get_generate_ef (depth p todo pr : Nat) (outbuf : List Nat) (t : lrng_state)
    (hr : get_ready_ef p t) :
    ((lrng_drng_get_generate depth p todo pr outbuf t).1 = (todo : Int) ∨
      (lrng_drng_get_generate depth p todo pr outbuf t).1 ≤ 0) ∧
    get_ready_ef p (lrng_drng_get_generate depth p todo pr outbuf t).2.2 ∧
    (lrng_drng_get_generate depth p todo pr outbuf t).2.2.lrng_avail = t.lrng_avail :=
  ⟨hr.2.1 (gen_of t (deref t p).drng) todo, hr, rfl⟩

/-- A request of at most one chunk on a freshly seeded instance whose generate
primitive may fail: no reseed is triggered and the call returns. -/
theorem get_with_fresh_ef (seed : lrng_state → Option lrng_state) (depth p f : Nat)
    (u : lrng_state) (buf : List Nat) (n : Nat) (hf : 2 ≤ f) (hn0 : 0 < n)
    (hn : n ≤ 4096) (hr : get_ready_ef p u) (hav : u.lrng_avail ≠ 0)
    (h1 : (deref u p).requests = LRNG_DRNG_RESEED_THRESH)
    (h2 : (deref u p).last_seeded = u.jiffies)
    (h3 : (deref u p).force_reseed = false) :
    ∃ r, lrng_drng_get_with seed (depth + 1) p f u (some buf) n = some r ∧
      step_ok depth p u r.2.2 := by
  obtain ⟨f', rfl⟩ : ∃ f', f = f' + 1 + 1 := ⟨f - 2, by omega⟩
  have hmin : min n INT_MAX = n := by
    unfold INT_MAX
    norm_num
    omega
  have hnt := get_reseed_no_trigger seed (depth + 1) p u
    (by rw [h1]; decide) h3
    (by rw [h2]; exact time_after_fresh _ _ hr.2.2.2.1 hr.2.2.2.2)
  have hs1 : step_ok depth p u (store u p { deref u p with
      requests := int_wrap ((deref u p).requests - 1) }) := by
    refine step_ok_store depth p u p _ ?_
    rfl
  have hm : min n LRNG_DRNG_MAX_REQSIZE = n := by
    show min n 4096 = n
    omega
  have hstep : step_ok depth p u (lrng_drng_get_generate (depth + 1) p n 0 buf
      (store u p { deref u p with requests := int_wrap ((deref u p).requests - 1) })).2.2 := by
    refine step_ok_trans hs1 ?_
    refine ⟨rfl, rfl, rfl, rfl, rfl, fun h => h, ?_⟩
    exact ⟨_, generate_trace _ _ _ _ _ _, own_generate_deeper depth p _ _ _⟩
  have hg := (get_generate_ef (depth + 1) p n 0 buf _ (get_ready_ef_of_step hs1 hr)).1
  unfold lrng_drng_get_with
  dsimp only
  rw [if_neg (by omega), hmin, init_cc20_avail _ _ hav, get_loop_succ, if_neg (by omega), hnt]
  dsimp only
  rw [hm]
  rcases hg with hg | hg
  · have e1 : (((n : Int) - (n : Int)) % 2 ^ 32).toNat = 0 := by simp
    rw [hg, if_neg (by omega), e1, get_loop_succ, if_pos rfl]
    exact ⟨_, rfl, hstep⟩
  · rw [if_pos hg]
    exact ⟨_, rfl, hstep⟩

theorem seed_returns_ef (F depth p : Nat) (hF : 3 ≤ F) (t : lrng_state)
    (hr : get_ready_ef p t) (hav : t.lrng_avail ≠ 0) :
    ∃ t', lrng_drng_seed F depth p t = some t' ∧ step_ok depth p t t' := by
  obtain ⟨f, rfl⟩ : ∃ f, F = f + 1 := ⟨F - 1, by omega⟩
  have hs1 := step_ok_seed depth p depth p t
  have hfresh := seed_fresh depth p t hr.1 hr.2.2.1
  rw [seed_succ]
  split_ifs with hc
  · obtain ⟨r, hg, hs2⟩ := get_with_fresh_ef (lrng_drng_seed f (depth + 1) p) depth p f
      (_lrng_drng_seed depth p t).2 (List.replicate LRNG_DRNG_SECURITY_STRENGTH_BYTES 0)
      LRNG_DRNG_SECURITY_STRENGTH_BYTES (by omega) (by decide) (by decide)
      (get_ready_ef_of_step hs1 hr) (hs1.2.2.2.2.2.1 hav) hfresh.1
      (by rw [hfresh.2.1, hs1.2.2.2.2.1]) hfresh.2.2
    rw [hg]
    dsimp only
    split_ifs
    · exact ⟨_, rfl, step_ok_trans hs1 hs2⟩
    · exact ⟨_, rfl, step_ok_trans (step_ok_trans hs1 hs2) (step_ok_inject depth p _ _ _ _)⟩
  · exact ⟨_, rfl, hs1⟩

/-- The loop of `lrng_drng_get` with a generate primitive that may fail: it returns
the number of bytes asked for after calls that all delivered, or `-EFAULT` right after
the first call that did not. -/
theorem get_loop_ef (seed : lrng_state → Option lrng_state) (depth p : Nat)
    (hseed : ∀ u, get_ready_ef p u → u.lrng_avail ≠ 0 →
      ∃ u', seed u = some u' ∧ step_ok depth p u u') :
    ∀ (fuel : Nat) (t : lrng_state) (outbuf : List Nat) (n pr : Nat),
      get_ready_ef p t → t.lrng_avail ≠ 0 → pr + n < 2 ^ 31 → (n + 4095) / 4096 + 1 ≤ fuel →
      ∃ r ev, lrng_drng_get_loop seed depth p fuel t outbuf n pr = some r ∧
        r.2.2.trace = t.trace ++ ev ∧
        ((r.1 = ((pr + n : Nat) : Int) ∧ ∀ x ∈ own_rets depth p ev, 0 < x) ∨
         (r.1 = -EFAULT ∧ ∃ pre g todo ret,
            ev = pre ++ [(depth, lrng_event.generate_helper p g todo ret)] ∧ ret ≤ 0 ∧
            ∀ x ∈ own_rets depth p pre, 0 < x)) := by
  intro fuel
  induction fuel with
  | zero => intro t outbuf n pr _ _ _ hf; omega
  | succ fuel ih =>
    intro t outbuf n pr hr hav hlt hf
    rw [get_loop_succ]
    by_cases h0 : n = 0
    · rw [if_pos h0]
      refine ⟨_, [], rfl, (List.append_nil _).symm, Or.inl ⟨?_, ?_⟩⟩
      · show int_wrap (pr : Int) = _
        rw [h0, Nat.add_zero]
        exact int_wrap_natCast pr (by omega)
      · intro x hx
        cases hx
    · rw [if_neg h0]
      obtain ⟨t', hb, hs⟩ := get_reseed_returns_ef seed depth p hseed t hr hav
      rw [hb]
      dsimp only
      have hr' := get_ready_ef_of_step hs hr
      have hav' := hs.2.2.2.2.2.1 hav
      obtain ⟨ev0, hev0, hown0⟩ := hs.2.2.2.2.2.2
      have hq0 := own_rets_of_quiet depth p ev0 hown0
      obtain ⟨hg1, hg2, hg3⟩ :=
        get_generate_ef depth p (min n LRNG_DRNG_MAX_REQSIZE) pr outbuf t' hr'
      have hg4 := generate_trace depth p (min n LRNG_DRNG_MAX_REQSIZE) pr outbuf t'
      have hmin : min n LRNG_DRNG_MAX_REQSIZE = min n 4096 := rfl
      have htodo : 0 < min n 4096 := by omega
      rcases hg1 with hg1 | hg1
      · rw [hg1] at hg4 ⊢
        rw [if_neg (by rw [hmin]; omega)]
        have e1 : (((n : Int) - ((min n LRNG_DRNG_MAX_REQSIZE : Nat) : Int)) % 2 ^ 32).toNat =
            n - min n 4096 := by
          rw [hmin]
          norm_num at hlt ⊢
          omega
        have e2 : (((pr : Int) + ((min n LRNG_DRNG_MAX_REQSIZE : Nat) : Int)) % 2 ^ 32).toNat =
            pr + min n 4096 := by
          rw [hmin]
          norm_num at hlt ⊢
          omega
        rw [e1, e2]
        obtain ⟨r, ev, hl, hev, hdi⟩ := ih
          (lrng_drng_get_generate depth p (min n LRNG_DRNG_MAX_REQSIZE) pr outbuf t').2.2
          (lrng_drng_get_generate depth p (min n LRNG_DRNG_MAX_REQSIZE) pr outbuf t').2.1
          (n - min n 4096) (pr + min n 4096) hg2 (by rw [hg3]; exact hav')
          (by norm_num at hlt ⊢; omega) (by omega)
        have hpos : ∀ x ∈ own_rets depth p (ev0 ++ [(depth, lrng_event.generate_helper p
            (deref t' p).drng (min n LRNG_DRNG_MAX_REQSIZE)
            ((min n LRNG_DRNG_MAX_REQSIZE : Nat) : Int))]), 0 < x := by
          intro x hx
          rw [own_rets_append, hq0, own_rets_single, List.nil_append, List.mem_singleton] at hx
          rw [hx, hmin]
          omega
        refine ⟨r, ev0 ++ [(depth, lrng_event.generate_helper p (deref t' p).drng
          (min n LRNG_DRNG_MAX_REQSIZE) ((min n LRNG_DRNG_MAX_REQSIZE : Nat) : Int))] ++ ev,
          hl, ?_, ?_⟩
        · rw [hev, hg4, hev0, List.append_assoc, List.append_assoc, List.append_assoc]
        · rcases hdi with ⟨hret, hall⟩ | ⟨hret, pre, g, todo, ret, hpre, hle, hall⟩
          · left
            refine ⟨?_, ?_⟩
            · rw [hret]
              have e3 : pr + min n 4096 + (n - min n 4096) = pr + n := by omega
              rw [e3]
            · intro x hx
              rw [own_rets_append, List.mem_append] at hx
              rcases hx with hx | hx
              · exact hpos x hx
              · exact hall x hx
          · right
            refine ⟨hret, ev0 ++ [(depth, lrng_event.generate_helper p (deref t' p).drng
              (min n LRNG_DRNG_MAX_REQSIZE) ((min n LRNG_DRNG_MAX_REQSIZE : Nat) : Int))] ++ pre,
              g, todo, ret, ?_, hle, ?_⟩
            · rw [hpre, List.append_assoc, List.append_assoc, List.append_assoc]
            · intro x hx
              rw [own_rets_append, List.mem_append] at hx
              rcases hx with hx | hx
              · exact hpos x hx
              · exact hall x hx
      · rw [if_pos hg1]
        refine ⟨_, ev0 ++ [(depth, lrng_event.generate_helper p (deref t' p).drng
          (min n LRNG_DRNG_MAX_REQSIZE)
          (lrng_drng_get_generate depth p (min n LRNG_DRNG_MAX_REQSIZE) pr outbuf t').1)],
          rfl, ?_, Or.inr ⟨rfl, ev0, _, _, _, rfl, hg1, ?_⟩⟩
        · show (lrng_drng_get_generate depth p (min n LRNG_DRNG_MAX_REQSIZE) pr outbuf t').2.2.trace
            = _
          rw [hg4, hev0, List.append_assoc]
        · intro x hx
          rw [hq0] at hx
          cases hx

/-! ### The side-effect reseed of the atomic instance -/

theorem store_drng (s : lrng_state) (q x : Nat) (d : lrng_drng)
    (h : d.drng = (deref s q).drng) :
    (deref (store s q d) x).drng = (deref s x).drng := by
  rw [deref_store]
  split
  · rename_i hqx
    rw [h, hqx.1]
  · rfl

theorem inject_drng (depth p : Nat) (inbuf : List Nat) (s : lrng_state) (q : Nat) :
    (deref (lrng_drng_inject depth p inbuf s) q).drng = (deref s q).drng := by
  unfold lrng_drng_inject
  dsimp only
  split_ifs
  · refine (store_drng _ p q _ ?_).trans ?_ <;> rfl
  · refine (store_drng _ LRNG_DRNG_ATOMIC q _ ?_).trans ((store_drng _ p q _ ?_).trans ?_) <;> rfl
  · refine (store_drng _ p q _ ?_).trans ?_ <;> rfl

theorem seed_drng (depth p : Nat) (s : lrng_state) (q : Nat) :
    (deref (_lrng_drng_seed depth p s).2 q).drng = (deref s q).drng := by
  have hi : (deref (seed_injected depth p s) q).drng = (deref s q).drng := by
    unfold seed_injected
    rw [inject_drng]
    rfl
  rw [seed_state]
  split_ifs
  · refine (store_drng _ p q _ ?_).trans hi
    rfl
  · exact hi

theorem inject_other (depth p : Nat) (inbuf : List Nat) (s : lrng_state)
    (h : (deref s p).drng ≠ (deref s LRNG_DRNG_ATOMIC).drng) :
    deref (lrng_drng_inject depth p inbuf s) LRNG_DRNG_ATOMIC = deref s LRNG_DRNG_ATOMIC := by
  have hp : p ≠ LRNG_DRNG_ATOMIC := fun e => h (by rw [e])
  unfold lrng_drng_inject
  dsimp only
  split_ifs with h1 h2
  · rw [deref_store_ne _ _ _ _ hp]
    rfl
  · exfalso
    apply h
    rw [h2, deref_store_ne _ _ _ _ hp]
    rfl
  · rw [deref_store_ne _ _ _ _ hp]
    rfl

/-- With a generator of its own the atomic instance is not touched by
`_lrng_drng_seed` on another instance. -/
theorem seed_other (depth p : Nat) (s : lrng_state)
    (h : (deref s p).drng ≠ (deref s LRNG_DRNG_ATOMIC).drng) :
    deref (_lrng_drng_seed depth p s).2 LRNG_DRNG_ATOMIC = deref s LRNG_DRNG_ATOMIC := by
  have hp : p ≠ LRNG_DRNG_ATOMIC := fun e => h (by rw [e])
  have hi : deref (seed_injected depth p s) LRNG_DRNG_ATOMIC = deref s LRNG_DRNG_ATOMIC := by
    exact inject_other depth p (lrng_fill_seed_buffer depth s).2.1
      (log (lrng_pool_unlock depth (lrng_fill_seed_buffer depth s).2.2) depth
        (lrng_event.init_ops (u32 (lrng_fill_seed_buffer depth s).1))) h
  rw [seed_state]
  split_ifs
  · rw [deref_store_ne _ _ _ _ hp]
    exact hi
  · exact hi

theorem seed_trace_events (depth p : Nat) (s : lrng_state) :
    (_lrng_drng_seed depth p s).2.trace = s.trace ++ seed_events depth p s :=
  seed_trace depth p s

/-- When the instance shares its generator with the atomic instance and the seed
primitive does not fail, `lrng_drng_inject` refreshes the bookkeeping of the atomic
instance as well. -/
theorem inject_shared_atomic (depth p : Nat) (inbuf : List Nat) (s : lrng_state)
    (hp : p ≠ LRNG_DRNG_ATOMIC) (ha : LRNG_DRNG_ATOMIC < s.drngs.length)
    (hsh : (deref s p).drng = (deref s LRNG_DRNG_ATOMIC).drng)
    (hok : ¬ ((deref s p).crypto_cb.lrng_drng_seed_helper (gen_of s (deref s p).drng)
      inbuf).1 < 0) :
    (deref (lrng_drng_inject depth p inbuf s) LRNG_DRNG_ATOMIC).requests =
      LRNG_DRNG_RESEED_THRESH ∧
    (deref (lrng_drng_inject depth p inbuf s) LRNG_DRNG_ATOMIC).last_seeded = s.jiffies ∧
    (deref (lrng_drng_inject depth p inbuf s) LRNG_DRNG_ATOMIC).force_reseed = false := by
  unfold lrng_drng_inject
  simp only [hok, if_false]
  split_ifs with h2
  · rw [deref_store_eq _ _ _ (by simpa using ha)]
    exact ⟨rfl, rfl, rfl⟩
  · exfalso
    apply h2
    rw [deref_store_ne _ _ _ _ hp]
    exact hsh

theorem seed_shared_atomic (depth p : Nat) (s : lrng_state) (hp : p ≠ LRNG_DRNG_ATOMIC)
    (ha : LRNG_DRNG_ATOMIC < s.drngs.length)
    (hsh : (deref s p).drng = (deref s LRNG_DRNG_ATOMIC).drng)
    (hok : ¬ ((deref s p).crypto_cb.lrng_drng_seed_helper (gen_of s (deref s p).drng)
      (s.seed_source s.fills).2).1 < 0) :
    (deref (_lrng_drng_seed depth p s).2 LRNG_DRNG_ATOMIC).requests = LRNG_DRNG_RESEED_THRESH ∧
    (deref (_lrng_drng_seed depth p s).2 LRNG_DRNG_ATOMIC).last_seeded = s.jiffies ∧
    (deref (_lrng_drng_seed depth p s).2 LRNG_DRNG_ATOMIC).force_reseed = false := by
  have hi : (deref (seed_injected depth p s) LRNG_DRNG_ATOMIC).requests =
        LRNG_DRNG_RESEED_THRESH ∧
      (deref (seed_injected depth p s) LRNG_DRNG_ATOMIC).last_seeded = s.jiffies ∧
      (deref (seed_injected depth p s) LRNG_DRNG_ATOMIC).force_reseed = false :=
    inject_shared_atomic depth p (lrng_fill_seed_buffer depth s).2.1
      (log (lrng_pool_unlock depth (lrng_fill_seed_buffer depth s).2.2) depth
        (lrng_event.init_ops (u32 (lrng_fill_seed_buffer depth s).1))) hp ha hsh hok
  rw [seed_state]
  split_ifs
  · rw [deref_store_ne _ _ _ _ hp]
    exact hi
  · exact hi

theorem atomic_due_congr (s t : lrng_state)
    (h1 : deref t LRNG_DRNG_ATOMIC = deref s LRNG_DRNG_ATOMIC) (h2 : t.jiffies = s.jiffies)
    (h3 : t.HZ = s.HZ) (h4 : t.lrng_drng_reseed_max_time = s.lrng_drng_reseed_max_time) :
    lrng_drng_atomic_due t = lrng_drng_atomic_due s := by
  unfold lrng_drng_atomic_due
  rw [h1, h2, h3, h4]

theorem seeds_of_append (h : Nat) (a b : List (Nat × lrng_event)) :
    seeds_of h (a ++ b) = seeds_of h a ++ seeds_of h b := by
  induction a with
  | nil => rfl
  | cons e es ih =>
    obtain ⟨d, ev⟩ := e
    cases ev
    case seed_helper inst gen inbuf ret =>
      simp only [List.cons_append, seeds_of]
      split_ifs <;> simp [ih]
    all_goals exact ih

theorem generate_seeds (depth p todo pr : Nat) (outbuf : List Nat) (t : lrng_state) :
    ∃ ev, (lrng_drng_get_generate depth p todo pr outbuf t).2.2.trace = t.trace ++ ev ∧
      ∀ h, seeds_of h ev = [] :=
  ⟨_, generate_trace depth p todo pr outbuf t, fun _ => rfl⟩

/-- The loop of `lrng_drng_get` on the atomic instance never calls the seed assembler,
whatever the primitives do. -/
theorem get_loop_atomic_fills (seed : lrng_state → Option lrng_state) (depth : Nat) :
    ∀ (fuel : Nat) (t : lrng_state) (outbuf : List Nat) (n pr : Nat)
      (r : Int × List Nat × lrng_state),
      lrng_drng_get_loop seed depth LRNG_DRNG_ATOMIC fuel t outbuf n pr = some r →
      r.2.2.fills = t.fills ∧ ∃ ev, r.2.2.trace = t.trace ++ ev ∧
        ∀ h, seeds_of h ev = [] := by
  intro fuel
  induction fuel with
  | zero =>
    intro t outbuf n pr r h
    rw [get_loop_zero] at h
    cases h
  | succ fuel ih =>
    intro t outbuf n pr r h
    rw [get_loop_succ] at h
    by_cases h0 : n = 0
    · rw [if_pos h0] at h
      rw [← Option.some.inj h]
      exact ⟨rfl, [], (List.append_nil _).symm, fun _ => rfl⟩
    · rw [if_neg h0, get_reseed_atomic] at h
      dsimp only at h
      obtain ⟨eg, heg, hsg⟩ := generate_seeds depth LRNG_DRNG_ATOMIC
        (min n LRNG_DRNG_MAX_REQSIZE) pr outbuf (requests_dec LRNG_DRNG_ATOMIC t)
      have htr : (requests_dec LRNG_DRNG_ATOMIC t).trace = t.trace := rfl
      rw [htr] at heg
      by_cases hle : (lrng_drng_get_generate depth LRNG_DRNG_ATOMIC (min n LRNG_DRNG_MAX_REQSIZE)
          pr outbuf (requests_dec LRNG_DRNG_ATOMIC t)).1 ≤ 0
      · rw [if_pos hle] at h
        rw [← Option.some.inj h]
        exact ⟨rfl, eg, heg, hsg⟩
      · rw [if_neg hle] at h
        obtain ⟨hf, ev, hev, hs⟩ := ih _ _ _ _ r h
        refine ⟨hf, eg ++ ev, ?_, ?_⟩
        · rw [hev, heg, List.append_assoc]
        · intro x
          rw [seeds_of_append, hs x, hsg x]
          rfl

theorem init_cc20_seeds (d : Nat) (s : lrng_state) :
    ∃ ie, (lrng_drngs_init_cc20 d s).trace = s.trace ++ ie ∧ ∀ h, seeds_of h ie = [] := by
  by_cases ha : s.lrng_avail ≠ 0
  · rw [init_cc20_avail d s ha]
    exact ⟨[], (List.append_nil _).symm, fun _ => rfl⟩
  · rw [init_cc20_eq d s ha]
    refine ⟨[(d, lrng_event.cc20_init_state), (d, lrng_event.state_init_seed_work)], ?_,
      fun _ => rfl⟩
    show (s.trace ++ [(d, lrng_event.cc20_init_state)]) ++
      [(d, lrng_event.state_init_seed_work)] = _
    rw [List.append_assoc]
    rfl

/-! ### The cases of `lrng_drng_seed` -/

theorem seed_not_due (f depth p : Nat) (s : lrng_state)
    (h : ((deref (_lrng_drng_seed depth p s).2 p).drng ≠
        (deref (_lrng_drng_seed depth p s).2 LRNG_DRNG_ATOMIC).drng &&
      lrng_drng_atomic_due (_lrng_drng_seed depth p s).2) = false) :
    lrng_drng_seed (f + 1) depth p s = some (_lrng_drng_seed depth p s).2 := by
  rw [seed_succ, if_neg (by rw [h]; decide)]

theorem seed_due (f depth p : Nat) (s : lrng_state)
    (h : ((deref (_lrng_drng_seed depth p s).2 p).drng ≠
        (deref (_lrng_drng_seed depth p s).2 LRNG_DRNG_ATOMIC).drng &&
      lrng_drng_atomic_due (_lrng_drng_seed depth p s).2) = true)
    (r : Int × Option (List Nat) × lrng_state)
    (hr : lrng_drng_get f (depth + 1) p (_lrng_drng_seed depth p s).2
      (some (List.replicate LRNG_DRNG_SECURITY_STRENGTH_BYTES 0))
      LRNG_DRNG_SECURITY_STRENGTH_BYTES = some r) :
    lrng_drng_seed (f + 1) depth p s =
      some (if r.1 < 0 then r.2.2
        else lrng_drng_inject depth LRNG_DRNG_ATOMIC ((r.2.1.getD []).take r.1.toNat) r.2.2) := by
  unfold lrng_drng_get at hr
  rw [seed_succ, if_pos h, hr]
  dsimp only
  split_ifs <;> rfl

theorem seed_atomic_due (depth p : Nat) (s : lrng_state)
    (h : (deref s p).drng ≠ (deref s LRNG_DRNG_ATOMIC).drng) :
    lrng_drng_atomic_due (_lrng_drng_seed depth p s).2 = lrng_drng_atomic_due s :=
  atomic_due_congr s _ (seed_other depth p s h) (step_ok_seed depth p depth p s).2.2.2.2.1
    (step_ok_seed depth p depth p s).2.2.1 (step_ok_seed depth p depth p s).2.2.2.1

theorem seed_cond (depth p : Nat) (s : lrng_state)
    (h : (deref s p).drng ≠ (deref s LRNG_DRNG_ATOMIC).drng) :
    ((deref (_lrng_drng_seed depth p s).2 p).drng ≠
        (deref (_lrng_drng_seed depth p s).2 LRNG_DRNG_ATOMIC).drng &&
      lrng_drng_atomic_due (_lrng_drng_seed depth p s).2) = lrng_drng_atomic_due s := by
  rw [seed_atomic_due depth p s h, seed_drng, seed_drng]
  simp [h]

theorem seed_cond_shared (depth p : Nat) (s : lrng_state)
    (h : (deref s p).drng = (deref s LRNG_DRNG_ATOMIC).drng) :
    ((deref (_lrng_drng_seed depth p s).2 p).drng ≠
        (deref (_lrng_drng_seed depth p s).2 LRNG_DRNG_ATOMIC).drng &&
      lrng_drng_atomic_due (_lrng_drng_seed depth p s).2) = false := by
  rw [seed_drng, seed_drng]
  simp [h]

theorem atomic_reseeded_fields (depth p : Nat) (s1 : lrng_state)
    (ha : LRNG_DRNG_ATOMIC < s1.drngs.length)
    (hok : ∀ g b, 0 ≤ ((deref s1 LRNG_DRNG_ATOMIC).crypto_cb.lrng_drng_seed_helper g b).1) :
    (deref (atomic_reseeded depth p s1) LRNG_DRNG_ATOMIC).requests = LRNG_DRNG_RESEED_THRESH ∧
    (deref (atomic_reseeded depth p s1) LRNG_DRNG_ATOMIC).last_seeded = s1.jiffies ∧
    (deref (atomic_reseeded depth p s1) LRNG_DRNG_ATOMIC).force_reseed = false := by
  have hcb : (deref (lrng_drng_get_generate (depth + 1) p LRNG_DRNG_SECURITY_STRENGTH_BYTES 0
      (List.replicate LRNG_DRNG_SECURITY_STRENGTH_BYTES 0) (requests_dec p s1)).2.2
        LRNG_DRNG_ATOMIC).crypto_cb = (deref s1 LRNG_DRNG_ATOMIC).crypto_cb :=
    requests_dec_crypto_cb p LRNG_DRNG_ATOMIC s1
  have hlen : LRNG_DRNG_ATOMIC < (lrng_drng_get_generate (depth + 1) p
      LRNG_DRNG_SECURITY_STRENGTH_BYTES 0
      (List.replicate LRNG_DRNG_SECURITY_STRENGTH_BYTES 0) (requests_dec p s1)).2.2.drngs.length := by
    show LRNG_DRNG_ATOMIC < (requests_dec p s1).drngs.length
    unfold requests_dec
    rw [store_length]
    exact ha
  have h := (inject_fields depth LRNG_DRNG_ATOMIC
    ((lrng_drng_get_generate (depth + 1) p LRNG_DRNG_SECURITY_STRENGTH_BYTES 0
      (List.replicate LRNG_DRNG_SECURITY_STRENGTH_BYTES 0) (requests_dec p s1)).2.1.take
        LRNG_DRNG_SECURITY_STRENGTH_BYTES)
    (lrng_drng_get_generate (depth + 1) p LRNG_DRNG_SECURITY_STRENGTH_BYTES 0
      (List.replicate LRNG_DRNG_SECURITY_STRENGTH_BYTES 0) (requests_dec p s1)).2.2 hlen).2
    (by rw [hcb]; exact not_lt.mpr (hok _ _))
  exact h

theorem generate_deref (depth p todo pr : Nat) (outbuf : List Nat) (t : lrng_state)
    (q : Nat) : deref (lrng_drng_get_generate depth p todo pr outbuf t).2.2 q = deref t q :=
  rfl

theorem seed_work_null (fuel : Nat) (s : lrng_state) (hn : s.lrng_drng_instances = none)
    (hfs : (deref s LRNG_DRNG_INIT).fully_seeded = false) :
    lrng_drng_seed_work fuel s =
      (_lrng_drng_seed_work fuel LRNG_DRNG_INIT 0 s).map (lrng_pool_unlock 0) := by
  unfold lrng_drng_seed_work
  rw [hn]
  dsimp only
  rw [hfs]
  cases _lrng_drng_seed_work fuel LRNG_DRNG_INIT 0 s <;> rfl

/-! ### What holds of every call of `lrng_drng_get` that returns -/

theorem below_append {d : Nat} {a b : List (Nat × lrng_event)} (ha : below d a)
    (hb : below d b) : below d (a ++ b) := by
  intro e he
  rcases List.mem_append.mp he with h | h
  · exact ha e h
  · exact hb e h

theorem nogen_append {d : Nat} {a b : List (Nat × lrng_event)} (ha : nogen d a)
    (hb : nogen d b) : nogen d (a ++ b) := by
  intro e he
  rcases List.mem_append.mp he with h | h
  · exact ha e h
  · exact hb e h

theorem below_succ {d : Nat} {a : List (Nat × lrng_event)} (ha : below (d + 1) a) :
    below d a ∧ nogen d a := by
  constructor
  · intro e he
    have := ha e he
    omega
  · intro e he hd
    have := ha e he
    omega

theorem own_rets_of_nogen (d p : Nat) (ev : List (Nat × lrng_event)) (h : nogen d ev) :
    own_rets d p ev = [] := by
  induction ev with
  | nil => rfl
  | cons e es ih =>
    have ih' := ih (fun x hx => h x (List.mem_cons_of_mem _ hx))
    have he := h e (List.mem_cons_self _ _)
    obtain ⟨d', ev⟩ := e
    cases ev
    case generate_helper inst gen todo ret =>
      by_cases hc : d' = d ∧ inst = p
      · have := he hc.1
        cases this
      · simp only [own_rets, if_neg hc]
        exact ih'
    all_goals exact ih'

theorem gframe_of_frame {d : Nat} {s t : lrng_state} (h : frame d s t) : gframe d s t :=
  ⟨h.1, h.2.imp (fun _ hev => ⟨hev.1, hev.2.1⟩)⟩

theorem frame_refl (d : Nat) (s : lrng_state) : frame d s s :=
  ⟨fun _ => rfl, [], (List.append_nil _).symm, fun _ h => (by cases h), fun _ h => (by cases h)⟩

theorem frame_trans {d : Nat} {s t u : lrng_state} (h1 : frame d s t) (h2 : frame d t u) :
    frame d s u := by
  obtain ⟨c1, e1, ht, hb1, hn1⟩ := h1
  obtain ⟨c2, e2, hu, hb2, hn2⟩ := h2
  refine ⟨fun q => (c2 q).trans (c1 q), e1 ++ e2, ?_, below_append hb1 hb2,
    nogen_append hn1 hn2⟩
  rw [hu, ht, List.append_assoc]

theorem gframe_trans {d : Nat} {s t u : lrng_state} (h1 : gframe d s t) (h2 : gframe d t u) :
    gframe d s u := by
  obtain ⟨c1, e1, ht, hb1⟩ := h1
  obtain ⟨c2, e2, hu, hb2⟩ := h2
  refine ⟨fun q => (c2 q).trans (c1 q), e1 ++ e2, ?_, below_append hb1 hb2⟩
  rw [hu, ht, List.append_assoc]

/-- A step that is `step_ok` for every instance and adds the calls `ev`, all at depth
`d` and none of them a generate call, is a `frame` step. -/
theorem frame_of_events (d : Nat) (s t : lrng_state)
    (hcb : ∀ q, (deref t q).crypto_cb = (deref s q).crypto_cb)
    (ev : List (Nat × lrng_event)) (htr : t.trace = s.trace ++ ev)
    (hev : ∀ e ∈ ev, e.1 = d ∧ is_generate e.2 = false) : frame d s t :=
  ⟨hcb, ev, htr, fun e he => le_of_eq (hev e he).1.symm, fun e he _ => (hev e he).2⟩

theorem frame_requests_dec (d p : Nat) (s : lrng_state) : frame d s (requests_dec p s) :=
  frame_of_events d s _ (fun q => requests_dec_crypto_cb p q s) [] (List.append_nil _).symm
    (fun _ h => by cases h)

theorem frame_seed (d p : Nat) (s : lrng_state) : frame d s (_lrng_drng_seed d p s).2 := by
  refine frame_of_events d s _ (fun q => (step_ok_seed d q d p s).2.1) _
    (seed_trace_events d p s) ?_
  intro e he
  unfold seed_events at he
  simp only [List.mem_cons, List.mem_singleton, List.not_mem_nil, or_false] at he
  rcases he with h | h | h | h <;> rw [h] <;> exact ⟨rfl, rfl⟩

theorem frame_inject (d p : Nat) (inbuf : List Nat) (s : lrng_state) :
    frame d s (lrng_drng_inject d p inbuf s) := by
  refine frame_of_events d s _ (fun q => (step_ok_inject d q d p inbuf s).2.1) _
    (inject_trace d p inbuf s) ?_
  intro e he
  rw [List.mem_singleton] at he
  rw [he]
  exact ⟨rfl, rfl⟩

theorem frame_init_cc20 (d : Nat) (s : lrng_state) : frame d s (lrng_drngs_init_cc20 d s) := by
  by_cases ha : s.lrng_avail ≠ 0
  · rw [init_cc20_avail d s ha]
    exact frame_refl d s
  · refine frame_of_events d s _ (fun q => (step_ok_init_cc20 d q d s).2.1)
      [(d, lrng_event.cc20_init_state), (d, lrng_event.state_init_seed_work)] ?_ ?_
    · rw [init_cc20_eq d s ha]
      show (s.trace ++ [(d, lrng_event.cc20_init_state)]) ++
        [(d, lrng_event.state_init_seed_work)] = _
      rw [List.append_assoc]
      rfl
    · intro e he
      simp only [List.mem_cons, List.mem_singleton, List.not_mem_nil, or_false] at he
      rcases he with h | h <;> rw [h] <;> exact ⟨rfl, rfl⟩

/-- The reseed block of `lrng_drng_get`, when it returns, adds no generate call at its
own depth. -/
theorem get_reseed_frame (seed : lrng_state → Option lrng_state) (depth p : Nat)
    (hseed : ∀ u t, seed u = some t → frame depth u t) (s t : lrng_state)
    (h : lrng_drng_get_reseed seed depth p s = some t) : frame depth s t := by
  by_cases hd : reseed_due p s = true
  · by_cases hp : p = LRNG_DRNG_ATOMIC
    · rw [hp, get_reseed_atomic] at h
      rw [← Option.some.inj h]
      exact frame_requests_dec depth _ s
    · by_cases hg : s.reseed_in_progress = 0
      · rw [get_reseed_due_free seed depth p s hp hg hd] at h
        refine frame_trans ?_ (hseed _ _ h)
        exact frame_of_events depth s _ (fun q => requests_dec_crypto_cb p q s)
          [(depth, lrng_event.pool_trylock 0)] rfl
          (fun e he => by rw [List.mem_singleton] at he; rw [he]; exact ⟨rfl, rfl⟩)
      · rw [get_reseed_due_busy seed depth p s hp hg hd] at h
        rw [← Option.some.inj h]
        refine frame_of_events depth s _ ?_
          [(depth, lrng_event.pool_trylock s.reseed_in_progress)] rfl
          (fun e he => by rw [List.mem_singleton] at he; rw [he]; exact ⟨rfl, rfl⟩)
        intro q
        refine (store_crypto_cb _ p q _ ?_).trans (requests_dec_crypto_cb p q s)
        rfl
  · rw [get_reseed_not_due seed depth p s (by simpa using hd)] at h
    rw [← Option.some.inj h]
    exact frame_requests_dec depth _ s

theorem gframe_generate (depth p todo pr : Nat) (outbuf : List Nat) (t : lrng_state) :
    gframe depth t (lrng_drng_get_generate depth p todo pr outbuf t).2.2 :=
  ⟨fun _ => rfl, _, generate_trace depth p todo pr outbuf t,
    fun e he => by rw [List.mem_singleton] at he; rw [he]⟩

/-- The loop of `lrng_drng_get`, when it returns, has only made calls at its own depth
or deeper. -/
theorem get_loop_gframe (seed : lrng_state → Option lrng_state) (depth p : Nat)
    (hseed : ∀ u t, seed u = some t → frame depth u t) :
    ∀ (fuel : Nat) (t : lrng_state) (outbuf : List Nat) (n pr : Nat)
      (r : Int × List Nat × lrng_state),
      lrng_drng_get_loop seed depth p fuel t outbuf n pr = some r → gframe depth t r.2.2 := by
  intro fuel
  induction fuel with
  | zero =>
    intro t outbuf n pr r h
    rw [get_loop_zero] at h
    cases h
  | succ fuel ih =>
    intro t outbuf n pr r h
    rw [get_loop_succ] at h
    by_cases h0 : n = 0
    · rw [if_pos h0] at h
      rw [← Option.some.inj h]
      exact gframe_of_frame (frame_refl depth t)
    · rw [if_neg h0] at h
      cases hb : lrng_drng_get_reseed seed depth p t with
      | none =>
        rw [hb] at h
        cases h
      | some t' =>
        rw [hb] at h
        dsimp only at h
        have h1 := gframe_of_frame (get_reseed_frame seed depth p hseed t t' hb)
        have h2 := gframe_generate depth p (min n LRNG_DRNG_MAX_REQSIZE) pr outbuf t'
        by_cases hle : (lrng_drng_get_generate depth p (min n LRNG_DRNG_MAX_REQSIZE) pr outbuf
            t').1 ≤ 0
        · rw [if_pos hle] at h
          rw [← Option.some.inj h]
          exact gframe_trans h1 h2
        · rw [if_neg hle] at h
          exact gframe_trans (gframe_trans h1 h2) (ih _ _ _ _ r h)

theorem get_with_gframe (seed : lrng_state → Option lrng_state) (depth p : Nat)
    (hseed : ∀ u t, seed u = some t → frame depth u t) (fuel : Nat) (s : lrng_state)
    (outbuf : Option (List Nat)) (n : Nat) (r : Int × Option (List Nat) × lrng_state)
    (h : lrng_drng_get_with seed depth p fuel s outbuf n = some r) : gframe depth s r.2.2 := by
  unfold lrng_drng_get_with at h
  cases outbuf with
  | none =>
    dsimp only at h
    rw [← Option.some.inj h]
    exact gframe_of_frame (frame_refl depth s)
  | some buf =>
    dsimp only at h
    by_cases h0 : n = 0
    · rw [if_pos h0] at h
      rw [← Option.some.inj h]
      exact gframe_of_frame (frame_refl depth s)
    · rw [if_neg h0] at h
      cases hl : lrng_drng_get_loop seed depth p fuel (lrng_drngs_init_cc20 depth s) buf
          (min n INT_MAX) 0 with
      | none =>
        rw [hl] at h
        cases h
      | some r' =>
        rw [hl] at h
        rw [← Option.some.inj h]
        exact gframe_trans (gframe_of_frame (frame_init_cc20 depth s))
          (get_loop_gframe seed depth p hseed fuel _ buf _ 0 r' hl)

/-- A call of `lrng_drng_seed` that returns has made no generate call at its own
depth: its generate calls are one level deeper. -/
theorem seed_frame (fuel : Nat) : ∀ (depth p : Nat) (s t : lrng_state),
    lrng_drng_seed fuel depth p s = some t → frame depth s t := by
  induction fuel with
  | zero =>
    intro depth p s t h
    rw [seed_zero] at h
    cases h
  | succ fuel ih =>
    intro depth p s t h
    rw [seed_succ] at h
    have h1 := frame_seed depth p s
    by_cases hc : ((deref (_lrng_drng_seed depth p s).2 p).drng ≠
            (deref (_lrng_drng_seed depth p s).2 LRNG_DRNG_ATOMIC).drng &&
          lrng_drng_atomic_due (_lrng_drng_seed depth p s).2) = true
    · rw [if_pos hc] at h
      cases hg : lrng_drng_get_with (lrng_drng_seed fuel (depth + 1) p) (depth + 1) p fuel
          (_lrng_drng_seed depth p s).2
          (some (List.replicate LRNG_DRNG_SECURITY_STRENGTH_BYTES 0))
          LRNG_DRNG_SECURITY_STRENGTH_BYTES with
      | none =>
        rw [hg] at h
        cases h
      | some r =>
        rw [hg] at h
        dsimp only at h
        obtain ⟨hcb, ev, hev, hb⟩ := get_with_gframe (lrng_drng_seed fuel (depth + 1) p)
          (depth + 1) p (fun u t hu => ih (depth + 1) p u t hu) fuel _ _ _ r hg
        have h2 : frame depth (_lrng_drng_seed depth p s).2 r.2.2 :=
          ⟨hcb, ev, hev, (below_succ hb).1, (below_succ hb).2⟩
        by_cases hneg : r.1 < 0
        · rw [if_pos hneg] at h
          rw [← Option.some.inj h]
          exact frame_trans h1 h2
        · rw [if_neg hneg] at h
          rw [← Option.some.inj h]
          exact frame_trans (frame_trans h1 h2) (frame_inject depth _ _ _)
    · rw [if_neg hc] at h
      rw [← Option.some.inj h]
      exact h1

/-- The loop of `lrng_drng_get` with a generate primitive that never returns more than
it is asked for: when it returns, it returns the number of bytes asked for after calls
of its own that all delivered, or `-EFAULT` right after the first call of its own that
did not. -/
theorem get_loop_returned (seed : lrng_state → Option lrng_state) (depth p : Nat)
    (hseed : ∀ u t, seed u = some t → frame depth u t) :
    ∀ (fuel : Nat) (t : lrng_state) (outbuf : List Nat) (n pr : Nat)
      (r : Int × List Nat × lrng_state),
      (∀ g k, ((deref t p).crypto_cb.lrng_drng_generate_helper g k).1 ≤ (k : Int)) →
      pr + n < 2 ^ 31 →
      lrng_drng_get_loop seed depth p fuel t outbuf n pr = some r →
      ∃ ev, r.2.2.trace = t.trace ++ ev ∧
        ((r.1 = ((pr + n : Nat) : Int) ∧ ∀ x ∈ own_rets depth p ev, 0 < x) ∨
         (r.1 = -EFAULT ∧ ∃ pre g todo ret,
            ev = pre ++ [(depth, lrng_event.generate_helper p g todo ret)] ∧ ret ≤ 0 ∧
            ∀ x ∈ own_rets depth p pre, 0 < x)) := by
  intro fuel
  induction fuel with
  | zero =>
    intro t outbuf n pr r _ _ h
    rw [get_loop_zero] at h
    cases h
  | succ fuel ih =>
    intro t outbuf n pr r hle hlt h
    rw [get_loop_succ] at h
    by_cases h0 : n = 0
    · rw [if_pos h0] at h
      rw [← Option.some.inj h]
      refine ⟨[], (List.append_nil _).symm, Or.inl ⟨?_, ?_⟩⟩
      · show int_wrap (pr : Int) = _
        rw [h0, Nat.add_zero]
        exact int_wrap_natCast pr (by omega)
      · intro x hx
        cases hx
    · rw [if_neg h0] at h
      cases hb : lrng_drng_get_reseed seed depth p t with
      | none =>
        rw [hb] at h
        cases h
      | some t' =>
        rw [hb] at h
        dsimp only at h
        obtain ⟨hcb, ev0, hev0, _, hn0⟩ := get_reseed_frame seed depth p hseed t t' hb
        have hq0 := own_rets_of_nogen depth p ev0 hn0
        have hg4 := generate_trace depth p (min n LRNG_DRNG_MAX_REQSIZE) pr outbuf t'
        have hgle : (lrng_drng_get_generate depth p (min n LRNG_DRNG_MAX_REQSIZE) pr outbuf
            t').1 ≤ ((min n LRNG_DRNG_MAX_REQSIZE : Nat) : Int) := by
          have := hle (gen_of t' (deref t' p).drng) (min n LRNG_DRNG_MAX_REQSIZE)
          rw [← hcb p] at this
          exact this
        generalize hG : lrng_drng_get_generate depth p (min n LRNG_DRNG_MAX_REQSIZE) pr outbuf
          t' = G at h hg4 hgle
        have hmin : min n LRNG_DRNG_MAX_REQSIZE = min n 4096 := rfl
        rw [hmin] at hgle
        by_cases hle0 : G.1 ≤ 0
        · rw [if_pos hle0] at h
          rw [← Option.some.inj h]
          refine ⟨ev0 ++ [(depth, lrng_event.generate_helper p (deref t' p).drng
            (min n LRNG_DRNG_MAX_REQSIZE) G.1)], ?_, Or.inr ⟨rfl, ev0, _, _, _, rfl, hle0, ?_⟩⟩
          · show G.2.2.trace = _
            rw [hg4, hev0, List.append_assoc]
          · intro x hx
            rw [hq0] at hx
            cases hx
        · rw [if_neg hle0] at h
          obtain ⟨k, hk⟩ : ∃ k : Nat, G.1 = (k : Int) := ⟨G.1.toNat, by omega⟩
          have hk0 : 0 < k := by omega
          have hkn : k ≤ min n 4096 := by omega
          have e1 : (((n : Int) - G.1) % 2 ^ 32).toNat = n - k := by
            rw [hk]
            norm_num at hlt ⊢
            omega
          have e2 : (((pr : Int) + G.1) % 2 ^ 32).toNat = pr + k := by
            rw [hk]
            norm_num at hlt ⊢
            omega
          rw [e1, e2] at h
          have hcbG : (deref G.2.2 p).crypto_cb = (deref t p).crypto_cb := by
            rw [← hG]
            exact hcb p
          obtain ⟨ev, hev, hdi⟩ := ih G.2.2 G.2.1 (n - k) (pr + k) r
            (by rw [hcbG]; exact hle) (by omega) h
          have hpos : ∀ x ∈ own_rets depth p (ev0 ++ [(depth, lrng_event.generate_helper p
              (deref t' p).drng (min n LRNG_DRNG_MAX_REQSIZE) G.1)]), 0 < x := by
            intro x hx
            rw [own_rets_append, hq0, own_rets_single, List.nil_append, List.mem_singleton] at hx
            rw [hx, hk]
            omega
          refine ⟨ev0 ++ [(depth, lrng_event.generate_helper p (deref t' p).drng
            (min n LRNG_DRNG_MAX_REQSIZE) G.1)] ++ ev, ?_, ?_⟩
          · rw [hev, hg4, hev0, List.append_assoc, List.append_assoc, List.append_assoc]
          · rcases hdi with ⟨hret, hall⟩ | ⟨hret, pre, g, todo, ret, hpre, hle', hall⟩
            · left
              refine ⟨?_, ?_⟩
              · rw [hret]
                have e3 : pr + k + (n - k) = pr + n := by omega
                rw [e3]
              · intro x hx
                rw [own_rets_append, List.mem_append] at hx
                rcases hx with hx | hx
                · exact hpos x hx
                · exact hall x hx
            · right
              refine ⟨hret, ev0 ++ [(depth, lrng_event.generate_helper p (deref t' p).drng
                (min n LRNG_DRNG_MAX_REQSIZE) G.1)] ++ pre, g, todo, ret, ?_, hle', ?_⟩
              · rw [hpre, List.append_assoc, List.append_assoc, List.append_assoc]
              · intro x hx
                rw [own_rets_append, List.mem_append] at hx
                rcases hx with hx | hx
                · exact hpos x hx
                · exact hall x hx

/-- From the two ways the loop of `lrng_drng_get` ends to the statement about the
return value. -/
theorem fault_dichotomy (depth p n : Nat) (hn0 : 0 < n) (x : Int)
    (ie ev : List (Nat × lrng_event)) (hie : own_rets depth p ie = [])
    (hdi : (x = (n : Int) ∧ ∀ y ∈ own_rets depth p ev, 0 < y) ∨
      (x = -EFAULT ∧ ∃ pre g todo ret,
        ev = pre ++ [(depth, lrng_event.generate_helper p g todo ret)] ∧ ret ≤ 0 ∧
        ∀ y ∈ own_rets depth p pre, 0 < y)) :
    (x < 0 ↔ ∃ y ∈ own_rets depth p (ie ++ ev), y ≤ 0) ∧
    (x < 0 → x = -EFAULT ∧ ∃ pre g todo ret,
      ie ++ ev = pre ++ [(depth, lrng_event.generate_helper p g todo ret)] ∧ ret ≤ 0 ∧
      ∀ y ∈ own_rets depth p pre, 0 < y) ∧
    (¬ x < 0 → x = (n : Int)) := by
  rcases hdi with ⟨hret, hall⟩ | ⟨hret, pre, g, todo, ret, hpre, hle, hall⟩
  · have hnn : ¬ x < 0 := by rw [hret]; omega
    refine ⟨⟨fun h => absurd h hnn, ?_⟩, fun h => absurd h hnn, fun _ => hret⟩
    rintro ⟨y, hy, hy0⟩
    rw [own_rets_append, hie, List.nil_append] at hy
    have := hall y hy
    omega
  · have hneg : x < 0 := by rw [hret]; decide
    refine ⟨⟨fun _ => ⟨ret, ?_, hle⟩, fun _ => hneg⟩,
      fun _ => ⟨hret, ie ++ pre, g, todo, ret, ?_, hle, ?_⟩, fun h => absurd hneg h⟩
    · rw [own_rets_append, hpre, own_rets_append, own_rets_single]
      simp
    · rw [hpre, List.append_assoc]
    · intro y hy
      rw [own_rets_append, hie, List.nil_append] at hy
      exact hall y hy

/-! ### Every online pool is read and fed to the combining hash -/

theorem pcpu_reads_length (instances : Option (List (Option lrng_drng))) (k : Nat)
    (drng : lrng_drng) (cpus : List lrng_pcpu) :
    ∀ digest, (pcpu_reads instances k drng cpus digest).length =
      (cpus.filter lrng_pcpu_pool_online).length := by
  induction cpus with
  | nil => intro _; rfl
  | cons c cs ih =>
    intro digest
    unfold pcpu_reads
    by_cases hon : lrng_pcpu_pool_online c = true
    · simp only [hon, Bool.not_true, Bool.false_eq_true, if_false, List.length_cons,
        List.filter_cons_of_pos, ih]
    · simp only [Bool.not_eq_true] at hon
      simp only [hon, Bool.not_false, if_true, ih, List.filter_cons, Bool.false_eq_true,
        if_false]

/-- The combining hash of the per-CPU loop has received one update per online pool,
in the order of the enumeration, and the loop hands on the digest of the last read. -/
theorem hash_loop_shash (instances : Option (List (Option lrng_drng))) (k : Nat)
    (drng : lrng_drng) (T : Nat)
    (hupd : ∀ d x, (drng.crypto_cb.lrng_hash_update d x).1 = 0) (cpus : List lrng_pcpu) :
    ∀ st : pcpu_loop_state,
      (lrng_pcpu_pool_hash_loop instances k drng T cpus st).2.1.shash =
        fold_digests drng.crypto_cb st.shash
          ((pcpu_reads instances k drng cpus st.digest).map (fun r => r.2.2)) := by
  induction cpus with
  | nil => intro st; rfl
  | cons c cs ih =>
    intro st
    unfold lrng_pcpu_pool_hash_loop pcpu_reads
    dsimp only
    by_cases hon : lrng_pcpu_pool_online c = true
    · simp only [hon, Bool.not_true, Bool.false_eq_true, if_false, hupd, ne_eq,
        not_true_eq_false, List.map_cons]
      split_ifs
      · show (lrng_pcpu_pool_hash_loop instances k drng T cs _).2.1.shash = _
        rw [ih]
        rfl
      · show (lrng_pcpu_pool_hash_loop instances k drng T cs _).2.1.shash = _
        rw [ih]
        rfl
    · simp only [Bool.not_eq_true] at hon
      simp only [hon, Bool.not_false, if_true]
      exact ih st

/-- The pools the per-CPU loop leaves behind on the online CPUs are the pools the reads
left behind; an offline CPU is not touched. -/
theorem hash_loop_pools (instances : Option (List (Option lrng_drng))) (k : Nat)
    (drng : lrng_drng) (T : Nat)
    (hupd : ∀ d x, (drng.crypto_cb.lrng_hash_update d x).1 = 0) (cpus : List lrng_pcpu) :
    ∀ st : pcpu_loop_state,
      ((lrng_pcpu_pool_hash_loop instances k drng T cpus st).2.2.filter
          lrng_pcpu_pool_online).map (fun c => c.lrng_pcpu_pool) =
        (pcpu_reads instances k drng cpus st.digest).map (fun r => r.2.1.lrng_pcpu_pool) ∧
      (lrng_pcpu_pool_hash_loop instances k drng T cpus st).2.2.filter
          (fun c => !lrng_pcpu_pool_online c) =
        cpus.filter (fun c => !lrng_pcpu_pool_online c) := by
  induction cpus with
  | nil => intro st; exact ⟨rfl, rfl⟩
  | cons c cs ih =>
    intro st
    unfold lrng_pcpu_pool_hash_loop pcpu_reads
    dsimp only
    by_cases hon : lrng_pcpu_pool_online c = true
    · have hon1 := hash_one_online instances k drng c st.digest
      rw [hon] at hon1
      simp only [hon, Bool.not_true, Bool.false_eq_true, if_false, hupd, ne_eq,
        not_true_eq_false, List.map_cons]
      split_ifs
      · have hc2 : lrng_pcpu_pool_online
            { (lrng_pcpu_pool_hash_one instances k drng c st.digest).2.1 with
              lrng_pcpu_array_irqs := u32_add
                (lrng_pcpu_pool_hash_one instances k drng c st.digest).2.1.lrng_pcpu_array_irqs
                (u32_sub (u32_add st.collected_irqs
                  (lrng_pcpu_pool_hash_one instances k drng c st.digest).1) T) } = true := hon1
        obtain ⟨h1, h2⟩ := ih ⟨(drng.crypto_cb.lrng_hash_update st.shash
          (lrng_pcpu_pool_hash_one instances k drng c st.digest).2.2).2,
          (lrng_pcpu_pool_hash_one instances k drng c st.digest).2.2, T⟩
        constructor
        · rw [List.filter_cons_of_pos hc2, List.map_cons, h1]
        · rw [List.filter_cons_of_neg (by rw [hc2]; decide), h2,
            List.filter_cons_of_neg (by rw [hon]; decide)]
      · obtain ⟨h1, h2⟩ := ih ⟨(drng.crypto_cb.lrng_hash_update st.shash
          (lrng_pcpu_pool_hash_one instances k drng c st.digest).2.2).2,
          (lrng_pcpu_pool_hash_one instances k drng c st.digest).2.2,
          u32_add st.collected_irqs (lrng_pcpu_pool_hash_one instances k drng c st.digest).1⟩
        constructor
        · rw [List.filter_cons_of_pos hon1, List.map_cons, h1]
        · rw [List.filter_cons_of_neg (by rw [hon1]; decide), h2,
            List.filter_cons_of_neg (by rw [hon]; decide)]
    · simp only [Bool.not_eq_true] at hon
      obtain ⟨h1, h2⟩ := ih st
      simp only [hon, Bool.not_false, if_true]
      constructor
      · rw [List.filter_cons_of_neg (by rw [hon]; decide)]
        exact h1
      · rw [List.filter_cons_of_pos (by rw [hon]; rfl), List.filter_cons_of_pos (by rw [hon]; rfl),
          h2]

/-- A read of a per-CPU pool without a hash failure: the digest of the pool is written
to the digest buffer, the hash is set up again and fed its old digest. -/
theorem hash_one_read (instances : Option (List (Option lrng_drng))) (k : Nat)
    (drng : lrng_drng) (c : lrng_pcpu) (digest : List Nat)
    (hok : hash_ok (pcpu_drng_of instances drng c.node).crypto_cb) :
    (lrng_pcpu_pool_hash_one instances k drng c digest).2.2 =
      buf_write digest
        ((pcpu_drng_of instances drng c.node).crypto_cb.lrng_hash_final c.lrng_pcpu_pool).2.2 ∧
    (lrng_pcpu_pool_hash_one instances k drng c digest).2.1.lrng_pcpu_pool =
      ((pcpu_drng_of instances drng c.node).crypto_cb.lrng_hash_update
        ((pcpu_drng_of instances drng c.node).crypto_cb.lrng_hash_init
          ((pcpu_drng_of instances drng c.node).crypto_cb.lrng_hash_final
            c.lrng_pcpu_pool).2.1
          (pcpu_drng_of instances drng c.node).hash).2
        ((buf_write digest
          ((pcpu_drng_of instances drng c.node).crypto_cb.lrng_hash_final
            c.lrng_pcpu_pool).2.2).take
          (u32 ((pcpu_drng_of instances drng c.node).crypto_cb.lrng_hash_digestsize
            (pcpu_drng_of instances drng c.node).hash)))).2 := by
  obtain ⟨hini, hupd, hfin⟩ := hok
  unfold lrng_pcpu_pool_hash_one
  simp only [hini, hupd, hfin, ne_eq, not_true_eq_false, if_false]
  exact ⟨trivial, trivial⟩

/-- What `lrng_pcpu_pool_hash` leaves in the aux pool and on the CPUs when no hash
operation of the combining hash fails. -/
theorem pool_hash_combined (instances : Option (List (Option lrng_drng))) (drng : lrng_drng)
    (pool : lrng_pool) (cpus : List lrng_pcpu) (outbuf digest : List Nat)
    (requested_bits : Nat) (fully_seeded : Bool) (hok : hash_ok drng.crypto_cb) :
    (lrng_pcpu_pool_hash instances drng pool cpus outbuf digest requested_bits
        fully_seeded).pool.aux_pool =
      buf_write pool.aux_pool (drng.crypto_cb.lrng_hash_final
        (fold_digests drng.crypto_cb
          (drng.crypto_cb.lrng_hash_update
            (drng.crypto_cb.lrng_hash_init { tfm := 0, ctx := [] } drng.hash).2
            (lrng_pool_image pool)).2
          ((pcpu_reads instances pool.irq_info.irq_entropy_bits drng cpus digest).map
            (fun r => r.2.2)))).2.2 ∧
    ((lrng_pcpu_pool_hash instances drng pool cpus outbuf digest requested_bits
        fully_seeded).cpus.filter lrng_pcpu_pool_online).map (fun c => c.lrng_pcpu_pool) =
      (pcpu_reads instances pool.irq_info.irq_entropy_bits drng cpus digest).map
        (fun r => r.2.1.lrng_pcpu_pool) ∧
    (lrng_pcpu_pool_hash instances drng pool cpus outbuf digest requested_bits
        fully_seeded).cpus.filter (fun c => !lrng_pcpu_pool_online c) =
      cpus.filter (fun c => !lrng_pcpu_pool_online c) := by
  obtain ⟨hini, hupd, hfin⟩ := hok
  have hs := hash_loop_shash instances pool.irq_info.irq_entropy_bits drng
    (lrng_entropy_to_data pool.irq_info.irq_entropy_bits
      (u32_sub requested_bits
        (lrng_pcpu_pool_hash_aux
          (u32_shl (u32 (drng.crypto_cb.lrng_hash_digestsize drng.hash)) 3)
          pool.aux_entropy_bits requested_bits).2)) hupd cpus
    ⟨(drng.crypto_cb.lrng_hash_update
      (drng.crypto_cb.lrng_hash_init { tfm := 0, ctx := [] } drng.hash).2
      (lrng_pool_image pool)).2, digest, 0⟩
  have hp := hash_loop_pools instances pool.irq_info.irq_entropy_bits drng
    (lrng_entropy_to_data pool.irq_info.irq_entropy_bits
      (u32_sub requested_bits
        (lrng_pcpu_pool_hash_aux
          (u32_shl (u32 (drng.crypto_cb.lrng_hash_digestsize drng.hash)) 3)
          pool.aux_entropy_bits requested_bits).2)) hupd cpus
    ⟨(drng.crypto_cb.lrng_hash_update
      (drng.crypto_cb.lrng_hash_init { tfm := 0, ctx := [] } drng.hash).2
      (lrng_pool_image pool)).2, digest, 0⟩
  unfold lrng_pcpu_pool_hash
  simp only [hini, hupd, hfin, ne_eq, not_true_eq_false, if_false,
    lrng_pcpu_pool_hash_loop_ok _ _ _ _ hupd, Bool.not_true, Bool.false_eq_true]
  refine ⟨?_, hp.1, hp.2⟩
  rw [hs]

/-- Each read of `pcpu_reads` belongs to one online CPU, in the order of the enumeration:
it is the result of `lrng_pcpu_pool_hash_one` on that CPU, which without a hash failure
delivers the digest of the pool, sets the hash up again with the old digest as its first
input and clears the event counter. -/
theorem pcpu_reads_spec (instances : Option (List (Option lrng_drng))) (k : Nat)
    (drng : lrng_drng) (cpus : List lrng_pcpu)
    (hcpu : ∀ c ∈ cpus, hash_ok (pcpu_drng_of instances drng c.node).crypto_cb) :
    ∀ digest, List.Forall₂
      (fun (c : lrng_pcpu) (r : Nat × lrng_pcpu × List Nat) =>
        ∃ d, r = lrng_pcpu_pool_hash_one instances k drng c d ∧
          r.2.2 = buf_write d
            ((pcpu_drng_of instances drng c.node).crypto_cb.lrng_hash_final
              c.lrng_pcpu_pool).2.2 ∧
          r.2.1.lrng_pcpu_pool =
            ((pcpu_drng_of instances drng c.node).crypto_cb.lrng_hash_update
              ((pcpu_drng_of instances drng c.node).crypto_cb.lrng_hash_init
                ((pcpu_drng_of instances drng c.node).crypto_cb.lrng_hash_final
                  c.lrng_pcpu_pool).2.1
                (pcpu_drng_of instances drng c.node).hash).2
              (r.2.2.take
                (u32 ((pcpu_drng_of instances drng c.node).crypto_cb.lrng_hash_digestsize
                  (pcpu_drng_of instances drng c.node).hash)))).2 ∧
          r.2.1.lrng_pcpu_array_irqs = 0)
      (cpus.filter lrng_pcpu_pool_online) (pcpu_reads instances k drng cpus digest) := by
  induction cpus with
  | nil => intro _; exact List.Forall₂.nil
  | cons c cs ih =>
    intro digest
    have ih2 := ih (fun x hx => hcpu x (List.mem_cons_of_mem _ hx))
    unfold pcpu_reads
    by_cases hon : lrng_pcpu_pool_online c = true
    · have hr := hash_one_read instances k drng c digest (hcpu c (List.mem_cons_self _ _))
      rw [List.filter_cons_of_pos hon]
      simp only [hon, Bool.not_true, Bool.false_eq_true, if_false]
      refine List.Forall₂.cons ⟨digest, rfl, hr.1, ?_, hash_one_irqs instances k drng c digest⟩
        (ih2 _)
      rw [hr.2, hr.1]
    · simp only [Bool.not_eq_true] at hon
      rw [List.filter_cons_of_neg (by rw [hon]; decide)]
      simp only [hon, Bool.not_false, if_true]
      exact ih2 digest

/-! ### A failed seed is retried by the nested `lrng_drng_get` -/

theorem inject_gate (depth p : Nat) (inbuf : List Nat) (s : lrng_state) :
    (lrng_drng_inject depth p inbuf s).reseed_in_progress = s.reseed_in_progress := by
  unfold lrng_drng_inject
  dsimp only
  split_ifs <;> rfl

/-- After `_lrng_drng_seed` the reseed gate is free. -/
theorem seed_gate (depth p : Nat) (s : lrng_state) :
    (_lrng_drng_seed depth p s).2.reseed_in_progress = 0 := by
  have hi : (seed_injected depth p s).reseed_in_progress = 0 := by
    unfold seed_injected
    rw [inject_gate]
    rfl
  rw [seed_state]
  split_ifs
  · exact hi
  · exact hi

/-- After a seed that failed `requests` of the instance is 1. -/
theorem seed_fail_requests (d p : Nat) (s : lrng_state) (hp : p < s.drngs.length)
    (hfail : ∀ g b, ((deref s p).crypto_cb.lrng_drng_seed_helper g b).1 < 0) :
    (deref (_lrng_drng_seed d p s).2 p).requests = 1 := by
  have hi : (deref (seed_injected d p s) p).requests = 1 :=
    ((inject_fields d p (lrng_fill_seed_buffer d s).2.1
      (log (lrng_pool_unlock d (lrng_fill_seed_buffer d s).2.2) d
        (lrng_event.init_ops (u32 (lrng_fill_seed_buffer d s).1))) hp).1 (hfail _ _)).1
  rw [seed_state]
  split_ifs
  · rw [deref_store_eq _ _ _ (by rw [seed_injected_length]; exact hp)]
    exact hi
  · exact hi

/-- A request whose reseed block is due with the gate free does not return when the
reseed does not. -/
theorem get_with_never (seed : lrng_state → Option lrng_state) (depth p fuel : Nat)
    (s : lrng_state) (buf : List Nat) (n : Nat) (hp : p ≠ LRNG_DRNG_ATOMIC)
    (hav : s.lrng_avail ≠ 0) (hn : n ≠ 0) (hdue : reseed_due p s = true)
    (hg : s.reseed_in_progress = 0)
    (hseed : seed (log { requests_dec p s with reseed_in_progress := 1 } depth
      (lrng_event.pool_trylock 0)) = none) :
    lrng_drng_get_with seed depth p fuel s (some buf) n = none := by
  have hn2 : ¬ min n INT_MAX = 0 := by
    have : 0 < INT_MAX := by decide
    omega
  unfold lrng_drng_get_with
  dsimp only
  rw [if_neg hn, init_cc20_avail _ _ hav]
  cases fuel with
  | zero => rw [get_loop_zero]
  | succ f => rw [get_loop_succ, if_neg hn2, get_reseed_due_free seed depth p s hp hg hdue, hseed]

/-- Taking the gate in the reseed block keeps the situation `seed_fails`. -/
theorem seed_fails_next (depth p : Nat) (s : lrng_state) (h : seed_fails p s) :
    seed_fails p (log { requests_dec p s with reseed_in_progress := 1 } depth
      (lrng_event.pool_trylock 0)) := by
  obtain ⟨hp, hl, hfail, hown, hatd, hav⟩ := h
  have h1 : p < (requests_dec p s).drngs.length := by
    unfold requests_dec
    rw [store_length]
    exact hl
  have h2 : ∀ g b, ((deref (requests_dec p s) p).crypto_cb.lrng_drng_seed_helper
      g b).1 < 0 := by
    intro g b
    rw [requests_dec_crypto_cb]
    exact hfail g b
  have h3 : (deref (requests_dec p s) p).drng ≠
      (deref (requests_dec p s) LRNG_DRNG_ATOMIC).drng := by
    rw [requests_dec_drng, requests_dec_drng]
    exact hown
  have h4 : lrng_drng_atomic_due (requests_dec p s) = true := by
    rw [← hatd]
    refine atomic_due_congr s _ ?_ rfl rfl rfl
    unfold requests_dec
    rw [deref_store_ne _ _ _ _ hp]
  have h5 : (requests_dec p s).lrng_avail ≠ 0 := hav
  exact ⟨hp, h1, h2, h3, h4, h5⟩

/-- The seed that fails keeps the situation `seed_fails`. -/
theorem seed_fails_seed (d p : Nat) (s : lrng_state) (h : seed_fails p s) :
    seed_fails p (_lrng_drng_seed d p s).2 := by
  obtain ⟨hp, hl, hfail, hown, hdue, hav⟩ := h
  have hat := seed_other d p s hown
  have hdp := seed_drng d p s p
  have hda := seed_drng d p s LRNG_DRNG_ATOMIC
  obtain ⟨hlen, hcb, hHZ, hmax, hjif, havs, -⟩ := step_ok_seed d p d p s
  have hav1 := havs hav
  clear havs
  generalize (_lrng_drng_seed d p s).2 = s1 at *
  refine ⟨hp, by rw [hlen]; exact hl, ?_, ?_, ?_, hav1⟩
  · intro g b
    rw [hcb]
    exact hfail g b
  · rw [hdp, hda]
    exact hown
  · rw [← hdue]
    exact atomic_due_congr s s1 hat hjif hHZ hmax

/-- The reseed of an instance whose seed primitive keeps failing while the atomic
instance is due does not return, whatever the fuel: `lrng_drng_seed` calls
`lrng_drng_get`, which finds `requests` at 1 and the gate free and calls
`lrng_drng_seed` again. -/
theorem seed_never_returns (p : Nat) :
    ∀ (F d : Nat) (s : lrng_state), seed_fails p s → lrng_drng_seed F d p s = none := by
  intro F
  induction F with
  | zero => intro d s _; rfl
  | succ F ih =>
    intro d s h
    have h1 := seed_fails_seed d p s h
    have hnext := seed_fails_next (d + 1) p _ h1
    have hreq := seed_fail_requests d p s h.2.1 h.2.2.1
    have hgate := seed_gate d p s
    have hcond := seed_cond d p s h.2.2.2.1
    have hdue1 : reseed_due p (_lrng_drng_seed d p s).2 = true := by
      unfold reseed_due
      rw [hreq]
      rfl
    have hin := get_with_never (lrng_drng_seed F (d + 1) p) (d + 1) p F (_lrng_drng_seed d p s).2
      (List.replicate LRNG_DRNG_SECURITY_STRENGTH_BYTES 0) LRNG_DRNG_SECURITY_STRENGTH_BYTES
      h.1 h1.2.2.2.2.2 (by decide) hdue1 hgate (ih (d + 1) _ hnext)
    rw [seed_succ, hcond, h.2.2.2.2.1, if_pos rfl, hin]

/-- A request on an instance with `requests` at 1 and the gate free does not return
when its seed primitive keeps failing and the atomic instance is due. -/
theorem get_never_returns (fuel depth p : Nat) (s : lrng_state) (buf : List Nat) (n : Nat)
    (h : seed_fails p s) (hn : n ≠ 0) (hdue : reseed_due p s = true)
    (hg : s.reseed_in_progress = 0) :
    lrng_drng_get fuel depth p s (some buf) n = none :=
  get_with_never (lrng_drng_seed fuel depth p) depth p fuel s buf n h.1 h.2.2.2.2.2 hn hdue hg
    (seed_never_returns p fuel depth _ (seed_fails_next depth p s h))

/-! ### The background scheduler -/

theorem seed_work_find_pick (s : lrng_state) (tbl : List (Option Nat)) (q node : Nat)
    (post : List Nat) (hq : node_entry tbl node = some q)
    (hfs : (deref s q).fully_seeded = false) :
    ∀ pre : List Nat,
      (∀ m ∈ pre, ∀ x, node_entry tbl m = some x → (deref s x).fully_seeded = true) →
      lrng_drng_seed_work_find s tbl (pre ++ node :: post) = some (q, node) := by
  intro pre
  induction pre with
  | nil =>
    intro _
    show lrng_drng_seed_work_find s tbl (node :: post) = _
    unfold lrng_drng_seed_work_find
    rw [hq]
    dsimp only
    rw [hfs]
    rfl
  | cons m ms ih =>
    intro h
    have ih2 := ih (fun k hk => h k (List.mem_cons_of_mem _ hk))
    show lrng_drng_seed_work_find s tbl (m :: (ms ++ node :: post)) = _
    unfold lrng_drng_seed_work_find
    cases hm : node_entry tbl m with
    | none => exact ih2
    | some x =>
      dsimp only
      rw [h m (List.mem_cons_self _ _) x hm]
      exact ih2

theorem seed_work_find_idle (s : lrng_state) (tbl : List (Option Nat)) :
    ∀ nodes : List Nat,
      (∀ m ∈ nodes, ∀ x, node_entry tbl m = some x → (deref s x).fully_seeded = true) →
      lrng_drng_seed_work_find s tbl nodes = none := by
  intro nodes
  induction nodes with
  | nil => intro _; rfl
  | cons m ms ih =>
    intro h
    have ih2 := ih (fun k hk => h k (List.mem_cons_of_mem _ hk))
    unfold lrng_drng_seed_work_find
    cases hm : node_entry tbl m with
    | none => exact ih2
    | some x =>
      dsimp only
      rw [h m (List.mem_cons_self _ _) x hm]
      exact ih2

/-- The search of `lrng_drng_seed_work` either finds every instance fully seeded or
stops at the first one that is not. -/
theorem seed_work_find_cases (s : lrng_state) (tbl : List (Option Nat)) :
    ∀ nodes : List Nat,
      (∀ m ∈ nodes, ∀ x, node_entry tbl m = some x → (deref s x).fully_seeded = true) ∨
      ∃ q node pre post, nodes = pre ++ node :: post ∧ node_entry tbl node = some q ∧
        (deref s q).fully_seeded = false ∧
        ∀ m ∈ pre, ∀ x, node_entry tbl m = some x → (deref s x).fully_seeded = true := by
  intro nodes
  induction nodes with
  | nil => exact Or.inl (fun _ h => by cases h)
  | cons m ms ih =>
    by_cases hm : ∀ x, node_entry tbl m = some x → (deref s x).fully_seeded = true
    · rcases ih with h | ⟨q, node, pre, post, h1, h2, h3, h4⟩
      · left
        intro k hk
        rcases List.mem_cons.mp hk with rfl | hk
        · exact hm
        · exact h k hk
      · right
        refine ⟨q, node, m :: pre, post, by rw [h1]; rfl, h2, h3, ?_⟩
        intro k hk
        rcases List.mem_cons.mp hk with rfl | hk
        · exact hm
        · exact h4 k hk
    · right
      push_neg at hm
      obtain ⟨x, hx, hfs⟩ := hm
      exact ⟨x, m, [], ms, rfl, hx, by simpa using hfs, fun _ h => by cases h⟩

/-- Every state is one in which the scheduler has nothing to reseed or one in which it
picks an instance. -/
theorem seed_work_cases (s : lrng_state) :
    seed_work_idle s ∨ ∃ q node, seed_work_pick s q node := by
  cases hi : s.lrng_drng_instances with
  | none =>
    by_cases hfs : (deref s LRNG_DRNG_INIT).fully_seeded = true
    · exact Or.inl (Or.inl ⟨hi, hfs⟩)
    · exact Or.inr ⟨LRNG_DRNG_INIT, 0, Or.inl ⟨hi, rfl, rfl, by simpa using hfs⟩⟩
  | some tbl =>
    rcases seed_work_find_cases s tbl s.online_nodes with h | ⟨q, node, pre, post, h1, h2, h3, h4⟩
    · exact Or.inl (Or.inr ⟨tbl, hi, h⟩)
    · exact Or.inr ⟨q, node, Or.inr ⟨tbl, pre, post, hi, h1, h2, h3, h4⟩⟩

theorem seed_work_of_idle (fuel : Nat) (s : lrng_state) (h : seed_work_idle s) :
    lrng_drng_seed_work fuel s =
      some (lrng_pool_unlock 0
        (if s.lrng_drng_instances = none then s
          else log s 0 lrng_event.pool_all_numa_nodes_seeded)) := by
  rcases h with ⟨hn, hfs⟩ | ⟨tbl, ht, hall⟩
  · unfold lrng_drng_seed_work
    rw [hn]
    dsimp only
    rw [hfs]
    rfl
  · unfold lrng_drng_seed_work
    rw [ht]
    dsimp only
    rw [seed_work_find_idle s tbl s.online_nodes hall]
    rfl

theorem seed_work_of_pick (fuel : Nat) (s : lrng_state) (q node : Nat)
    (h : seed_work_pick s q node) :
    lrng_drng_seed_work fuel s =
      (_lrng_drng_seed_work fuel q node s).map (lrng_pool_unlock 0) := by
  rcases h with ⟨hn, rfl, rfl, hfs⟩ | ⟨tbl, pre, post, ht, hnodes, hq, hfs, hpre⟩
  · exact seed_work_null fuel s hn hfs
  · unfold lrng_drng_seed_work
    rw [ht]
    dsimp only
    rw [hnodes, seed_work_find_pick s tbl q node post hq hfs pre hpre]
    dsimp only
    cases _lrng_drng_seed_work fuel q node s <;> rfl

theorem _seed_work_eq (fuel q node : Nat) (s t : lrng_state)
    (h : lrng_drng_seed fuel 0 q s = some t) :
    _lrng_drng_seed_work fuel q node s =
      some (if (deref t q).fully_seeded = true then
        { store t q { deref t q with
            last_seeded := ulong_add (deref t q).last_seeded
              (((((node * 100 : Nat) : Int) * t.HZ) % 2 ^ 32 : Int)) } with
          lrng_drng_reseed_max_time := int_wrap (t.lrng_drng_reseed_max_time + 100) }
        else t) := by
  unfold _lrng_drng_seed_work
  rw [h]
  dsimp only
  split_ifs <;> rfl

theorem seed_calls_append (a b : List (Nat × lrng_event)) :
    seed_calls (a ++ b) = seed_calls a ++ seed_calls b := by
  induction a with
  | nil => rfl
  | cons e es ih =>
    obtain ⟨d, ev⟩ := e
    cases ev
    case seed_helper inst gen inbuf ret =>
      show (d, inst, ret) :: seed_calls (es ++ b) = (d, inst, ret) :: seed_calls es ++ seed_calls b
      rw [ih]
      rfl
    all_goals exact ih

theorem seeded_instances_append (a b : List (Nat × lrng_event)) :
    seeded_instances (a ++ b) = seeded_instances a ++ seeded_instances b := by
  unfold seeded_instances
  rw [seed_calls_append, List.map_append]

theorem inject_fills (depth p : Nat) (inbuf : List Nat) (s : lrng_state) :
    (lrng_drng_inject depth p inbuf s).fills = s.fills := by
  unfold lrng_drng_inject
  dsimp only
  split_ifs <;> rfl

theorem seed_fills (depth p : Nat) (s : lrng_state) :
    (_lrng_drng_seed depth p s).2.fills = s.fills + 1 := by
  have hi : (seed_injected depth p s).fills = s.fills + 1 := by
    unfold seed_injected
    rw [inject_fills]
    rfl
  rw [seed_state]
  split_ifs
  · exact hi
  · exact hi

theorem atomic_reseeded_fills (depth p : Nat) (s1 : lrng_state) :
    (atomic_reseeded depth p s1).fills = s1.fills := by
  unfold atomic_reseeded
  rw [inject_fills]
  rfl

/-- An injection into the instance at `p` leaves every instance but `p` and the atomic
one as it is. -/
theorem inject_untouched (depth p : Nat) (inbuf : List Nat) (s : lrng_state) (x : Nat)
    (hx : x ≠ p) (ha : x ≠ LRNG_DRNG_ATOMIC) :
    deref (lrng_drng_inject depth p inbuf s) x = deref s x := by
  unfold lrng_drng_inject
  dsimp only
  split_ifs
  · rw [deref_store_ne _ _ _ _ (Ne.symm hx)]
    rfl
  · rw [deref_store_ne _ _ _ _ (Ne.symm ha), deref_store_ne _ _ _ _ (Ne.symm hx)]
    rfl
  · rw [deref_store_ne _ _ _ _ (Ne.symm hx)]
    rfl

theorem seed_untouched (depth p : Nat) (s : lrng_state) (x : Nat)
    (hx : x ≠ p) (ha : x ≠ LRNG_DRNG_ATOMIC) :
    deref (_lrng_drng_seed depth p s).2 x = deref s x := by
  have hi : deref (seed_injected depth p s) x = deref s x := by
    unfold seed_injected
    rw [inject_untouched _ _ _ _ _ hx ha]
    rfl
  rw [seed_state]
  split_ifs
  · rw [deref_store_ne _ _ _ _ (Ne.symm hx)]
    exact hi
  · exact hi

/-- The side-effect reseed of the atomic instance changes, apart from the atomic
instance, only `requests` of the instance it draws from. -/
theorem atomic_reseeded_untouched (depth p : Nat) (s1 : lrng_state) (x : Nat)
    (ha : x ≠ LRNG_DRNG_ATOMIC) :
    deref (atomic_reseeded depth p s1) x = deref (requests_dec p s1) x := by
  unfold atomic_reseeded
  rw [inject_untouched _ _ _ _ _ ha ha]
  rfl

theorem requests_dec_untouched (p : Nat) (s : lrng_state) (x : Nat) (hx : x ≠ p) :
    deref (requests_dec p s) x = deref s x := by
  unfold requests_dec
  rw [deref_store_ne _ _ _ _ (Ne.symm hx)]

theorem requests_dec_seeded (p : Nat) (s : lrng_state) (x : Nat) :
    (deref (requests_dec p s) x).last_seeded = (deref s x).last_seeded ∧
    (deref (requests_dec p s) x).fully_seeded = (deref s x).fully_seeded := by
  unfold requests_dec
  rw [deref_store]
  split
  · rename_i h
    rw [← h.1]
    exact ⟨rfl, rfl⟩
  · exact ⟨rfl, rfl⟩

/-- Whether the instance is fully seeded after `_lrng_drng_seed`. -/
theorem seed_fully_seeded (depth p : Nat) (s : lrng_state) (hp : p < s.drngs.length) :
    (deref (_lrng_drng_seed depth p s).2 p).fully_seeded =
      ((deref s p).fully_seeded ||
        decide (lrng_security_strength s / 8 ≤ u32 (s.seed_source s.fills).1 / 8)) := by
  rw [seed_state]
  split_ifs with h
  · rw [deref_store_eq _ _ _ (by rw [seed_injected_length]; exact hp)]
    simp [h]
  · rw [seed_injected_fully_seeded]
    simp [h]

/-- What `lrng_drng_seed` does on a sleep-capable instance whose primitives do not fail:
it returns, after one seed assembly and one call of the seed primitive on the instance,
followed by the side-effect reseed of the atomic instance when the instance has a
generator of its own and the atomic instance is due; no third instance is touched. -/
theorem seed_outcome (F d q : Nat) (s : lrng_state) (hF : 3 ≤ F) (hq : q ≠ LRNG_DRNG_ATOMIC)
    (hr : get_ready q s) (hav : s.lrng_avail ≠ 0) :
    ∃ t, lrng_drng_seed F d q s = some t ∧ q < t.drngs.length ∧
      t.trace = s.trace ++ (seed_events d q s ++
        if (deref s q).drng ≠ (deref s LRNG_DRNG_ATOMIC).drng ∧ lrng_drng_atomic_due s = true
        then atomic_seed_events d q (_lrng_drng_seed d q s).2 else []) ∧
      t.fills = s.fills + 1 ∧
      t.lrng_drng_reseed_max_time = s.lrng_drng_reseed_max_time ∧ t.HZ = s.HZ ∧
      (∀ x, x ≠ q → x ≠ LRNG_DRNG_ATOMIC → deref t x = deref s x) ∧
      (deref t q).last_seeded = s.jiffies ∧
      (deref t q).fully_seeded = ((deref s q).fully_seeded ||
        decide (lrng_security_strength s / 8 ≤ u32 (s.seed_source s.fills).1 / 8)) := by
  obtain ⟨t, ht, hlen, -, hHZ, hmax, -, -, -⟩ := seed_returns F d q hF s hr hav
  have hfresh := seed_fresh d q s hr.1 hr.2.2.1
  have hfs := seed_fully_seeded d q s hr.1
  have htr := seed_trace_events d q s
  have hfl := seed_fills d q s
  have hun := seed_untouched d q s
  have heq := seed_eq F d q hF s hr hav
  refine ⟨t, ht, by rw [hlen]; exact hr.1, ?_, ?_, hmax, hHZ, ?_, ?_, ?_⟩
  all_goals rw [heq] at ht
  all_goals
    by_cases hc : (deref s q).drng ≠ (deref s LRNG_DRNG_ATOMIC).drng ∧
        lrng_drng_atomic_due s = true
  all_goals first
    | (rw [seed_cond d q s hc.1, hc.2, if_pos rfl] at ht)
    | (have hcf : ((deref (_lrng_drng_seed d q s).2 q).drng ≠
            (deref (_lrng_drng_seed d q s).2 LRNG_DRNG_ATOMIC).drng &&
          lrng_drng_atomic_due (_lrng_drng_seed d q s).2) = false := by
        by_cases hown : (deref s q).drng = (deref s LRNG_DRNG_ATOMIC).drng
        · exact seed_cond_shared d q s hown
        · rw [seed_cond d q s hown]
          simpa using fun h => hc ⟨hown, h⟩
       rw [hcf, if_neg (by decide)] at ht)
  all_goals rw [← Option.some.inj ht]
  · rw [if_pos hc, atomic_reseeded_trace, htr, List.append_assoc]
  · rw [if_neg hc, List.append_nil, htr]
  · rw [atomic_reseeded_fills, hfl]
  · exact hfl
  · intro x hx ha
    rw [atomic_reseeded_untouched _ _ _ _ ha, requests_dec_untouched _ _ _ hx, hun x hx ha]
  · exact hun
  · rw [atomic_reseeded_untouched _ _ _ _ hq, (requests_dec_seeded q _ q).1]
    exact hfresh.2.1
  · exact hfresh.2.1
  · rw [atomic_reseeded_untouched _ _ _ _ hq, (requests_dec_seeded q _ q).2]
    exact hfs
  · exact hfs

theorem seed_work_pick_fully_seeded (s : lrng_state) (q node : Nat)
    (h : seed_work_pick s q node) : (deref s q).fully_seeded = false := by
  rcases h with ⟨_, rfl, _, hfs⟩ | ⟨_, _, _, _, _, _, hfs, _⟩
  · exact hfs
  · exact hfs

/-- The scheduler after the reseed of the instance it picked, for any primitives: it
releases the gate, and when the instance is fully seeded it moves `last_seeded` of the
instance forward by `node * 100 * HZ` jiffies and adds 100 to
`lrng_drng_reseed_max_time`; otherwise it leaves the state as the reseed left it. -/
theorem seed_work_stagger (fuel : Nat) (s : lrng_state) (q node : Nat) (t : lrng_state)
    (hpick : seed_work_pick s q node) (hseed : lrng_drng_seed fuel 0 q s = some t)
    (hq : q < t.drngs.length) :
    ∃ r, lrng_drng_seed_work fuel s = some r ∧
      r.trace = t.trace ++ [(0, lrng_event.pool_unlock)] ∧ r.fills = t.fills ∧
      r.gens = t.gens ∧ r.reseed_in_progress = 0 ∧
      (∀ x, x ≠ q → deref r x = deref t x) ∧
      (deref r q).fully_seeded = (deref t q).fully_seeded ∧
      ((deref t q).fully_seeded = true →
        (deref r q).last_seeded = ulong_add (deref t q).last_seeded
          (((((node * 100 : Nat) : Int) * t.HZ) % 2 ^ 32 : Int)) ∧
        r.lrng_drng_reseed_max_time = int_wrap (t.lrng_drng_reseed_max_time + 100)) ∧
      ((deref t q).fully_seeded = false →
        deref r q = deref t q ∧ r.lrng_drng_reseed_max_time = t.lrng_drng_reseed_max_time) := by
  rw [seed_work_of_pick fuel s q node hpick, _seed_work_eq fuel q node s t hseed]
  by_cases hfs : (deref t q).fully_seeded = true
  · rw [if_pos hfs]
    refine ⟨_, rfl, rfl, rfl, rfl, rfl, ?_, ?_, fun _ => ⟨?_, rfl⟩, fun h => ?_⟩
    · intro x hx
      show deref (store t q _) x = deref t x
      rw [deref_store_ne _ _ _ _ (Ne.symm hx)]
    · show (deref (store t q _) q).fully_seeded = _
      rw [deref_store_eq _ _ _ hq]
    · show (deref (store t q _) q).last_seeded = _
      rw [deref_store_eq _ _ _ hq]
    · rw [hfs] at h
      cases h
  · rw [if_neg hfs]
    exact ⟨_, rfl, rfl, rfl, rfl, rfl, fun _ _ => rfl, rfl, fun h => absurd h hfs,
      fun _ => ⟨rfl, rfl⟩⟩

/-- The scheduler on a state in which it picks an instance whose primitives do not
fail. -/
theorem seed_work_reseeds (fuel : Nat) (s : lrng_state) (q node : Nat) (hF : 3 ≤ fuel)
    (hpick : seed_work_pick s q node) (hq : q ≠ LRNG_DRNG_ATOMIC) (hr : get_ready q s)
    (hav : s.lrng_avail ≠ 0) :
    ∃ r ev, lrng_drng_seed_work fuel s = some r ∧ r.trace = s.trace ++ ev ∧
      seeded_instances ev = q ::
        (if (deref s q).drng ≠ (deref s LRNG_DRNG_ATOMIC).drng ∧
            lrng_drng_atomic_due s = true then [LRNG_DRNG_ATOMIC] else []) ∧
      r.fills = s.fills + 1 ∧
      (∀ x, x ≠ q → x ≠ LRNG_DRNG_ATOMIC → deref r x = deref s x) ∧
      ((deref r q).fully_seeded = true ↔
        lrng_security_strength s / 8 ≤ u32 (s.seed_source s.fills).1 / 8) ∧
      ((deref r q).fully_seeded = true →
        (deref r q).last_seeded = ulong_add s.jiffies
          (((((node * 100 : Nat) : Int) * s.HZ) % 2 ^ 32 : Int)) ∧
        r.lrng_drng_reseed_max_time = int_wrap (s.lrng_drng_reseed_max_time + 100)) ∧
      ((deref r q).fully_seeded = false →
        (deref r q).last_seeded = s.jiffies ∧
        r.lrng_drng_reseed_max_time = s.lrng_drng_reseed_max_time) := by
  obtain ⟨t, ht, hlt, htr, hfl, hmax, hHZ, hun, hls, hfs⟩ := seed_outcome fuel 0 q s hF hq hr hav
  obtain ⟨r, hr1, hr2, hr3, -, -, hr4, hr5, hr6, hr7⟩ :=
    seed_work_stagger fuel s q node t hpick ht hlt
  rw [seed_work_pick_fully_seeded s q node hpick, Bool.false_or] at hfs
  refine ⟨r, _, hr1, by rw [hr2, htr, List.append_assoc], ?_, by rw [hr3, hfl], ?_, ?_, ?_, ?_⟩
  · rw [seeded_instances_append, seeded_instances_append]
    by_cases hc : (deref s q).drng ≠ (deref s LRNG_DRNG_ATOMIC).drng ∧
        lrng_drng_atomic_due s = true
    · rw [if_pos hc, if_pos hc]
      rfl
    · rw [if_neg hc, if_neg hc]
      rfl
  · intro x hx ha
    rw [hr4 x hx, hun x hx ha]
  · rw [hr5, hfs]
    exact decide_eq_true_iff
  · intro h
    rw [hr5] at h
    obtain ⟨h1, h2⟩ := hr6 h
    rw [h1, h2, hls, hHZ, hmax]
    exact ⟨rfl, rfl⟩
  · intro h
    rw [hr5] at h
    obtain ⟨h1, h2⟩ := hr7 h
    rw [h1, h2, hls, hmax]
    exact ⟨rfl, rfl⟩

/-! ### The copy into the caller's buffer -/

theorem testBit_of_lt_pow {t b i : Nat} (ht : t < 2 ^ b) (hi : b ≤ i) : t.testBit i = false :=
  Nat.testBit_lt_two_pow (lt_of_lt_of_le ht (Nat.pow_le_pow_right (by decide) hi))

/-- A value of slot width or-ed into a word at a slot position is read back from that
position, merged with what the slot held. -/
theorem slot_or_same (m t n b : Nat) (ht : t < 2 ^ b) :
    ((m ||| t <<< n) / 2 ^ n) % 2 ^ b = ((m / 2 ^ n) % 2 ^ b) ||| t := by
  rw [← Nat.shiftRight_eq_div_pow, ← Nat.shiftRight_eq_div_pow]
  apply Nat.eq_of_testBit_eq
  intro i
  rw [Nat.testBit_mod_two_pow, Nat.testBit_shiftRight, Nat.testBit_or, Nat.testBit_or,
    Nat.testBit_mod_two_pow, Nat.testBit_shiftRight, Nat.testBit_shiftLeft]
  have e : n + i - n = i := by omega
  rw [e]
  by_cases hi : i < b
  · simp [hi]
  · rw [testBit_of_lt_pow ht (Nat.le_of_not_lt hi)]
    simp [hi]

/-- Other slot positions of the word are not changed. -/
theorem slot_or_other (m t b j k : Nat) (ht : t < 2 ^ b) (hjk : j ≠ k) :
    ((m ||| t <<< (b * k)) / 2 ^ (b * j)) % 2 ^ b = (m / 2 ^ (b * j)) % 2 ^ b := by
  rw [← Nat.shiftRight_eq_div_pow, ← Nat.shiftRight_eq_div_pow]
  apply Nat.eq_of_testBit_eq
  intro i
  rw [Nat.testBit_mod_two_pow, Nat.testBit_shiftRight, Nat.testBit_or,
    Nat.testBit_mod_two_pow, Nat.testBit_shiftRight, Nat.testBit_shiftLeft]
  by_cases hi : i < b
  · have hz : (decide (b * j + i ≥ b * k) && t.testBit (b * j + i - b * k)) = false := by
      rcases Nat.lt_or_gt_of_ne hjk with h | h
      · have h1 : b * j + i < b * k := by
          calc b * j + i < b * j + b := by omega
            _ = b * (j + 1) := by ring
            _ ≤ b * k := Nat.mul_le_mul_left b h
        simp [Nat.not_le.mpr h1]
      · have h1 : b * (k + 1) ≤ b * j := Nat.mul_le_mul_left b h
        have h2 : b * (k + 1) = b * k + b := by ring
        rw [testBit_of_lt_pow ht (by omega)]
        simp
    rw [hz, Bool.or_false]
  · simp [hi]

theorem getD_set_same (a : List Nat) (i x : Nat) (h : i < a.length) :
    (a.set i x).getD i 0 = x := by
  rw [List.getD_eq_getElem?_getD, List.getElem?_set, if_pos rfl, if_pos h]
  rfl

theorem getD_set_other (a : List Nat) (i j x : Nat) (h : i ≠ j) :
    (a.set i x).getD j 0 = a.getD j 0 := by
  rw [List.getD_eq_getElem?_getD, List.getElem?_set, if_neg h, List.getD_eq_getElem?_getD]

/-- What a well formed geometry gives: the number of slots of a member and the capacity
as powers of two. -/
theorem geometry_facts (cfg : lrng_data_cfg) (h : geometry_ok cfg) :
    ∃ e k, LRNG_DATA_SLOTS_PER_UINT cfg = 2 ^ e ∧
      cfg.LRNG_DATA_SLOTSIZE_BITS * 2 ^ e = 32 ∧ cfg.LRNG_DATA_NUM_VALUES = 2 ^ k ∧ e < k ∧
      0 < cfg.LRNG_DATA_SLOTSIZE_BITS := by
  obtain ⟨e, k, h1, h2, h3⟩ := h
  have hb : 0 < cfg.LRNG_DATA_SLOTSIZE_BITS := by
    rcases Nat.eq_zero_or_pos cfg.LRNG_DATA_SLOTSIZE_BITS with h0 | h0
    · rw [h0, Nat.zero_mul] at h1
      cases h1
    · exact h0
  refine ⟨e, k, ?_, h1, h2, h3, hb⟩
  unfold LRNG_DATA_SLOTS_PER_UINT LRNG_DATA_ARRAY_MEMBER_BITS
  rw [← h1, Nat.mul_div_cancel_left _ hb]

/-- The member of a slot below the capacity exists. -/
theorem slot_member_lt (cfg : lrng_data_cfg) (h : geometry_ok cfg) (idx : Nat)
    (hidx : idx < cfg.LRNG_DATA_NUM_VALUES) :
    idx / LRNG_DATA_SLOTS_PER_UINT cfg < LRNG_DATA_ARRAY_SIZE cfg := by
  obtain ⟨e, k, h1, _, h3, h4, _⟩ := geometry_facts cfg h
  unfold LRNG_DATA_ARRAY_SIZE
  rw [h3] at hidx
  rw [h1, h3]
  have hd : 2 ^ e ∣ 2 ^ k := Nat.pow_dvd_pow 2 (Nat.le_of_lt h4)
  rw [Nat.div_lt_iff_lt_mul (Nat.pos_pow_of_pos e (by decide)), Nat.div_mul_cancel hd]
  exact hidx

/-- A slot value shifted to its position fits a `u32`. -/
theorem slot_val_eq (cfg : lrng_data_cfg) (h : geometry_ok cfg) (t idx : Nat)
    (ht : t < 2 ^ cfg.LRNG_DATA_SLOTSIZE_BITS) :
    lrng_data_slot_val cfg t (lrng_data_idx2slot cfg idx) =
      t <<< (cfg.LRNG_DATA_SLOTSIZE_BITS * (idx % LRNG_DATA_SLOTS_PER_UINT cfg)) := by
  obtain ⟨e, k, h1, h2, _, _, hb⟩ := geometry_facts cfg h
  unfold lrng_data_slot_val lrng_data_idx2slot u32 U32_MOD
  rw [h1, Nat.and_pow_two_sub_one_eq_mod]
  apply Nat.mod_eq_of_lt
  have hk : idx % 2 ^ e < 2 ^ e := Nat.mod_lt _ (Nat.pos_pow_of_pos e (by decide))
  have h5 : cfg.LRNG_DATA_SLOTSIZE_BITS * (idx % 2 ^ e) + cfg.LRNG_DATA_SLOTSIZE_BITS ≤ 32 := by
    rw [← h2]
    calc cfg.LRNG_DATA_SLOTSIZE_BITS * (idx % 2 ^ e) + cfg.LRNG_DATA_SLOTSIZE_BITS
        = cfg.LRNG_DATA_SLOTSIZE_BITS * (idx % 2 ^ e + 1) := by ring
      _ ≤ cfg.LRNG_DATA_SLOTSIZE_BITS * 2 ^ e := Nat.mul_le_mul_left _ hk
  rw [Nat.shiftLeft_eq]
  calc t * 2 ^ (cfg.LRNG_DATA_SLOTSIZE_BITS * (idx % 2 ^ e))
      < 2 ^ cfg.LRNG_DATA_SLOTSIZE_BITS * 2 ^ (cfg.LRNG_DATA_SLOTSIZE_BITS * (idx % 2 ^ e)) :=
        Nat.mul_lt_mul_of_pos_right ht (Nat.pos_pow_of_pos _ (by decide))
    _ = 2 ^ (cfg.LRNG_DATA_SLOTSIZE_BITS * (idx % 2 ^ e) + cfg.LRNG_DATA_SLOTSIZE_BITS) := by
        rw [← Nat.pow_add, Nat.add_comm]
    _ ≤ 2 ^ 32 := Nat.pow_le_pow_right (by decide) h5

/-- The write of `lrng_pcpu_array_add_slot` seen slot by slot. -/
theorem array_or_slots (cfg : lrng_data_cfg) (h : geometry_ok cfg) (a : List Nat)
    (t cur : Nat) (ht : t < 2 ^ cfg.LRNG_DATA_SLOTSIZE_BITS)
    (hcur : cur < cfg.LRNG_DATA_NUM_VALUES) (hlen : a.length = LRNG_DATA_ARRAY_SIZE cfg) :
    slot_read cfg (array_or a (lrng_data_idx2array cfg cur)
        (lrng_data_slot_val cfg t (lrng_data_idx2slot cfg cur))) cur =
      slot_read cfg a cur ||| t ∧
    ∀ idx, idx ≠ cur →
      slot_read cfg (array_or a (lrng_data_idx2array cfg cur)
        (lrng_data_slot_val cfg t (lrng_data_idx2slot cfg cur))) idx = slot_read cfg a idx := by
  have hm : cur / LRNG_DATA_SLOTS_PER_UINT cfg < a.length := by
    rw [hlen]
    exact slot_member_lt cfg h cur hcur
  rw [slot_val_eq cfg h t cur ht]
  unfold slot_read array_or lrng_data_idx2array
  constructor
  · rw [getD_set_same _ _ _ hm]
    exact slot_or_same _ t _ _ ht
  · intro idx hne
    by_cases hi : cur / LRNG_DATA_SLOTS_PER_UINT cfg = idx / LRNG_DATA_SLOTS_PER_UINT cfg
    · rw [← hi, getD_set_same _ _ _ hm]
      have hmod : idx % LRNG_DATA_SLOTS_PER_UINT cfg ≠ cur % LRNG_DATA_SLOTS_PER_UINT cfg := by
        intro hmod
        apply hne
        rw [← Nat.div_add_mod idx (LRNG_DATA_SLOTS_PER_UINT cfg),
          ← Nat.div_add_mod cur (LRNG_DATA_SLOTS_PER_UINT cfg), hi, hmod]
      exact slot_or_other _ t _ _ _ ht hmod
    · rw [getD_set_other _ _ _ _ hi]

theorem next_slot_eq (cfg : lrng_data_cfg) (h : geometry_ok cfg) (s : lrng_noise_state) :
    u32_add s.cpu.lrng_pcpu_array_ptr 1 &&& LRNG_DATA_WORD_MASK cfg = next_slot cfg s ∧
    next_slot cfg s < cfg.LRNG_DATA_NUM_VALUES := by
  obtain ⟨e, k, _, _, h3, _, _⟩ := geometry_facts cfg h
  unfold LRNG_DATA_WORD_MASK next_slot u32_add U32_MOD
  rw [h3, Nat.and_pow_two_sub_one_eq_mod]
  exact ⟨rfl, Nat.mod_lt _ (Nat.pos_pow_of_pos k (by decide))⟩

/-- The function `lrng_pcpu_array_add_slot` appends the time stamp. -/
theorem add_slot_appended (env : lrng_noise_env) (h : geometry_ok env.cfg) (t : Nat)
    (s : lrng_noise_state) (ht : t < 2 ^ env.cfg.LRNG_DATA_SLOTSIZE_BITS)
    (hlen : s.cpu.lrng_pcpu_array.length = LRNG_DATA_ARRAY_SIZE env.cfg) :
    slot_appended env t s (lrng_pcpu_array_add_slot env t s) := by
  obtain ⟨hn1, hn2⟩ := next_slot_eq env.cfg h s
  obtain ⟨hs1, hs2⟩ := array_or_slots env.cfg h s.cpu.lrng_pcpu_array t (next_slot env.cfg s)
    ht hn2 hlen
  have hr : lrng_pcpu_array_add_slot env t s =
      lrng_pcpu_array_to_hash env (next_slot env.cfg s)
        { cpu := { s.cpu with
            lrng_pcpu_array := array_or s.cpu.lrng_pcpu_array
              (lrng_data_idx2array env.cfg (next_slot env.cfg s))
              (lrng_data_slot_val env.cfg t (lrng_data_idx2slot env.cfg (next_slot env.cfg s)))
            lrng_pcpu_array_ptr := (s.cpu.lrng_pcpu_array_ptr + 1) % 2 ^ 32 },
          pool_add_irq := s.pool_add_irq } := by
    unfold lrng_pcpu_array_add_slot
    dsimp only
    rw [hn1]
    rfl
  refine ⟨_, ?_, hs1, hs2, hr, fun hfs hlt => ?_⟩
  · unfold array_or
    rw [List.length_set]
  · rw [hr]
    unfold lrng_pcpu_array_to_hash
    have hskip : (next_slot env.cfg s < LRNG_DATA_WORD_MASK env.cfg) := hlt
    simp only [hfs, Bool.not_true, Bool.false_eq_true, if_false, hskip, decide_True, if_true]
    exact ⟨trivial, trivial, trivial⟩

theorem compress_array (env : lrng_noise_env) (c : lrng_pcpu) :
    (lrng_pcpu_array_compress env c).lrng_pcpu_array = c.lrng_pcpu_array := by
  unfold lrng_pcpu_array_compress
  dsimp only
  split_ifs <;> rfl

theorem to_hash_length (env : lrng_noise_env) (ptr : Nat) (st : lrng_noise_state) :
    (lrng_pcpu_array_to_hash env ptr st).cpu.lrng_pcpu_array.length =
      st.cpu.lrng_pcpu_array.length := by
  unfold lrng_pcpu_array_to_hash
  dsimp only
  split_ifs <;>
    first
    | rfl
    | exact List.length_replicate _ _
    | exact (List.length_replicate _ _).trans (congrArg List.length (compress_array env st.cpu))

/-- The bits of a `u32` from bit `n` on, as the code masks them out. -/
theorem and_not_mask (t n : Nat) (ht : t < 2 ^ 32) :
    t &&& ((2 ^ n - 1) ^^^ (2 ^ 32 - 1)) = t / 2 ^ n * 2 ^ n := by
  rw [← Nat.shiftRight_eq_div_pow, ← Nat.shiftLeft_eq]
  apply Nat.eq_of_testBit_eq
  intro i
  rw [Nat.testBit_and, Nat.testBit_xor, Nat.testBit_two_pow_sub_one,
    Nat.testBit_two_pow_sub_one, Nat.testBit_shiftLeft, Nat.testBit_shiftRight]
  by_cases hi : i < n
  · have : ¬ i ≥ n := Nat.not_le.mpr hi
    by_cases h32 : i < 32
    · simp [hi, h32, this]
    · rw [testBit_of_lt_pow ht (Nat.le_of_not_lt h32)]
      simp [this]
  · have hge : i ≥ n := Nat.le_of_not_lt hi
    have e : n + (i - n) = i := by omega
    rw [e]
    by_cases h32 : i < 32
    · simp [hi, h32, hge]
    · rw [testBit_of_lt_pow ht (Nat.le_of_not_lt h32)]
      simp

/-- The cursor arithmetic of `_lrng_pcpu_array_add_u32`. -/
theorem add_u32_cursor (cfg : lrng_data_cfg) (h : geometry_ok cfg) (s : lrng_noise_state) :
    u32_sub (u32_add s.cpu.lrng_pcpu_array_ptr (LRNG_DATA_SLOTS_PER_UINT cfg))
        (LRNG_DATA_SLOTS_PER_UINT cfg) &&& LRNG_DATA_WORD_MASK cfg = cursor_slot cfg s ∧
    u32_add s.cpu.lrng_pcpu_array_ptr (LRNG_DATA_SLOTS_PER_UINT cfg) &&&
        LRNG_DATA_WORD_MASK cfg = next_word cfg s ∧
    cursor_slot cfg s < cfg.LRNG_DATA_NUM_VALUES ∧ next_word cfg s < cfg.LRNG_DATA_NUM_VALUES ∧
    u32_sub (u32 (1 <<< ((cursor_slot cfg s &&& (LRNG_DATA_SLOTS_PER_UINT cfg - 1)) *
        cfg.LRNG_DATA_SLOTSIZE_BITS))) 1 = 2 ^ split_bit cfg s - 1 := by
  obtain ⟨e, k, h1, h2, h3, h4, hb⟩ := geometry_facts cfg h
  have hpos : 0 < 2 ^ k := Nat.pos_pow_of_pos k (by decide)
  have hs32 : LRNG_DATA_SLOTS_PER_UINT cfg ≤ 32 := by
    rw [h1, ← h2]
    exact Nat.le_mul_of_pos_left _ hb
  have hsub : u32_sub (u32_add s.cpu.lrng_pcpu_array_ptr (LRNG_DATA_SLOTS_PER_UINT cfg))
      (LRNG_DATA_SLOTS_PER_UINT cfg) = s.cpu.lrng_pcpu_array_ptr % 2 ^ 32 := by
    unfold u32_sub u32_add U32_MOD
    omega
  have hn : split_bit cfg s < 32 := by
    unfold split_bit
    have hk : cursor_slot cfg s % LRNG_DATA_SLOTS_PER_UINT cfg < 2 ^ e := by
      rw [h1]
      exact Nat.mod_lt _ (Nat.pos_pow_of_pos e (by decide))
    calc cfg.LRNG_DATA_SLOTSIZE_BITS * (cursor_slot cfg s % LRNG_DATA_SLOTS_PER_UINT cfg)
        < cfg.LRNG_DATA_SLOTSIZE_BITS * 2 ^ e := Nat.mul_lt_mul_of_pos_left hk hb
      _ = 32 := h2
  refine ⟨?_, ?_, ?_, ?_, ?_⟩
  · rw [hsub]
    unfold LRNG_DATA_WORD_MASK cursor_slot
    rw [h3, Nat.and_pow_two_sub_one_eq_mod]
  · unfold LRNG_DATA_WORD_MASK next_word u32_add U32_MOD
    rw [h3, Nat.and_pow_two_sub_one_eq_mod]
  · unfold cursor_slot
    rw [h3]
    exact Nat.mod_lt _ hpos
  · unfold next_word
    rw [h3]
    exact Nat.mod_lt _ hpos
  · have e1 : (cursor_slot cfg s &&& (LRNG_DATA_SLOTS_PER_UINT cfg - 1)) *
        cfg.LRNG_DATA_SLOTSIZE_BITS = split_bit cfg s := by
      unfold split_bit
      rw [h1, Nat.and_pow_two_sub_one_eq_mod, Nat.mul_comm]
    rw [e1, Nat.shiftLeft_eq, Nat.one_mul]
    have h5 : 2 ^ split_bit cfg s < 2 ^ 32 := Nat.pow_lt_pow_right (by decide) hn
    have h6 : 0 < 2 ^ split_bit cfg s := Nat.pos_pow_of_pos _ (by decide)
    unfold u32_sub u32 U32_MOD
    generalize 2 ^ split_bit cfg s = x at h5 h6 ⊢
    omega

/-- The function `_lrng_pcpu_array_add_u32` with its cursor and mask arithmetic worked
out. -/
theorem add_u32_eq (env : lrng_noise_env) (h : geometry_ok env.cfg) (t : Nat)
    (s : lrng_noise_state) (ht : t < 2 ^ 32) :
    _lrng_pcpu_array_add_u32 env t s =
      if cursor_slot env.cfg s ≤ next_word env.cfg s then
        lrng_pcpu_array_to_hash env (next_word env.cfg s)
          { cpu := { s.cpu with
              lrng_pcpu_array :=
                (s.cpu.lrng_pcpu_array.set
                  (cursor_slot env.cfg s / LRNG_DATA_SLOTS_PER_UINT env.cfg)
                  (s.cpu.lrng_pcpu_array.getD
                      (cursor_slot env.cfg s / LRNG_DATA_SLOTS_PER_UINT env.cfg) 0 |||
                    t / 2 ^ split_bit env.cfg s * 2 ^ split_bit env.cfg s)).set
                  (next_word env.cfg s / LRNG_DATA_SLOTS_PER_UINT env.cfg)
                  (t % 2 ^ split_bit env.cfg s)
              lrng_pcpu_array_ptr :=
                (s.cpu.lrng_pcpu_array_ptr + LRNG_DATA_SLOTS_PER_UINT env.cfg) % 2 ^ 32 },
            pool_add_irq := s.pool_add_irq }
      else
        { (lrng_pcpu_array_to_hash env (env.cfg.LRNG_DATA_NUM_VALUES - 1)
            { cpu := { s.cpu with
                lrng_pcpu_array :=
                  s.cpu.lrng_pcpu_array.set
                    (cursor_slot env.cfg s / LRNG_DATA_SLOTS_PER_UINT env.cfg)
                    (s.cpu.lrng_pcpu_array.getD
                        (cursor_slot env.cfg s / LRNG_DATA_SLOTS_PER_UINT env.cfg) 0 |||
                      t / 2 ^ split_bit env.cfg s * 2 ^ split_bit env.cfg s)
                lrng_pcpu_array_ptr :=
                  (s.cpu.lrng_pcpu_array_ptr + LRNG_DATA_SLOTS_PER_UINT env.cfg) % 2 ^ 32 },
              pool_add_irq := s.pool_add_irq }) with
          cpu := { (lrng_pcpu_array_to_hash env (env.cfg.LRNG_DATA_NUM_VALUES - 1)
            { cpu := { s.cpu with
                lrng_pcpu_array :=
                  s.cpu.lrng_pcpu_array.set
                    (cursor_slot env.cfg s / LRNG_DATA_SLOTS_PER_UINT env.cfg)
                    (s.cpu.lrng_pcpu_array.getD
                        (cursor_slot env.cfg s / LRNG_DATA_SLOTS_PER_UINT env.cfg) 0 |||
                      t / 2 ^ split_bit env.cfg s * 2 ^ split_bit env.cfg s)
                lrng_pcpu_array_ptr :=
                  (s.cpu.lrng_pcpu_array_ptr + LRNG_DATA_SLOTS_PER_UINT env.cfg) % 2 ^ 32 },
              pool_add_irq := s.pool_add_irq }).cpu with
            lrng_pcpu_array :=
              (lrng_pcpu_array_to_hash env (env.cfg.LRNG_DATA_NUM_VALUES - 1)
                { cpu := { s.cpu with
                    lrng_pcpu_array :=
                      s.cpu.lrng_pcpu_array.set
                        (cursor_slot env.cfg s / LRNG_DATA_SLOTS_PER_UINT env.cfg)
                        (s.cpu.lrng_pcpu_array.getD
                            (cursor_slot env.cfg s / LRNG_DATA_SLOTS_PER_UINT env.cfg) 0 |||
                          t / 2 ^ split_bit env.cfg s * 2 ^ split_bit env.cfg s)
                    lrng_pcpu_array_ptr :=
                      (s.cpu.lrng_pcpu_array_ptr + LRNG_DATA_SLOTS_PER_UINT env.cfg) % 2 ^ 32 },
                  pool_add_irq := s.pool_add_irq }).cpu.lrng_pcpu_array.set
                (next_word env.cfg s / LRNG_DATA_SLOTS_PER_UINT env.cfg)
                (t % 2 ^ split_bit env.cfg s) } } := by
  obtain ⟨c1, c2, _, _, c5⟩ := add_u32_cursor env.cfg h s
  have hhi := and_not_mask t (split_bit env.cfg s) ht
  have hlo := Nat.and_pow_two_sub_one_eq_mod t (split_bit env.cfg s)
  unfold _lrng_pcpu_array_add_u32 array_or lrng_data_idx2array
  dsimp only
  rw [c1, c2, c5]
  have hM : U32_MOD - 1 = 2 ^ 32 - 1 := rfl
  rw [hM, hhi, hlo]
  by_cases hc : cursor_slot env.cfg s ≤ next_word env.cfg s
  · rw [if_neg (Nat.not_lt.mpr hc), if_pos hc, if_pos hc]
    rfl
  · rw [if_pos (Nat.lt_of_not_le hc), if_neg hc, if_neg hc]
    rfl

/-- The function `_lrng_pcpu_array_add_u32` appends the time stamp. -/
theorem add_u32_appended (env : lrng_noise_env) (h : geometry_ok env.cfg) (t : Nat)
    (s : lrng_noise_state) (ht : t < 2 ^ 32)
    (hlen : s.cpu.lrng_pcpu_array.length = LRNG_DATA_ARRAY_SIZE env.cfg) :
    word_appended env t s (_lrng_pcpu_array_add_u32 env t s) := by
  obtain ⟨_, _, c3, c4, _⟩ := add_u32_cursor env.cfg h s
  have hip : cursor_slot env.cfg s / LRNG_DATA_SLOTS_PER_UINT env.cfg <
      s.cpu.lrng_pcpu_array.length := by
    rw [hlen]
    exact slot_member_lt env.cfg h _ c3
  have hic : next_word env.cfg s / LRNG_DATA_SLOTS_PER_UINT env.cfg <
      s.cpu.lrng_pcpu_array.length := by
    rw [hlen]
    exact slot_member_lt env.cfg h _ c4
  have hr := add_u32_eq env h t s ht
  refine ⟨s.cpu.lrng_pcpu_array.set (cursor_slot env.cfg s / LRNG_DATA_SLOTS_PER_UINT env.cfg)
    (s.cpu.lrng_pcpu_array.getD (cursor_slot env.cfg s / LRNG_DATA_SLOTS_PER_UINT env.cfg) 0 |||
      t / 2 ^ split_bit env.cfg s * 2 ^ split_bit env.cfg s), List.length_set _ _ _,
    getD_set_same _ _ _ hip, fun j hj => getD_set_other _ _ _ _ (Ne.symm hj), ?_⟩
  by_cases hc : cursor_slot env.cfg s ≤ next_word env.cfg s
  · rw [if_pos hc] at hr ⊢
    refine ⟨_, List.length_set _ _ _, getD_set_same _ _ _ (by rw [List.length_set]; exact hic),
      fun j hj => getD_set_other _ _ _ _ (Ne.symm hj), hr, fun hfs h32 hlt => ?_⟩
    rw [hr]
    unfold lrng_pcpu_array_to_hash
    have h31 : next_word env.cfg s &&& 31 ≠ 0 := by
      have e := Nat.and_pow_two_sub_one_eq_mod (next_word env.cfg s) 5
      have e2 : next_word env.cfg s &&& 31 = next_word env.cfg s % 32 := e
      rw [e2]
      exact h32
    have hskip : next_word env.cfg s < LRNG_DATA_WORD_MASK env.cfg := hlt
    simp only [hfs, Bool.not_false, if_true, h31, hskip, ne_eq, not_false_eq_true,
      decide_True, Bool.and_self]
    exact ⟨trivial, trivial, trivial⟩
  · rw [if_neg hc] at hr ⊢
    refine ⟨_, rfl, ?_, ?_, ?_, ?_⟩
    · rw [hr]
      exact List.length_set _ _ _
    · rw [hr]
      exact getD_set_same _ _ _ (by rw [to_hash_length]; rw [List.length_set]; exact hic)
    · intro j hj
      rw [hr]
      exact getD_set_other _ _ _ _ (Ne.symm hj)
    · rw [hr]

theorem time_stamp_lt (env : lrng_noise_env) (now_time : Nat) :
    (env.fully_seeded = true →
      time_stamp env now_time < 2 ^ env.cfg.LRNG_DATA_SLOTSIZE_BITS ∧
      time_stamp env now_time = (now_time % 2 ^ 32) % 2 ^ env.cfg.LRNG_DATA_SLOTSIZE_BITS) ∧
    (env.fully_seeded = false →
      time_stamp env now_time < 2 ^ 32 ∧ time_stamp env now_time = now_time % 2 ^ 32) := by
  unfold time_stamp LRNG_DATA_SLOTSIZE_MASK u32 U32_MOD
  constructor
  · intro hfs
    rw [hfs, Nat.and_pow_two_sub_one_eq_mod]
    exact ⟨Nat.mod_lt _ (Nat.pos_pow_of_pos _ (by decide)), rfl⟩
  · intro hfs
    rw [hfs]
    exact ⟨Nat.mod_lt _ (by decide), rfl⟩

/-! ## The claims -/

/-- C1, evaluation at the failing input: with an aux counter of 256 bits, a 256 bit
digest and a request for 64 bits `lrng_pcpu_pool_hash` grants 64 bits and leaves the aux
counter at 64, not at the excess 192, so granted plus remaining is 128 and not 256; with
a request for 200 bits it leaves 200, more than the excess 56. -/
theorem C1_aux_drain_puts_back_used_bits :
    (lrng_pcpu_pool_hash none demo_drng (demo_pool 256) [] [] [] 64 true).collected_ent_bits
        = 64 ∧
    (lrng_pcpu_pool_hash none demo_drng (demo_pool 256) [] [] [] 64
        true).pool.aux_entropy_bits = 64 ∧
    lrng_pcpu_pool_hash_aux 256 256 64 = (64, 64) ∧
    lrng_pcpu_pool_hash_aux 256 256 200 = (200, 200) := by
  refine ⟨?_, ?_, ?_, ?_⟩ <;> decide

/-- C3, counterexample: without per-node instances (`lrng_drng_instances()` is `NULL`)
`lrng_drng_force_reseed` leaves `force_reseed` of the atomic instance `false`. -/
theorem C3_atomic_not_flagged_without_node_instances :
    (demo_state 0).lrng_drng_instances = none ∧
    (deref (demo_state 0) LRNG_DRNG_ATOMIC).force_reseed = false ∧
    (deref (lrng_drng_force_reseed (demo_state 0)) LRNG_DRNG_ATOMIC).force_reseed = false := by
  refine ⟨rfl, ?_, ?_⟩ <;> decide

/-- C3, amended: when `lrng_drng_instances()` is `NULL`, `lrng_drng_force_reseed` sets
`force_reseed` on the initial instance and leaves the atomic instance as it is; when
per-node instances exist it sets `force_reseed` on the instance of every online node
and on the atomic instance. -/
theorem C3_force_reseed (s : lrng_state) (h2 : 2 ≤ s.drngs.length) :
    (s.lrng_drng_instances = none →
      (deref (lrng_drng_force_reseed s) LRNG_DRNG_INIT).force_reseed = true ∧
      deref (lrng_drng_force_reseed s) LRNG_DRNG_ATOMIC = deref s LRNG_DRNG_ATOMIC) ∧
    (∀ tbl, s.lrng_drng_instances = some tbl →
      (∀ node ∈ s.online_nodes, ∀ q, node_entry tbl node = some q → q < s.drngs.length →
        (deref (lrng_drng_force_reseed s) q).force_reseed = true) ∧
      (deref (lrng_drng_force_reseed s) LRNG_DRNG_ATOMIC).force_reseed = true) := by
  constructor
  · intro hn
    unfold lrng_drng_force_reseed
    rw [hn]
    constructor
    · rw [deref_store_eq _ _ _ (by unfold LRNG_DRNG_INIT; omega)]
    · rw [deref_store_ne _ _ _ _ (by decide)]
  · intro tbl ht
    unfold lrng_drng_force_reseed
    rw [ht]
    constructor
    · intro node hn q he hq
      dsimp only
      rw [deref_store]
      split
      · rfl
      · exact force_reseed_nodes_sets tbl _ s node q hn he hq
    · dsimp only
      rw [deref_store_eq]
      rw [force_reseed_nodes_length]
      unfold LRNG_DRNG_ATOMIC; omega

/-- C3, witness: a system without and a system with per-node instances. -/
theorem C3_force_reseed_witness :
    (deref (lrng_drng_force_reseed (demo_state 0)) LRNG_DRNG_INIT).force_reseed = true ∧
    (deref (lrng_drng_force_reseed demo_numa_idle_state) 2).force_reseed = true ∧
    (deref (lrng_drng_force_reseed demo_numa_idle_state) LRNG_DRNG_ATOMIC).force_reseed = true :=
  ⟨((C3_force_reseed (demo_state 0) (by decide)).1 rfl).1,
    ((C3_force_reseed demo_numa_idle_state (by decide)).2 _ rfl).1 1 (by decide) 2 rfl
      (by decide),
    ((C3_force_reseed demo_numa_idle_state (by decide)).2 _ rfl).2⟩

/-- C4: `lrng_drng_inject` on the instance at `p`: when the seed helper returns a
negative status `requests` is set to 1 and `last_seeded` and `force_reseed` keep their
values; otherwise `requests` is set to `LRNG_DRNG_RESEED_THRESH`, `last_seeded` to the
current time and `force_reseed` to `false`. -/
theorem C4_inject_bookkeeping (depth p : Nat) (inbuf : List Nat) (s : lrng_state)
    (hp : p < s.drngs.length) :
    (((deref s p).crypto_cb.lrng_drng_seed_helper (gen_of s (deref s p).drng) inbuf).1 < 0 →
      (deref (lrng_drng_inject depth p inbuf s) p).requests = 1 ∧
      (deref (lrng_drng_inject depth p inbuf s) p).last_seeded = (deref s p).last_seeded ∧
      (deref (lrng_drng_inject depth p inbuf s) p).force_reseed = (deref s p).force_reseed) ∧
    (¬ ((deref s p).crypto_cb.lrng_drng_seed_helper (gen_of s (deref s p).drng) inbuf).1 < 0 →
      (deref (lrng_drng_inject depth p inbuf s) p).requests = LRNG_DRNG_RESEED_THRESH ∧
      (deref (lrng_drng_inject depth p inbuf s) p).last_seeded = s.jiffies ∧
      (deref (lrng_drng_inject depth p inbuf s) p).force_reseed = false) :=
  inject_fields depth p inbuf s hp

/-- C4, witness: a seed helper that fails and one that succeeds. -/
theorem C4_inject_bookkeeping_witness :
    ((deref (lrng_drng_inject 0 0 [1, 2, 3] demo_fail_state) 0).requests = 1 ∧
      (deref (lrng_drng_inject 0 0 [1, 2, 3] demo_fail_state) 0).last_seeded =
        (deref demo_fail_state 0).last_seeded ∧
      (deref (lrng_drng_inject 0 0 [1, 2, 3] demo_fail_state) 0).force_reseed =
        (deref demo_fail_state 0).force_reseed) ∧
    ((deref (lrng_drng_inject 0 0 [1, 2, 3] (demo_state 256)) 0).requests =
        LRNG_DRNG_RESEED_THRESH ∧
      (deref (lrng_drng_inject 0 0 [1, 2, 3] (demo_state 256)) 0).last_seeded =
        (demo_state 256).jiffies ∧
      (deref (lrng_drng_inject 0 0 [1, 2, 3] (demo_state 256)) 0).force_reseed = false) :=
  ⟨(C4_inject_bookkeeping 0 0 [1, 2, 3] demo_fail_state (by decide)).1 (by decide),
    (C4_inject_bookkeeping 0 0 [1, 2, 3] (demo_state 256) (by decide)).2 (by decide)⟩

/-- C5: `fully_seeded` goes from `false` to `true` only through a reseed that carries
the security strength.  A reseed `_lrng_drng_seed` whose seed has, in whole bytes, less
than `lrng_security_strength() / 8` leaves the flag of every instance as it is;
`lrng_drng_inject` and `lrng_drng_force_reseed` never change it, `lrng_drng_reset` and
`_lrng_reset` never set it; and as long as every seed is that weak, no call of
`lrng_drng_seed`, `lrng_drng_get` or `lrng_drng_seed_work` sets it on any instance. -/
theorem C5_fully_seeded_needs_strong_reseed :
    (∀ (depth p : Nat) (s : lrng_state),
      u32 (s.seed_source s.fills).1 / 8 < lrng_security_strength s / 8 →
      ∀ q, (deref (_lrng_drng_seed depth p s).2 q).fully_seeded = (deref s q).fully_seeded) ∧
    (∀ (depth p : Nat) (inbuf : List Nat) (s : lrng_state) (q : Nat),
      (deref (lrng_drng_inject depth p inbuf s) q).fully_seeded = (deref s q).fully_seeded) ∧
    (∀ (s : lrng_state) (q : Nat),
      (deref (lrng_drng_force_reseed s) q).fully_seeded = (deref s q).fully_seeded) ∧
    (∀ (p : Nat) (s : lrng_state) (q : Nat),
      (deref (lrng_drng_reset p s) q).fully_seeded = true → (deref s q).fully_seeded = true) ∧
    (∀ (s : lrng_state) (q : Nat),
      (deref (_lrng_reset s) q).fully_seeded = true → (deref s q).fully_seeded = true) ∧
    (∀ (fuel depth p : Nat) (s t : lrng_state), weak_seeds s →
      lrng_drng_seed fuel depth p s = some t →
      ∀ q, (deref t q).fully_seeded = true → (deref s q).fully_seeded = true) ∧
    (∀ (fuel depth p : Nat) (s : lrng_state) (outbuf : Option (List Nat)) (n : Nat)
      (r : Int × Option (List Nat) × lrng_state), weak_seeds s →
      lrng_drng_get fuel depth p s outbuf n = some r →
      ∀ q, (deref r.2.2 q).fully_seeded = true → (deref s q).fully_seeded = true) ∧
    (∀ (fuel : Nat) (s t : lrng_state), weak_seeds s →
      lrng_drng_seed_work fuel s = some t →
      ∀ q, (deref t q).fully_seeded = true → (deref s q).fully_seeded = true) := by
  refine ⟨?_, inject_fully_seeded, force_reseed_fully_seeded,
    fun p s => (fs_le_reset p s).2.2, fun s => (fs_le_lrng_reset s).2.2,
    fun fuel depth p s t hw h => (seed_fs_le fuel depth p s t hw h).2.2,
    fun fuel depth p s outbuf n r hw h => (get_fs_le fuel depth p s outbuf n r hw h).2.2,
    fun fuel s t hw h => (fs_le_seed_work fuel s t hw h).2.2⟩
  intro depth p s hweak q
  rw [seed_state, if_neg (Nat.not_le.mpr hweak)]
  exact seed_injected_fully_seeded depth p s q

/-- C5, witness: a system whose seeds carry 248 bits, one byte less than the security
strength. -/
theorem C5_fully_seeded_needs_strong_reseed_witness :
    (deref (_lrng_drng_seed 0 0 (demo_state 248)).2 0).fully_seeded =
      (deref (demo_state 248) 0).fully_seeded ∧
    ∀ q, (deref ((lrng_drng_seed 3 0 0 (demo_state 248)).getD (demo_state 248)) q).fully_seeded
      = true → (deref (demo_state 248) q).fully_seeded = true :=
  ⟨C5_fully_seeded_needs_strong_reseed.1 0 0 (demo_state 248) (by decide) 0,
    C5_fully_seeded_needs_strong_reseed.2.2.2.2.2.1 3 0 0 (demo_state 248) _
      (fun _ => (by decide : u32 248 / 8 < lrng_security_strength (demo_state 248) / 8)) rfl⟩

/-- C6, counterexample: the seed helper of the initial instance fails (status -1), the
seed carries 256 bits: `_lrng_drng_seed` marks the instance fully seeded all the same. -/
theorem C6_failed_seed_marks_fully_seeded :
    ((deref demo_fail_state 0).crypto_cb.lrng_drng_seed_helper
        (gen_of demo_fail_state (deref demo_fail_state 0).drng)
        (demo_fail_state.seed_source demo_fail_state.fills).2).1 < 0 ∧
    (deref demo_fail_state 0).fully_seeded = false ∧
    (deref (_lrng_drng_seed 0 0 demo_fail_state).2 0).fully_seeded = true := by
  refine ⟨?_, ?_, ?_⟩ <;> decide

/-- C6, amended: `_lrng_drng_seed` marks the DRNG fully seeded whenever the entropy of
the seed in whole bytes is at least `lrng_security_strength() / 8`, whether the seed
helper failed or not, and leaves the flag as it is otherwise; a failing seed helper
sets `requests` to 1, so that the next generate request reseeds again. -/
theorem C6_fully_seeded_ignores_seed_status (depth p : Nat) (s : lrng_state)
    (hp : p < s.drngs.length) :
    (lrng_security_strength s / 8 ≤ u32 (s.seed_source s.fills).1 / 8 →
      (deref (_lrng_drng_seed depth p s).2 p).fully_seeded = true) ∧
    (u32 (s.seed_source s.fills).1 / 8 < lrng_security_strength s / 8 →
      (deref (_lrng_drng_seed depth p s).2 p).fully_seeded = (deref s p).fully_seeded) ∧
    (((deref s p).crypto_cb.lrng_drng_seed_helper (gen_of s (deref s p).drng)
        (s.seed_source s.fills).2).1 < 0 →
      (deref (_lrng_drng_seed depth p s).2 p).requests = 1) := by
  refine ⟨fun h => ?_, fun h => ?_, fun h => ?_⟩
  · rw [seed_state, if_pos h, deref_store_eq _ _ _ (by rw [seed_injected_length]; exact hp)]
  · rw [seed_state, if_neg (Nat.not_le.mpr h)]
    exact seed_injected_fully_seeded depth p s p
  · have h1 := ((inject_fields depth p (lrng_fill_seed_buffer depth s).2.1
      (log (lrng_pool_unlock depth (lrng_fill_seed_buffer depth s).2.2) depth
        (lrng_event.init_ops (u32 (lrng_fill_seed_buffer depth s).1))) hp).1 h).1
    rw [seed_state]
    split_ifs
    · rw [deref_store_eq _ _ _ (by rw [seed_injected_length]; exact hp)]
      exact h1
    · exact h1

/-- C6, witness: the system whose seed helper fails, with a seed of 256 bits. -/
theorem C6_fully_seeded_ignores_seed_status_witness :
    (deref (_lrng_drng_seed 0 0 demo_fail_state).2 0).fully_seeded = true ∧
    (deref (_lrng_drng_seed 0 0 demo_fail_state).2 0).requests = 1 :=
  ⟨(C6_fully_seeded_ignores_seed_status 0 0 demo_fail_state (by decide)).1 (by decide),
    (C6_fully_seeded_ignores_seed_status 0 0 demo_fail_state (by decide)).2.2 (by decide)⟩

/-- C7: `lrng_time_process` with the raw entropy test hooks off, in the boot time and in
the runtime branch alike. A time stamp classified `lrng_health_pass` increments the event
counter of the CPU by one and is appended to the per-CPU array; one classified
`lrng_health_fail_use` is appended and leaves the counter as it is; one classified
`lrng_health_fail_drop` changes nothing at all. Appended means, for an array of
well formed geometry: the cursor advances by the slots of one time stamp; at runtime the
slot the cursor then designates holds the time stamp, merged with what the slot held,
and every other slot is as it was (`slot_appended`); at boot time the 32 bits of the time
stamp are stored in the member the cursor stood at and, below the split, in the member it
stands at now (`word_appended`); the array with the time stamp in it is what
`lrng_pcpu_array_to_hash` is called on, and it is the array afterwards unless that call
drains it. -/
theorem C7_health_classification (env : lrng_noise_env) (hoff : hooks_off env)
    (health : Nat → lrng_health_res) (now_time : Nat) (st : lrng_noise_state) :
    (health (time_stamp env now_time) = lrng_health_res.lrng_health_pass →
      (lrng_time_process env health now_time st).cpu.lrng_pcpu_array_irqs =
        u32_add st.cpu.lrng_pcpu_array_irqs 1 ∧
      (lrng_time_process env health now_time st).cpu.lrng_pcpu_array_ptr =
        u32_add st.cpu.lrng_pcpu_array_ptr (slots_taken env) ∧
      (geometry_ok env.cfg →
        st.cpu.lrng_pcpu_array.length = LRNG_DATA_ARRAY_SIZE env.cfg →
        (env.fully_seeded = true →
          slot_appended env (time_stamp env now_time)
            { st with cpu := { st.cpu with
                lrng_pcpu_array_irqs := u32_add st.cpu.lrng_pcpu_array_irqs 1 } }
            (lrng_time_process env health now_time st)) ∧
        (env.fully_seeded = false →
          word_appended env (time_stamp env now_time)
            { st with cpu := { st.cpu with
                lrng_pcpu_array_irqs := u32_add st.cpu.lrng_pcpu_array_irqs 1 } }
            (lrng_time_process env health now_time st)))) ∧
    (health (time_stamp env now_time) = lrng_health_res.lrng_health_fail_use →
      (lrng_time_process env health now_time st).cpu.lrng_pcpu_array_irqs =
        st.cpu.lrng_pcpu_array_irqs ∧
      (lrng_time_process env health now_time st).cpu.lrng_pcpu_array_ptr =
        u32_add st.cpu.lrng_pcpu_array_ptr (slots_taken env) ∧
      (geometry_ok env.cfg →
        st.cpu.lrng_pcpu_array.length = LRNG_DATA_ARRAY_SIZE env.cfg →
        (env.fully_seeded = true →
          slot_appended env (time_stamp env now_time) st
            (lrng_time_process env health now_time st)) ∧
        (env.fully_seeded = false →
          word_appended env (time_stamp env now_time) st
            (lrng_time_process env health now_time st)))) ∧
    (health (time_stamp env now_time) = lrng_health_res.lrng_health_fail_drop →
      lrng_time_process env health now_time st = st) := by
  have hc := time_process_cases env hoff health now_time st
  have hts := time_stamp_lt env now_time
  have happ : ∀ s : lrng_noise_state, geometry_ok env.cfg →
      s.cpu.lrng_pcpu_array.length = LRNG_DATA_ARRAY_SIZE env.cfg →
      (env.fully_seeded = true →
        slot_appended env (time_stamp env now_time) s
          (record_sample env (time_stamp env now_time) s)) ∧
      (env.fully_seeded = false →
        word_appended env (time_stamp env now_time) s
          (record_sample env (time_stamp env now_time) s)) := by
    intro s hg hl
    constructor
    · intro hfs
      have e : record_sample env (time_stamp env now_time) s =
          lrng_pcpu_array_add_slot env (time_stamp env now_time) s := by
        unfold record_sample
        rw [hfs]
        rfl
      rw [e]
      exact add_slot_appended env hg _ s (hts.1 hfs).1 hl
    · intro hfs
      have e : record_sample env (time_stamp env now_time) s =
          _lrng_pcpu_array_add_u32 env (time_stamp env now_time) s := by
        unfold record_sample
        rw [hfs]
        rfl
      rw [e]
      exact add_u32_appended env hg _ s (hts.2 hfs).1 hl
  refine ⟨fun hp => ?_, fun hu => ?_, fun hd => ?_⟩
  · rw [hp] at hc
    rw [hc]
    exact ⟨(record_sample_irqs env hoff _ _).1.trans rfl,
      (record_sample_irqs env hoff _ _).2.trans rfl,
      fun hg hl => happ (lrng_pcpu_array_irqs_inc st) hg hl⟩
  · rw [hu] at hc
    rw [hc]
    exact ⟨(record_sample_irqs env hoff _ _).1, (record_sample_irqs env hoff _ _).2,
      fun hg hl => happ st hg hl⟩
  · rw [hd] at hc
    exact hc

/-- C7, witness: the time stamp `0x12345678` on a CPU whose first slot holds 5, once for
every classification. At runtime the low 8 bits, 120, land in slot 1 and slot 0 keeps
its 5; at boot time the whole word is merged into the first member. -/
theorem C7_health_classification_witness :
    (hooks_off (demo_env true) ∧ geometry_ok (demo_env true).cfg ∧
      demo_filled_state.cpu.lrng_pcpu_array.length = LRNG_DATA_ARRAY_SIZE (demo_env true).cfg) ∧
    ((lrng_time_process (demo_env true) (fun _ => lrng_health_res.lrng_health_pass) 305419896
          demo_filled_state).cpu.lrng_pcpu_array_irqs = 4 ∧
      slot_read (demo_env true).cfg
        (lrng_time_process (demo_env true) (fun _ => lrng_health_res.lrng_health_pass)
          305419896 demo_filled_state).cpu.lrng_pcpu_array 1 = 120 ∧
      slot_read (demo_env true).cfg
        (lrng_time_process (demo_env true) (fun _ => lrng_health_res.lrng_health_pass)
          305419896 demo_filled_state).cpu.lrng_pcpu_array 0 = 5 ∧
      lrng_time_process (demo_env true) (fun _ => lrng_health_res.lrng_health_pass) 305419896
          demo_filled_state =
        { cpu := { demo_cpu 4 with
            lrng_pcpu_array := [5 + 120 * 256, 0, 0, 0, 0, 0, 0, 0]
            lrng_pcpu_array_ptr := 1 },
          pool_add_irq := 0 }) ∧
    ((lrng_time_process (demo_env false) (fun _ => lrng_health_res.lrng_health_fail_use)
          305419896 demo_filled_state).cpu.lrng_pcpu_array_irqs = 3 ∧
      word_appended (demo_env false) (time_stamp (demo_env false) 305419896) demo_filled_state
        (lrng_time_process (demo_env false) (fun _ => lrng_health_res.lrng_health_fail_use)
          305419896 demo_filled_state) ∧
      lrng_time_process (demo_env false) (fun _ => lrng_health_res.lrng_health_fail_use)
          305419896 demo_filled_state =
        { cpu := { demo_cpu 3 with
            lrng_pcpu_array := [305419901, 0, 0, 0, 0, 0, 0, 0]
            lrng_pcpu_array_ptr := 4 },
          pool_add_irq := 0 }) ∧
    lrng_time_process (demo_env true) (fun _ => lrng_health_res.lrng_health_fail_drop)
        305419896 demo_filled_state = demo_filled_state := by
  have hoff : ∀ b, hooks_off (demo_env b) := fun b => ⟨fun _ => rfl, fun _ => rfl⟩
  have hgeo : ∀ b, geometry_ok (demo_env b).cfg := fun b => ⟨2, 5, rfl, rfl, by decide⟩
  have hp := (C7_health_classification (demo_env true) (hoff true)
    (fun _ => lrng_health_res.lrng_health_pass) 305419896 demo_filled_state).1 rfl
  have hu := (C7_health_classification (demo_env false) (hoff false)
    (fun _ => lrng_health_res.lrng_health_fail_use) 305419896 demo_filled_state).2.1 rfl
  have hd := (C7_health_classification (demo_env true) (hoff true)
    (fun _ => lrng_health_res.lrng_health_fail_drop) 305419896 demo_filled_state).2.2 rfl
  obtain ⟨a, _, ha1, ha2, _, ha4⟩ := (hp.2.2 (hgeo true) rfl).1 rfl
  obtain ⟨ha5, -, -⟩ := ha4 rfl (by decide)
  refine ⟨⟨hoff true, hgeo true, rfl⟩, ⟨hp.1, ?_, ?_, by decide⟩,
    ⟨hu.1, (hu.2.2 (hgeo false) rfl).2 rfl, by decide⟩, hd⟩
  · rw [ha5]
    exact ha1
  · rw [ha5]
    exact ha2 0 (by decide)

/-- C8: starting from an event counter of 0, after any sequence of calls of
`lrng_time_process` (hooks off) of which `k < 2 ^ 32` time stamps are classified
`lrng_health_pass`, `lrng_pcpu_pool_hash_one` without a hash failure returns
`min k (lrng_entropy_to_data (8 * digestsize))` and leaves the event counter of the CPU
at 0. -/
theorem C8_read_and_reset (env : lrng_noise_env) (hoff : hooks_off env)
    (events : List ((Nat → lrng_health_res) × Nat)) (st : lrng_noise_state)
    (instances : Option (List (Option lrng_drng))) (irq_entropy_bits : Nat)
    (drng : lrng_drng) (digest : List Nat)
    (h0 : st.cpu.lrng_pcpu_array_irqs = 0)
    (hk : pass_count env events < 2 ^ 32)
    (hok : hash_ok
      (pcpu_drng_of instances drng (lrng_time_process_seq env events st).cpu.node).crypto_cb)
    (hd : 8 * (pcpu_drng_of instances drng
        (lrng_time_process_seq env events st).cpu.node).crypto_cb.lrng_hash_digestsize
          (pcpu_drng_of instances drng (lrng_time_process_seq env events st).cpu.node).hash
        < 2 ^ 32) :
    (lrng_pcpu_pool_hash_one instances irq_entropy_bits drng
        (lrng_time_process_seq env events st).cpu digest).1 =
      min (pass_count env events)
        (lrng_entropy_to_data irq_entropy_bits
          (8 * (pcpu_drng_of instances drng
            (lrng_time_process_seq env events st).cpu.node).crypto_cb.lrng_hash_digestsize
              (pcpu_drng_of instances drng
                (lrng_time_process_seq env events st).cpu.node).hash)) ∧
    (lrng_pcpu_pool_hash_one instances irq_entropy_bits drng
        (lrng_time_process_seq env events st).cpu digest).2.1.lrng_pcpu_array_irqs = 0 := by
  refine ⟨?_, hash_one_irqs _ _ _ _ _⟩
  rw [hash_one_found _ _ _ _ _ hok, time_process_seq_irqs env hoff events st (by rw [h0]; norm_num),
    h0, Nat.zero_add]
  unfold pcpu_cap
  have e1 : u32 (pass_count env events % 2 ^ 32) = pass_count env events := by
    unfold u32 U32_MOD
    rw [Nat.mod_mod, Nat.mod_eq_of_lt hk]
  rw [e1]
  congr 2
  unfold u32_shl u32 U32_MOD
  norm_num at hd ⊢
  omega

/-- C8, witness: four events of which two pass the health test. -/
theorem C8_read_and_reset_witness :
    (lrng_pcpu_pool_hash_one none 256 demo_drng
        (lrng_time_process_seq (demo_env false) demo_events demo_noise_state).cpu []).1 = 2 ∧
    (lrng_pcpu_pool_hash_one none 256 demo_drng
        (lrng_time_process_seq (demo_env false) demo_events
          demo_noise_state).cpu []).2.1.lrng_pcpu_array_irqs = 0 :=
  C8_read_and_reset (demo_env false) ⟨fun _ => rfl, fun _ => rfl⟩ demo_events demo_noise_state
    none 256 demo_drng [] rfl (by decide) hash_ok_demo_cb (by decide)

/-- C9: `lrng_pcpu_pool_hash` without a hash failure, with an events-per-256-bits
constant that is a positive multiple of `LRNG_IRQ_ENTROPY_BITS` and `u32` quantities:
when `requested_bits` is at most the available entropy (the aux counter capped at the
digest size plus the entropy of the capped per-CPU counters) it returns exactly
`requested_bits`; otherwise it returns exactly the available entropy, which is less. -/
theorem C9_exact_delivery (instances : Option (List (Option lrng_drng))) (drng : lrng_drng)
    (pool : lrng_pool) (cpus : List lrng_pcpu) (outbuf digest : List Nat)
    (requested_bits : Nat) (fully_seeded : Bool) (m : Nat)
    (hok : hash_ok drng.crypto_cb)
    (hcpu : ∀ c ∈ cpus, hash_ok (pcpu_drng_of instances drng c.node).crypto_cb)
    (hm : 0 < m) (hk : pool.irq_info.irq_entropy_bits = LRNG_IRQ_ENTROPY_BITS * m)
    (hr : requested_bits < 2 ^ 32)
    (hs : avail_irqs instances pool.irq_info.irq_entropy_bits drng cpus < 2 ^ 32) :
    (requested_bits ≤ avail_entropy instances drng pool cpus →
      (lrng_pcpu_pool_hash instances drng pool cpus outbuf digest requested_bits
        fully_seeded).collected_ent_bits = requested_bits) ∧
    (avail_entropy instances drng pool cpus < requested_bits →
      (lrng_pcpu_pool_hash instances drng pool cpus outbuf digest requested_bits
        fully_seeded).collected_ent_bits = avail_entropy instances drng pool cpus) := by
  have hk' : pool.irq_info.irq_entropy_bits = 256 * m := by rw [hk]; rfl
  rw [pool_hash_ret _ _ _ _ _ _ _ _ hok, hash_aux_collected _ _ _ (u32_shl_lt _ _)]
  unfold avail_entropy
  rw [hk'] at hs ⊢
  generalize min (u32_shl (u32 (drng.crypto_cb.lrng_hash_digestsize drng.hash)) 3)
    (u32 pool.aux_entropy_bits) = A
  rw [hash_loop_collected instances (256 * m) drng _ hok.2.1 cpus hcpu _ (Nat.zero_le _)
    (by dsimp only; omega)]
  dsimp only
  rw [Nat.zero_add, e2d_mul, d2e_mul m _ hs]
  generalize avail_irqs instances (256 * m) drng cpus = S at hs ⊢
  have hsub : u32_sub requested_bits (min A requested_bits) = requested_bits - min A requested_bits := by
    unfold u32_sub U32_MOD
    have := Nat.min_le_right A requested_bits
    norm_num at hr ⊢
    omega
  rw [hsub]
  have hdm : S / m * m ≤ S := Nat.div_mul_le_self S m
  have hlt : S < (S / m + 1) * m := by
    have := Nat.lt_div_mul_add hm (a := S)
    nlinarith
  generalize hq : S / m = q at hdm hlt ⊢
  constructor
  · intro hle
    by_cases hA : requested_bits ≤ A
    · rw [Nat.min_eq_right hA, Nat.sub_self, Nat.zero_mul]
      have : min (min 0 (2 ^ 32 - 1)) S = 0 := by simp
      rw [this, d2e_mul m 0 (by norm_num)]
      unfold u32_add U32_MOD
      rw [Nat.zero_div, Nat.add_zero]
      exact Nat.mod_eq_of_lt hr
    · have hA' : A < requested_bits := Nat.lt_of_not_le hA
      rw [Nat.min_eq_left (Nat.le_of_lt hA')]
      have hx : requested_bits - A ≤ q := by omega
      have hxm : (requested_bits - A) * m ≤ S := le_trans (Nat.mul_le_mul_right m hx) hdm
      have h1 : min (min ((requested_bits - A) * m) (2 ^ 32 - 1)) S = (requested_bits - A) * m := by
        norm_num at hs ⊢
        omega
      rw [h1, d2e_mul m _ (lt_of_le_of_lt hxm hs), Nat.mul_div_cancel _ hm]
      unfold u32_add U32_MOD
      rw [show A + (requested_bits - A) = requested_bits by omega]
      exact Nat.mod_eq_of_lt hr
  · intro hgt
    have hA' : A < requested_bits := by omega
    rw [Nat.min_eq_left (Nat.le_of_lt hA')]
    have hx : q + 1 ≤ requested_bits - A := by omega
    have hxm : S < (requested_bits - A) * m := lt_of_lt_of_le hlt (Nat.mul_le_mul_right m hx)
    have h1 : min (min ((requested_bits - A) * m) (2 ^ 32 - 1)) S = S := by
      norm_num at hs ⊢
      omega
    rw [h1, d2e_mul m _ hs, hq]
    unfold u32_add U32_MOD
    apply Nat.mod_eq_of_lt
    norm_num at hr ⊢
    omega

/-- C9, witness: 256 bits in the aux pool, a 256 bit digest, no events on the two
CPUs, 256 bits requested: 256 bits are returned and the aux counter is left at 0. -/
theorem C9_exact_delivery_witness :
    (lrng_pcpu_pool_hash none demo_drng (demo_pool 256) [demo_cpu 0, demo_cpu 0] [] [] 256
        false).collected_ent_bits = 256 ∧
    (lrng_pcpu_pool_hash none demo_drng (demo_pool 256) [demo_cpu 0, demo_cpu 0] [] [] 256
        false).pool.aux_entropy_bits = 0 :=
  ⟨(C9_exact_delivery none demo_drng (demo_pool 256) [demo_cpu 0, demo_cpu 0] [] [] 256 false 1
      hash_ok_demo_cb (fun _ _ => hash_ok_demo_cb) (by decide) rfl (by decide)
      (by decide)).1 (by decide),
    by decide⟩

/-- C10, counterexample: a 32 byte request on the instance of node 1, which has a
generator of its own and is flagged for a reseed while the atomic instance is due: the
generate primitive returns what it is asked for, the call returns 32, and the primitive
is called twice, once for the seed of the atomic instance and once for the caller,
although `ceil(32 / 4096)` is 1. -/
theorem C10_reseed_adds_generate_call :
    (∀ g n, ((deref demo_numa_state 2).crypto_cb.lrng_drng_generate_helper g n).1 = (n : Int)) ∧
    (lrng_drng_get 3 0 2 demo_numa_state (some (List.replicate 32 0)) 32).map
        (fun r => (r.1, all_generate r.2.2.trace)) = some (32, [32, 32]) ∧
    (32 + 4095) / 4096 = 1 := by
  refine ⟨fun _ _ => rfl, ?_, ?_⟩ <;> decide

/-- C10, amended: `lrng_drng_get` returns 0 without calling the primitive for a `NULL`
buffer or a length of 0.  For a buffer and `0 < n <= INT_MAX`, on an instance whose
generate primitive returns the number of bytes it is asked for, whose seed primitive
does not fail and with a non-negative reseed interval, the call returns `n` (enough
fuel given) and its loop calls the primitive exactly `ceil(n / 4096)` times for the
caller, each time for at most `LRNG_DRNG_MAX_REQSIZE` bytes; calls made one level
deeper, by a reseed for the seed of the atomic instance, come on top. -/
theorem C10_chunked_generation :
    (∀ (fuel depth p : Nat) (s : lrng_state) (n : Nat),
      lrng_drng_get fuel depth p s none n = some (0, none, s)) ∧
    (∀ (fuel depth p : Nat) (s : lrng_state) (buf : List Nat),
      lrng_drng_get fuel depth p s (some buf) 0 = some (0, some buf, s)) ∧
    (∀ (fuel depth p : Nat) (s : lrng_state) (buf : List Nat) (n : Nat),
      get_ready p s → 0 < n → n ≤ INT_MAX → n / 4096 + 3 ≤ fuel →
      ∃ r, lrng_drng_get fuel depth p s (some buf) n = some r ∧ r.1 = (n : Int) ∧
        ∃ ev, r.2.2.trace = s.trace ++ ev ∧ own_generate depth p ev = chunks n ∧
          (chunks n).length = (n + 4095) / 4096 ∧
          ∀ x ∈ chunks n, 0 < x ∧ x ≤ LRNG_DRNG_MAX_REQSIZE) := by
  refine ⟨fun _ _ _ _ _ => rfl, fun _ _ _ _ _ => rfl, ?_⟩
  intro fuel depth p s buf n hr hn0 hn hf
  have hmin : min n INT_MAX = n := Nat.min_eq_left hn
  have hs0 := step_ok_init_cc20 depth p depth s
  obtain ⟨r, hl, hret, _, _, ev, hev, hown⟩ := get_loop_chunks (lrng_drng_seed fuel depth p)
    depth p (fun u hu ha => seed_returns fuel depth p (by omega) u hu ha) fuel
    (lrng_drngs_init_cc20 depth s) buf n 0 (get_ready_of_step hs0 hr)
    (init_cc20_sets_avail depth s) (by unfold INT_MAX at hn; norm_num at hn ⊢; omega) (by omega)
  unfold lrng_drng_get lrng_drng_get_with
  dsimp only
  rw [if_neg (by omega), hmin, hl]
  refine ⟨_, rfl, ?_, ?_⟩
  · show r.1 = _
    rw [hret, Nat.zero_add]
  · obtain ⟨ev0, hev0, hown0⟩ := hs0.2.2.2.2.2.2
    refine ⟨ev0 ++ ev, ?_, ?_, chunks_length n, chunks_le n⟩
    · show r.2.2.trace = _
      rw [hev, hev0, List.append_assoc]
    · rw [own_generate_append, hown0, hown]
      rfl

/-- C10, witness: 10000 bytes from the instance of node 1, which reseeds on the way. -/
theorem C10_chunked_generation_witness :
    ∃ r, lrng_drng_get 5 0 2 demo_numa_state (some (List.replicate 32 0)) 10000 = some r ∧
      r.1 = ((10000 : Nat) : Int) ∧
      ∃ ev, r.2.2.trace = demo_numa_state.trace ++ ev ∧
        own_generate 0 2 ev = chunks 10000 ∧
        (chunks 10000).length = (10000 + 4095) / 4096 ∧
        ∀ x ∈ chunks 10000, 0 < x ∧ x ≤ LRNG_DRNG_MAX_REQSIZE :=
  C10_chunked_generation.2.2 5 0 2 demo_numa_state (List.replicate 32 0) 10000
    ⟨by decide, fun _ _ => rfl, fun _ _ => le_refl _, by decide, by decide⟩
    (by decide) (by decide) (by decide)

/-- C11, counterexample: 32 bytes from the instance of node 1, which is flagged for a
reseed while the atomic instance is due.  The first call of the generate primitive, made
by `lrng_drng_seed` for the seed of the atomic instance, returns 0; the primitive is
called again for the caller and `lrng_drng_get` returns 32. -/
theorem C11_nested_fault_is_not_surfaced :
    (lrng_drng_get 3 0 2 demo_flaky_state (some (List.replicate 32 0)) 32).map
      (fun r => (r.1, generate_rets r.2.2.trace)) = some (32, [0, 32]) := by
  decide

/-- C11, amended: `lrng_drng_get` with a buffer and `0 < n <= INT_MAX` on an instance
whose generate primitive never returns more than it is asked for.  Whenever the call
returns, the value is negative if and only if a generate call made by the loop of this
call for the caller returned a value `<= 0`; it is then `-EFAULT`, that call is the
last call made, and all calls of the loop before it delivered; otherwise the value is
`n`.  The call does return (enough fuel given) when the generate primitive returns the
number of bytes it is asked for or a value `<= 0` and the seed primitive does not fail.
A generate call that fails one level deeper, in `lrng_drng_seed` for the seed of the
atomic instance, is not surfaced. -/
theorem C11_generator_fault :
    (∀ (fuel depth p : Nat) (s : lrng_state) (buf : List Nat) (n : Nat)
      (r : Int × Option (List Nat) × lrng_state),
      (∀ g k, ((deref s p).crypto_cb.lrng_drng_generate_helper g k).1 ≤ (k : Int)) →
      0 < n → n ≤ INT_MAX →
      lrng_drng_get fuel depth p s (some buf) n = some r →
      ∃ ev, r.2.2.trace = s.trace ++ ev ∧
        (r.1 < 0 ↔ ∃ x ∈ own_rets depth p ev, x ≤ 0) ∧
        (r.1 < 0 → r.1 = -EFAULT ∧ ∃ pre g todo ret,
          ev = pre ++ [(depth, lrng_event.generate_helper p g todo ret)] ∧ ret ≤ 0 ∧
          ∀ x ∈ own_rets depth p pre, 0 < x) ∧
        (¬ r.1 < 0 → r.1 = (n : Int))) ∧
    (∀ (fuel depth p : Nat) (s : lrng_state) (buf : List Nat) (n : Nat),
      get_ready_ef p s → 0 < n → n ≤ INT_MAX → n / 4096 + 3 ≤ fuel →
      ∃ r ev, lrng_drng_get fuel depth p s (some buf) n = some r ∧
        r.2.2.trace = s.trace ++ ev ∧
        (r.1 < 0 ↔ ∃ x ∈ own_rets depth p ev, x ≤ 0) ∧
        (r.1 < 0 → r.1 = -EFAULT ∧ ∃ pre g todo ret,
          ev = pre ++ [(depth, lrng_event.generate_helper p g todo ret)] ∧ ret ≤ 0 ∧
          ∀ x ∈ own_rets depth p pre, 0 < x) ∧
        (¬ r.1 < 0 → r.1 = (n : Int))) := by
  constructor
  · intro fuel depth p s buf n r hle hn0 hn h
    have hmin : min n INT_MAX = n := Nat.min_eq_left hn
    obtain ⟨hcb, ie, hie, _, hien⟩ := frame_init_cc20 depth s
    have hq0 := own_rets_of_nogen depth p ie hien
    unfold lrng_drng_get lrng_drng_get_with at h
    dsimp only at h
    rw [if_neg (by omega), hmin] at h
    cases hl : lrng_drng_get_loop (lrng_drng_seed fuel depth p) depth p fuel
        (lrng_drngs_init_cc20 depth s) buf n 0 with
    | none =>
      rw [hl] at h
      cases h
    | some r' =>
      rw [hl] at h
      obtain ⟨ev, hev, hdi⟩ := get_loop_returned (lrng_drng_seed fuel depth p) depth p
        (fun u t hu => seed_frame fuel depth p u t hu) fuel _ buf n 0 r'
        (by rw [hcb p]; exact hle) (by unfold INT_MAX at hn; norm_num at hn ⊢; omega) hl
      rw [Nat.zero_add] at hdi
      rw [← Option.some.inj h]
      refine ⟨ie ++ ev, ?_, ?_⟩
      · show r'.2.2.trace = _
        rw [hev, hie, List.append_assoc]
      · exact fault_dichotomy depth p n hn0 r'.1 ie ev hq0 hdi
  · intro fuel depth p s buf n hr hn0 hn hf
    have hmin : min n INT_MAX = n := Nat.min_eq_left hn
    have hs0 := step_ok_init_cc20 depth p depth s
    obtain ⟨ie, hie, hie0⟩ := hs0.2.2.2.2.2.2
    have hq0 := own_rets_of_quiet depth p ie hie0
    obtain ⟨r, ev, hl, hev, hdi⟩ := get_loop_ef (lrng_drng_seed fuel depth p) depth p
      (fun u hu ha => seed_returns_ef fuel depth p (by omega) u hu ha) fuel
      (lrng_drngs_init_cc20 depth s) buf n 0 (get_ready_ef_of_step hs0 hr)
      (init_cc20_sets_avail depth s) (by unfold INT_MAX at hn; norm_num at hn ⊢; omega)
      (by omega)
    rw [Nat.zero_add] at hdi
    unfold lrng_drng_get lrng_drng_get_with
    dsimp only
    rw [if_neg (by omega), hmin, hl]
    refine ⟨(r.1, some r.2.1, r.2.2), ie ++ ev, rfl, ?_, ?_⟩
    · show r.2.2.trace = _
      rw [hev, hie, List.append_assoc]
    · exact fault_dichotomy depth p n hn0 r.1 ie ev hq0 hdi

/-- C11, witness: 32 bytes from the instance of node 1 when the generator delivers to
the call for the seed of the atomic instance and fails at the call for the caller: the
call returns `-EFAULT`. -/
theorem C11_generator_fault_witness :
    get_ready_ef 2 demo_flaky_late_state ∧
    (lrng_drng_get 3 0 2 demo_flaky_late_state (some (List.replicate 32 0)) 32).map
      (fun r => (r.1, generate_rets r.2.2.trace)) = some (-EFAULT, [32, 0]) ∧
    ∃ r ev, lrng_drng_get 3 0 2 demo_flaky_late_state (some (List.replicate 32 0)) 32 = some r ∧
      r.2.2.trace = demo_flaky_late_state.trace ++ ev ∧
      (r.1 < 0 ↔ ∃ x ∈ own_rets 0 2 ev, x ≤ 0) ∧
      (r.1 < 0 → r.1 = -EFAULT ∧ ∃ pre g todo ret,
        ev = pre ++ [(0, lrng_event.generate_helper 2 g todo ret)] ∧ ret ≤ 0 ∧
        ∀ x ∈ own_rets 0 2 pre, 0 < x) ∧
      (¬ r.1 < 0 → r.1 = ((32 : Nat) : Int)) :=
  have h : get_ready_ef 2 demo_flaky_late_state :=
    ⟨by decide, fun g n => by
        show (if g.headD 0 = 0 then ((0 : Int), ([] : List Nat), [1])
          else ((n : Int), List.replicate n 0, [0])).1 = (n : Int) ∨
          (if g.headD 0 = 0 then ((0 : Int), ([] : List Nat), [1])
          else ((n : Int), List.replicate n 0, [0])).1 ≤ 0
        split_ifs
        · exact Or.inr (le_refl _)
        · exact Or.inl rfl,
      fun _ _ => le_refl _, by decide, by decide⟩
  ⟨h, by decide, C11_generator_fault.2 3 0 2 demo_flaky_late_state
    (List.replicate 32 0) 32 h (by decide) (by decide) (by decide)⟩

/-- C12: a reseed that is in progress is not an error in `lrng_drng_get`.  When the
reseed trigger fires on a sleep-capable instance while `lrng_pool_trylock` reports the
gate as taken, the reseed block only calls `lrng_pool_trylock`: the seed assembler is
not called, the generator states are untouched, `requests` is set to 1, so that the
trigger fires again at the next chunk, and the gate stays as it is.  A call with the
gate taken, on an instance whose generate primitive returns what it is asked for,
returns `n` after one generate call per chunk and without any seed assembly, whatever
triggers fire on the way. -/
theorem C12_reseed_in_progress_is_not_an_error :
    (∀ (seed : lrng_state → Option lrng_state) (depth p : Nat) (s : lrng_state),
      p ≠ LRNG_DRNG_ATOMIC → p < s.drngs.length → s.reseed_in_progress ≠ 0 →
      reseed_due p s = true →
      ∃ t, lrng_drng_get_reseed seed depth p s = some t ∧ (deref t p).requests = 1 ∧
        t.fills = s.fills ∧ t.gens = s.gens ∧ t.reseed_in_progress = s.reseed_in_progress ∧
        t.trace = s.trace ++ [(depth, lrng_event.pool_trylock s.reseed_in_progress)] ∧
        reseed_due p t = true) ∧
    (∀ (fuel depth p : Nat) (s : lrng_state) (buf : List Nat) (n : Nat),
      p ≠ LRNG_DRNG_ATOMIC → s.reseed_in_progress ≠ 0 →
      (∀ g n, ((deref s p).crypto_cb.lrng_drng_generate_helper g n).1 = (n : Int)) →
      0 < n → n ≤ INT_MAX → (n + 4095) / 4096 + 1 ≤ fuel →
      ∃ r, lrng_drng_get fuel depth p s (some buf) n = some r ∧ r.1 = (n : Int) ∧
        r.2.2.fills = s.fills ∧ r.2.2.reseed_in_progress = s.reseed_in_progress ∧
        ∃ ev, r.2.2.trace = s.trace ++ ev ∧ own_generate depth p ev = chunks n) := by
  constructor
  · intro seed depth p s hp hlen hg hd
    rw [get_reseed_due_busy seed depth p s hp hg hd]
    have hreq : (deref (store (log (requests_dec p s) depth
        (lrng_event.pool_trylock s.reseed_in_progress)) p
        { deref (requests_dec p s) p with requests := 1 }) p).requests = 1 := by
      rw [deref_store_eq]
      show p < (requests_dec p s).drngs.length
      unfold requests_dec
      rw [store_length]
      exact hlen
    refine ⟨_, rfl, hreq, rfl, rfl, rfl, rfl, ?_⟩
    unfold reseed_due
    rw [hreq]
    rfl
  · intro fuel depth p s buf n hp hg hgen hn0 hn hf
    have hmin : min n INT_MAX = n := Nat.min_eq_left hn
    have hs0 := step_ok_init_cc20 depth p depth s
    obtain ⟨r, hl, hret, hgate, hfill, ev, hev, hown⟩ := get_loop_busy
      (lrng_drng_seed fuel depth p) depth p hp s.fills s.reseed_in_progress hg fuel
      (lrng_drngs_init_cc20 depth s) buf n 0 (by rw [hs0.2.1]; exact hgen)
      (init_cc20_gate depth s) (init_cc20_fills depth s)
      (by unfold INT_MAX at hn; norm_num at hn ⊢; omega) hf
    unfold lrng_drng_get lrng_drng_get_with
    dsimp only
    rw [if_neg (by omega), hmin, hl]
    refine ⟨_, rfl, ?_, hfill, hgate, ?_⟩
    · show r.1 = _
      rw [hret, Nat.zero_add]
    · obtain ⟨ev0, hev0, hown0⟩ := hs0.2.2.2.2.2.2
      refine ⟨ev0 ++ ev, ?_, ?_⟩
      · show r.2.2.trace = _
        rw [hev, hev0, List.append_assoc]
      · rw [own_generate_append, hown0, hown]
        rfl

/-- C12, witness: 10000 bytes from the instance of node 1, which is flagged for a
reseed, while the gate is taken: the call returns 10000 and no seed is assembled. -/
theorem C12_reseed_in_progress_is_not_an_error_witness :
    (∃ t, lrng_drng_get_reseed (lrng_drng_seed 4 0 2) 0 2 demo_busy_state = some t ∧
      (deref t 2).requests = 1 ∧ t.fills = demo_busy_state.fills ∧
      t.gens = demo_busy_state.gens ∧
      t.reseed_in_progress = demo_busy_state.reseed_in_progress ∧
      t.trace = demo_busy_state.trace ++
        [(0, lrng_event.pool_trylock demo_busy_state.reseed_in_progress)] ∧
      reseed_due 2 t = true) ∧
    (∃ r, lrng_drng_get 4 0 2 demo_busy_state (some (List.replicate 32 0)) 10000 = some r ∧
      r.1 = ((10000 : Nat) : Int) ∧ r.2.2.fills = demo_busy_state.fills ∧
      r.2.2.reseed_in_progress = demo_busy_state.reseed_in_progress ∧
      ∃ ev, r.2.2.trace = demo_busy_state.trace ++ ev ∧ own_generate 0 2 ev = chunks 10000) :=
  ⟨C12_reseed_in_progress_is_not_an_error.1 (lrng_drng_seed 4 0 2) 0 2 demo_busy_state
      (by decide) (by decide) (by decide) (by decide),
    C12_reseed_in_progress_is_not_an_error.2 4 0 2 demo_busy_state (List.replicate 32 0) 10000
      (by decide) (by decide) (fun _ _ => rfl) (by decide) (by decide) (by decide)⟩

/-- C13: the reseed triggers of `lrng_drng_get` on a sleep-capable instance with the
reseed gate free.  The trigger of an iteration is: the decrement of `requests` reaches
zero, or `force_reseed` is set, or the time is after `last_seeded` plus
`lrng_drng_reseed_max_time` seconds (`lrng_drng_reseed_max_time * HZ` jiffies).  When it
fires the reseed block takes the gate and is `lrng_drng_seed` on the instance; when it
does not, the block only decrements `requests`.  On an instance whose primitives do not
fail `lrng_drng_seed` returns after calling the seed assembler, releasing the gate,
calling `lrng_init_ops` and the seed primitive of the instance.  A request on a flagged
instance calls the seed assembler before any call of the generate primitive and returns
`n`; this holds after `lrng_drng_force_reseed` for `lrng_drng_get_sleep` when
`lrng_drng_instances()` is `NULL`, and for the instance of every online node otherwise.
In every iteration of the loop the reseed block comes first and the generate call is
made on the state it leaves. -/
theorem C13_reseed_triggers :
    (∀ (p : Nat) (s : lrng_state), reseed_due p s = true ↔
      (int_wrap ((deref s p).requests - 1) = 0 ∨ (deref s p).force_reseed = true ∨
        time_after s.jiffies (ulong_add (deref s p).last_seeded
          (int_wrap (s.lrng_drng_reseed_max_time * s.HZ))) = true)) ∧
    (∀ (seed : lrng_state → Option lrng_state) (depth p : Nat) (s : lrng_state),
      p ≠ LRNG_DRNG_ATOMIC → s.reseed_in_progress = 0 →
      (reseed_due p s = true →
        lrng_drng_get_reseed seed depth p s =
          seed (log { requests_dec p s with reseed_in_progress := 1 } depth
            (lrng_event.pool_trylock 0))) ∧
      (reseed_due p s = false →
        lrng_drng_get_reseed seed depth p s = some (requests_dec p s))) ∧
    (∀ (F depth p : Nat) (u : lrng_state), 3 ≤ F → get_ready p u → u.lrng_avail ≠ 0 →
      ∃ t post, lrng_drng_seed F depth p u = some t ∧
        t.trace = u.trace ++
          [(depth, lrng_event.fill_seed_buffer (u.seed_source u.fills).1),
            (depth, lrng_event.pool_unlock),
            (depth, lrng_event.init_ops (u32 (u.seed_source u.fills).1)),
            (depth, lrng_event.seed_helper p (deref u p).drng (u.seed_source u.fills).2
              ((deref u p).crypto_cb.lrng_drng_seed_helper (gen_of u (deref u p).drng)
                (u.seed_source u.fills).2).1)] ++ post ∧
        own_generate depth p post = []) ∧
    (∀ (fuel depth p : Nat) (s : lrng_state) (buf : List Nat) (n : Nat),
      p ≠ LRNG_DRNG_ATOMIC → get_ready p s → s.reseed_in_progress = 0 →
      (deref s p).force_reseed = true → 0 < n → n ≤ INT_MAX → n / 4096 + 3 ≤ fuel →
      ∃ r pre bits post, lrng_drng_get fuel depth p s (some buf) n = some r ∧
        r.1 = (n : Int) ∧
        r.2.2.trace = s.trace ++ pre ++ (depth, lrng_event.fill_seed_buffer bits) :: post ∧
        all_generate pre = []) ∧
    (∀ (fuel : Nat) (s : lrng_state) (buf : List Nat) (n : Nat),
      s.lrng_drng_instances = none → get_ready LRNG_DRNG_INIT s → s.reseed_in_progress = 0 →
      0 < n → n ≤ INT_MAX → n / 4096 + 3 ≤ fuel →
      ∃ r pre bits post,
        lrng_drng_get_sleep fuel (lrng_drng_force_reseed s) (some buf) n = some r ∧
        r.1 = (n : Int) ∧
        r.2.2.trace = (lrng_drng_force_reseed s).trace ++ pre ++
          (0, lrng_event.fill_seed_buffer bits) :: post ∧
        all_generate pre = []) ∧
    (∀ (fuel depth : Nat) (s : lrng_state) (tbl : List (Option Nat)) (node q : Nat)
      (buf : List Nat) (n : Nat),
      s.lrng_drng_instances = some tbl → node ∈ s.online_nodes → node_entry tbl node = some q →
      q ≠ LRNG_DRNG_ATOMIC → get_ready q s → s.reseed_in_progress = 0 →
      0 < n → n ≤ INT_MAX → n / 4096 + 3 ≤ fuel →
      ∃ r pre bits post,
        lrng_drng_get fuel depth q (lrng_drng_force_reseed s) (some buf) n = some r ∧
        r.1 = (n : Int) ∧
        r.2.2.trace = (lrng_drng_force_reseed s).trace ++ pre ++
          (depth, lrng_event.fill_seed_buffer bits) :: post ∧
        all_generate pre = []) ∧
    (∀ (seed : lrng_state → Option lrng_state) (depth p fuel : Nat) (s : lrng_state)
      (buf : List Nat) (n pr : Nat), n ≠ 0 →
      lrng_drng_get_loop seed depth p (fuel + 1) s buf n pr =
        (lrng_drng_get_reseed seed depth p s).bind (fun t =>
          if (lrng_drng_get_generate depth p (min n LRNG_DRNG_MAX_REQSIZE) pr buf t).1 ≤ 0 then
            some (-EFAULT,
              (lrng_drng_get_generate depth p (min n LRNG_DRNG_MAX_REQSIZE) pr buf t).2.1,
              (lrng_drng_get_generate depth p (min n LRNG_DRNG_MAX_REQSIZE) pr buf t).2.2)
          else
            lrng_drng_get_loop seed depth p fuel
              (lrng_drng_get_generate depth p (min n LRNG_DRNG_MAX_REQSIZE) pr buf t).2.2
              (lrng_drng_get_generate depth p (min n LRNG_DRNG_MAX_REQSIZE) pr buf t).2.1
              (((n : Int) -
                (lrng_drng_get_generate depth p (min n LRNG_DRNG_MAX_REQSIZE) pr buf t).1)
                  % 2 ^ 32).toNat
              (((pr : Int) +
                (lrng_drng_get_generate depth p (min n LRNG_DRNG_MAX_REQSIZE) pr buf t).1)
                  % 2 ^ 32).toNat)) := by
  refine ⟨?_, ?_, ?_, ?_, ?_, ?_, ?_⟩
  · intro p s
    unfold reseed_due
    simp only [Bool.or_eq_true, decide_eq_true_eq, or_assoc]
  · intro seed depth p s hp hg
    exact ⟨get_reseed_due_free seed depth p s hp hg, get_reseed_not_due seed depth p s⟩
  · intro F depth p u hF hr hav
    obtain ⟨t, post, h1, _, h3, h4⟩ := seed_returns_trace F depth p hF u hr hav
    rw [seed_trace] at h3
    exact ⟨t, post, h1, h3, h4⟩
  · intro fuel depth p s buf n hp hr hg hforce hn0 hn hf
    exact get_forced_first fuel depth p s buf n hp hr hg hforce hn0 hn hf
  · intro fuel s buf n hnone hr hg hn0 hn hf
    have hsleep : lrng_drng_get_sleep fuel (lrng_drng_force_reseed s) (some buf) n =
        lrng_drng_get fuel 0 LRNG_DRNG_INIT (lrng_drng_force_reseed s) (some buf) n := by
      unfold lrng_drng_get_sleep
      rw [force_reseed_instances, hnone]
    rw [hsleep]
    refine get_forced_first fuel 0 LRNG_DRNG_INIT _ buf n (by decide)
      (get_ready_of_step (force_reseed_step 0 LRNG_DRNG_INIT s) hr)
      (by rw [force_reseed_gate]; exact hg) ?_ hn0 hn hf
    unfold lrng_drng_force_reseed
    rw [hnone]
    dsimp only
    rw [deref_store_eq _ _ _ hr.1]
  · intro fuel depth s tbl node q buf n ht hnode he hq hr hg hn0 hn hf
    refine get_forced_first fuel depth q _ buf n hq
      (get_ready_of_step (force_reseed_step depth q s) hr)
      (by rw [force_reseed_gate]; exact hg) ?_ hn0 hn hf
    unfold lrng_drng_force_reseed
    rw [ht]
    dsimp only
    rw [deref_store_ne _ _ _ _ (Ne.symm hq)]
    exact force_reseed_nodes_sets tbl _ s node q hnode he hr.1
  · intro seed depth p fuel s buf n pr h0
    rw [get_loop_succ, if_neg h0]
    cases lrng_drng_get_reseed seed depth p s <;> rfl

/-- C13, witness: the flagged instance of node 1 with the gate free; 32 bytes after
`lrng_drng_force_reseed` without and with per-node instances. -/
theorem C13_reseed_triggers_witness :
    (lrng_drng_get_reseed (lrng_drng_seed 3 0 2) 0 2 demo_numa_state =
      lrng_drng_seed 3 0 2 (log { requests_dec 2 demo_numa_state with reseed_in_progress := 1 }
        0 (lrng_event.pool_trylock 0))) ∧
    (∃ r pre bits post,
      lrng_drng_get 3 0 2 demo_numa_state (some (List.replicate 32 0)) 32 = some r ∧
      r.1 = ((32 : Nat) : Int) ∧
      r.2.2.trace = demo_numa_state.trace ++ pre ++
        (0, lrng_event.fill_seed_buffer bits) :: post ∧
      all_generate pre = []) ∧
    (∃ r pre bits post,
      lrng_drng_get_sleep 3 (lrng_drng_force_reseed (demo_state 256))
        (some (List.replicate 32 0)) 32 = some r ∧
      r.1 = ((32 : Nat) : Int) ∧
      r.2.2.trace = (lrng_drng_force_reseed (demo_state 256)).trace ++ pre ++
        (0, lrng_event.fill_seed_buffer bits) :: post ∧
      all_generate pre = []) ∧
    (∃ r pre bits post,
      lrng_drng_get 3 0 2 (lrng_drng_force_reseed demo_numa_idle_state)
        (some (List.replicate 32 0)) 32 = some r ∧
      r.1 = ((32 : Nat) : Int) ∧
      r.2.2.trace = (lrng_drng_force_reseed demo_numa_idle_state).trace ++ pre ++
        (0, lrng_event.fill_seed_buffer bits) :: post ∧
      all_generate pre = []) :=
  ⟨(C13_reseed_triggers.2.1 (lrng_drng_seed 3 0 2) 0 2 demo_numa_state (by decide) rfl).1
      (by decide),
    C13_reseed_triggers.2.2.2.1 3 0 2 demo_numa_state (List.replicate 32 0) 32 (by decide)
      ⟨by decide, fun _ _ => rfl, fun _ _ => le_refl _, by decide, by decide⟩ rfl rfl
      (by decide) (by decide) (by decide),
    C13_reseed_triggers.2.2.2.2.1 3 (demo_state 256) (List.replicate 32 0) 32 rfl
      ⟨by decide, fun _ _ => rfl, fun _ _ => le_refl _, by decide, by decide⟩ rfl
      (by decide) (by decide) (by decide),
    C13_reseed_triggers.2.2.2.2.2.1 3 0 demo_numa_idle_state [some 0, some 2] 1 2
      (List.replicate 32 0) 32 rfl (by decide) rfl (by decide)
      ⟨by decide, fun _ _ => rfl, fun _ _ => le_refl _, by decide, by decide⟩ rfl
      (by decide) (by decide) (by decide)⟩

/-- C14: `lrng_drng_reset` puts the instance into the initial, not seeded state
whatever its state was: afterwards `fully_seeded = false`,
`requests = LRNG_DRNG_RESEED_THRESH`, `force_reseed = true` and `last_seeded` is the
current time.  The next `lrng_drng_get` on that instance, when it is sleep-capable, its
primitives do not fail and the reseed gate is free, calls the seed assembler before
any call of the generate primitive, and returns `n`. -/
theorem C14_reset_state :
    (∀ (p : Nat) (s : lrng_state), p < s.drngs.length →
      was_reset s.jiffies (deref (lrng_drng_reset p s) p)) ∧
    (∀ (fuel depth p : Nat) (s : lrng_state) (buf : List Nat) (n : Nat),
      p ≠ LRNG_DRNG_ATOMIC → get_ready p s → s.reseed_in_progress = 0 →
      0 < n → n ≤ INT_MAX → n / 4096 + 3 ≤ fuel →
      ∃ r pre bits post,
        lrng_drng_get fuel depth p (lrng_drng_reset p s) (some buf) n = some r ∧
        r.1 = (n : Int) ∧
        r.2.2.trace = s.trace ++ pre ++ (depth, lrng_event.fill_seed_buffer bits) :: post ∧
        all_generate pre = []) := by
  refine ⟨fun p s hp => reset_was_reset p s hp, ?_⟩
  intro fuel depth p s buf n hp hr hg hn0 hn hf
  exact get_forced_first fuel depth p (lrng_drng_reset p s) buf n hp
    (get_ready_of_step (step_ok_reset depth p p s) hr) hg
    (reset_was_reset p s hr.1).2.2.1 hn0 hn hf

/-- C14, witness: the initial instance of a system without per-node instances is reset
and then asked for 5000 bytes. -/
theorem C14_reset_state_witness :
    was_reset 1000 (deref (lrng_drng_reset LRNG_DRNG_INIT (demo_state 256)) LRNG_DRNG_INIT) ∧
    (∃ r pre bits post,
      lrng_drng_get 4 0 LRNG_DRNG_INIT (lrng_drng_reset LRNG_DRNG_INIT (demo_state 256))
        (some (List.replicate 32 0)) 5000 = some r ∧
      r.1 = ((5000 : Nat) : Int) ∧
      r.2.2.trace = (demo_state 256).trace ++ pre ++
        (0, lrng_event.fill_seed_buffer bits) :: post ∧
      all_generate pre = []) :=
  ⟨C14_reset_state.1 LRNG_DRNG_INIT (demo_state 256) (by decide),
    C14_reset_state.2 4 0 LRNG_DRNG_INIT (demo_state 256) (List.replicate 32 0) 5000
      (by decide) ⟨by decide, fun _ _ => rfl, fun _ _ => le_refl _, by decide, by decide⟩ rfl
      (by decide) (by decide) (by decide)⟩

/-- C15, counterexample: the atomic instance after a seed (`force_reseed` is `false`) is
left as it is by `_lrng_reset`, without and with per-node instances. -/
theorem C15_reset_leaves_atomic :
    (deref (demo_state 256) LRNG_DRNG_ATOMIC).force_reseed = false ∧
    (deref (_lrng_reset (demo_state 256)) LRNG_DRNG_ATOMIC).force_reseed = false ∧
    (deref demo_numa_idle_state LRNG_DRNG_ATOMIC).force_reseed = false ∧
    (deref (_lrng_reset demo_numa_idle_state) LRNG_DRNG_ATOMIC).force_reseed = false := by
  refine ⟨?_, ?_, ?_, ?_⟩ <;> decide

/-- C15, amended: `_lrng_reset` resets the sleep-capable instances it visits: the
initial instance when `lrng_drng_instances()` is `NULL`, otherwise the instance of every
online node; each of them has `fully_seeded = false`,
`requests = LRNG_DRNG_RESEED_THRESH`, `force_reseed = true` and `last_seeded` the
current time afterwards.  Every other instance, the atomic one included unless the
table of an online node points at it, is left as it is. -/
theorem C15_reset_instances (s : lrng_state) :
    (s.lrng_drng_instances = none →
      (LRNG_DRNG_INIT < s.drngs.length →
        was_reset s.jiffies (deref (_lrng_reset s) LRNG_DRNG_INIT)) ∧
      ∀ q, q ≠ LRNG_DRNG_INIT → deref (_lrng_reset s) q = deref s q) ∧
    (∀ tbl, s.lrng_drng_instances = some tbl →
      (∀ node ∈ s.online_nodes, ∀ q, node_entry tbl node = some q → q < s.drngs.length →
        was_reset s.jiffies (deref (_lrng_reset s) q)) ∧
      ∀ q, (∀ node ∈ s.online_nodes, node_entry tbl node ≠ some q) →
        deref (_lrng_reset s) q = deref s q) := by
  constructor
  · intro hn
    unfold _lrng_reset
    rw [hn]
    refine ⟨fun h0 => reset_was_reset _ s h0, fun q hq => ?_⟩
    exact reset_other _ q s (Ne.symm hq)
  · intro tbl ht
    unfold _lrng_reset
    rw [ht]
    exact ⟨fun node hn q he hq => reset_nodes_sets tbl _ s node q hn he hq,
      fun q hq => reset_nodes_other tbl _ s q hq⟩

/-- C15, witness: a system without and a system with per-node instances. -/
theorem C15_reset_instances_witness :
    was_reset 1000 (deref (_lrng_reset (demo_state 256)) LRNG_DRNG_INIT) ∧
    deref (_lrng_reset (demo_state 256)) LRNG_DRNG_ATOMIC =
      deref (demo_state 256) LRNG_DRNG_ATOMIC ∧
    was_reset 1000 (deref (_lrng_reset demo_numa_idle_state) 2) ∧
    deref (_lrng_reset demo_numa_idle_state) LRNG_DRNG_ATOMIC =
      deref demo_numa_idle_state LRNG_DRNG_ATOMIC :=
  ⟨((C15_reset_instances (demo_state 256)).1 rfl).1 (by decide),
    ((C15_reset_instances (demo_state 256)).1 rfl).2 LRNG_DRNG_ATOMIC (by decide),
    ((C15_reset_instances demo_numa_idle_state).2 _ rfl).1 1 (by decide) 2 rfl (by decide),
    ((C15_reset_instances demo_numa_idle_state).2 _ rfl).2 LRNG_DRNG_ATOMIC (by decide)⟩

/-- C16, counterexample.  First system: the initial and the atomic instance share the
generator and both are flagged; the reseed of the initial instance succeeds, the atomic
instance needs one, and yet no output is generated: the bookkeeping of the atomic
instance is refreshed by `lrng_drng_inject` on the initial instance.  Second system: the
seed primitive of the instance of node 1 fails at the first call; the call of
`lrng_drng_seed` whose seed failed (status -1 at depth 0) still ends with a seed of the
atomic instance (instance 1 at depth 0). -/
theorem C16_atomic_reseed_ignores_seed_status :
    (deref demo_shared_due_state LRNG_DRNG_INIT).drng =
      (deref demo_shared_due_state LRNG_DRNG_ATOMIC).drng ∧
    (deref demo_shared_due_state LRNG_DRNG_ATOMIC).force_reseed = true ∧
    (lrng_drng_seed 3 0 LRNG_DRNG_INIT demo_shared_due_state).map
      (fun t => (seed_calls t.trace, all_generate t.trace,
        (deref t LRNG_DRNG_INIT).fully_seeded, (deref t LRNG_DRNG_ATOMIC).force_reseed)) =
        some ([(0, 0, 0)], [], true, false) ∧
    (lrng_drng_seed 5 0 2 demo_fail_once_state).map (fun t => seed_calls t.trace) =
      some [(0, 2, -1), (1, 2, 0), (1, 1, 0), (0, 1, 0)] := by
  refine ⟨rfl, rfl, ?_, ?_⟩ <;> decide

/-- C16, amended: the side-effect reseed of the atomic instance in `lrng_drng_seed` on
the instance at `p`.  When `p` shares its generator with the atomic instance no output
is drawn: `lrng_drng_seed` is `_lrng_drng_seed`, and a seed primitive that does not
fail refreshes `requests`, `last_seeded` and `force_reseed` of the atomic instance
through `lrng_drng_inject`.  When `p` has a generator of its own and the atomic
instance is not due (`force_reseed` not set, `requests > 0`, not stale), the atomic
instance is left as it is.  When `p` has a generator of its own and the atomic instance
is due, then whatever the status of the seed of `p` was, `lrng_drng_get` is called on
`p` for `LRNG_DRNG_SECURITY_STRENGTH_BYTES` bytes and, unless it returns a negative
value, what it returned is injected into the atomic instance; with primitives that do
not fail this is one generate call for 32 bytes and one call of the seed primitive of
the atomic instance, after which `requests`, `last_seeded` and `force_reseed` of the
atomic instance are refreshed. -/
theorem C16_atomic_side_effect_reseed :
    (∀ (f depth p : Nat) (s : lrng_state),
      (deref s p).drng = (deref s LRNG_DRNG_ATOMIC).drng →
      lrng_drng_seed (f + 1) depth p s = some (_lrng_drng_seed depth p s).2 ∧
      (_lrng_drng_seed depth p s).2.trace = s.trace ++ seed_events depth p s ∧
      (p ≠ LRNG_DRNG_ATOMIC → LRNG_DRNG_ATOMIC < s.drngs.length →
        ¬ ((deref s p).crypto_cb.lrng_drng_seed_helper (gen_of s (deref s p).drng)
          (s.seed_source s.fills).2).1 < 0 →
        (deref (_lrng_drng_seed depth p s).2 LRNG_DRNG_ATOMIC).requests =
          LRNG_DRNG_RESEED_THRESH ∧
        (deref (_lrng_drng_seed depth p s).2 LRNG_DRNG_ATOMIC).last_seeded = s.jiffies ∧
        (deref (_lrng_drng_seed depth p s).2 LRNG_DRNG_ATOMIC).force_reseed = false)) ∧
    (∀ (f depth p : Nat) (s : lrng_state),
      (deref s p).drng ≠ (deref s LRNG_DRNG_ATOMIC).drng → lrng_drng_atomic_due s = false →
      lrng_drng_seed (f + 1) depth p s = some (_lrng_drng_seed depth p s).2 ∧
      (_lrng_drng_seed depth p s).2.trace = s.trace ++ seed_events depth p s ∧
      deref (_lrng_drng_seed depth p s).2 LRNG_DRNG_ATOMIC = deref s LRNG_DRNG_ATOMIC) ∧
    (∀ (f depth p : Nat) (s : lrng_state) (r : Int × Option (List Nat) × lrng_state),
      (deref s p).drng ≠ (deref s LRNG_DRNG_ATOMIC).drng → lrng_drng_atomic_due s = true →
      lrng_drng_get f (depth + 1) p (_lrng_drng_seed depth p s).2
        (some (List.replicate LRNG_DRNG_SECURITY_STRENGTH_BYTES 0))
        LRNG_DRNG_SECURITY_STRENGTH_BYTES = some r →
      lrng_drng_seed (f + 1) depth p s =
        some (if r.1 < 0 then r.2.2
          else lrng_drng_inject depth LRNG_DRNG_ATOMIC
            ((r.2.1.getD []).take r.1.toNat) r.2.2)) ∧
    (∀ (F depth p : Nat) (s : lrng_state), 3 ≤ F → get_ready p s → s.lrng_avail ≠ 0 →
      LRNG_DRNG_ATOMIC < s.drngs.length →
      (deref s p).drng ≠ (deref s LRNG_DRNG_ATOMIC).drng → lrng_drng_atomic_due s = true →
      lrng_drng_seed F depth p s =
        some (atomic_reseeded depth p (_lrng_drng_seed depth p s).2) ∧
      (atomic_reseeded depth p (_lrng_drng_seed depth p s).2).trace =
        s.trace ++ seed_events depth p s ++
          atomic_seed_events depth p (_lrng_drng_seed depth p s).2 ∧
      ((∀ g b, 0 ≤ ((deref s LRNG_DRNG_ATOMIC).crypto_cb.lrng_drng_seed_helper g b).1) →
        (deref (atomic_reseeded depth p (_lrng_drng_seed depth p s).2)
          LRNG_DRNG_ATOMIC).requests = LRNG_DRNG_RESEED_THRESH ∧
        (deref (atomic_reseeded depth p (_lrng_drng_seed depth p s).2)
          LRNG_DRNG_ATOMIC).last_seeded = s.jiffies ∧
        (deref (atomic_reseeded depth p (_lrng_drng_seed depth p s).2)
          LRNG_DRNG_ATOMIC).force_reseed = false)) := by
  refine ⟨?_, ?_, ?_, ?_⟩
  · intro f depth p s hsh
    exact ⟨seed_not_due f depth p s (seed_cond_shared depth p s hsh),
      seed_trace_events depth p s,
      fun hp ha hok => seed_shared_atomic depth p s hp ha hsh hok⟩
  · intro f depth p s hd hdue
    exact ⟨seed_not_due f depth p s (by rw [seed_cond depth p s hd]; exact hdue),
      seed_trace_events depth p s, seed_other depth p s hd⟩
  · intro f depth p s r hd hdue hr
    exact seed_due f depth p s (by rw [seed_cond depth p s hd]; exact hdue) r hr
  · intro F depth p s hF hr hav ha hd hdue
    have hs1 := step_ok_seed depth LRNG_DRNG_ATOMIC depth p s
    refine ⟨?_, ?_, ?_⟩
    · rw [seed_eq F depth p hF s hr hav, if_pos (by rw [seed_cond depth p s hd]; exact hdue)]
    · rw [atomic_reseeded_trace, seed_trace_events]
    · intro hok
      have h := atomic_reseeded_fields depth p (_lrng_drng_seed depth p s).2
        (by rw [hs1.1]; exact ha) (by rw [hs1.2.1]; exact hok)
      rw [hs1.2.2.2.2.1] at h
      exact h

/-- C16, witness: a system whose instances share the generator, a system in which the
atomic instance is not due, and the instance of node 1 with a generator of its own
while the atomic instance is due. -/
theorem C16_atomic_side_effect_reseed_witness :
    (lrng_drng_seed 3 0 LRNG_DRNG_INIT demo_shared_due_state =
      some (_lrng_drng_seed 0 LRNG_DRNG_INIT demo_shared_due_state).2) ∧
    (lrng_drng_seed 3 0 2 demo_numa_idle_state =
      some (_lrng_drng_seed 0 2 demo_numa_idle_state).2) ∧
    (lrng_drng_seed 3 0 2 demo_numa_state =
      some (atomic_reseeded 0 2 (_lrng_drng_seed 0 2 demo_numa_state).2)) ∧
    (deref (atomic_reseeded 0 2 (_lrng_drng_seed 0 2 demo_numa_state).2)
      LRNG_DRNG_ATOMIC).force_reseed = false :=
  ⟨(C16_atomic_side_effect_reseed.1 2 0 LRNG_DRNG_INIT demo_shared_due_state rfl).1,
    (C16_atomic_side_effect_reseed.2.1 2 0 2 demo_numa_idle_state (by decide) (by decide)).1,
    (C16_atomic_side_effect_reseed.2.2.2 3 0 2 demo_numa_state (by decide)
      ⟨by decide, fun _ _ => rfl, fun _ _ => le_refl _, by decide, by decide⟩ (by decide)
      (by decide) (by decide) (by decide)).1,
    ((C16_atomic_side_effect_reseed.2.2.2 3 0 2 demo_numa_state (by decide)
      ⟨by decide, fun _ _ => rfl, fun _ _ => le_refl _, by decide, by decide⟩ (by decide)
      (by decide) (by decide) (by decide)).2.2 (fun _ _ => le_refl _)).2.2⟩

/-- C17, counterexample: in the initial configuration `lrng_drng_atomic` and
`lrng_drng_init` hold the generator `chacha20`; a reseed of `lrng_drng_init` hands the
seed buffer as the seed assembler filled it to the seed primitive on that generator,
and no generate operation has produced anything. -/
theorem C17_shared_generator_gets_raw_seed :
    (deref (demo_state 256) LRNG_DRNG_ATOMIC).drng = CHACHA20 ∧
    (deref (demo_state 256) LRNG_DRNG_INIT).drng = CHACHA20 ∧
    (lrng_fill_seed_buffer 0 (demo_state 256)).2.1 = List.replicate 100 7 ∧
    (lrng_drng_seed 3 0 LRNG_DRNG_INIT (demo_state 256)).map
      (fun t => (seeds_of CHACHA20 t.trace, all_generate t.trace)) =
        some ([List.replicate 100 7], []) := by
  refine ⟨rfl, rfl, rfl, ?_⟩
  decide

/-- C17, amended: `lrng_drng_get` on the atomic instance never calls the seed
assembler nor a seed primitive, and returns `n` when the generate primitive returns
what it is asked for.  When an instance shares its generator with the atomic instance,
as `lrng_drng_init` does in the initial configuration, `_lrng_drng_seed` on it hands
the seed buffer as assembled from the noise sources to the seed primitive on that
generator.  When the instance has a generator of its own and its primitives do not
fail, the only seed data `lrng_drng_seed` feeds to the generator of the atomic instance
is the buffer filled by the generate call on the instance, and only when the atomic
instance is due. -/
theorem C17_seed_data_of_atomic_generator :
    (∀ (fuel depth : Nat) (s : lrng_state) (buf : List Nat) (n : Nat)
      (r : Int × Option (List Nat) × lrng_state),
      lrng_drng_get fuel depth LRNG_DRNG_ATOMIC s (some buf) n = some r →
      r.2.2.fills = s.fills ∧
      ∃ ev, r.2.2.trace = s.trace ++ ev ∧ ∀ h, seeds_of h ev = []) ∧
    (∀ (fuel depth : Nat) (s : lrng_state) (buf : List Nat) (n : Nat),
      (∀ g n, ((deref s LRNG_DRNG_ATOMIC).crypto_cb.lrng_drng_generate_helper g n).1 =
        (n : Int)) →
      0 < n → n ≤ INT_MAX → (n + 4095) / 4096 + 1 ≤ fuel →
      ∃ r, lrng_drng_get fuel depth LRNG_DRNG_ATOMIC s (some buf) n = some r ∧
        r.1 = (n : Int) ∧ r.2.2.fills = s.fills) ∧
    (∀ (depth p : Nat) (s : lrng_state),
      (deref s p).drng = (deref s LRNG_DRNG_ATOMIC).drng →
      (_lrng_drng_seed depth p s).2.trace = s.trace ++ seed_events depth p s ∧
      seeds_of (deref s LRNG_DRNG_ATOMIC).drng (seed_events depth p s) =
        [(lrng_fill_seed_buffer depth s).2.1]) ∧
    (∀ (F depth p : Nat) (s : lrng_state), 3 ≤ F → get_ready p s → s.lrng_avail ≠ 0 →
      (deref s p).drng ≠ (deref s LRNG_DRNG_ATOMIC).drng →
      ∃ t ev, lrng_drng_seed F depth p s = some t ∧ t.trace = s.trace ++ ev ∧
        seeds_of (deref s LRNG_DRNG_ATOMIC).drng ev =
          if lrng_drng_atomic_due s = true then
            [(lrng_drng_get_generate (depth + 1) p LRNG_DRNG_SECURITY_STRENGTH_BYTES 0
              (List.replicate LRNG_DRNG_SECURITY_STRENGTH_BYTES 0)
              (requests_dec p (_lrng_drng_seed depth p s).2)).2.1.take
                LRNG_DRNG_SECURITY_STRENGTH_BYTES]
          else []) := by
  refine ⟨?_, ?_, ?_, ?_⟩
  · intro fuel depth s buf n r h
    unfold lrng_drng_get lrng_drng_get_with at h
    dsimp only at h
    by_cases h0 : n = 0
    · rw [if_pos h0] at h
      rw [← Option.some.inj h]
      exact ⟨rfl, [], (List.append_nil _).symm, fun _ => rfl⟩
    · rw [if_neg h0] at h
      obtain ⟨ie, hie, hies⟩ := init_cc20_seeds depth s
      cases hl : lrng_drng_get_loop (lrng_drng_seed fuel depth LRNG_DRNG_ATOMIC) depth
          LRNG_DRNG_ATOMIC fuel (lrng_drngs_init_cc20 depth s) buf (min n INT_MAX) 0 with
      | none =>
        rw [hl] at h
        cases h
      | some r' =>
        rw [hl] at h
        obtain ⟨hf, ev, hev, hs⟩ := get_loop_atomic_fills _ depth fuel _ buf _ 0 r' hl
        rw [← Option.some.inj h]
        refine ⟨?_, ie ++ ev, ?_, ?_⟩
        · show r'.2.2.fills = _
          rw [hf, init_cc20_fills]
        · show r'.2.2.trace = _
          rw [hev, hie, List.append_assoc]
        · intro x
          rw [seeds_of_append, hies x, hs x]
          rfl
  · intro fuel depth s buf n hgen hn0 hn hf
    have hmin : min n INT_MAX = n := Nat.min_eq_left hn
    have hs0 := step_ok_init_cc20 depth LRNG_DRNG_ATOMIC depth s
    obtain ⟨r, hl, hret, hfill, _⟩ := get_loop_atomic
      (lrng_drng_seed fuel depth LRNG_DRNG_ATOMIC) depth s.fills fuel
      (lrng_drngs_init_cc20 depth s) buf n 0 (by rw [hs0.2.1]; exact hgen)
      (init_cc20_fills depth s)
      (by unfold INT_MAX at hn; norm_num at hn ⊢; omega) hf
    unfold lrng_drng_get lrng_drng_get_with
    dsimp only
    rw [if_neg (by omega), hmin, hl]
    refine ⟨(r.1, some r.2.1, r.2.2), rfl, ?_, hfill⟩
    show r.1 = _
    rw [hret, Nat.zero_add]
  · intro depth p s hsh
    refine ⟨seed_trace_events depth p s, ?_⟩
    unfold seed_events
    simp only [seeds_of]
    rw [if_pos hsh]
    rfl
  · intro F depth p s hF hr hav hd
    have h1 : seeds_of (deref s LRNG_DRNG_ATOMIC).drng (seed_events depth p s) = [] := by
      unfold seed_events
      simp only [seeds_of]
      rw [if_neg hd]
    have h2 : (deref (lrng_drng_get_generate (depth + 1) p LRNG_DRNG_SECURITY_STRENGTH_BYTES 0
        (List.replicate LRNG_DRNG_SECURITY_STRENGTH_BYTES 0)
        (requests_dec p (_lrng_drng_seed depth p s).2)).2.2 LRNG_DRNG_ATOMIC).drng =
        (deref s LRNG_DRNG_ATOMIC).drng := by
      rw [generate_deref, requests_dec_drng, seed_drng]
    by_cases hdue : lrng_drng_atomic_due s = true
    · refine ⟨atomic_reseeded depth p (_lrng_drng_seed depth p s).2,
        seed_events depth p s ++ atomic_seed_events depth p (_lrng_drng_seed depth p s).2,
        ?_, ?_, ?_⟩
      · rw [seed_eq F depth p hF s hr hav, if_pos (by rw [seed_cond depth p s hd]; exact hdue)]
      · rw [atomic_reseeded_trace, seed_trace_events, List.append_assoc]
      · rw [if_pos hdue, seeds_of_append, h1]
        unfold atomic_seed_events
        simp only [seeds_of]
        rw [if_pos h2]
        rfl
    · refine ⟨(_lrng_drng_seed depth p s).2, seed_events depth p s, ?_, ?_, ?_⟩
      · rw [seed_eq F depth p hF s hr hav, if_neg (by rw [seed_cond depth p s hd]; exact hdue)]
      · exact seed_trace_events depth p s
      · rw [if_neg hdue]
        exact h1

/-- C17, witness: 5000 bytes from the atomic instance while it is flagged for a
reseed; the reseed of an instance that shares the generator `chacha20`; the reseed of
the instance of node 1, which has a generator of its own. -/
theorem C17_seed_data_of_atomic_generator_witness :
    (∃ r, lrng_drng_get 3 0 LRNG_DRNG_ATOMIC demo_numa_state (some (List.replicate 32 0)) 5000 =
        some r ∧ r.1 = ((5000 : Nat) : Int) ∧ r.2.2.fills = demo_numa_state.fills) ∧
    seeds_of (deref (demo_state 256) LRNG_DRNG_ATOMIC).drng
        (seed_events 0 LRNG_DRNG_INIT (demo_state 256)) =
      [(lrng_fill_seed_buffer 0 (demo_state 256)).2.1] ∧
    (∃ t ev, lrng_drng_seed 3 0 2 demo_numa_state = some t ∧
      t.trace = demo_numa_state.trace ++ ev ∧
      seeds_of (deref demo_numa_state LRNG_DRNG_ATOMIC).drng ev =
        if lrng_drng_atomic_due demo_numa_state = true then
          [(lrng_drng_get_generate (0 + 1) 2 LRNG_DRNG_SECURITY_STRENGTH_BYTES 0
            (List.replicate LRNG_DRNG_SECURITY_STRENGTH_BYTES 0)
            (requests_dec 2 (_lrng_drng_seed 0 2 demo_numa_state).2)).2.1.take
              LRNG_DRNG_SECURITY_STRENGTH_BYTES]
        else []) :=
  ⟨C17_seed_data_of_atomic_generator.2.1 3 0 demo_numa_state (List.replicate 32 0) 5000
      (fun _ _ => rfl) (by decide) (by decide) (by decide),
    (C17_seed_data_of_atomic_generator.2.2.1 0 LRNG_DRNG_INIT (demo_state 256) rfl).2,
    C17_seed_data_of_atomic_generator.2.2.2 3 0 2 demo_numa_state (by decide)
      ⟨by decide, fun _ _ => rfl, fun _ _ => le_refl _, by decide, by decide⟩ (by decide)
      (by decide)⟩

/-- C18, at the failing input: with a digest of 20 bytes (160 bits), 160 bits in the aux
pool, one CPU with 256 events and `requested_bits = 256`, `lrng_pcpu_pool_hash` returns
256 bits; with a digest of 32 bytes (256 bits), 256 bits in the aux pool, one CPU with
256 events and `requested_bits = 512` it returns 512 bits. -/
theorem C18_returns_more_than_digest :
    8 * demo_sha1_cb.lrng_hash_digestsize 0 = 160 ∧
    (lrng_pcpu_pool_hash none { demo_drng with crypto_cb := demo_sha1_cb } (demo_sha1_pool 160)
      [demo_cpu 256] (List.replicate 32 0) (List.replicate 20 0) 256 true).collected_ent_bits =
        256 ∧
    8 * demo_cb.lrng_hash_digestsize 0 = 256 ∧
    (lrng_pcpu_pool_hash none demo_drng (demo_pool 256) [demo_cpu 256] (List.replicate 64 0)
      (List.replicate 32 0) 512 true).collected_ent_bits = 512 := by
  refine ⟨?_, ?_, ?_, ?_⟩ <;> decide

/-- C19, at the failing input: `lrng_drng_seed_work` runs with the gate taken once, by
its scheduler, while the initial instance is not fully seeded.  It takes the gate no
further time and calls `lrng_pool_unlock` twice, in `_lrng_drng_seed` and at its end.
After the first release the gate is free while the work still runs: a second reseeder
takes it with `lrng_pool_trylock`, the release at the end of the work frees it again,
and a third reseeder takes it while the second has not released it. -/
theorem C19_seed_work_releases_twice :
    demo_work_state.reseed_in_progress = 1 ∧
    (lrng_drng_seed_work 3 demo_work_state).map
      (fun t => (gate_taken t.trace, gate_released t.trace, t.fills)) = some (0, 2, 1) ∧
    (_lrng_drng_seed_work 3 LRNG_DRNG_INIT 0 demo_work_state).map
      (fun t => (t.reseed_in_progress, (lrng_pool_trylock 0 t).1,
        (lrng_pool_trylock 0 (lrng_pool_unlock 0 (lrng_pool_trylock 0 t).2)).1)) =
      some (0, 0, 0) ∧
    (_lrng_drng_seed_work 3 LRNG_DRNG_INIT 0 demo_work_state).map (lrng_pool_unlock 0) =
      lrng_drng_seed_work 3 demo_work_state := by
  refine ⟨rfl, ?_, ?_, ?_⟩
  · decide
  · decide
  · exact (seed_work_null 3 demo_work_state rfl (by decide)).symm

/-- C20: the per-CPU loop of `lrng_pcpu_pool_hash` without a hash failure, started with
`collected_irqs = 0` on counters whose capped sum fits a `u32`: for every target
`requested_irqs` it ends without the error exit with
`collected_irqs = min(requested_irqs, sum_i min(c_i, cap_i))`, the counters of the online
CPUs add up to `sum_i min(c_i, cap_i) - collected_irqs` afterwards, and every online CPU
gets back at most `min(c_i, cap_i)`, what it contributed; `cap_i` is the digest size of
the hash of the CPU's node converted to events. -/
theorem C20_event_conservation (instances : Option (List (Option lrng_drng))) (k : Nat)
    (drng : lrng_drng) (requested_irqs : Nat) (cpus : List lrng_pcpu) (st : pcpu_loop_state)
    (hupd : ∀ d x, (drng.crypto_cb.lrng_hash_update d x).1 = 0)
    (hcpu : ∀ c ∈ cpus, hash_ok (pcpu_drng_of instances drng c.node).crypto_cb)
    (h0 : st.collected_irqs = 0) (hs : avail_irqs instances k drng cpus < 2 ^ 32) :
    (lrng_pcpu_pool_hash_loop instances k drng requested_irqs cpus st).1 = true ∧
    (lrng_pcpu_pool_hash_loop instances k drng requested_irqs cpus st).2.1.collected_irqs =
      min requested_irqs (avail_irqs instances k drng cpus) ∧
    online_irqs (lrng_pcpu_pool_hash_loop instances k drng requested_irqs cpus st).2.2 =
      avail_irqs instances k drng cpus -
        (lrng_pcpu_pool_hash_loop instances k drng requested_irqs cpus st).2.1.collected_irqs ∧
    List.Forall₂ (fun c c' =>
        lrng_pcpu_pool_online c' = lrng_pcpu_pool_online c ∧
        (lrng_pcpu_pool_online c = true → c'.lrng_pcpu_array_irqs ≤
          min (u32 c.lrng_pcpu_array_irqs) (pcpu_cap instances k drng c)))
      cpus (lrng_pcpu_pool_hash_loop instances k drng requested_irqs cpus st).2.2 := by
  have hc := hash_loop_collected instances k drng requested_irqs hupd cpus hcpu st
    (by rw [h0]; exact Nat.zero_le _) (by rw [h0, Nat.zero_add]; exact hs)
  have hl := hash_loop_left instances k drng requested_irqs hupd cpus hcpu st
    (by rw [h0]; exact Nat.zero_le _) (by rw [h0, Nat.zero_add]; exact hs)
  rw [h0, Nat.zero_add] at hc hl
  refine ⟨lrng_pcpu_pool_hash_loop_ok instances k drng requested_irqs hupd cpus st, hc, ?_,
    hl.2⟩
  rw [hc]
  exact hl.1

/-- C20, witness: three online CPUs with 70, 50 and 300 events, a cap of 256 events and
a target of 100: 100 events are collected, the CPUs keep 0, 20 and 256 events. -/
theorem C20_event_conservation_witness :
    avail_irqs none 256 demo_drng [demo_cpu 70, demo_cpu 50, demo_cpu 300] = 376 ∧
    (lrng_pcpu_pool_hash_loop none 256 demo_drng 100 [demo_cpu 70, demo_cpu 50, demo_cpu 300]
      { shash := { tfm := 0, ctx := [] }, digest := [], collected_irqs := 0 }).2.1.collected_irqs =
        100 ∧
    (lrng_pcpu_pool_hash_loop none 256 demo_drng 100 [demo_cpu 70, demo_cpu 50, demo_cpu 300]
      { shash := { tfm := 0, ctx := [] }, digest := [], collected_irqs := 0 }).2.2.map
        (fun c => c.lrng_pcpu_array_irqs) = [0, 20, 256] ∧
    online_irqs (lrng_pcpu_pool_hash_loop none 256 demo_drng 100
      [demo_cpu 70, demo_cpu 50, demo_cpu 300]
      { shash := { tfm := 0, ctx := [] }, digest := [], collected_irqs := 0 }).2.2 =
        376 - 100 := by
  have h := C20_event_conservation none 256 demo_drng 100
    [demo_cpu 70, demo_cpu 50, demo_cpu 300]
    { shash := { tfm := 0, ctx := [] }, digest := [], collected_irqs := 0 }
    (fun _ _ => rfl) (fun _ _ => hash_ok_demo_cb) rfl (by decide)
  have ha : avail_irqs none 256 demo_drng [demo_cpu 70, demo_cpu 50, demo_cpu 300] = 376 := by
    decide
  rw [ha] at h
  refine ⟨ha, h.2.1.trans (by decide), by decide, ?_⟩
  rw [h.2.2.1, h.2.1]
  decide

/-- C21, evaluated where it fails: a CPU that has not compressed its array before holds
eight counted time stamps and drains. `lrng_pcpu_array_compress` takes its set-up branch,
which calls the hash initialisation only; the hash update with the array sits in the
other branch. The array is then zeroed, `lrng_pool_add_irq` is signalled and the eight
events stay counted in `lrng_pcpu_array_irqs`, but the hash has received nothing. The
same drain on a CPU that is set up hashes the whole array. Run from the events: after the
first eight passing events of a CPU the hash is still empty, and after sixteen it holds
only the second eight time stamps although sixteen events are counted. -/
theorem C21_first_drain_is_not_hashed :
    lrng_pcpu_array_to_hash (demo_env false) 31 demo_first_drain_state =
      { cpu := demo_cpu 8, pool_add_irq := 1 } ∧
    lrng_pcpu_array_to_hash (demo_env false) 31
        { demo_first_drain_state with
          cpu := { demo_first_drain_state.cpu with lrng_pcpu_lock_init := true } } =
      { cpu := { demo_cpu 8 with
                 lrng_pcpu_pool := { tfm := 0, ctx := [5, 6, 7, 8, 9, 10, 11, 12] } },
        pool_add_irq := 1 } ∧
    (lrng_time_process_seq (demo_env false) (demo_pass_events 7)
        { cpu := demo_offline_cpu 0, pool_add_irq := 0 }).cpu.lrng_pcpu_array =
      [5, 6, 7, 8, 9, 10, 11, 0] ∧
    lrng_time_process_seq (demo_env false) (demo_pass_events 8)
        { cpu := demo_offline_cpu 0, pool_add_irq := 0 } =
      { cpu := { demo_cpu 8 with lrng_pcpu_array_ptr := 32 }, pool_add_irq := 1 } ∧
    lrng_time_process_seq (demo_env false) (demo_pass_events 16)
        { cpu := demo_offline_cpu 0, pool_add_irq := 0 } =
      { cpu := { demo_cpu 16 with
                 lrng_pcpu_array_ptr := 64,
                 lrng_pcpu_pool := { tfm := 0, ctx := [13, 14, 15, 16, 17, 18, 19, 20] } },
        pool_add_irq := 2 } := by
  refine ⟨?_, ?_, ?_, ?_, ?_⟩ <;> decide

/-- C22: in `lrng_pcpu_pool_hash` without a hash failure, for every list of CPUs, every
`requested_bits` (0 included) and either seeding state of the caller, every online
per-CPU pool is read once, in the order of the CPU enumeration: the read takes the digest
of its hash, sets the hash up again with that digest as first input and clears the event
counter. The combining hash, started on the image of the pool, receives exactly these
digests, one update each and in that order, before its own digest is written to the aux
pool. The online CPUs are left with the re-initialised hashes, whether or not their
events were needed; offline CPUs are left as they were. -/
theorem C22_every_online_pool_is_hashed (instances : Option (List (Option lrng_drng)))
    (drng : lrng_drng) (pool : lrng_pool) (cpus : List lrng_pcpu) (outbuf digest : List Nat)
    (requested_bits : Nat) (fully_seeded : Bool)
    (hok : hash_ok drng.crypto_cb)
    (hcpu : ∀ c ∈ cpus, hash_ok (pcpu_drng_of instances drng c.node).crypto_cb) :
    List.Forall₂
      (fun (c : lrng_pcpu) (r : Nat × lrng_pcpu × List Nat) =>
        ∃ d, r = lrng_pcpu_pool_hash_one instances pool.irq_info.irq_entropy_bits drng c d ∧
          r.2.2 = buf_write d
            ((pcpu_drng_of instances drng c.node).crypto_cb.lrng_hash_final
              c.lrng_pcpu_pool).2.2 ∧
          r.2.1.lrng_pcpu_pool =
            ((pcpu_drng_of instances drng c.node).crypto_cb.lrng_hash_update
              ((pcpu_drng_of instances drng c.node).crypto_cb.lrng_hash_init
                ((pcpu_drng_of instances drng c.node).crypto_cb.lrng_hash_final
                  c.lrng_pcpu_pool).2.1
                (pcpu_drng_of instances drng c.node).hash).2
              (r.2.2.take
                (u32 ((pcpu_drng_of instances drng c.node).crypto_cb.lrng_hash_digestsize
                  (pcpu_drng_of instances drng c.node).hash)))).2 ∧
          r.2.1.lrng_pcpu_array_irqs = 0)
      (cpus.filter lrng_pcpu_pool_online)
      (pcpu_reads instances pool.irq_info.irq_entropy_bits drng cpus digest) ∧
    (lrng_pcpu_pool_hash instances drng pool cpus outbuf digest requested_bits
        fully_seeded).pool.aux_pool =
      buf_write pool.aux_pool (drng.crypto_cb.lrng_hash_final
        (fold_digests drng.crypto_cb
          (drng.crypto_cb.lrng_hash_update
            (drng.crypto_cb.lrng_hash_init { tfm := 0, ctx := [] } drng.hash).2
            (lrng_pool_image pool)).2
          ((pcpu_reads instances pool.irq_info.irq_entropy_bits drng cpus digest).map
            (fun r => r.2.2)))).2.2 ∧
    ((lrng_pcpu_pool_hash instances drng pool cpus outbuf digest requested_bits
        fully_seeded).cpus.filter lrng_pcpu_pool_online).map (fun c => c.lrng_pcpu_pool) =
      (pcpu_reads instances pool.irq_info.irq_entropy_bits drng cpus digest).map
        (fun r => r.2.1.lrng_pcpu_pool) ∧
    (lrng_pcpu_pool_hash instances drng pool cpus outbuf digest requested_bits
        fully_seeded).cpus.filter (fun c => !lrng_pcpu_pool_online c) =
      cpus.filter (fun c => !lrng_pcpu_pool_online c) :=
  ⟨pcpu_reads_spec instances pool.irq_info.irq_entropy_bits drng cpus hcpu digest,
    pool_hash_combined instances drng pool cpus outbuf digest requested_bits fully_seeded hok⟩

/-- C22 at a concrete input: two online CPUs around an offline one and a request for 0
bits. Both online pools are read and fed to the combining hash in order. -/
theorem C22_every_online_pool_is_hashed_witness :
    hash_ok demo_drng.crypto_cb ∧
    (pcpu_reads none (demo_pool 0).irq_info.irq_entropy_bits demo_drng
        [{ demo_cpu 5 with lrng_pcpu_pool := { tfm := 0, ctx := [1] } }, demo_offline_cpu 3,
         { demo_cpu 7 with lrng_pcpu_pool := { tfm := 0, ctx := [2] } }]
        (List.replicate 32 0)).map
      (fun r => (r.2.2.take 2, r.2.1.lrng_pcpu_array_irqs)) = [([1, 1], 0), ([2, 2], 0)] ∧
    (lrng_pcpu_pool_hash none demo_drng (demo_pool 0)
        [{ demo_cpu 5 with lrng_pcpu_pool := { tfm := 0, ctx := [1] } }, demo_offline_cpu 3,
         { demo_cpu 7 with lrng_pcpu_pool := { tfm := 0, ctx := [2] } }] [] (List.replicate 32 0) 0
        false).pool.aux_pool =
      buf_write (demo_pool 0).aux_pool (demo_drng.crypto_cb.lrng_hash_final
        (fold_digests demo_drng.crypto_cb
          (demo_drng.crypto_cb.lrng_hash_update
            (demo_drng.crypto_cb.lrng_hash_init { tfm := 0, ctx := [] } demo_drng.hash).2
            (lrng_pool_image (demo_pool 0))).2
          ((pcpu_reads none (demo_pool 0).irq_info.irq_entropy_bits demo_drng
            [{ demo_cpu 5 with lrng_pcpu_pool := { tfm := 0, ctx := [1] } },
             demo_offline_cpu 3,
             { demo_cpu 7 with lrng_pcpu_pool := { tfm := 0, ctx := [2] } }]
        (List.replicate 32 0)).map
            (fun r => r.2.2)))).2.2 :=
  ⟨hash_ok_demo_cb, by decide,
    (C22_every_online_pool_is_hashed none demo_drng (demo_pool 0)
      [{ demo_cpu 5 with lrng_pcpu_pool := { tfm := 0, ctx := [1] } }, demo_offline_cpu 3,
       { demo_cpu 7 with lrng_pcpu_pool := { tfm := 0, ctx := [2] } }] [] (List.replicate 32 0) 0
      false hash_ok_demo_cb (fun _ _ => hash_ok_demo_cb)).2.1⟩

/-- C23, evaluated where it fails. The instance of node 1 has `requests = 1`, is not
flagged and not stale, the gate is free and one chunk of 32 bytes is requested; the
atomic instance is flagged. With a seed primitive that succeeds the request makes one
seed assembly and one seed call on the instance (followed by the seed of the atomic
instance) before its generate call. With a seed primitive that fails once, the request
makes two seed assemblies, takes the gate twice and calls the seed primitive on the
instance twice, the second time nested at depth 1: the failed seed leaves `requests` at
1 and the gate free, and the `lrng_drng_get` that `lrng_drng_seed` calls on the same
instance for the atomic instance reseeds again. With a seed primitive that always fails
the request does not return, whatever the fuel. -/
theorem C23_failed_seed_is_retried_in_the_same_call :
    (counter_exhausted 2 (demo_exhausted_state demo_cb) ∧
      counter_exhausted 2 (demo_exhausted_state demo_fail_once_cb) ∧
      counter_exhausted 2 (demo_exhausted_state demo_fail_cb)) ∧
    (lrng_drng_get 6 0 2 (demo_exhausted_state demo_cb) (some (List.replicate 32 0)) 32).map
      (fun r => (r.1, r.2.2.fills, gate_taken r.2.2.trace)) = some (32, 1, 1) ∧
    (lrng_drng_get 6 0 2 (demo_exhausted_state demo_cb) (some (List.replicate 32 0)) 32).map
      (fun r => (seed_calls r.2.2.trace, own_rets 0 2 r.2.2.trace)) =
      some ([(0, 2, 0), (0, 1, 0)], [32]) ∧
    (lrng_drng_get 6 0 2 (demo_exhausted_state demo_fail_once_cb)
        (some (List.replicate 32 0)) 32).map
      (fun r => (r.1, r.2.2.fills, gate_taken r.2.2.trace)) = some (32, 2, 2) ∧
    (lrng_drng_get 6 0 2 (demo_exhausted_state demo_fail_once_cb)
        (some (List.replicate 32 0)) 32).map
      (fun r => (seed_calls r.2.2.trace, own_rets 0 2 r.2.2.trace)) =
      some ([(0, 2, -1), (1, 2, 0), (1, 1, 0), (0, 1, 0)], [32]) ∧
    ∀ fuel, lrng_drng_get fuel 0 2 (demo_exhausted_state demo_fail_cb)
      (some (List.replicate 32 0)) 32 = none := by
  refine ⟨by unfold counter_exhausted; decide, ?_, ?_, ?_, ?_, fun fuel => ?_⟩
  · decide
  · decide
  · decide
  · decide
  exact get_never_returns fuel 0 2 (demo_exhausted_state demo_fail_cb) (List.replicate 32 0) 32
    ⟨by decide, by decide, fun _ _ => by show (-1 : Int) < 0; decide, by decide, rfl,
      by decide⟩
    (by decide) rfl rfl

/-- C24, counterexample: the scheduler runs while the initial instance, which serves
node 0, is fully seeded, the instance of node 1 (address 2, a generator of its own) is
not, and the atomic instance is flagged. It picks the instance of node 1, and the seed
primitive is called on two instances: on that instance and, by the side-effect reseed in
`lrng_drng_seed`, on the atomic instance, whose `force_reseed`, `last_seeded` and
`requests` are refreshed. -/
theorem C24_scheduler_also_reseeds_the_atomic_instance :
    lrng_drng_seed_work_find demo_sched_state [some 0, some 2] [0, 1] = some (2, 1) ∧
    ((deref demo_sched_state LRNG_DRNG_ATOMIC).force_reseed,
      (deref demo_sched_state LRNG_DRNG_ATOMIC).last_seeded) = (true, 0) ∧
    (lrng_drng_seed_work 3 demo_sched_state).map (fun t => seed_calls t.trace) =
      some [(0, 2, 0), (0, LRNG_DRNG_ATOMIC, 0)] ∧
    (lrng_drng_seed_work 3 demo_sched_state).map
      (fun t => ((deref t LRNG_DRNG_ATOMIC).force_reseed,
        (deref t LRNG_DRNG_ATOMIC).last_seeded, (deref t LRNG_DRNG_ATOMIC).requests)) =
      some (false, 1000, (LRNG_DRNG_RESEED_THRESH : Int)) ∧
    (lrng_drng_seed_work 3 demo_sched_state).map
      (fun t => ((deref t 2).fully_seeded, (deref t 2).last_seeded,
        t.lrng_drng_reseed_max_time)) = some (true, 1000 + 1 * 100 * 250, 700) := by
  refine ⟨?_, ?_, ?_, ?_, ?_⟩ <;> decide

/-- C24, amended: `lrng_drng_seed_work`. Every state is one in which the scheduler has
nothing to reseed or one in which it picks an instance: the initial instance when there
are no per-node instances and it is not fully seeded, otherwise the instance of the
first online node that has an instance which is not fully seeded.

With nothing to reseed it releases the gate and, with per-node instances, calls
`lrng_pool_all_numa_nodes_seeded`; no instance and no generator changes and no seed is
assembled.

With an instance picked it calls `lrng_drng_seed` on it, once, and releases the gate.
Whatever the primitives do, when the reseed returns and the instance is fully seeded
afterwards, `last_seeded` of the instance is moved forward by `node * 100 * HZ` jiffies
from where the reseed left it and `lrng_drng_reseed_max_time` grows by 100; when it is
not fully seeded both stay as the reseed left them.

With primitives that do not fail the scheduler returns after one seed assembly; the seed
primitive is called once on the picked instance and, when that instance has a generator
of its own and the atomic instance is due, once on the atomic instance; every other
instance is left as it was. The picked instance is fully seeded afterwards exactly when
the seed carried the security strength; then its `last_seeded` is the current time plus
`node * 100 * HZ` jiffies, otherwise the current time. -/
theorem C24_seed_work :
    (∀ s : lrng_state, seed_work_idle s ∨ ∃ q node, seed_work_pick s q node) ∧
    (∀ (fuel : Nat) (s : lrng_state), seed_work_idle s →
      ∃ r, lrng_drng_seed_work fuel s = some r ∧
        r = lrng_pool_unlock 0 (if s.lrng_drng_instances = none then s
          else log s 0 lrng_event.pool_all_numa_nodes_seeded) ∧
        r.drngs = s.drngs ∧ r.gens = s.gens ∧ r.fills = s.fills ∧
        r.lrng_drng_reseed_max_time = s.lrng_drng_reseed_max_time) ∧
    (∀ (fuel : Nat) (s : lrng_state) (q node : Nat) (t : lrng_state),
      seed_work_pick s q node → lrng_drng_seed fuel 0 q s = some t → q < t.drngs.length →
      ∃ r, lrng_drng_seed_work fuel s = some r ∧
        r.trace = t.trace ++ [(0, lrng_event.pool_unlock)] ∧ r.fills = t.fills ∧
        r.gens = t.gens ∧ r.reseed_in_progress = 0 ∧
        (∀ x, x ≠ q → deref r x = deref t x) ∧
        (deref r q).fully_seeded = (deref t q).fully_seeded ∧
        ((deref t q).fully_seeded = true →
          (deref r q).last_seeded = ulong_add (deref t q).last_seeded
            (((((node * 100 : Nat) : Int) * t.HZ) % 2 ^ 32 : Int)) ∧
          r.lrng_drng_reseed_max_time = int_wrap (t.lrng_drng_reseed_max_time + 100)) ∧
        ((deref t q).fully_seeded = false →
          deref r q = deref t q ∧
          r.lrng_drng_reseed_max_time = t.lrng_drng_reseed_max_time)) ∧
    (∀ (fuel : Nat) (s : lrng_state) (q node : Nat), 3 ≤ fuel → seed_work_pick s q node →
      q ≠ LRNG_DRNG_ATOMIC → get_ready q s → s.lrng_avail ≠ 0 →
      ∃ r ev, lrng_drng_seed_work fuel s = some r ∧ r.trace = s.trace ++ ev ∧
        seeded_instances ev = q ::
          (if (deref s q).drng ≠ (deref s LRNG_DRNG_ATOMIC).drng ∧
              lrng_drng_atomic_due s = true then [LRNG_DRNG_ATOMIC] else []) ∧
        r.fills = s.fills + 1 ∧
        (∀ x, x ≠ q → x ≠ LRNG_DRNG_ATOMIC → deref r x = deref s x) ∧
        ((deref r q).fully_seeded = true ↔
          lrng_security_strength s / 8 ≤ u32 (s.seed_source s.fills).1 / 8) ∧
        ((deref r q).fully_seeded = true →
          (deref r q).last_seeded = ulong_add s.jiffies
            (((((node * 100 : Nat) : Int) * s.HZ) % 2 ^ 32 : Int)) ∧
          r.lrng_drng_reseed_max_time = int_wrap (s.lrng_drng_reseed_max_time + 100)) ∧
        ((deref r q).fully_seeded = false →
          (deref r q).last_seeded = s.jiffies ∧
          r.lrng_drng_reseed_max_time = s.lrng_drng_reseed_max_time)) := by
  refine ⟨seed_work_cases, ?_, seed_work_stagger, seed_work_reseeds⟩
  intro fuel s h
  refine ⟨_, seed_work_of_idle fuel s h, rfl, ?_⟩
  split_ifs <;> exact ⟨rfl, rfl, rfl, rfl⟩

/-- C24, witness: the scheduler with nothing to reseed (`demo_sched_idle_state`) and with
the instance of node 1 to reseed (`demo_sched_state`). -/
theorem C24_seed_work_witness :
    seed_work_idle demo_sched_idle_state ∧
    seed_work_pick demo_sched_state 2 1 ∧
    get_ready 2 demo_sched_state ∧
    lrng_drng_seed_work 3 demo_sched_idle_state =
      some (lrng_pool_unlock 0
        (log demo_sched_idle_state 0 lrng_event.pool_all_numa_nodes_seeded)) ∧
    (∃ t r, lrng_drng_seed 3 0 2 demo_sched_state = some t ∧
      lrng_drng_seed_work 3 demo_sched_state = some r ∧
      r.trace = t.trace ++ [(0, lrng_event.pool_unlock)] ∧
      (deref r 2).fully_seeded = (deref t 2).fully_seeded) ∧
    (∃ r ev, lrng_drng_seed_work 3 demo_sched_state = some r ∧
      r.trace = demo_sched_state.trace ++ ev ∧
      seeded_instances ev = [2, LRNG_DRNG_ATOMIC] ∧
      r.fills = 1 ∧ deref r 0 = deref demo_sched_state 0 ∧
      (deref r 2).fully_seeded = true ∧
      (deref r 2).last_seeded = 26000 ∧ r.lrng_drng_reseed_max_time = 700) := by
  have hidle : seed_work_idle demo_sched_idle_state := by
    refine Or.inr ⟨[some 0, some 2], rfl, ?_⟩
    intro m hm x hx
    have hm2 : m = 0 ∨ m = 1 := by simpa [demo_sched_idle_state, demo_sched_state,
      demo_numa_state] using hm
    rcases hm2 with rfl | rfl
    · rw [← Option.some.inj hx]
      rfl
    · rw [← Option.some.inj hx]
      rfl
  have hpick : seed_work_pick demo_sched_state 2 1 := by
    refine Or.inr ⟨[some 0, some 2], [0], [], rfl, rfl, rfl, rfl, ?_⟩
    intro m hm x hx
    rw [List.mem_singleton.mp hm] at hx
    rw [← Option.some.inj hx]
    rfl
  have hready : get_ready 2 demo_sched_state :=
    ⟨by decide, fun _ _ => rfl, fun _ _ => le_refl _, by decide, by decide⟩
  obtain ⟨r1, h1, h2, -⟩ := C24_seed_work.2.1 3 demo_sched_idle_state hidle
  obtain ⟨t, ht, hl, -⟩ := seed_outcome 3 0 2 demo_sched_state (le_refl _) (by decide) hready
    (by decide)
  obtain ⟨r2, h3, h4, -, -, -, -, h5, -⟩ :=
    C24_seed_work.2.2.1 3 demo_sched_state 2 1 t hpick ht hl
  obtain ⟨r3, ev, k1, k2, k3, k4, k5, k6, k7, -⟩ :=
    C24_seed_work.2.2.2 3 demo_sched_state 2 1 (le_refl _) hpick (by decide) hready (by decide)
  have hfs : (deref r3 2).fully_seeded = true := k6.mpr (by decide)
  refine ⟨hidle, hpick, hready, ?_, ⟨t, r2, ht, h3, h4, h5⟩,
    ⟨r3, ev, k1, k2, ?_, k4, k5 0 (by decide) (by decide), hfs, ?_, ?_⟩⟩
  · rw [h1, h2]
    rfl
  · rw [k3]
    rfl
  · rw [(k7 hfs).1]
    decide
  · rw [(k7 hfs).2]
    decide

end LRNG
